import Mathlib

/-!
# HiSTB clock and pin-control drivers: a shallow embedding

The definitions below transcribe, function by function, the C sources

* `drivers/clk/hisilicon/clk-pll.c` (the PLL rate engine),
* `drivers/pinctrl/hisilicon/pinctrl-histb.{h,c}` (the pin-mux / pin-conf engine),
* `drivers/pinctrl/hisilicon/pinctrl-hi3798mv2x.c` (the Hi3798MV2x pin map).

Machine integers are natural numbers reduced modulo `2 ^ w` at every place where the C
code stores into a `w`-bit object.  The SoC is a 64-bit (arm64) part, so `unsigned long`
is 64 bits wide.  Memory-mapped registers are a map from byte offsets to 32-bit words.
Operations whose C behaviour is undefined (division by zero, reading past a table,
dereferencing a missing descriptor) yield an explicit `Fault`; a function that changes
state returns the fault together with the state reached when it occurred.
-/

namespace HiSTB

/-! ## Machine model -/

/-- Ways in which an operation can leave defined C behaviour. -/
inductive Fault where
  | div_by_zero
  | out_of_bounds
  | null_deref
  deriving DecidableEq, Repr

/-- Width of `unsigned long` on the target (arm64). -/
def BITS_PER_LONG : Nat := 64

/-- Conversion to `u8`. -/
def u8 (x : Nat) : Nat := x % 2 ^ 8

/-- Conversion to `u32` / `unsigned int`. -/
def u32 (x : Nat) : Nat := x % 2 ^ 32

/-- Conversion to `u64`. -/
def u64 (x : Nat) : Nat := x % 2 ^ 64

/-- Conversion to `unsigned long` (`ulong`). -/
def ulong (x : Nat) : Nat := x % 2 ^ BITS_PER_LONG

/-- Bitwise complement of an `unsigned long` value (`~x`). -/
def ulong_not (x : Nat) : Nat := (2 ^ BITS_PER_LONG - 1) ^^^ ulong x

/-- Errno values used by the drivers (`include/uapi/asm-generic/errno-base.h`,
`include/linux/errno.h`). -/
def ENOENT : Int := 2

/-- Errno `EINVAL`. -/
def EINVAL : Int := 22

/-- Errno `ENOTSUPP`. -/
def ENOTSUPP : Int := 524

/-- The register file of one controller: byte offset to 32-bit word. -/
abbrev Regs := Nat → Nat

/-- Modelled from the spec: the register-IO primitive `readl` (`asm/io.h`) is not under
`src/`; §4.1 makes it a 32-bit load from a device mapping. -/
def readl (io : Regs) (addr : Nat) : Nat := u32 (io addr)

/-- Modelled from the spec: the register-IO primitive `writel` (`asm/io.h`) is not under
`src/`; §4.1 makes it a 32-bit store that a following load of the same location observes. -/
def writel (val : Nat) (addr : Nat) (io : Regs) : Regs :=
  fun a => if a = addr then u32 val else io a

/-- Modelled from the spec: the macro `BIT` (`linux/bits.h`) is not under `src/`;
`BIT(n)` is the word with only bit `n` set. -/
def BIT (n : Nat) : Nat := ulong (1 <<< n)

/-- Modelled from the spec: the macro `GENMASK` (`linux/bits.h`) is not under `src/`;
`GENMASK(h, l)` is the word with exactly bits `h` down to `l` set, computed as the kernel
does: `(~0UL << l) & (~0UL >> (BITS_PER_LONG - 1 - h))`. -/
def GENMASK (h l : Nat) : Nat :=
  ulong (ulong_not 0 <<< l) &&& (ulong_not 0 >>> (BITS_PER_LONG - 1 - h))

/-- Index of the lowest set bit among the first `fuel` positions starting at `i`. -/
def lowest_set_bit (mask : Nat) : Nat → Nat → Nat
  | 0, i => i
  | fuel + 1, i => if mask.testBit i then i else lowest_set_bit mask fuel (i + 1)

/-- Modelled from the spec: the helper `__bf_shf` (`linux/bitfield.h`) is not under
`src/`; it is the position of the lowest set bit of a field mask (`ffs(mask) - 1`). -/
def __bf_shf (mask : Nat) : Nat := lowest_set_bit mask 64 0

/-- Modelled from the spec: the macro `FIELD_GET` (`linux/bitfield.h`) is not under
`src/`; it extracts the field selected by `mask`: `(reg & mask) >> __bf_shf(mask)`. -/
def FIELD_GET (mask reg : Nat) : Nat := (reg &&& mask) >>> __bf_shf mask

/-- Modelled from the spec: the macro `FIELD_PREP` (`linux/bitfield.h`) is not under
`src/`; it moves a value into the field selected by `mask`:
`((typeof(mask))val << __bf_shf(mask)) & mask`. -/
def FIELD_PREP (mask val : Nat) : Nat := ulong (ulong val <<< __bf_shf mask) &&& mask

/-- Modelled from the spec: the macro `do_div` (`asm-generic/div64.h`) is not under
`src/`.  The spec only says that division is integer truncation; the macro divides a
64-bit dividend by its divisor converted to `uint32_t`, stores the quotient back and
yields the remainder.  The result here is `(quotient, remainder)`; a zero divisor is
undefined. -/
def do_div (n base : Nat) : Except Fault (Nat × Nat) :=
  if u32 base = 0 then .error .div_by_zero
  else .ok (u64 n / u32 base, u64 n % u32 base)

/-- Modelled from the spec: the macro `clamp` (`linux/minmax.h`) is not under `src/`;
`clamp(val, lo, hi)` is `val >= hi ? hi : (val <= lo ? lo : val)`. -/
def clamp (val lo hi : Nat) : Nat :=
  if val ≥ hi then hi else if val ≤ lo then lo else val

/-- Modelled from the spec: the macro `rounddown` (`linux/math.h`) is not under `src/`;
`rounddown(x, y)` is `x - (x % y)`, undefined for `y = 0`. -/
def rounddown (x y : Nat) : Except Fault Nat :=
  if y = 0 then .error .div_by_zero else .ok (x - x % y)

/-! ## `clk-pll.c`: the PLL rate engine -/

/-- Macro `HISI_PLL_CFG(n)`: byte offset of configuration word `n`. -/
def HISI_PLL_CFG (n : Nat) : Nat := n * 4

/-- Constant `HISI_PLL_FRAC`, word 0. -/
def HISI_PLL_FRAC : Nat := GENMASK 23 0

/-- Constant `HISI_PLL_POSTDIV1`, word 0. -/
def HISI_PLL_POSTDIV1 : Nat := GENMASK 26 24

/-- Constant `HISI_PLL_POSTDIV2`, word 0. -/
def HISI_PLL_POSTDIV2 : Nat := GENMASK 30 28

/-- Constant `HISI_PLL_FBDIV`, word 1. -/
def HISI_PLL_FBDIV : Nat := GENMASK 11 0

/-- Constant `HISI_PLL_REFDIV`, word 1. -/
def HISI_PLL_REFDIV : Nat := GENMASK 17 12

/-- Constant `HISI_PLL_PD`, word 1. -/
def HISI_PLL_PD : Nat := BIT 20

/-- Constant `HISI_PLL_FOUTVCOPD`, word 1. -/
def HISI_PLL_FOUTVCOPD : Nat := BIT 21

/-- Constant `HISI_PLL_FOUT4PHASEPD`, word 1. -/
def HISI_PLL_FOUT4PHASEPD : Nat := BIT 22

/-- Constant `HISI_PLL_FOUTPOSTDIVPD`, word 1. -/
def HISI_PLL_FOUTPOSTDIVPD : Nat := BIT 23

/-- Constant `HISI_PLL_DACPD`, word 1. -/
def HISI_PLL_DACPD : Nat := BIT 24

/-- Constant `HISI_PLL_DSMPD`, word 1. -/
def HISI_PLL_DSMPD : Nat := BIT 25

/-- Constant `HISI_PLL_BYPASS`, word 1. -/
def HISI_PLL_BYPASS : Nat := BIT 26

/-- Constant `HISI_PLL_FOUTVCO_MAX_RATE` (8 GHz). -/
def HISI_PLL_FOUTVCO_MAX_RATE : Nat := 8000000000

/-- Constant `HISI_PLL_FOUTVCO_MIN_RATE` (800 MHz). -/
def HISI_PLL_FOUTVCO_MIN_RATE : Nat := 800000000

/-- Structure `struct hisi_pll`: `base` is the byte offset of configuration word 0 in the
register file of the controller; `postdiv1`, `postdiv2`, `refdiv` are `u8`, `divisor` is `u32`. -/
structure hisi_pll where
  base : Nat
  postdiv1 : Nat
  postdiv2 : Nat
  refdiv : Nat
  divisor : Nat
  deriving DecidableEq, Repr

/-- The fields of a `struct hisi_pll` lie in the range of their C types. -/
def hisi_pll.wf (pll : hisi_pll) : Prop :=
  pll.postdiv1 < 2 ^ 8 ∧ pll.postdiv2 < 2 ^ 8 ∧ pll.refdiv < 2 ^ 8 ∧ pll.divisor < 2 ^ 32

/-- The part of `struct clk_rate_request` that the PLL uses. -/
structure clk_rate_request where
  rate : Nat
  best_parent_rate : Nat
  deriving DecidableEq, Repr

/-- Function `hisi_pll_prepare`: returns the C return value, the register file and the updated
`struct hisi_pll`. -/
def hisi_pll_prepare (io : Regs) (pll : hisi_pll) : Int × Regs × hisi_pll :=
  let reg := readl io (pll.base + HISI_PLL_CFG 0)
  let postdiv1 := u8 (FIELD_GET HISI_PLL_POSTDIV1 reg)
  let postdiv2 := u8 (FIELD_GET HISI_PLL_POSTDIV2 reg)
  let reg := u32 (reg &&& ulong_not HISI_PLL_FRAC)
  let io := writel reg (pll.base + HISI_PLL_CFG 0) io
  let reg := readl io (pll.base + HISI_PLL_CFG 1)
  let refdiv := u8 (FIELD_GET HISI_PLL_REFDIV reg)
  let divisor := u32 (refdiv * postdiv1 * postdiv2)
  let pll := { pll with postdiv1 := postdiv1, postdiv2 := postdiv2, refdiv := refdiv,
                        divisor := divisor }
  if divisor = 0 then (-EINVAL, io, pll) else (0, io, pll)

/-- Function `hisi_pll_set_rate`: returns the C return value (or the fault), together with
the register file and the `struct hisi_pll` reached. -/
def hisi_pll_set_rate (io : Regs) (pll : hisi_pll) (rate parent_rate : Nat) :
    Except Fault Int × Regs × hisi_pll :=
  let fbdiv := u64 (ulong (ulong rate * pll.divisor))
  match do_div fbdiv (ulong parent_rate) with
  | .error e => (.error e, io, pll)
  | .ok (fbdiv, _) =>
    let reg := readl io (pll.base + HISI_PLL_CFG 1)
    let reg := u32 (reg &&& ulong_not HISI_PLL_FBDIV)
    let reg := u32 (reg ||| FIELD_PREP HISI_PLL_FBDIV fbdiv)
    let io := writel reg (pll.base + HISI_PLL_CFG 1) io
    (.ok 0, io, pll)

/-- Function `hisi_pll_determine_rate`: returns the C return value (or the fault), together
with the request, whose `rate` is the answer when the call returns 0. -/
def hisi_pll_determine_rate (pll : hisi_pll) (req : clk_rate_request) :
    Except Fault Int × clk_rate_request :=
  let ref_rate := u64 (ulong req.best_parent_rate)
  if ref_rate = 0 then
    (.ok (-EINVAL), req)
  else
    match do_div ref_rate pll.refdiv with
    | .error e => (.error e, req)
    | .ok (ref_rate, _) =>
      let vco := u64 (clamp (ulong (ulong req.rate * (pll.postdiv1 * pll.postdiv2)))
        HISI_PLL_FOUTVCO_MIN_RATE HISI_PLL_FOUTVCO_MAX_RATE)
      match rounddown vco ref_rate with
      | .error e => (.error e, req)
      | .ok vco =>
        let vco := if vco < HISI_PLL_FOUTVCO_MIN_RATE then u64 (vco + ref_rate) else vco
        match do_div vco (pll.postdiv1 * pll.postdiv2) with
        | .error e => (.error e, req)
        | .ok (vco, _) => (.ok 0, { req with rate := ulong vco })

/-- The value that `vco` holds in `hisi_pll_determine_rate` just before the final
`do_div`, as a function of the requested rate and the parent rate, with the reference rate
written as a plain quotient. -/
def determine_vco (pll : hisi_pll) (rate parent_rate : Nat) : Nat :=
  let ref_rate := parent_rate / pll.refdiv
  let vco := clamp (ulong (ulong rate * (pll.postdiv1 * pll.postdiv2)))
    HISI_PLL_FOUTVCO_MIN_RATE HISI_PLL_FOUTVCO_MAX_RATE
  let vco := vco - vco % ref_rate
  if vco < HISI_PLL_FOUTVCO_MIN_RATE then vco + ref_rate else vco

/-- Function `hisi_pll_recalc_rate`. -/
def hisi_pll_recalc_rate (io : Regs) (pll : hisi_pll) (parent_rate : Nat) :
    Except Fault Nat := do
  let reg := readl io (pll.base + HISI_PLL_CFG 1)
  let fbdiv := u32 (FIELD_GET HISI_PLL_FBDIV reg)
  let parent_rate := ulong (ulong parent_rate * fbdiv)
  let (parent_rate, _) ← do_div parent_rate pll.divisor
  return ulong parent_rate

/-! ## `pinctrl-histb.h`: register bits, pin flags and descriptors -/

/-- Constant `HISTB_PIN_SCHMITT`. -/
def HISTB_PIN_SCHMITT : Nat := BIT 14

/-- Constant `HISTB_PIN_PULLDOWN`. -/
def HISTB_PIN_PULLDOWN : Nat := BIT 13

/-- Constant `HISTB_PIN_PULLUP`. -/
def HISTB_PIN_PULLUP : Nat := BIT 12

/-- Constant `HISTB_PIN_SLEWRATE`. -/
def HISTB_PIN_SLEWRATE : Nat := BIT 8

/-- Constant `HISTB_PIN_DRV_MASK`. -/
def HISTB_PIN_DRV_MASK : Nat := GENMASK 7 4

/-- Constant `HISTB_PIN_FUNC_MASK`. -/
def HISTB_PIN_FUNC_MASK : Nat := GENMASK 2 0

/-- Constant `HISTB_PIN_FLAG_NOPU`: this pin does not support "bias-pullup". -/
def HISTB_PIN_FLAG_NOPU : Nat := BIT 0

/-- Constant `HISTB_PIN_FLAG_NOPD`: this pin does not support "bias-pulldown". -/
def HISTB_PIN_FLAG_NOPD : Nat := BIT 1

/-- Constant `HISTB_PIN_FLAG_NOSR`: this pin does not support "slew-rate". -/
def HISTB_PIN_FLAG_NOSR : Nat := BIT 2

/-- Constant `HISTB_PIN_FLAG_SCHMITT`: this pin supports setting input schmitt. -/
def HISTB_PIN_FLAG_SCHMITT : Nat := BIT 3

/-- Constant `HISTB_PIN_FUNCTION_GPIO`: function 0 is reserved for GPIO. -/
def HISTB_PIN_FUNCTION_GPIO : Nat := 0

/-- Constant `HISTB_PIN_FUNCTION_EOF`: the end marker of a function table. -/
def HISTB_PIN_FUNCTION_EOF : Nat := 0xFFFFFFFF

/-- Structure `struct histb_pin_mux_desc`: `func` is the enumeration for the function, `bits` the
bit pattern for this function. -/
structure histb_pin_mux_desc where
  func : Nat
  bits : Nat
  deriving DecidableEq, Repr

/-- Structure `struct histb_pin_data`: `drv_tbl` is the drive strength table, ending with 0 (`none`
is the `NULL` table); `func_tbl` is the pinmux table, ending with the
`HISTB_PIN_FUNCTION_EOF` entry; `flags` holds the `HISTB_PIN_FLAG_*` bits. -/
structure histb_pin_data where
  drv_tbl : Option (List Nat)
  func_tbl : List histb_pin_mux_desc
  flags : Nat
  deriving DecidableEq, Repr

/-- Structure `struct pinctrl_pin_desc` (`linux/pinctrl/pinctrl.h`), with the fields that
`HISTB_PIN` initialises. -/
structure pinctrl_pin_desc where
  number : Nat
  name : String
  drv_data : histb_pin_data
  deriving DecidableEq, Repr

/-- Macro `HISTB_PIN()`: the helper for initializing a pin descriptor. -/
def HISTB_PIN (index : Nat) (name : String) (drv_tbl : Option (List Nat))
    (func_tbl : List histb_pin_mux_desc) (flag : Nat) : pinctrl_pin_desc :=
  { number := index, name := name,
    drv_data := { drv_tbl := drv_tbl, func_tbl := func_tbl, flags := flag } }

/-- The parts of `struct pinctrl_dev` that the engine reads: the registered pin
descriptors (`desc->pins`) and the driver data, which is the base of the pin register
window. -/
structure pinctrl_dev where
  pins : List pinctrl_pin_desc
  drvdata : Nat
  deriving DecidableEq, Repr

/-- Modelled from the spec: `pin_desc_get` (pinctrl core, `drivers/pinctrl/core.h`) is not
under `src/`; it yields the registered descriptor whose numeric id is `pin`, or `NULL`. -/
def pin_desc_get (pctldev : pinctrl_dev) (pin : Nat) : Option pinctrl_pin_desc :=
  pctldev.pins.find? (fun d => d.number = pin)

/-- The address computation `(u32 *)pinctrl_dev_get_drvdata(pctldev) + selector`: one
32-bit word per pin. -/
def pin_reg (pctldev : pinctrl_dev) (selector : Nat) : Nat :=
  pctldev.drvdata + 4 * selector

/-! ## `pinctrl-histb.c`: the pin-mux engine -/

/-- The `while (mux->func != HISTB_PIN_FUNCTION_EOF)` loop of `histb_pinctrl_pinmux_set`,
with `mux` walking the function table; yields `found` and the register file.  Walking off
a table that has no end marker is an out-of-bounds read. -/
def histb_pinctrl_pinmux_set_loop (io : Regs) (pin_reg : Nat) (func_selector : Nat) :
    List histb_pin_mux_desc → Except Fault Bool × Regs
  | [] => (.error .out_of_bounds, io)
  | mux :: rest =>
    if mux.func ≠ HISTB_PIN_FUNCTION_EOF then
      if mux.func = func_selector then
        let reg := readl io pin_reg
        let reg := u32 (reg &&& ulong_not HISTB_PIN_FUNC_MASK)
        let reg := u32 (reg ||| mux.bits)
        (.ok true, writel reg pin_reg io)
      else
        histb_pinctrl_pinmux_set_loop io pin_reg func_selector rest
    else
      (.ok false, io)

/-- Function `histb_pinctrl_pinmux_set`: returns the C return value (or the fault), together
with the register file reached. -/
def histb_pinctrl_pinmux_set (pctldev : pinctrl_dev) (io : Regs)
    (func_selector group_selector : Nat) : Except Fault Int × Regs :=
  match pin_desc_get pctldev group_selector with
  | none => (.error .null_deref, io)
  | some pin =>
    let data := pin.drv_data
    let mux := data.func_tbl
    match histb_pinctrl_pinmux_set_loop io (pin_reg pctldev group_selector)
        (u32 func_selector) mux with
    | (.error e, io) => (.error e, io)
    | (.ok found, io) => if !found then (.ok (-ENOENT), io) else (.ok 0, io)

/-- Function `histb_pinctrl_gpio_request`. -/
def histb_pinctrl_gpio_request (pctldev : pinctrl_dev) (io : Regs) (pin : Nat) :
    Except Fault Int × Regs :=
  histb_pinctrl_pinmux_set pctldev io HISTB_PIN_FUNCTION_GPIO pin

/-! ## `pinctrl-histb.c`: the pin-conf engine -/

/-- Conversion of an `int` to `unsigned long`. -/
def ulong_of_int (i : Int) : Nat := (i % 2 ^ BITS_PER_LONG).toNat

/-- Conversion of an integer value to `bool`, read back as 0 or 1. -/
def to_bool (x : Nat) : Bool := x != 0

/-- Enumeration `enum histb_pinctrl_bias_status`. -/
inductive histb_pinctrl_bias_status where
  | BIAS_DISABLE
  | BIAS_PULL_DOWN
  | BIAS_PULL_UP
  | BIAS_INVALID
  deriving DecidableEq, Repr

/-- The integer values of `enum histb_pinctrl_bias_status`: `BIAS_DISABLE = 0`,
`BIAS_PULL_DOWN = BIT(0)`, `BIAS_PULL_UP = BIT(1)`, `BIAS_INVALID = BIT(0) | BIT(1)`. -/
def histb_pinctrl_bias_status.val : histb_pinctrl_bias_status → Nat
  | .BIAS_DISABLE => 0
  | .BIAS_PULL_DOWN => BIT 0
  | .BIAS_PULL_UP => BIT 1
  | .BIAS_INVALID => BIT 0 ||| BIT 1

/-- Modelled from the spec: `enum pin_config_param` (`linux/pinctrl/pinconf-generic.h`) is
not under `src/`; the six generic parameters that the engine handles, and every other
parameter under its numeric code. -/
inductive pin_config_param where
  | PIN_CONFIG_BIAS_DISABLE
  | PIN_CONFIG_BIAS_PULL_UP
  | PIN_CONFIG_BIAS_PULL_DOWN
  | PIN_CONFIG_SLEW_RATE
  | PIN_CONFIG_INPUT_SCHMITT_ENABLE
  | PIN_CONFIG_DRIVE_STRENGTH
  | other (code : Nat)
  deriving DecidableEq, Repr

/-- Modelled from the spec: the packed `unsigned long` configuration value of the generic
pin-config interface (`linux/pinctrl/pinconf-generic.h`) is not under `src/`; it carries a
parameter and its argument. -/
structure pin_config where
  param : pin_config_param
  argument : Nat
  deriving DecidableEq, Repr

/-- Modelled from the spec: `pinconf_to_config_param` is not under `src/`; the parameter
of a packed configuration. -/
def pinconf_to_config_param (config : pin_config) : pin_config_param := config.param

/-- Modelled from the spec: `pinconf_to_config_argument` is not under `src/`; the argument
of a packed configuration. -/
def pinconf_to_config_argument (config : pin_config) : Nat := config.argument

/-- Modelled from the spec: `pinconf_to_config_packed` is not under `src/`; packs a
parameter and its argument. -/
def pinconf_to_config_packed (param : pin_config_param) (argument : Nat) : pin_config :=
  { param := param, argument := argument }

/-- Function `histb_pinctrl_set_bias`: returns the C return value (or the fault), together
with the register file reached. -/
def histb_pinctrl_set_bias (pctldev : pinctrl_dev) (io : Regs) (selector : Nat)
    (status : histb_pinctrl_bias_status) : Except Fault Int × Regs :=
  match pin_desc_get pctldev selector with
  | none => (.error .null_deref, io)
  | some pin =>
    let priv := pin.drv_data
    let not_supported : Bool :=
      match status with
      | .BIAS_DISABLE => false
      | .BIAS_PULL_DOWN => to_bool (priv.flags &&& HISTB_PIN_FLAG_NOPD)
      | .BIAS_PULL_UP => to_bool (priv.flags &&& HISTB_PIN_FLAG_NOPU)
      | .BIAS_INVALID => true
    if not_supported then
      (.ok (-ENOTSUPP), io)
    else
      let reg := readl io (pin_reg pctldev selector)
      let reg := u32 (reg &&& ulong_not (HISTB_PIN_PULLDOWN ||| HISTB_PIN_PULLUP))
      let reg :=
        match status with
        | .BIAS_DISABLE => reg
        | .BIAS_PULL_DOWN => u32 (reg ||| HISTB_PIN_PULLDOWN)
        | .BIAS_PULL_UP => u32 (reg ||| HISTB_PIN_PULLUP)
        | .BIAS_INVALID => reg
      (.ok 0, writel reg (pin_reg pctldev selector) io)

/-- Function `histb_pinctrl_get_bias_status`: the integer value of the status read back. -/
def histb_pinctrl_get_bias_status (pctldev : pinctrl_dev) (io : Regs) (selector : Nat) :
    Nat :=
  let reg := readl io (pin_reg pctldev selector)
  let ret := histb_pinctrl_bias_status.BIAS_DISABLE.val
  let ret :=
    if to_bool (reg &&& HISTB_PIN_PULLDOWN) then
      histb_pinctrl_bias_status.BIAS_PULL_DOWN.val
    else ret
  let ret :=
    if to_bool (reg &&& HISTB_PIN_PULLUP) then
      ret ||| histb_pinctrl_bias_status.BIAS_PULL_UP.val
    else ret
  ret

/-- Function `histb_pinctrl_set_slew_rate`. -/
def histb_pinctrl_set_slew_rate (pctldev : pinctrl_dev) (io : Regs) (selector : Nat)
    (argument : Nat) : Except Fault Int × Regs :=
  match pin_desc_get pctldev selector with
  | none => (.error .null_deref, io)
  | some pin =>
    let priv := pin.drv_data
    if to_bool (priv.flags &&& HISTB_PIN_FLAG_NOSR) || decide (ulong argument > 1) then
      (.ok (-ENOTSUPP), io)
    else
      let reg := readl io (pin_reg pctldev selector)
      let reg :=
        if to_bool (ulong argument) then u32 (reg ||| HISTB_PIN_SLEWRATE)
        else u32 (reg &&& ulong_not HISTB_PIN_SLEWRATE)
      (.ok 0, writel reg (pin_reg pctldev selector) io)

/-- Function `histb_pinctrl_get_slew_rate`. -/
def histb_pinctrl_get_slew_rate (pctldev : pinctrl_dev) (io : Regs) (selector : Nat) :
    Bool :=
  to_bool (readl io (pin_reg pctldev selector) &&& HISTB_PIN_SLEWRATE)

/-- Function `histb_pinctrl_endisable_schmitt`. -/
def histb_pinctrl_endisable_schmitt (pctldev : pinctrl_dev) (io : Regs) (selector : Nat)
    (enable : Bool) : Except Fault Int × Regs :=
  match pin_desc_get pctldev selector with
  | none => (.error .null_deref, io)
  | some pin =>
    let priv := pin.drv_data
    if to_bool (priv.flags &&& HISTB_PIN_FLAG_SCHMITT) then
      (.ok (-ENOTSUPP), io)
    else
      let reg := readl io (pin_reg pctldev selector)
      let reg :=
        if enable then u32 (reg ||| HISTB_PIN_SCHMITT)
        else u32 (reg &&& ulong_not HISTB_PIN_SCHMITT)
      (.ok 0, writel reg (pin_reg pctldev selector) io)

/-- Function `histb_pinctrl_get_schmitt`. -/
def histb_pinctrl_get_schmitt (pctldev : pinctrl_dev) (io : Regs) (selector : Nat) : Bool :=
  to_bool (readl io (pin_reg pctldev selector) &&& HISTB_PIN_SCHMITT)

/-- The loop `while (priv->drv_tbl[++i] > argument);` of
`histb_pinctrl_set_drive_strength`, entered with the rest of the table from index `i` on;
yields the index at which it stops and the entry there.  Walking off a table that has no
entry at or below the argument is an out-of-bounds read. -/
def histb_pinctrl_set_drive_strength_loop (argument : Nat) :
    List Nat → Nat → Except Fault (Nat × Nat)
  | [], _ => .error .out_of_bounds
  | t :: rest, i =>
    if t > argument then histb_pinctrl_set_drive_strength_loop argument rest (i + 1)
    else .ok (i, t)

/-- Function `histb_pinctrl_set_drive_strength`. -/
def histb_pinctrl_set_drive_strength (pctldev : pinctrl_dev) (io : Regs) (selector : Nat)
    (argument : Nat) : Except Fault Int × Regs :=
  match pin_desc_get pctldev selector with
  | none => (.error .null_deref, io)
  | some pin =>
    let priv := pin.drv_data
    match priv.drv_tbl with
    | none => (.ok (-ENOTSUPP), io)
    | some drv_tbl =>
      if u32 argument = 0 then
        (.ok (-ENOTSUPP), io)
      else
        match histb_pinctrl_set_drive_strength_loop (u32 argument) drv_tbl 0 with
        | .error e => (.error e, io)
        | .ok (i, t) =>
          let i : Int := if t = 0 then (i : Int) - 1 else (i : Int)
          let reg := readl io (pin_reg pctldev selector)
          let reg := u32 (reg &&& ulong_not HISTB_PIN_DRV_MASK)
          let reg := u32 (reg ||| FIELD_PREP HISTB_PIN_DRV_MASK (ulong_of_int i))
          (.ok 0, writel reg (pin_reg pctldev selector) io)

/-- Function `histb_pinctrl_get_drive_strength`.  Indexing past the end of the table is an
out-of-bounds read. -/
def histb_pinctrl_get_drive_strength (pctldev : pinctrl_dev) (io : Regs) (selector : Nat) :
    Except Fault Nat :=
  match pin_desc_get pctldev selector with
  | none => .error .null_deref
  | some pin =>
    let priv := pin.drv_data
    match priv.drv_tbl with
    | none => .ok 0
    | some drv_tbl =>
      match drv_tbl.get? (FIELD_GET HISTB_PIN_DRV_MASK (readl io (pin_reg pctldev selector))) with
      | none => .error .out_of_bounds
      | some t => .ok t

/-- Function `histb_pinctrl_pinconf_get`: returns the C return value (or the fault), the
configuration value behind `config` and the register file. -/
def histb_pinctrl_pinconf_get (pctldev : pinctrl_dev) (io : Regs) (pin : Nat)
    (config : pin_config) : Except Fault Int × pin_config × Regs :=
  let param := pinconf_to_config_param config
  match param with
  | .PIN_CONFIG_BIAS_DISABLE =>
    let bias := histb_pinctrl_get_bias_status pctldev io pin
    let argument : Nat :=
      if bias = histb_pinctrl_bias_status.BIAS_DISABLE.val then 1 else 0
    (.ok 0, pinconf_to_config_packed param argument, io)
  | .PIN_CONFIG_BIAS_PULL_UP =>
    let bias := histb_pinctrl_get_bias_status pctldev io pin
    let argument : Nat :=
      if to_bool (bias &&& histb_pinctrl_bias_status.BIAS_PULL_UP.val) then 1 else 0
    (.ok 0, pinconf_to_config_packed param argument, io)
  | .PIN_CONFIG_BIAS_PULL_DOWN =>
    let bias := histb_pinctrl_get_bias_status pctldev io pin
    let argument : Nat :=
      if to_bool (bias &&& histb_pinctrl_bias_status.BIAS_PULL_DOWN.val) then 1 else 0
    (.ok 0, pinconf_to_config_packed param argument, io)
  | .PIN_CONFIG_SLEW_RATE =>
    let argument : Nat := if histb_pinctrl_get_slew_rate pctldev io pin then 1 else 0
    (.ok 0, pinconf_to_config_packed param argument, io)
  | .PIN_CONFIG_INPUT_SCHMITT_ENABLE =>
    let argument : Nat := if histb_pinctrl_get_schmitt pctldev io pin then 1 else 0
    (.ok 0, pinconf_to_config_packed param argument, io)
  | .PIN_CONFIG_DRIVE_STRENGTH =>
    match histb_pinctrl_get_drive_strength pctldev io pin with
    | .error e => (.error e, config, io)
    | .ok argument =>
      if argument = 0 then
        (.ok (-ENOTSUPP), config, io)
      else
        (.ok 0, pinconf_to_config_packed param argument, io)
  | .other _ => (.ok (-EINVAL), config, io)

/-- Function `histb_pinctrl_pinconf_set_single`. -/
def histb_pinctrl_pinconf_set_single (pctldev : pinctrl_dev) (io : Regs)
    (pin_selector : Nat) (param : pin_config_param) (argument : Nat) :
    Except Fault Int × Regs :=
  match param with
  | .PIN_CONFIG_BIAS_DISABLE =>
    histb_pinctrl_set_bias pctldev io pin_selector .BIAS_DISABLE
  | .PIN_CONFIG_BIAS_PULL_UP =>
    histb_pinctrl_set_bias pctldev io pin_selector .BIAS_PULL_UP
  | .PIN_CONFIG_BIAS_PULL_DOWN =>
    histb_pinctrl_set_bias pctldev io pin_selector .BIAS_PULL_DOWN
  | .PIN_CONFIG_SLEW_RATE =>
    histb_pinctrl_set_slew_rate pctldev io pin_selector (u32 argument)
  | .PIN_CONFIG_INPUT_SCHMITT_ENABLE =>
    histb_pinctrl_endisable_schmitt pctldev io pin_selector (to_bool (u32 argument))
  | .PIN_CONFIG_DRIVE_STRENGTH =>
    histb_pinctrl_set_drive_strength pctldev io pin_selector (u32 argument)
  | .other _ => (.ok (-EINVAL), io)

/-- Function `histb_pinctrl_pinconf_set`: the configurations are applied in order and the
first non-zero return value (or fault) ends the loop. -/
def histb_pinctrl_pinconf_set (pctldev : pinctrl_dev) (io : Regs) (pin : Nat) :
    List pin_config → Except Fault Int × Regs
  | [] => (.ok 0, io)
  | config :: configs =>
    match histb_pinctrl_pinconf_set_single pctldev io pin
        (pinconf_to_config_param config) (pinconf_to_config_argument config) with
    | (.error e, io) => (.error e, io)
    | (.ok ret, io) =>
      if ret ≠ 0 then (.ok ret, io)
      else histb_pinctrl_pinconf_set pctldev io pin configs

/-! ## `pinctrl-hi3798mv2x.c`: the Hi3798MV2x pin map -/

/-! Enumerators of `enum hi3798mv2x_ioconfig_pins` ("The sequence is important!"): the
value of a pin name is its position, starting at 0 after `INVALID = -1`. -/

namespace PIN

/-- Pin `Y19`. -/
def Y19 : Nat := 0

/-- Pin `W19`. -/
def W19 : Nat := 1

/-- Pin `AA20`. -/
def AA20 : Nat := 2

/-- Pin `Y20`. -/
def Y20 : Nat := 3

/-- Pin `V19`. -/
def V19 : Nat := 4

/-- Pin `Y21`. -/
def Y21 : Nat := 5

/-- Pin `W20`. -/
def W20 : Nat := 6

/-- Pin `W21`. -/
def W21 : Nat := 7

/-- Pin `V20`. -/
def V20 : Nat := 8

/-- Pin `V21`. -/
def V21 : Nat := 9

/-- Pin `U20`. -/
def U20 : Nat := 10

/-- Pin `U21`. -/
def U21 : Nat := 11

/-- Pin `T18`. -/
def T18 : Nat := 12

/-- Pin `T19`. -/
def T19 : Nat := 13

/-- Pin `T20`. -/
def T20 : Nat := 14

/-- Pin `R20`. -/
def R20 : Nat := 15

/-- Pin `R21`. -/
def R21 : Nat := 16

/-- Pin `P20`. -/
def P20 : Nat := 17

/-- Pin `R19`. -/
def R19 : Nat := 18

/-- Pin `K18`. -/
def K18 : Nat := 19

/-- Pin `J17`. -/
def J17 : Nat := 20

/-- Pin `J18`. -/
def J18 : Nat := 21

/-- Pin `H17`. -/
def H17 : Nat := 22

/-- Pin `H18`. -/
def H18 : Nat := 23

/-- Pin `K20`. -/
def K20 : Nat := 24

/-- Pin `K19`. -/
def K19 : Nat := 25

/-- Pin `J20`. -/
def J20 : Nat := 26

/-- Pin `J19`. -/
def J19 : Nat := 27

/-- Pin `H21`. -/
def H21 : Nat := 28

/-- Pin `H20`. -/
def H20 : Nat := 29

/-- Pin `H19`. -/
def H19 : Nat := 30

/-- Pin `G20`. -/
def G20 : Nat := 31

/-- Pin `G19`. -/
def G19 : Nat := 32

/-- Pin `F21`. -/
def F21 : Nat := 33

/-- Pin `F20`. -/
def F20 : Nat := 34

/-- Pin `F19`. -/
def F19 : Nat := 35

/-- Pin `E20`. -/
def E20 : Nat := 36

/-- Pin `E19`. -/
def E19 : Nat := 37

/-- Pin `D21`. -/
def D21 : Nat := 38

/-- Pin `E18`. -/
def E18 : Nat := 39

/-- Pin `C20`. -/
def C20 : Nat := 40

/-- Pin `D19`. -/
def D19 : Nat := 41

/-- Pin `B21`. -/
def B21 : Nat := 42

/-- Pin `B18`. -/
def B18 : Nat := 43

/-- Pin `C17`. -/
def C17 : Nat := 44

/-- Pin `B17`. -/
def B17 : Nat := 45

/-- Pin `A17`. -/
def A17 : Nat := 46

/-- Pin `C16`. -/
def C16 : Nat := 47

/-- Pin `B16`. -/
def B16 : Nat := 48

/-- Pin `B4`. -/
def B4 : Nat := 49

/-- Pin `C4`. -/
def C4 : Nat := 50

/-- Pin `A3`. -/
def A3 : Nat := 51

/-- Pin `B3`. -/
def B3 : Nat := 52

/-- Pin `A2`. -/
def A2 : Nat := 53

/-- Pin `B2`. -/
def B2 : Nat := 54

/-- Pin `A6`. -/
def A6 : Nat := 55

/-- Pin `C6`. -/
def C6 : Nat := 56

/-- Pin `C5`. -/
def C5 : Nat := 57

/-- Pin `C3`. -/
def C3 : Nat := 58

/-- Pin `D4`. -/
def D4 : Nat := 59

/-- Pin `D3`. -/
def D3 : Nat := 60

/-- Pin `B1`. -/
def B1 : Nat := 61

/-- Pin `C2`. -/
def C2 : Nat := 62

/-- Pin `C1`. -/
def C1 : Nat := 63

/-- Pin `A5`. -/
def A5 : Nat := 64

/-- Pin `D5`. -/
def D5 : Nat := 65

end PIN

/-- Enumerator of `enum hi3798mv2x_pin_funcs`: `HI3798MV2X_GPIO`. -/
def HI3798MV2X_GPIO : Nat := HISTB_PIN_FUNCTION_GPIO

/-- Enumerator of `enum hi3798mv2x_pin_funcs`: `HI3798MV2X_BOOT_SEL`. -/
def HI3798MV2X_BOOT_SEL : Nat := 1

/-- Enumerator of `enum hi3798mv2x_pin_funcs`: `HI3798MV2X_CLKOUT_25M`. -/
def HI3798MV2X_CLKOUT_25M : Nat := 2

/-- Enumerator of `enum hi3798mv2x_pin_funcs`: `HI3798MV2X_EMMC`. -/
def HI3798MV2X_EMMC : Nat := 3

/-- Enumerator of `enum hi3798mv2x_pin_funcs`: `HI3798MV2X_FE_LED`. -/
def HI3798MV2X_FE_LED : Nat := 4

/-- Enumerator of `enum hi3798mv2x_pin_funcs`: `HI3798MV2X_HDMITX`. -/
def HI3798MV2X_HDMITX : Nat := 5

/-- Enumerator of `enum hi3798mv2x_pin_funcs`: `HI3798MV2X_I2C_SCL`. -/
def HI3798MV2X_I2C_SCL : Nat := 6

/-- Enumerator of `enum hi3798mv2x_pin_funcs`: `HI3798MV2X_I2C_SDA`. -/
def HI3798MV2X_I2C_SDA : Nat := 7

/-- Enumerator of `enum hi3798mv2x_pin_funcs`: `HI3798MV2X_I2S_CLK`. -/
def HI3798MV2X_I2S_CLK : Nat := 8

/-- Enumerator of `enum hi3798mv2x_pin_funcs`: `HI3798MV2X_I2S_DATA`. -/
def HI3798MV2X_I2S_DATA : Nat := 9

/-- Enumerator of `enum hi3798mv2x_pin_funcs`: `HI3798MV2X_I2S_WS`. -/
def HI3798MV2X_I2S_WS : Nat := 10

/-- Enumerator of `enum hi3798mv2x_pin_funcs`: `HI3798MV2X_JTAG`. -/
def HI3798MV2X_JTAG : Nat := 11

/-- Enumerator of `enum hi3798mv2x_pin_funcs`: `HI3798MV2X_NAND`. -/
def HI3798MV2X_NAND : Nat := 12

/-- Enumerator of `enum hi3798mv2x_pin_funcs`: `HI3798MV2X_PMC`. -/
def HI3798MV2X_PMC : Nat := 13

/-- Enumerator of `enum hi3798mv2x_pin_funcs`: `HI3798MV2X_RGMII`. -/
def HI3798MV2X_RGMII : Nat := 14

/-- Enumerator of `enum hi3798mv2x_pin_funcs`: `HI3798MV2X_RMII`. -/
def HI3798MV2X_RMII : Nat := 15

/-- Enumerator of `enum hi3798mv2x_pin_funcs`: `HI3798MV2X_SATA`. -/
def HI3798MV2X_SATA : Nat := 16

/-- Enumerator of `enum hi3798mv2x_pin_funcs`: `HI3798MV2X_SDIO`. -/
def HI3798MV2X_SDIO : Nat := 17

/-- Enumerator of `enum hi3798mv2x_pin_funcs`: `HI3798MV2X_SIM`. -/
def HI3798MV2X_SIM : Nat := 18

/-- Enumerator of `enum hi3798mv2x_pin_funcs`: `HI3798MV2X_SPDIF`. -/
def HI3798MV2X_SPDIF : Nat := 19

/-- Enumerator of `enum hi3798mv2x_pin_funcs`: `HI3798MV2X_SPI`. -/
def HI3798MV2X_SPI : Nat := 20

/-- Enumerator of `enum hi3798mv2x_pin_funcs`: `HI3798MV2X_SPI_FLASH`. -/
def HI3798MV2X_SPI_FLASH : Nat := 21

/-- Enumerator of `enum hi3798mv2x_pin_funcs`: `HI3798MV2X_TSI0_D0`. -/
def HI3798MV2X_TSI0_D0 : Nat := 22

/-- Enumerator of `enum hi3798mv2x_pin_funcs`: `HI3798MV2X_TSI0_D1`. -/
def HI3798MV2X_TSI0_D1 : Nat := 23

/-- Enumerator of `enum hi3798mv2x_pin_funcs`: `HI3798MV2X_TSI0_DATA`. -/
def HI3798MV2X_TSI0_DATA : Nat := 24

/-- Enumerator of `enum hi3798mv2x_pin_funcs`: `HI3798MV2X_TSI1_DATA`. -/
def HI3798MV2X_TSI1_DATA : Nat := 25

/-- Enumerator of `enum hi3798mv2x_pin_funcs`: `HI3798MV2X_TSI2_DATA`. -/
def HI3798MV2X_TSI2_DATA : Nat := 26

/-- Enumerator of `enum hi3798mv2x_pin_funcs`: `HI3798MV2X_TSI3_DATA`. -/
def HI3798MV2X_TSI3_DATA : Nat := 27

/-- Enumerator of `enum hi3798mv2x_pin_funcs`: `HI3798MV2X_TSO`. -/
def HI3798MV2X_TSO : Nat := 28

/-- Enumerator of `enum hi3798mv2x_pin_funcs`: `HI3798MV2X_TSI_CLK`. -/
def HI3798MV2X_TSI_CLK : Nat := 29

/-- Enumerator of `enum hi3798mv2x_pin_funcs`: `HI3798MV2X_TSI_SYNC`. -/
def HI3798MV2X_TSI_SYNC : Nat := 30

/-- Enumerator of `enum hi3798mv2x_pin_funcs`: `HI3798MV2X_TSI_VALID`. -/
def HI3798MV2X_TSI_VALID : Nat := 31

/-- Enumerator of `enum hi3798mv2x_pin_funcs`: `HI3798MV2X_UART`. -/
def HI3798MV2X_UART : Nat := 32

/-- Enumerator of `enum hi3798mv2x_pin_funcs`: `HI3798MV2X_FUNCTION_COUNT`. -/
def HI3798MV2X_FUNCTION_COUNT : Nat := 33

/-- Constant `DRIVE_STRENGTH_TABLE_SAMPLE_A`. -/
def DRIVE_STRENGTH_TABLE_SAMPLE_A : List Nat := [4, 3, 2, 1, 0]

/-- Constant `DRIVE_STRENGTH_TABLE_SAMPLE_B`. -/
def DRIVE_STRENGTH_TABLE_SAMPLE_B : List Nat :=
  [18, 17, 16, 15, 13, 12, 11, 10, 9, 8, 7, 6, 4, 3, 2, 1, 0]

/-- Table `hi3798mv2x_ioconfig_pins[]`, in source order. -/
def hi3798mv2x_ioconfig_pins : List pinctrl_pin_desc := [
  HISTB_PIN PIN.Y19 "Y19" (some DRIVE_STRENGTH_TABLE_SAMPLE_A)
    [⟨ HI3798MV2X_GPIO, 0x0⟩, ⟨HI3798MV2X_NAND, 0x1⟩, ⟨HISTB_PIN_FUNCTION_EOF, 0⟩]
    HISTB_PIN_FLAG_NOPD,
  HISTB_PIN PIN.W19 "W19" (some DRIVE_STRENGTH_TABLE_SAMPLE_A)
    [⟨ HI3798MV2X_GPIO, 0x0⟩, ⟨HI3798MV2X_NAND, 0x1⟩, ⟨HISTB_PIN_FUNCTION_EOF, 0⟩]
    HISTB_PIN_FLAG_NOPD,
  HISTB_PIN PIN.AA20 "AA20" (some DRIVE_STRENGTH_TABLE_SAMPLE_B)
    [⟨ HI3798MV2X_GPIO, 0x0⟩, ⟨HI3798MV2X_NAND, 0x1⟩, ⟨HI3798MV2X_BOOT_SEL, 0x2⟩,
     ⟨HISTB_PIN_FUNCTION_EOF, 0⟩]
    0,
  HISTB_PIN PIN.Y20 "Y20" (some DRIVE_STRENGTH_TABLE_SAMPLE_B)
    [⟨HI3798MV2X_NAND, 0x1⟩, ⟨HISTB_PIN_FUNCTION_EOF, 0⟩]
    0,
  HISTB_PIN PIN.V19 "V19" (some DRIVE_STRENGTH_TABLE_SAMPLE_B)
    [⟨ HI3798MV2X_GPIO, 0x0⟩, ⟨HI3798MV2X_NAND, 0x1⟩, ⟨HI3798MV2X_EMMC, 0x2⟩,
     ⟨HISTB_PIN_FUNCTION_EOF, 0⟩]
    0,
  HISTB_PIN PIN.Y21 "Y21" (some DRIVE_STRENGTH_TABLE_SAMPLE_B)
    [⟨ HI3798MV2X_GPIO, 0x0⟩, ⟨HI3798MV2X_NAND, 0x1⟩, ⟨HI3798MV2X_EMMC, 0x2⟩,
     ⟨HISTB_PIN_FUNCTION_EOF, 0⟩]
    0,
  HISTB_PIN PIN.W20 "W20" (some DRIVE_STRENGTH_TABLE_SAMPLE_B)
    [⟨ HI3798MV2X_GPIO, 0x0⟩, ⟨HI3798MV2X_NAND, 0x1⟩, ⟨HI3798MV2X_EMMC, 0x2⟩,
     ⟨HISTB_PIN_FUNCTION_EOF, 0⟩]
    0,
  HISTB_PIN PIN.W21 "W21" (some DRIVE_STRENGTH_TABLE_SAMPLE_B)
    [⟨ HI3798MV2X_GPIO, 0x0⟩, ⟨HI3798MV2X_NAND, 0x1⟩, ⟨HI3798MV2X_EMMC, 0x2⟩,
     ⟨HISTB_PIN_FUNCTION_EOF, 0⟩]
    0,
  HISTB_PIN PIN.V20 "V20" (some DRIVE_STRENGTH_TABLE_SAMPLE_B)
    [⟨ HI3798MV2X_GPIO, 0x0⟩, ⟨HI3798MV2X_NAND, 0x1⟩, ⟨HI3798MV2X_EMMC, 0x2⟩,
     ⟨HISTB_PIN_FUNCTION_EOF, 0⟩]
    0,
  HISTB_PIN PIN.V21 "V21" (some DRIVE_STRENGTH_TABLE_SAMPLE_B)
    [⟨ HI3798MV2X_GPIO, 0x0⟩, ⟨HI3798MV2X_NAND, 0x1⟩, ⟨HI3798MV2X_EMMC, 0x2⟩,
     ⟨HISTB_PIN_FUNCTION_EOF, 0⟩]
    0,
  HISTB_PIN PIN.U20 "U20" (some DRIVE_STRENGTH_TABLE_SAMPLE_B)
    [⟨ HI3798MV2X_GPIO, 0x0⟩, ⟨HI3798MV2X_NAND, 0x1⟩, ⟨HI3798MV2X_EMMC, 0x2⟩,
     ⟨HISTB_PIN_FUNCTION_EOF, 0⟩]
    0,
  HISTB_PIN PIN.U21 "U21" (some DRIVE_STRENGTH_TABLE_SAMPLE_B)
    [⟨ HI3798MV2X_GPIO, 0x0⟩, ⟨HI3798MV2X_NAND, 0x1⟩, ⟨HI3798MV2X_EMMC, 0x2⟩,
     ⟨HISTB_PIN_FUNCTION_EOF, 0⟩]
    0,
  HISTB_PIN PIN.T18 "T18" (some DRIVE_STRENGTH_TABLE_SAMPLE_B)
    [⟨ HI3798MV2X_GPIO, 0x0⟩, ⟨HI3798MV2X_NAND, 0x1⟩, ⟨HI3798MV2X_EMMC, 0x2⟩,
     ⟨HISTB_PIN_FUNCTION_EOF, 0⟩]
    0,
  HISTB_PIN PIN.T19 "T19" (some DRIVE_STRENGTH_TABLE_SAMPLE_A)
    [⟨ HI3798MV2X_GPIO, 0x0⟩, ⟨HI3798MV2X_NAND, 0x1⟩, ⟨HISTB_PIN_FUNCTION_EOF, 0⟩]
    0,
  HISTB_PIN PIN.T20 "T20" (some DRIVE_STRENGTH_TABLE_SAMPLE_B)
    [⟨ HI3798MV2X_GPIO, 0x0⟩, ⟨HI3798MV2X_NAND, 0x1⟩, ⟨HI3798MV2X_EMMC, 0x2⟩,
     ⟨HISTB_PIN_FUNCTION_EOF, 0⟩]
    0,
  HISTB_PIN PIN.R20 "R20" (some DRIVE_STRENGTH_TABLE_SAMPLE_B)
    [⟨ HI3798MV2X_GPIO, 0x0⟩, ⟨HI3798MV2X_NAND, 0x1⟩, ⟨HI3798MV2X_EMMC, 0x2⟩,
     ⟨HISTB_PIN_FUNCTION_EOF, 0⟩]
    0,
  HISTB_PIN PIN.R21 "R21" (some DRIVE_STRENGTH_TABLE_SAMPLE_B)
    [⟨ HI3798MV2X_GPIO, 0x0⟩, ⟨HI3798MV2X_NAND, 0x1⟩, ⟨HI3798MV2X_EMMC, 0x2⟩,
     ⟨HISTB_PIN_FUNCTION_EOF, 0⟩]
    0,
  HISTB_PIN PIN.P20 "P20" (some DRIVE_STRENGTH_TABLE_SAMPLE_A)
    [⟨HI3798MV2X_PMC, 0x0⟩, ⟨HI3798MV2X_I2C_SDA, 0x1⟩, ⟨ HI3798MV2X_GPIO, 0x2⟩,
     ⟨HISTB_PIN_FUNCTION_EOF, 0⟩]
    0,
  HISTB_PIN PIN.R19 "R19" (some DRIVE_STRENGTH_TABLE_SAMPLE_A)
    [⟨HI3798MV2X_PMC, 0x0⟩, ⟨HI3798MV2X_I2C_SCL, 0x1⟩, ⟨ HI3798MV2X_GPIO, 0x2⟩,
     ⟨HISTB_PIN_FUNCTION_EOF, 0⟩]
    0,
  HISTB_PIN PIN.K18 "K18" (some DRIVE_STRENGTH_TABLE_SAMPLE_A)
    [⟨ HI3798MV2X_GPIO, 0x0⟩, ⟨HI3798MV2X_SATA, 0x1⟩, ⟨HI3798MV2X_UART, 0x2⟩,
     ⟨HI3798MV2X_TSI0_DATA, 0x3⟩, ⟨HI3798MV2X_TSI_CLK, 0x4⟩, ⟨HI3798MV2X_SIM, 0x5⟩,
     ⟨HISTB_PIN_FUNCTION_EOF, 0⟩]
    0,
  HISTB_PIN PIN.J17 "J17" (some DRIVE_STRENGTH_TABLE_SAMPLE_A)
    [⟨ HI3798MV2X_GPIO, 0x0⟩, ⟨HI3798MV2X_SATA, 0x1⟩, ⟨HI3798MV2X_UART, 0x2⟩,
     ⟨HI3798MV2X_TSI_SYNC, 0x3⟩, ⟨HI3798MV2X_TSI1_DATA, 0x4⟩,
     ⟨HI3798MV2X_TSI0_DATA, 0x5⟩, ⟨HI3798MV2X_TSI_VALID, 0x6⟩, ⟨HI3798MV2X_SIM, 0x7⟩,
     ⟨HISTB_PIN_FUNCTION_EOF, 0⟩]
    0,
  HISTB_PIN PIN.J18 "J18" (some DRIVE_STRENGTH_TABLE_SAMPLE_A)
    [⟨ HI3798MV2X_GPIO, 0x0⟩, ⟨HI3798MV2X_UART, 0x1⟩, ⟨HI3798MV2X_TSI1_DATA, 0x2⟩,
     ⟨HI3798MV2X_TSI0_DATA, 0x3⟩, ⟨HI3798MV2X_TSI3_DATA, 0x4⟩, ⟨HI3798MV2X_SIM, 0x5⟩,
     ⟨HISTB_PIN_FUNCTION_EOF, 0⟩]
    0,
  HISTB_PIN PIN.H17 "H17" (some DRIVE_STRENGTH_TABLE_SAMPLE_A)
    [⟨ HI3798MV2X_GPIO, 0x0⟩, ⟨HI3798MV2X_UART, 0x1⟩, ⟨HI3798MV2X_TSI_CLK, 0x2⟩,
     ⟨HI3798MV2X_TSI0_DATA, 0x3⟩, ⟨HI3798MV2X_TSI_VALID, 0x4⟩, ⟨HI3798MV2X_SIM, 0x5⟩,
     ⟨HISTB_PIN_FUNCTION_EOF, 0⟩]
    0,
  HISTB_PIN PIN.H18 "H18" (some DRIVE_STRENGTH_TABLE_SAMPLE_A)
    [⟨ HI3798MV2X_GPIO, 0x0⟩, ⟨HI3798MV2X_I2C_SDA, 0x1⟩, ⟨HI3798MV2X_TSI_VALID, 0x2⟩,
     ⟨HI3798MV2X_TSI0_DATA, 0x3⟩, ⟨HI3798MV2X_TSI2_DATA, 0x4⟩, ⟨HI3798MV2X_SIM, 0x5⟩,
     ⟨HISTB_PIN_FUNCTION_EOF, 0⟩]
    0,
  HISTB_PIN PIN.K20 "K20" (some DRIVE_STRENGTH_TABLE_SAMPLE_A)
    [⟨HI3798MV2X_JTAG, 0x0⟩, ⟨HI3798MV2X_I2C_SCL, 0x1⟩, ⟨HI3798MV2X_SPI, 0x2⟩,
     ⟨HI3798MV2X_SIM, 0x3⟩, ⟨ HI3798MV2X_GPIO, 0x4⟩, ⟨HISTB_PIN_FUNCTION_EOF, 0⟩]
    0,
  HISTB_PIN PIN.K19 "K19" (some DRIVE_STRENGTH_TABLE_SAMPLE_A)
    [⟨HI3798MV2X_JTAG, 0x0⟩, ⟨HI3798MV2X_SPI, 0x1⟩, ⟨HI3798MV2X_SIM, 0x2⟩,
     ⟨ HI3798MV2X_GPIO, 0x3⟩, ⟨HI3798MV2X_UART, 0x4⟩, ⟨HISTB_PIN_FUNCTION_EOF, 0⟩]
    0,
  HISTB_PIN PIN.J20 "J20" (some DRIVE_STRENGTH_TABLE_SAMPLE_A)
    [⟨HI3798MV2X_JTAG, 0x0⟩, ⟨HI3798MV2X_I2S_CLK, 0x1⟩, ⟨HI3798MV2X_SPI, 0x2⟩,
     ⟨HI3798MV2X_SIM, 0x3⟩, ⟨ HI3798MV2X_GPIO, 0x4⟩, ⟨HI3798MV2X_UART, 0x5⟩,
     ⟨HISTB_PIN_FUNCTION_EOF, 0⟩]
    0,
  HISTB_PIN PIN.J19 "J19" (some DRIVE_STRENGTH_TABLE_SAMPLE_A)
    [⟨HI3798MV2X_JTAG, 0x0⟩, ⟨HI3798MV2X_I2S_WS, 0x1⟩, ⟨HI3798MV2X_SPI, 0x2⟩,
     ⟨HI3798MV2X_SIM, 0x3⟩, ⟨ HI3798MV2X_GPIO, 0x4⟩, ⟨HI3798MV2X_UART, 0x5⟩,
     ⟨HISTB_PIN_FUNCTION_EOF, 0⟩]
    0,
  HISTB_PIN PIN.H21 "H21" (some DRIVE_STRENGTH_TABLE_SAMPLE_A)
    [⟨HI3798MV2X_JTAG, 0x0⟩, ⟨HI3798MV2X_I2S_CLK, 0x1⟩, ⟨HI3798MV2X_I2S_DATA, 0x2⟩,
     ⟨HI3798MV2X_SIM, 0x3⟩, ⟨ HI3798MV2X_GPIO, 0x4⟩, ⟨HI3798MV2X_UART, 0x5⟩,
     ⟨HISTB_PIN_FUNCTION_EOF, 0⟩]
    0,
  HISTB_PIN PIN.H20 "H20" (some DRIVE_STRENGTH_TABLE_SAMPLE_A)
    [⟨ HI3798MV2X_GPIO, 0x0⟩, ⟨HI3798MV2X_I2S_CLK, 0x1⟩, ⟨HI3798MV2X_I2S_DATA, 0x2⟩,
     ⟨HI3798MV2X_SPI_FLASH, 0x3⟩, ⟨HI3798MV2X_TSO, 0x4⟩, ⟨HISTB_PIN_FUNCTION_EOF, 0⟩]
    HISTB_PIN_FLAG_NOPD,
  HISTB_PIN PIN.H19 "H19" (some DRIVE_STRENGTH_TABLE_SAMPLE_A)
    [⟨ HI3798MV2X_GPIO, 0x0⟩, ⟨HI3798MV2X_I2S_WS, 0x1⟩, ⟨HI3798MV2X_I2S_DATA, 0x2⟩,
     ⟨HI3798MV2X_TSI_SYNC, 0x3⟩, ⟨HI3798MV2X_TSI1_DATA, 0x4⟩,
     ⟨HI3798MV2X_SPI_FLASH, 0x5⟩, ⟨HI3798MV2X_TSO, 0x6⟩, ⟨HISTB_PIN_FUNCTION_EOF, 0⟩]
    0,
  HISTB_PIN PIN.G20 "G20" (some DRIVE_STRENGTH_TABLE_SAMPLE_A)
    [⟨ HI3798MV2X_GPIO, 0x0⟩, ⟨HI3798MV2X_I2S_DATA, 0x1⟩, ⟨HI3798MV2X_TSI1_DATA, 0x3⟩,
     ⟨HI3798MV2X_SPI_FLASH, 0x5⟩, ⟨HI3798MV2X_TSO, 0x6⟩, ⟨HISTB_PIN_FUNCTION_EOF, 0⟩]
    HISTB_PIN_FLAG_NOPD,
  HISTB_PIN PIN.G19 "G19" (some DRIVE_STRENGTH_TABLE_SAMPLE_A)
    [⟨ HI3798MV2X_GPIO, 0x0⟩, ⟨HI3798MV2X_I2S_CLK, 0x1⟩, ⟨HI3798MV2X_I2S_WS, 0x2⟩,
     ⟨HI3798MV2X_TSI_CLK, 0x3⟩, ⟨HI3798MV2X_SPI_FLASH, 0x5⟩, ⟨HI3798MV2X_TSO, 0x6⟩,
     ⟨HISTB_PIN_FUNCTION_EOF, 0⟩]
    HISTB_PIN_FLAG_NOPD,
  HISTB_PIN PIN.F21 "F21" (some DRIVE_STRENGTH_TABLE_SAMPLE_A)
    [⟨ HI3798MV2X_GPIO, 0x0⟩, ⟨HI3798MV2X_I2S_DATA, 0x1⟩, ⟨HI3798MV2X_I2S_CLK, 0x2⟩,
     ⟨HI3798MV2X_TSI_VALID, 0x3⟩, ⟨HI3798MV2X_SPI_FLASH, 0x5⟩,
     ⟨HISTB_PIN_FUNCTION_EOF, 0⟩]
    0,
  HISTB_PIN PIN.F20 "F20" (some DRIVE_STRENGTH_TABLE_SAMPLE_A)
    [⟨ HI3798MV2X_GPIO, 0x0⟩, ⟨ HI3798MV2X_SDIO, 0x1⟩, ⟨HI3798MV2X_I2S_CLK, 0x2⟩,
     ⟨HI3798MV2X_SPI_FLASH, 0x4⟩, ⟨HISTB_PIN_FUNCTION_EOF, 0⟩]
    0,
  HISTB_PIN PIN.F19 "F19" (some DRIVE_STRENGTH_TABLE_SAMPLE_A)
    [⟨ HI3798MV2X_GPIO, 0x0⟩, ⟨ HI3798MV2X_SDIO, 0x1⟩, ⟨HI3798MV2X_I2C_SCL, 0x3⟩,
     ⟨HI3798MV2X_I2S_CLK, 0x4⟩, ⟨HI3798MV2X_TSI0_DATA, 0x5⟩, ⟨HI3798MV2X_TSI_CLK, 0x6⟩,
     ⟨HISTB_PIN_FUNCTION_EOF, 0⟩]
    0,
  HISTB_PIN PIN.E20 "E20" (some [18, 16, 14, 12, 5, 4, 2, 1, 0])
    [⟨ HI3798MV2X_GPIO, 0x0⟩, ⟨ HI3798MV2X_SDIO, 0x1⟩, ⟨HI3798MV2X_I2S_WS, 0x4⟩,
     ⟨HI3798MV2X_TSI0_DATA, 0x5⟩, ⟨HI3798MV2X_I2C_SDA, 0x6⟩,
     ⟨HISTB_PIN_FUNCTION_EOF, 0⟩]
    0,
  HISTB_PIN PIN.E19 "E19" (some [18, 16, 14, 12, 5, 4, 2, 1, 0])
    [⟨ HI3798MV2X_GPIO, 0x0⟩, ⟨ HI3798MV2X_SDIO, 0x1⟩, ⟨HI3798MV2X_TSI0_D1, 0x2⟩,
     ⟨HI3798MV2X_TSI_SYNC, 0x3⟩, ⟨HI3798MV2X_I2S_CLK, 0x4⟩, ⟨HI3798MV2X_TSI0_D0, 0x5⟩,
     ⟨HI3798MV2X_I2C_SCL, 0x6⟩, ⟨HISTB_PIN_FUNCTION_EOF, 0⟩]
    0,
  HISTB_PIN PIN.D21 "D21" (some DRIVE_STRENGTH_TABLE_SAMPLE_B)
    [⟨ HI3798MV2X_GPIO, 0x0⟩, ⟨ HI3798MV2X_SDIO, 0x1⟩, ⟨HI3798MV2X_TSI0_DATA, 0x3⟩,
     ⟨HI3798MV2X_I2S_CLK, 0x4⟩, ⟨HI3798MV2X_TSI_CLK, 0x5⟩, ⟨HI3798MV2X_TSI_VALID, 0x6⟩,
     ⟨HISTB_PIN_FUNCTION_EOF, 0⟩]
    0,
  HISTB_PIN PIN.E18 "E18" (some [18, 16, 14, 12, 5, 4, 2, 1, 0])
    [⟨ HI3798MV2X_GPIO, 0x0⟩, ⟨ HI3798MV2X_SDIO, 0x1⟩, ⟨HI3798MV2X_TSI_CLK, 0x3⟩,
     ⟨HI3798MV2X_I2S_WS, 0x4⟩, ⟨HI3798MV2X_TSI_VALID, 0x5⟩,
     ⟨HI3798MV2X_TSI1_DATA, 0x6⟩, ⟨HISTB_PIN_FUNCTION_EOF, 0⟩]
    0,
  HISTB_PIN PIN.C20 "C20" (some [18, 16, 14, 12, 5, 4, 2, 1, 0])
    [⟨ HI3798MV2X_GPIO, 0x0⟩, ⟨ HI3798MV2X_SDIO, 0x1⟩, ⟨HI3798MV2X_TSI_CLK, 0x2⟩,
     ⟨HI3798MV2X_TSI_VALID, 0x3⟩, ⟨HI3798MV2X_I2S_DATA, 0x4⟩,
     ⟨HI3798MV2X_I2C_SCL, 0x5⟩, ⟨HI3798MV2X_TSI_VALID, 0x6⟩,
     ⟨HISTB_PIN_FUNCTION_EOF, 0⟩]
    0,
  HISTB_PIN PIN.D19 "D19" (some [18, 16, 14, 12, 5, 4, 2, 1, 0])
    [⟨ HI3798MV2X_GPIO, 0x0⟩, ⟨ HI3798MV2X_SDIO, 0x1⟩, ⟨HI3798MV2X_I2C_SCL, 0x3⟩,
     ⟨HI3798MV2X_I2S_CLK, 0x4⟩, ⟨HI3798MV2X_I2C_SDA, 0x5⟩, ⟨HI3798MV2X_TSI0_DATA, 0x6⟩,
     ⟨HISTB_PIN_FUNCTION_EOF, 0⟩]
    0,
  HISTB_PIN PIN.B21 "B21" (some DRIVE_STRENGTH_TABLE_SAMPLE_A)
    [⟨ HI3798MV2X_GPIO, 0x0⟩, ⟨ HI3798MV2X_SDIO, 0x1⟩, ⟨HI3798MV2X_I2C_SDA, 0x3⟩,
     ⟨HI3798MV2X_I2S_DATA, 0x4⟩, ⟨HI3798MV2X_TSI_CLK, 0x6⟩, ⟨HISTB_PIN_FUNCTION_EOF, 0⟩]
    0,
  HISTB_PIN PIN.B18 "B18" (some DRIVE_STRENGTH_TABLE_SAMPLE_A)
    [⟨HI3798MV2X_JTAG, 0x0⟩, ⟨ HI3798MV2X_GPIO, 0x1⟩, ⟨HISTB_PIN_FUNCTION_EOF, 0⟩]
    0,
  HISTB_PIN PIN.C17 "C17" (some DRIVE_STRENGTH_TABLE_SAMPLE_A)
    [⟨ HI3798MV2X_GPIO, 0x0⟩, ⟨HI3798MV2X_SPDIF, 0x1⟩, ⟨HISTB_PIN_FUNCTION_EOF, 0⟩]
    0,
  HISTB_PIN PIN.B17 "B17" (some DRIVE_STRENGTH_TABLE_SAMPLE_A)
    [⟨HI3798MV2X_HDMITX, 0x1⟩, ⟨ HI3798MV2X_GPIO, 0x2⟩, ⟨HISTB_PIN_FUNCTION_EOF, 0⟩]
    0,
  HISTB_PIN PIN.A17 "A17" (some DRIVE_STRENGTH_TABLE_SAMPLE_A)
    [⟨HI3798MV2X_HDMITX, 0x1⟩, ⟨ HI3798MV2X_GPIO, 0x2⟩, ⟨HISTB_PIN_FUNCTION_EOF, 0⟩]
    0,
  HISTB_PIN PIN.C16 "C16" (some DRIVE_STRENGTH_TABLE_SAMPLE_A)
    [⟨HI3798MV2X_HDMITX, 0x1⟩, ⟨ HI3798MV2X_GPIO, 0x2⟩, ⟨HISTB_PIN_FUNCTION_EOF, 0⟩]
    0,
  HISTB_PIN PIN.B16 "B16" (some DRIVE_STRENGTH_TABLE_SAMPLE_A)
    [⟨HI3798MV2X_HDMITX, 0x1⟩, ⟨ HI3798MV2X_GPIO, 0x2⟩, ⟨HISTB_PIN_FUNCTION_EOF, 0⟩]
    (HISTB_PIN_FLAG_NOPU ||| HISTB_PIN_FLAG_NOPD ||| HISTB_PIN_FLAG_NOSR),
  HISTB_PIN PIN.B4 "B4" (some [18, 16, 14, 12, 10, 8, 6, 4, 0])
    [⟨ HI3798MV2X_GPIO, 0x0⟩, ⟨HI3798MV2X_RGMII, 0x1⟩, ⟨HI3798MV2X_RMII, 0x2⟩,
     ⟨ HI3798MV2X_SDIO, 0x3⟩, ⟨HISTB_PIN_FUNCTION_EOF, 0⟩]
    HISTB_PIN_FLAG_SCHMITT,
  HISTB_PIN PIN.C4 "C4" (some [18, 16, 14, 12, 10, 8, 6, 4, 0])
    [⟨ HI3798MV2X_GPIO, 0x0⟩, ⟨HI3798MV2X_RGMII, 0x1⟩, ⟨HI3798MV2X_RMII, 0x2⟩,
     ⟨ HI3798MV2X_SDIO, 0x3⟩, ⟨HISTB_PIN_FUNCTION_EOF, 0⟩]
    HISTB_PIN_FLAG_SCHMITT,
  HISTB_PIN PIN.A3 "A3" (some DRIVE_STRENGTH_TABLE_SAMPLE_B)
    [⟨ HI3798MV2X_GPIO, 0x0⟩, ⟨HI3798MV2X_RGMII, 0x1⟩, ⟨HI3798MV2X_RMII, 0x2⟩,
     ⟨ HI3798MV2X_SDIO, 0x3⟩, ⟨HISTB_PIN_FUNCTION_EOF, 0⟩]
    0,
  HISTB_PIN PIN.B3 "B3" (some [18, 16, 14, 12, 10, 8, 6, 4, 0])
    [⟨ HI3798MV2X_GPIO, 0x0⟩, ⟨HI3798MV2X_RGMII, 0x1⟩, ⟨HI3798MV2X_RMII, 0x2⟩,
     ⟨ HI3798MV2X_SDIO, 0x3⟩, ⟨HISTB_PIN_FUNCTION_EOF, 0⟩]
    HISTB_PIN_FLAG_SCHMITT,
  HISTB_PIN PIN.A2 "A2" (some [18, 16, 14, 12, 10, 8, 6, 4, 0])
    [⟨ HI3798MV2X_GPIO, 0x0⟩, ⟨HI3798MV2X_RGMII, 0x1⟩, ⟨HI3798MV2X_RMII, 0x2⟩,
     ⟨ HI3798MV2X_SDIO, 0x3⟩, ⟨HISTB_PIN_FUNCTION_EOF, 0⟩]
    HISTB_PIN_FLAG_SCHMITT,
  HISTB_PIN PIN.B2 "B2" (some [18, 16, 14, 12, 10, 8, 6, 4, 0])
    [⟨ HI3798MV2X_GPIO, 0x0⟩, ⟨HI3798MV2X_RGMII, 0x1⟩, ⟨HI3798MV2X_RMII, 0x2⟩,
     ⟨ HI3798MV2X_SDIO, 0x3⟩, ⟨HISTB_PIN_FUNCTION_EOF, 0⟩]
    HISTB_PIN_FLAG_SCHMITT,
  HISTB_PIN PIN.A6 "A6" (some DRIVE_STRENGTH_TABLE_SAMPLE_A)
    [⟨ HI3798MV2X_GPIO, 0x0⟩, ⟨HI3798MV2X_RGMII, 0x1⟩, ⟨HI3798MV2X_UART, 0x2⟩,
     ⟨HI3798MV2X_FE_LED, 0x3⟩, ⟨HISTB_PIN_FUNCTION_EOF, 0⟩]
    0,
  HISTB_PIN PIN.C6 "C6" (some DRIVE_STRENGTH_TABLE_SAMPLE_A)
    [⟨ HI3798MV2X_GPIO, 0x0⟩, ⟨HI3798MV2X_RGMII, 0x1⟩, ⟨HI3798MV2X_UART, 0x2⟩,
     ⟨HI3798MV2X_FE_LED, 0x3⟩, ⟨HISTB_PIN_FUNCTION_EOF, 0⟩]
    0,
  HISTB_PIN PIN.C5 "C5" (some DRIVE_STRENGTH_TABLE_SAMPLE_A)
    [⟨ HI3798MV2X_GPIO, 0x0⟩, ⟨HI3798MV2X_RGMII, 0x1⟩, ⟨HI3798MV2X_RMII, 0x2⟩,
     ⟨ HI3798MV2X_SDIO, 0x3⟩, ⟨HISTB_PIN_FUNCTION_EOF, 0⟩]
    0,
  HISTB_PIN PIN.C3 "C3" (some [18, 16, 14, 12, 10, 8, 6, 4, 0])
    [⟨ HI3798MV2X_GPIO, 0x0⟩, ⟨HI3798MV2X_RGMII, 0x1⟩, ⟨HI3798MV2X_BOOT_SEL, 0x2⟩,
     ⟨HISTB_PIN_FUNCTION_EOF, 0⟩]
    HISTB_PIN_FLAG_SCHMITT,
  HISTB_PIN PIN.D4 "D4" (some [18, 16, 14, 12, 10, 8, 6, 4, 0])
    [⟨ HI3798MV2X_GPIO, 0x0⟩, ⟨HI3798MV2X_RGMII, 0x1⟩, ⟨HI3798MV2X_UART, 0x2⟩,
     ⟨HISTB_PIN_FUNCTION_EOF, 0⟩]
    HISTB_PIN_FLAG_SCHMITT,
  HISTB_PIN PIN.D3 "D3" (some [18, 16, 14, 12, 10, 8, 6, 4, 0])
    [⟨ HI3798MV2X_GPIO, 0x0⟩, ⟨HI3798MV2X_RGMII, 0x1⟩, ⟨HI3798MV2X_UART, 0x2⟩,
     ⟨HISTB_PIN_FUNCTION_EOF, 0⟩]
    HISTB_PIN_FLAG_SCHMITT,
  HISTB_PIN PIN.B1 "B1" (some DRIVE_STRENGTH_TABLE_SAMPLE_B)
    [⟨ HI3798MV2X_GPIO, 0x0⟩, ⟨HI3798MV2X_RGMII, 0x1⟩, ⟨HI3798MV2X_RMII, 0x2⟩,
     ⟨HI3798MV2X_BOOT_SEL, 0x3⟩, ⟨HISTB_PIN_FUNCTION_EOF, 0⟩]
    HISTB_PIN_FLAG_SCHMITT,
  HISTB_PIN PIN.C2 "C2" (some [18, 16, 14, 12, 10, 8, 6, 4, 0])
    [⟨HI3798MV2X_RGMII, 0x1⟩, ⟨HI3798MV2X_RMII, 0x2⟩, ⟨ HI3798MV2X_SDIO, 0x3⟩,
     ⟨ HI3798MV2X_GPIO, 0x4⟩, ⟨HISTB_PIN_FUNCTION_EOF, 0⟩]
    HISTB_PIN_FLAG_SCHMITT,
  HISTB_PIN PIN.C1 "C1" (some DRIVE_STRENGTH_TABLE_SAMPLE_B)
    [⟨HI3798MV2X_RGMII, 0x1⟩, ⟨HI3798MV2X_RMII, 0x2⟩, ⟨ HI3798MV2X_SDIO, 0x3⟩,
     ⟨ HI3798MV2X_GPIO, 0x4⟩, ⟨HISTB_PIN_FUNCTION_EOF, 0⟩]
    HISTB_PIN_FLAG_SCHMITT,
  HISTB_PIN PIN.A5 "A5" none
    [⟨ HI3798MV2X_GPIO, 0x0⟩, ⟨HI3798MV2X_CLKOUT_25M, 0x1⟩, ⟨HISTB_PIN_FUNCTION_EOF, 0⟩]
    0,
  HISTB_PIN PIN.D5 "D5" none
    [⟨HI3798MV2X_PMC, 0x0⟩, ⟨ HI3798MV2X_GPIO, 0x1⟩, ⟨HISTB_PIN_FUNCTION_EOF, 0⟩]
    (HISTB_PIN_FLAG_NOPU ||| HISTB_PIN_FLAG_NOPD ||| HISTB_PIN_FLAG_NOSR)]

/-- The pin controller that `hi3798mv2x_ioconfig_probe` registers: `pctldesc->pins` is
`hi3798mv2x_ioconfig_pins` and the driver data is the mapped register window `base`. -/
def hi3798mv2x_ioconfig (base : Nat) : pinctrl_dev :=
  { pins := hi3798mv2x_ioconfig_pins, drvdata := base }

/-- Entries of a function table that the scan of `histb_pinctrl_pinmux_set` can reach:
those before the end marker. -/
def func_tbl_entries (tbl : List histb_pin_mux_desc) : List histb_pin_mux_desc :=
  tbl.takeWhile (fun m => m.func ≠ HISTB_PIN_FUNCTION_EOF)

/-- A function table carries its end marker. -/
def func_tbl_terminated (tbl : List histb_pin_mux_desc) : Prop :=
  ∃ m ∈ tbl, m.func = HISTB_PIN_FUNCTION_EOF

/-- Number of reachable entries of the function table of a pin that match `func`. -/
def func_match_count (pin : pinctrl_pin_desc) (func : Nat) : Nat :=
  ((func_tbl_entries pin.drv_data.func_tbl).filter (fun m => m.func = func)).length

/-- Frame of an engine operation `op` on the register word at address `a`: from every
register file, `op` leaves every other register as it was, leaves every bit of the word at
`a` outside `field` as it was, and its return value and the new word at `a` depend on no
register but the word at `a`. -/
def op_frame (a : Nat) (field : Nat → Prop) (op : Regs → Except Fault Int × Regs) : Prop :=
  ∀ io, (∀ b, b ≠ a → (op io).2 b = io b) ∧
    (∀ j, ¬ field j → (readl (op io).2 a).testBit j = (readl io a).testBit j) ∧
    (∀ io2, readl io2 a = readl io a →
      (op io2).1 = (op io).1 ∧ readl (op io2).2 a = readl (op io).2 a)

/-! ## `clk.h`: descriptors of the HiSilicon clock tables -/

/-- Modelled from the spec: flag `CLK_SET_RATE_PARENT` of `linux/clk-provider.h`, which is
not under `src/`. -/
def CLK_SET_RATE_PARENT : Nat := BIT 2

/-- Modelled from the spec: flag `CLK_IS_CRITICAL` of `linux/clk-provider.h`, which is not
under `src/`: the clock is never gated. -/
def CLK_IS_CRITICAL : Nat := BIT 11

/-- Modelled from the spec: flag `CLK_MUX_ROUND_CLOSEST` of `linux/clk-provider.h`, which
is not under `src/`. -/
def CLK_MUX_ROUND_CLOSEST : Nat := BIT 4

/-- Modelled from the spec: `struct hisi_fixed_rate_clock` (`clk.h`, not under `src/`), with
the fields in the order in which the table rows initialise them.  The `id` is an enumerator
of a dt-bindings header that is not under `src/` and is kept by name. -/
structure hisi_fixed_rate_clock where
  id : String
  name : String
  parent_name : Option String
  flags : Nat
  fixed_rate : Nat
  deriving DecidableEq, Repr

/-- Modelled from the spec: `struct hisi_mux_clock` (`clk.h`, not under `src/`), with the
fields in the order in which the table rows initialise them: the selector field is `width`
bits wide and starts at bit `shift` of the register at `offset`. -/
structure hisi_mux_clock where
  id : String
  name : String
  parent_names : List String
  num_parents : Nat
  flags : Nat
  offset : Nat
  shift : Nat
  width : Nat
  mux_flags : Nat
  table : List Nat
  deriving DecidableEq, Repr

/-- Modelled from the spec: `struct hisi_phase_clock` (`clk.h`, not under `src/`), with the
fields in the order in which the table rows initialise them. -/
structure hisi_phase_clock where
  id : String
  name : String
  parent_names : Option String
  flags : Nat
  offset : Nat
  shift : Nat
  width : Nat
  phase_degrees : List Nat
  phase_regvals : List Nat
  phase_num : Nat
  deriving DecidableEq, Repr

/-- Modelled from the spec: `struct hisi_gate_clock` (`clk.h`, not under `src/`), with the
fields in the order in which the table rows initialise them. -/
structure hisi_gate_clock where
  id : String
  name : String
  parent_name : Option String
  flags : Nat
  offset : Nat
  bit_idx : Nat
  gate_flags : Nat
  deriving DecidableEq, Repr

/-- Modelled from the spec: `struct hisi_pll_clock` (`clk.h`, not under `src/`), with the
fields in the order in which the table rows initialise them. -/
structure hisi_pll_clock where
  id : String
  name : String
  parent_name : Option String
  flags : Nat
  offset : Nat
  deriving DecidableEq, Repr

/-! ## `crg-hi3798mv200.c`: the Hi3798MV200 clock map -/

/-- Table `hi3798mv200_fixed_rate_clks[]`, in source order. -/
def hi3798mv200_fixed_rate_clks : List hisi_fixed_rate_clock := [
  ⟨"HI3798MV200_OSC_CLK", "clk_osc", none, 0, 24000000⟩,
  ⟨"HI3798MV200_APB_CLK", "clk_apb", none, 0, 100000000⟩,
  ⟨"HI3798MV200_AHB_CLK", "clk_ahb", none, 0, 200000000⟩,
  ⟨"HI3798MV200_FIXED_3M", "3m", none, 0, 3000000⟩,
  ⟨"HI3798MV200_FIXED_12M", "12m", none, 0, 12000000⟩,
  ⟨"HI3798MV200_FIXED_24M", "24m", none, 0, 24000000⟩,
  ⟨"HI3798MV200_FIXED_25M", "25m", none, 0, 25000000⟩,
  ⟨"HI3798MV200_FIXED_27M", "27m", none, 0, 27000000⟩,
  ⟨"HI3798MV200_FIXED_48M", "48m", none, 0, 48000000⟩,
  ⟨"HI3798MV200_FIXED_50M", "50m", none, 0, 50000000⟩,
  ⟨"HI3798MV200_FIXED_54M", "54m", none, 0, 54000000⟩,
  ⟨"HI3798MV200_FIXED_60M", "60m", none, 0, 60000000⟩,
  ⟨"HI3798MV200_FIXED_75M", "75m", none, 0, 75000000⟩,
  ⟨"HI3798MV200_FIXED_100M", "100m", none, 0, 100000000⟩,
  ⟨"HI3798MV200_FIXED_125M", "125m", none, 0, 125000000⟩,
  ⟨"HI3798MV200_FIXED_150M", "150m", none, 0, 150000000⟩,
  ⟨"HI3798MV200_FIXED_200M", "200m", none, 0, 200000000⟩,
  ⟨"HI3798MV200_FIXED_400M", "400m", none, 0, 400000000⟩,
  ⟨"HI3798MV200_FIXED_600M", "600m", none, 0, 600000000⟩,
  ⟨"HI3798MV200_FIXED_800M", "800m", none, 0, 800000000⟩,
  ⟨"HI3798MV200_FIXED_1200M", "1200m", none, 0, 1200000000⟩,
  ⟨"HI3798MV200_FIXED_1350M", "1350m", none, 0, 1350000000⟩
]

/-- Table `sdio_mux_p[]`. -/
def sdio_mux_p : List String :=
  ["100m", "50m", "150m", "25m"]

/-- Table `sdio_mux_table[]`. -/
def sdio_mux_table : List Nat := [0, 1, 2, 3]

/-- Table `mmc_mux_p[]`. -/
def mmc_mux_p : List String :=
  ["100m", "50m", "25m", "200m", "150m"]

/-- Table `mmc_mux_table[]`. -/
def mmc_mux_table : List Nat := [0, 1, 2, 3, 6]

/-- Table `cpu_mux_p[]`. -/
def cpu_mux_p : List String :=
  ["apll", "200m", "800m", "1350m", "24m", "1200m", "400m", "600m"]

/-- Table `cpu_mux_table[]`. -/
def cpu_mux_table : List Nat := [0, 1, 2, 3, 4, 5, 6, 7]

/-- Table `comphy_mux_p[]`. -/
def comphy_mux_p : List String :=
  ["25m", "100m"]

/-- Table `femac_mux_p[]`. -/
def femac_mux_p : List String :=
  ["54m", "27m"]

/-- Table `gmac_mux_p[]`. -/
def gmac_mux_p : List String :=
  ["125m", "75m"]

/-- Table `ext_netphy_mux_p[]`. -/
def ext_netphy_mux_p : List String :=
  ["25m", "50m"]

/-- Table `mde1_bus_mux_p[]`. -/
def mde1_bus_mux_p : List String :=
  ["24m", "200m"]

/-- Table `mde3_bus_mux_p[]`. -/
def mde3_bus_mux_p : List String :=
  ["24m", "400m"]

/-- Table `mux_table_1bit[]`. -/
def mux_table_1bit : List Nat := [0, 1]

/-- Table `core_bus_mux_p[]`. -/
def core_bus_mux_p : List String :=
  ["24m", "200m", "250m"]

/-- Table `mde0_bus_mux_p[]`. -/
def mde0_bus_mux_p : List String :=
  ["24m", "300m", "400m"]

/-- Table `mde2_bus_mux_p[]`. -/
def mde2_bus_mux_p : List String :=
  ["24m", "400m", "450m"]

/-- Table `mux_table_2bit_pattern1[]`. -/
def mux_table_2bit_pattern1 : List Nat := [0, 1, 2]

/-- Table `hi3798mv200_mux_clks[]`, in source order. -/
def hi3798mv200_mux_clks : List hisi_mux_clock := [
  ⟨"HI3798MV200_CORE_BUS_CLK", "clk_core_bus", core_bus_mux_p, core_bus_mux_p.length, 0, 0x58, 0,
    2, 0, mux_table_2bit_pattern1⟩,
  ⟨"HI3798MV200_MDE0_BUS_CLK", "clk_mde0_bus", mde0_bus_mux_p, mde0_bus_mux_p.length, 0, 0x58, 2,
    2, 0, mux_table_2bit_pattern1⟩,
  ⟨"HI3798MV200_MDE1_BUS_CLK", "clk_mde1_bus", mde1_bus_mux_p, mde1_bus_mux_p.length, 0, 0x58, 4,
    1, 0, mux_table_1bit⟩,
  ⟨"HI3798MV200_MDE2_BUS_CLK", "clk_mde2_bus", mde2_bus_mux_p, mde2_bus_mux_p.length, 0, 0x58, 8,
    2, 0, mux_table_2bit_pattern1⟩,
  ⟨"HI3798MV200_MDE3_BUS_CLK", "clk_mde3_bus", mde3_bus_mux_p, mde3_bus_mux_p.length, 0, 0x58,
    10, 1, 0, mux_table_1bit⟩,
  ⟨"HI3798MV200_CPU_CLK", "clk_cpu", cpu_mux_p, cpu_mux_p.length, CLK_SET_RATE_PARENT, 0x48, 0,
    3, CLK_MUX_ROUND_CLOSEST, cpu_mux_table⟩,
  ⟨"HI3798MV200_MMC_MUX", "mmc_mux", mmc_mux_p, mmc_mux_p.length, 0, 0xa0, 8, 3,
    CLK_MUX_ROUND_CLOSEST, mmc_mux_table⟩,
  ⟨"HI3798MV200_COMBPHY_MUX", "combphy_mux", comphy_mux_p, comphy_mux_p.length, 0, 0x188, 3, 1,
    0, mux_table_1bit⟩,
  ⟨"HI3798MV200_SDIO0_MUX", "sdio0_mux", sdio_mux_p, sdio_mux_p.length, 0, 0x9c, 8, 2,
    CLK_MUX_ROUND_CLOSEST, sdio_mux_table⟩,
  ⟨"HI3798MV200_SDIO1_MUX", "sdio1_mux", sdio_mux_p, sdio_mux_p.length, 0, 0x28c, 8, 2,
    CLK_MUX_ROUND_CLOSEST, sdio_mux_table⟩,
  ⟨"HI3798MV200_FEMAC_MUX", "femac_mux", femac_mux_p, femac_mux_p.length, 0, 0xd0, 2, 1, 0,
    mux_table_1bit⟩,
  ⟨"HI3798MV200_GMAC_MUX", "gmac_mux", gmac_mux_p, gmac_mux_p.length, 0, 0xcc, 7, 1, 0,
    mux_table_1bit⟩,
  ⟨"HI3798MV200_EXT_NETPHY_CLK", "ext_netphy_mux", ext_netphy_mux_p, ext_netphy_mux_p.length, 0,
    0xcc, 6, 1, 0, mux_table_1bit⟩
]

/-- Table `mmc_phase_regvals[]`. -/
def mmc_phase_regvals : List Nat := [0, 1, 2, 3, 4, 5, 6, 7]

/-- Table `mmc_phase_degrees[]`. -/
def mmc_phase_degrees : List Nat := [0, 45, 90, 135, 180, 225, 270, 315]

/-- Table `hi3798mv200_phase_clks[]`, in source order. -/
def hi3798mv200_phase_clks : List hisi_phase_clock := [
  ⟨"HI3798MV200_SDIO0_SAMPLE_CLK", "sdio0_sample", (some "clk_sdio0_ciu"), 0, 0x9c, 12, 3,
    mmc_phase_degrees, mmc_phase_regvals, mmc_phase_regvals.length⟩,
  ⟨"HI3798MV200_SDIO0_DRV_CLK", "sdio0_drive", (some "clk_sdio0_ciu"), 0, 0x9c, 16, 3,
    mmc_phase_degrees, mmc_phase_regvals, mmc_phase_regvals.length⟩,
  ⟨"HI3798MV200_SDIO1_SAMPLE_CLK", "sdio1_sample", (some "clk_sdio1_ciu"), 0, 0x28c, 12, 3,
    mmc_phase_degrees, mmc_phase_regvals, mmc_phase_regvals.length⟩,
  ⟨"HI3798MV200_SDIO1_DRV_CLK", "sdio1_drive", (some "clk_sdio1_ciu"), 0, 0x28c, 16, 3,
    mmc_phase_degrees, mmc_phase_regvals, mmc_phase_regvals.length⟩,
  ⟨"HI3798MV200_MMC_SAMPLE_CLK", "mmc_sample", (some "clk_mmc_ciu"), 0, 0xa0, 12, 3,
    mmc_phase_degrees, mmc_phase_regvals, mmc_phase_regvals.length⟩,
  ⟨"HI3798MV200_MMC_DRV_CLK", "mmc_drive", (some "clk_mmc_ciu"), 0, 0xa0, 16, 3,
    mmc_phase_degrees, mmc_phase_regvals, mmc_phase_regvals.length⟩
]

/-- Table `hi3798mv200_gate_clks[]`, in source order. -/
def hi3798mv200_gate_clks : List hisi_gate_clock := [
  ⟨"HI3798MV200_UART2_CLK", "clk_uart2", (some "75m"), CLK_SET_RATE_PARENT, 0x68, 4, 0⟩,
  ⟨"HI3798MV200_UART3_CLK", "clk_uart3", (some "75m"), CLK_SET_RATE_PARENT, 0x68, 6, 0⟩,
  ⟨"HI3798MV200_I2C0_CLK", "clk_i2c0", (some "clk_apb"), CLK_SET_RATE_PARENT, 0x6c, 4, 0⟩,
  ⟨"HI3798MV200_I2C1_CLK", "clk_i2c1", (some "clk_apb"), CLK_SET_RATE_PARENT, 0x6c, 8, 0⟩,
  ⟨"HI3798MV200_I2C2_CLK", "clk_i2c2", (some "clk_apb"), CLK_SET_RATE_PARENT, 0x6c, 12, 0⟩,
  ⟨"HI3798MV200_SPI0_CLK", "clk_spi0", (some "clk_apb"), CLK_SET_RATE_PARENT, 0x70, 0, 0⟩,
  ⟨"HI3798MV200_SCI0_CLK", "clk_sci0", (some "clk_apb"), CLK_SET_RATE_PARENT, 0x74, 0, 0⟩,
  ⟨"HI3798MV200_SCI1_CLK", "clk_sci1", (some "clk_apb"), CLK_SET_RATE_PARENT, 0x74, 2, 0⟩,
  ⟨"HI3798MV200_SDIO0_BIU_CLK", "clk_sdio0_biu", (some "clk_ahb"), CLK_SET_RATE_PARENT, 0x9c, 0,
    0⟩,
  ⟨"HI3798MV200_SDIO0_CIU_CLK", "clk_sdio0_ciu", (some "sdio0_mux"), CLK_SET_RATE_PARENT, 0x9c,
    1, 0⟩,
  ⟨"HI3798MV200_SDIO1_BIU_CLK", "clk_sdio1_biu", (some "clk_ahb"), CLK_SET_RATE_PARENT, 0x28c, 0,
    0⟩,
  ⟨"HI3798MV200_SDIO1_CIU_CLK", "clk_sdio1_ciu", (some "sdio1_mux"), CLK_SET_RATE_PARENT, 0x28c,
    1, 0⟩,
  ⟨"HI3798MV200_MMC_BIU_CLK", "clk_mmc_biu", (some "clk_ahb"), CLK_SET_RATE_PARENT, 0xa0, 0, 0⟩,
  ⟨"HI3798MV200_MMC_CIU_CLK", "clk_mmc_ciu", (some "mmc_mux"), CLK_SET_RATE_PARENT, 0xa0, 1, 0⟩,
  ⟨"HI3798MV200_GMAC_CLK", "clk_gmac", (some "gmac_mux"), CLK_SET_RATE_PARENT, 0xcc, 2, 0⟩,
  ⟨"HI3798MV200_GSF_CLK", "clk_gmacif", (some "clk_ahb"), CLK_SET_RATE_PARENT, 0xcc, 0, 0⟩,
  ⟨"HI3798MV200_ETH_CLK", "clk_femac", (some "femac_mux"), CLK_SET_RATE_PARENT, 0xd0, 1, 0⟩,
  ⟨"HI3798MV200_ETH_BUS_CLK", "clk_femacif", (some "clk_ahb"), CLK_SET_RATE_PARENT, 0xd0, 0, 0⟩,
  ⟨"HI3798MV200_FEPHY_CLK", "clk_fephy", (some "25m"), CLK_SET_RATE_PARENT, 0x388, 0, 0⟩,
  ⟨"HI3798MV200_COMBPHY_CLK", "clk_combphy", (some "combphy_mux"), CLK_SET_RATE_PARENT, 0x188, 0,
    0⟩,
  ⟨"HI3798MV200_USB2_BUS_CLK", "clk_u2_bus", (some "clk_ahb"), CLK_SET_RATE_PARENT, 0xb8, 0, 0⟩,
  ⟨"HI3798MV200_USB2_HST_PHY_CLK", "clk_u2_phy", (some "60m"), CLK_SET_RATE_PARENT, 0xb8, 4, 0⟩,
  ⟨"HI3798MV200_USB2_12M_CLK", "clk_u2_12m", (some "12m"), CLK_SET_RATE_PARENT, 0xb8, 2, 0⟩,
  ⟨"HI3798MV200_USB2_48M_CLK", "clk_u2_48m", (some "48m"), CLK_SET_RATE_PARENT, 0xb8, 1, 0⟩,
  ⟨"HI3798MV200_USB2_UTMI0_CLK", "clk_u2_utmi0", (some "60m"), CLK_SET_RATE_PARENT, 0xb8, 5, 0⟩,
  ⟨"HI3798MV200_USB2_UTMI1_CLK", "clk_u2_utmi1", (some "60m"), CLK_SET_RATE_PARENT, 0xb8, 6, 0⟩,
  ⟨"HI3798MV200_USB2_OTG_UTMI_CLK", "clk_u2_otg_utmi", (some "60m"), CLK_SET_RATE_PARENT, 0xb8,
    3, 0⟩,
  ⟨"HI3798MV200_USB2_PHY1_REF_CLK", "clk_u2_phy1_ref", (some "24m"), CLK_SET_RATE_PARENT, 0xbc,
    0, 0⟩,
  ⟨"HI3798MV200_USB2_PHY2_REF_CLK", "clk_u2_phy2_ref", (some "24m"), CLK_SET_RATE_PARENT, 0xbc,
    2, 0⟩,
  ⟨"HI3798MV200_USB3_GM_CLK", "clk_u3_gm", (some "clk_ahb"), CLK_SET_RATE_PARENT, 0xb0, 6, 0⟩,
  ⟨"HI3798MV200_USB3_GS_CLK", "clk_u3_gs", (some "clk_ahb"), CLK_SET_RATE_PARENT, 0xb0, 5, 0⟩,
  ⟨"HI3798MV200_USB3_BUS_CLK", "clk_u3_bus", (some "clk_ahb"), CLK_SET_RATE_PARENT, 0xb0, 0, 0⟩,
  ⟨"HI3798MV200_USB3_SUSPEND_CLK", "clk_u3_suspend", none, CLK_SET_RATE_PARENT, 0xb0, 2, 0⟩,
  ⟨"HI3798MV200_USB3_PIPE_CLK", "clk_u3_pipe", none, CLK_SET_RATE_PARENT, 0xb0, 3, 0⟩,
  ⟨"HI3798MV200_USB3_REF_CLK", "clk_u3_ref", (some "125m"), CLK_SET_RATE_PARENT, 0xb0, 1, 0⟩,
  ⟨"HI3798MV200_USB3_UTMI_CLK", "clk_u3_utmi", (some "60m"), CLK_SET_RATE_PARENT, 0xb0, 4, 0⟩,
  ⟨"HI3798MV200_WDG0_CLK", "clk_wdg0", (some "clk_osc"), CLK_SET_RATE_PARENT, 0x178, 0, 0⟩
]

/-- Table `hi3798mv200_plls[]`, in source order. -/
def hi3798mv200_plls : List hisi_pll_clock := [
  ⟨"HI3798MV200_APLL_CLK", "apll", (some "clk_osc"), CLK_IS_CRITICAL, 0x0⟩,
  ⟨"HI3798MV200_BPLL_CLK", "bpll", (some "clk_osc"), CLK_IS_CRITICAL, 0x8⟩,
  ⟨"HI3798MV200_DPLL_CLK", "dpll", (some "clk_osc"), CLK_IS_CRITICAL, 0x10⟩,
  ⟨"HI3798MV200_VPLL_CLK", "vpll", (some "clk_osc"), CLK_IS_CRITICAL, 0x20⟩,
  ⟨"HI3798MV200_HPLL_CLK", "hpll", (some "clk_osc"), CLK_IS_CRITICAL, 0x28⟩,
  ⟨"HI3798MV200_EPLL_CLK", "epll", (some "clk_osc"), CLK_IS_CRITICAL, 0x30⟩,
  ⟨"HI3798MV200_QPLL_CLK", "qpll", (some "clk_osc"), CLK_IS_CRITICAL, 0x38⟩
]

/-- Table `uart0_mux_p[]`. -/
def uart0_mux_p : List String :=
  ["3m", "75m"]

/-- Table `mcu_bus_mux_p[]`. -/
def mcu_bus_mux_p : List String :=
  ["24m", "200m", "6m"]

/-- Table `hi3798mv200_sysctrl_mux_clks[]`, in source order. -/
def hi3798mv200_sysctrl_mux_clks : List hisi_mux_clock := [
  ⟨"HI3798MV200_UART0_MUX", "uart0_mux", uart0_mux_p, uart0_mux_p.length, CLK_SET_RATE_PARENT,
    0x48, 29, 1, 0, mux_table_1bit⟩,
  ⟨"HI3798MV200_MCU_BUS_CLK", "mcu_bus_mux", mcu_bus_mux_p, mcu_bus_mux_p.length,
    CLK_SET_RATE_PARENT, 0x0, 0, 2, 0, mux_table_2bit_pattern1⟩
]

/-- Table `hi3798mv200_sysctrl_gate_clks[]`, in source order. -/
def hi3798mv200_sysctrl_gate_clks : List hisi_gate_clock := [
  ⟨"HI3798MV200_MCE_CLK", "clk_mce", (some "mcu_bus_mux"), CLK_SET_RATE_PARENT, 0x48, 0, 0⟩,
  ⟨"HI3798MV200_IR_CLK", "clk_ir", (some "clk_osc"), CLK_SET_RATE_PARENT, 0x48, 4, 0⟩,
  ⟨"HI3798MV200_TIMER01_CLK", "clk_timer01", (some "clk_osc"), CLK_SET_RATE_PARENT, 0x48, 6, 0⟩,
  ⟨"HI3798MV200_UART0_CLK", "clk_uart0", (some "uart0_mux"), CLK_SET_RATE_PARENT, 0x48, 12, 0⟩
]

/-! ## Mux and phase nodes built from the table rows -/

/-- Errno `ENOMEM`. -/
def ENOMEM : Int := 12

/-- Complement of a `u32` value (`~x` on `u32`). -/
def u32_not (x : Nat) : Nat := (2 ^ 32 - 1) ^^^ u32 x

/-- Conversion of an `int` to `u8`. -/
def u8_of_int (i : Int) : Nat := (i % 2 ^ 8).toNat

/-- Conversion of an `int` to `u32`. -/
def u32_of_int (i : Int) : Nat := (i % 2 ^ 32).toNat

/-- Modelled from the spec: `struct clk_mux` (`linux/clk-provider.h`, not under `src/`),
with the number of parents that the clock core keeps for the node. -/
structure clk_mux where
  reg : Nat
  table : List Nat
  mask : Nat
  shift : Nat
  flags : Nat
  num_parents : Nat
  deriving DecidableEq, Repr

/-- Modelled from the spec: the node that `hisi_clk_register_mux` (`clk.c`, not under
`src/`) hands to `clk_register_mux_table` for one table row: the register is `base + offset`
and the mask is `BIT(width) - 1`. -/
def hisi_clk_register_mux_node (base : Nat) (clk : hisi_mux_clock) : clk_mux :=
  { reg := base + clk.offset, table := clk.table, mask := u32 (BIT clk.width - 1),
    shift := u8 clk.shift, flags := u8 clk.mux_flags, num_parents := u8 clk.num_parents }

/-- Modelled from the spec: `clk_mux_index_to_val` (`drivers/clk/clk-mux.c`, not under
`src/`) for a mux with a raw-value table: "the raw-value table entry for the selected
parent". -/
def clk_mux_index_to_val (table : List Nat) (index : Nat) : Except Fault Nat :=
  match table.get? index with
  | some val => .ok (u32 val)
  | none => .error .out_of_bounds

/-- The loop `for (i = 0; i < num_parents; i++) if (table[i] == val) return i;` of
`clk_mux_val_to_index`, with `n` iterations left from index `i`. -/
def clk_mux_val_to_index_loop (table : List Nat) (val : Nat) : Nat → Nat → Except Fault Int
  | 0, _ => .ok (-EINVAL)
  | n + 1, i =>
    match table.get? i with
    | none => .error .out_of_bounds
    | some t =>
      if u32 t = val then .ok (i : Int)
      else clk_mux_val_to_index_loop table val n (i + 1)

/-- Modelled from the spec: `clk_mux_val_to_index` (`drivers/clk/clk-mux.c`, not under
`src/`) for a mux with a raw-value table: the first index whose table value equals the
field, `-EINVAL` when there is none. -/
def clk_mux_val_to_index (table : List Nat) (num_parents : Nat) (val : Nat) :
    Except Fault Int :=
  clk_mux_val_to_index_loop table val num_parents 0

/-- Modelled from the spec: `clk_mux_get_parent` (`drivers/clk/clk-mux.c`, not under
`src/`): the field is read and decoded through the table; the result is a `u8`. -/
def clk_mux_get_parent (mux : clk_mux) (io : Regs) : Except Fault Nat :=
  let val := readl io mux.reg >>> mux.shift
  let val := val &&& mux.mask
  match clk_mux_val_to_index mux.table mux.num_parents val with
  | .error e => .error e
  | .ok index => .ok (u8_of_int index)

/-- Modelled from the spec: `clk_mux_set_parent` (`drivers/clk/clk-mux.c`, not under `src/`)
for a mux without `CLK_MUX_HIWORD_MASK`: "Set-parent writes the raw-value table entry for
the selected parent into the field". -/
def clk_mux_set_parent (mux : clk_mux) (io : Regs) (index : Nat) : Except Fault Int × Regs :=
  match clk_mux_index_to_val mux.table (u8 index) with
  | .error e => (.error e, io)
  | .ok val =>
    let reg := readl io mux.reg
    let reg := reg &&& u32_not (u32 (mux.mask <<< mux.shift))
    let val := u32 (val <<< mux.shift)
    let reg := reg ||| val
    (.ok 0, writel reg mux.reg io)

/-- Modelled from the spec: `struct clk_hisi_phase` (`clk-hisi-phase.c`, not under
`src/`). -/
structure clk_hisi_phase where
  reg : Nat
  phase_degrees : List Nat
  phase_regvals : List Nat
  phase_num : Nat
  mask : Nat
  shift : Nat
  flags : Nat
  deriving DecidableEq, Repr

/-- Modelled from the spec: the node that `clk_register_hisi_phase` (`clk-hisi-phase.c`,
not under `src/`) builds for one table row: the register is `base + offset`, the mask is
`(BIT(width) - 1) << shift`, and the `flags` byte of the zeroed node is left as it is. -/
def clk_register_hisi_phase_node (base : Nat) (clks : hisi_phase_clock) : clk_hisi_phase :=
  { reg := base + clks.offset, phase_degrees := clks.phase_degrees,
    phase_regvals := clks.phase_regvals, phase_num := u8 clks.phase_num,
    mask := u32 ((BIT clks.width - 1) <<< clks.shift), shift := u8 clks.shift,
    flags := 0 }

/-- The loop of `hisi_phase_regval_to_degrees`, with `n` iterations left from index `i`. -/
def hisi_phase_regval_to_degrees_loop (phase : clk_hisi_phase) (regval : Nat) :
    Nat → Nat → Except Fault Int
  | 0, _ => .ok (-EINVAL)
  | n + 1, i =>
    match phase.phase_regvals.get? i, phase.phase_degrees.get? i with
    | some r, some d =>
      if u32 r = regval then .ok (d : Int)
      else hisi_phase_regval_to_degrees_loop phase regval n (i + 1)
    | some r, none =>
      if u32 r = regval then .error .out_of_bounds
      else hisi_phase_regval_to_degrees_loop phase regval n (i + 1)
    | none, _ => .error .out_of_bounds

/-- Modelled from the spec: `hisi_phase_regval_to_degrees` (`clk-hisi-phase.c`, not under
`src/`): "maps through rawvalue⁻¹ to degrees"; `-EINVAL` when no row has the raw value. -/
def hisi_phase_regval_to_degrees (phase : clk_hisi_phase) (regval : Nat) : Except Fault Int :=
  hisi_phase_regval_to_degrees_loop phase regval phase.phase_num 0

/-- Modelled from the spec: `hisi_clk_get_phase` (`clk-hisi-phase.c`, not under `src/`):
"get-phase reads the field, maps through rawvalue⁻¹ to degrees, returns that". -/
def hisi_clk_get_phase (phase : clk_hisi_phase) (io : Regs) : Except Fault Int :=
  let regval := readl io phase.reg
  let regval := (regval &&& phase.mask) >>> phase.shift
  hisi_phase_regval_to_degrees phase regval

/-- The loop of `hisi_phase_degrees_to_regval`, with `n` iterations left from index `i`. -/
def hisi_phase_degrees_to_regval_loop (phase : clk_hisi_phase) (degrees : Int) :
    Nat → Nat → Except Fault Int
  | 0, _ => .ok (-EINVAL)
  | n + 1, i =>
    match phase.phase_degrees.get? i, phase.phase_regvals.get? i with
    | some d, some r =>
      if u32 d = u32_of_int degrees then .ok (u32 r : Int)
      else hisi_phase_degrees_to_regval_loop phase degrees n (i + 1)
    | some d, none =>
      if u32 d = u32_of_int degrees then .error .out_of_bounds
      else hisi_phase_degrees_to_regval_loop phase degrees n (i + 1)
    | none, _ => .error .out_of_bounds

/-- Modelled from the spec: `hisi_phase_degrees_to_regval` (`clk-hisi-phase.c`, not under
`src/`): "finds the index where degrees[i] matches"; `-EINVAL` for unknown degrees. -/
def hisi_phase_degrees_to_regval (phase : clk_hisi_phase) (degrees : Int) :
    Except Fault Int :=
  hisi_phase_degrees_to_regval_loop phase degrees phase.phase_num 0

/-- Modelled from the spec: `hisi_clk_set_phase` (`clk-hisi-phase.c`, not under `src/`):
"set-phase takes degrees, finds the index where degrees[i] matches, writes rawvalue[i].
Unknown degrees fail with invalid-argument". -/
def hisi_clk_set_phase (phase : clk_hisi_phase) (io : Regs) (degrees : Int) :
    Except Fault Int × Regs :=
  match hisi_phase_degrees_to_regval phase degrees with
  | .error e => (.error e, io)
  | .ok regval =>
    if regval < 0 then (.ok regval, io)
    else
      let val := readl io phase.reg
      let val := val &&& u32_not phase.mask
      let val := val ||| u32 (regval.toNat <<< phase.shift)
      (.ok 0, writel val phase.reg io)

/-! ## Model of the clock framework and of the device resources -/

/-- The variants of clock tables, one per `hisi_clk_register_<variant>` helper. -/
inductive hisi_clk_variant where
  | fixed_rate
  | fixed_factor
  | mux
  | divider
  | gate
  | phase
  | pll
  deriving DecidableEq, Repr

/-- A group of clocks held by the clock framework: what one call of
`hisi_clk_register_<variant>` registered, told by the variant, the names of the clocks of
the table, the count and the clock-data block. -/
structure hisi_clk_group where
  variant : hisi_clk_variant
  clks : List String
  nums : Nat
  data : Nat
  deriving DecidableEq, Repr

/-- Structure `struct hisi_register_<variant>_clock_params` of `clk-devm.c`: the table (seen
through the names of its clocks), the count and the clock-data block. -/
structure hisi_register_clock_params where
  clks : List String
  nums : Nat
  data : Nat
  deriving DecidableEq, Repr

/-- A device resource: the record together with the release function bound to it by
`devres_alloc`, which is `hisi_release_<variant>_clock` (for phase and PLL clocks the
release of the device-managed registration). -/
structure devres where
  release : hisi_clk_variant
  res : hisi_register_clock_params
  deriving DecidableEq, Repr

/-- Calls into the clock framework and the device-resource core, as they are logged. -/
inductive clk_call where
  | hisi_clk_alloc
  | hisi_clk_register (variant : hisi_clk_variant)
  | hisi_clk_unregister (variant : hisi_clk_variant)
  | of_clk_add_provider
  | of_clk_del_provider
  | devres_alloc
  | devres_free
  | devres_add
  deriving DecidableEq, Repr

/-- The state outside the driver that the registration code acts on: the groups the clock
framework holds (latest first), the nodes that have a published provider, the release
records attached to the device (latest first), the number of records allocated and neither
freed nor attached, and the log of the calls made so far. -/
structure clk_world where
  registered : List hisi_clk_group
  providers : List Nat
  devres_head : List devres
  unattached : Nat
  calls : List clk_call
  deriving DecidableEq, Repr

/-- The results of the fallible calls, which the driver cannot influence: the pointer
returned by `hisi_clk_alloc` (`none` for `NULL`), the return value of each
`hisi_clk_register_<variant>`, the return value of `of_clk_add_provider`, and whether
`devres_alloc` returns a record. -/
structure clk_env where
  hisi_clk_alloc : Option Nat
  hisi_clk_register : hisi_clk_variant → Int
  of_clk_add_provider : Int
  devres_alloc : Bool

/-- Modelled from the spec: `hisi_clk_alloc` (`clk.c`, not under `src/`): "Allocate the
clock-data block". -/
def hisi_clk_alloc (env : clk_env) (w : clk_world) : Option Nat × clk_world :=
  (env.hisi_clk_alloc, { w with calls := w.calls ++ [.hisi_clk_alloc] })

/-- Modelled from the spec: the helpers `hisi_clk_register_fixed_rate`, `_fixed_factor`,
`_mux`, `_divider` and `_gate` (`clk.c`, not under `src/`): "a per-variant register
function that takes a descriptor plus the clock-data block and returns a success/failure
status"; a failing call leaves nothing registered. -/
def hisi_clk_register (env : clk_env) (variant : hisi_clk_variant) (clks : List String)
    (nums : Nat) (data : Nat) (w : clk_world) : Int × clk_world :=
  let w := { w with calls := w.calls ++ [.hisi_clk_register variant] }
  let ret := env.hisi_clk_register variant
  if ret ≠ 0 then (ret, w)
  else (0, { w with registered := ⟨variant, clks, nums, data⟩ :: w.registered })

/-- Modelled from the spec: the helpers `hisi_clk_unregister_<variant>` (`clk.c`, not under
`src/`): the group is taken out of the framework. -/
def hisi_clk_unregister (variant : hisi_clk_variant) (clks : List String) (nums : Nat)
    (data : Nat) (w : clk_world) : clk_world :=
  { w with registered := w.registered.erase ⟨variant, clks, nums, data⟩,
           calls := w.calls ++ [.hisi_clk_unregister variant] }

/-- Modelled from the spec: the common body of the device-scoped helpers
`hisi_clk_register_phase` and `hisi_clk_register_pll` (`clk.c`, not under `src/`):
"device-scoped: teardown is bound to the controlling device's lifetime", so a successful
call also attaches the release record. -/
def hisi_clk_register_scoped (env : clk_env) (variant : hisi_clk_variant)
    (clks : List String) (nums : Nat) (data : Nat) (w : clk_world) : Int × clk_world :=
  let w := { w with calls := w.calls ++ [.hisi_clk_register variant] }
  let ret := env.hisi_clk_register variant
  if ret ≠ 0 then (ret, w)
  else (0, { w with registered := ⟨variant, clks, nums, data⟩ :: w.registered,
                    devres_head := ⟨variant, ⟨clks, nums, data⟩⟩ :: w.devres_head })

/-- Modelled from the spec: `of_clk_add_provider` (`drivers/clk/clk.c`, not under `src/`):
"Publish the clock-data block to the framework under the controller's identifier". -/
def of_clk_add_provider (env : clk_env) (np : Nat) (w : clk_world) : Int × clk_world :=
  let w := { w with calls := w.calls ++ [.of_clk_add_provider] }
  let ret := env.of_clk_add_provider
  if ret ≠ 0 then (ret, w)
  else (0, { w with providers := np :: w.providers })

/-- Modelled from the spec: `of_clk_del_provider` (`drivers/clk/clk.c`, not under
`src/`). -/
def of_clk_del_provider (np : Nat) (w : clk_world) : clk_world :=
  { w with providers := w.providers.erase np, calls := w.calls ++ [.of_clk_del_provider] }

/-- Modelled from the spec: `devres_alloc` (`drivers/base/devres.c`, not under `src/`):
"allocates a small record describing the registration"; `false` stands for `NULL`. -/
def devres_alloc (env : clk_env) (w : clk_world) : Bool × clk_world :=
  let w := { w with calls := w.calls ++ [.devres_alloc] }
  if env.devres_alloc then (true, { w with unattached := w.unattached + 1 })
  else (false, w)

/-- Modelled from the spec: `devres_free` (`drivers/base/devres.c`, not under `src/`): "the
record is freed". -/
def devres_free (w : clk_world) : clk_world :=
  { w with unattached := w.unattached - 1, calls := w.calls ++ [.devres_free] }

/-- Modelled from the spec: `devres_add` (`drivers/base/devres.c`, not under `src/`):
"attaches a release callback to the device". -/
def devres_add (node : devres) (w : clk_world) : clk_world :=
  { w with devres_head := node :: w.devres_head, unattached := w.unattached - 1,
           calls := w.calls ++ [.devres_add] }

/-- Modelled from the spec: `hisi_clk_register_phase` (`clk.c`, not under `src/`), the
device-scoped registration of a phase table. -/
def hisi_clk_register_phase (env : clk_env) (clks : List hisi_phase_clock) (nums : Nat)
    (data : Nat) (w : clk_world) : Int × clk_world :=
  hisi_clk_register_scoped env .phase (clks.map (·.name)) nums data w

/-- Modelled from the spec: `hisi_clk_register_pll` (`clk.c`, not under `src/`), the
device-scoped registration of a PLL table. -/
def hisi_clk_register_pll (env : clk_env) (clks : List hisi_pll_clock) (nums : Nat)
    (data : Nat) (w : clk_world) : Int × clk_world :=
  hisi_clk_register_scoped env .pll (clks.map (·.name)) nums data w

/-- Modelled from the spec: `hisi_clk_register_fixed_rate` (`clk.c`, not under `src/`). -/
def hisi_clk_register_fixed_rate (env : clk_env) (clks : List hisi_fixed_rate_clock)
    (nums : Nat) (data : Nat) (w : clk_world) : Int × clk_world :=
  hisi_clk_register env .fixed_rate (clks.map (·.name)) nums data w

/-- Modelled from the spec: `hisi_clk_register_mux` (`clk.c`, not under `src/`). -/
def hisi_clk_register_mux (env : clk_env) (clks : List hisi_mux_clock) (nums : Nat)
    (data : Nat) (w : clk_world) : Int × clk_world :=
  hisi_clk_register env .mux (clks.map (·.name)) nums data w

/-- Modelled from the spec: `hisi_clk_register_gate` (`clk.c`, not under `src/`). -/
def hisi_clk_register_gate (env : clk_env) (clks : List hisi_gate_clock) (nums : Nat)
    (data : Nat) (w : clk_world) : Int × clk_world :=
  hisi_clk_register env .gate (clks.map (·.name)) nums data w

/-- Modelled from the spec: `hisi_clk_unregister_fixed_rate` (`clk.c`, not under `src/`). -/
def hisi_clk_unregister_fixed_rate (clks : List hisi_fixed_rate_clock) (nums : Nat)
    (data : Nat) (w : clk_world) : clk_world :=
  hisi_clk_unregister .fixed_rate (clks.map (·.name)) nums data w

/-- Modelled from the spec: `hisi_clk_unregister_mux` (`clk.c`, not under `src/`). -/
def hisi_clk_unregister_mux (clks : List hisi_mux_clock) (nums : Nat) (data : Nat)
    (w : clk_world) : clk_world :=
  hisi_clk_unregister .mux (clks.map (·.name)) nums data w

/-- Modelled from the spec: `hisi_clk_unregister_gate` (`clk.c`, not under `src/`). -/
def hisi_clk_unregister_gate (clks : List hisi_gate_clock) (nums : Nat) (data : Nat)
    (w : clk_world) : clk_world :=
  hisi_clk_unregister .gate (clks.map (·.name)) nums data w

/-! ## `clk-devm.c`: device-managed registration -/

/-- Macro `DEFINE_HISI_RELEASE_CLOCK(_variant)`: the body of
`hisi_release_<variant>_clock(dev, res)`. -/
def DEFINE_HISI_RELEASE_CLOCK (variant : hisi_clk_variant) (res : hisi_register_clock_params)
    (w : clk_world) : clk_world :=
  let params := res
  hisi_clk_unregister variant params.clks params.nums params.data w

/-- Macro `DEFINE_DEVM_HISI_CLK_REGISTER(_variant)`: the body of
`devm_hisi_clk_register_<variant>(dev, _variant, nums, data)`, acting on the resources of
the device `dev`. -/
def DEFINE_DEVM_HISI_CLK_REGISTER (variant : hisi_clk_variant) (env : clk_env)
    (clks : List String) (nums : Nat) (data : Nat) (w : clk_world) : Int × clk_world :=
  match devres_alloc env w with
  | (false, w) => (-ENOMEM, w)
  | (true, w) =>
    match hisi_clk_register env variant clks nums data w with
    | (ret, w) =>
      if ret ≠ 0 then
        let w := devres_free w
        (ret, w)
      else
        let params : hisi_register_clock_params := { clks := clks, nums := nums, data := data }
        let w := devres_add ⟨variant, params⟩ w
        (0, w)

/-- Function `devm_hisi_clk_register_fixed_rate`. -/
def devm_hisi_clk_register_fixed_rate := DEFINE_DEVM_HISI_CLK_REGISTER .fixed_rate

/-- Function `devm_hisi_clk_register_fixed_factor`. -/
def devm_hisi_clk_register_fixed_factor := DEFINE_DEVM_HISI_CLK_REGISTER .fixed_factor

/-- Function `devm_hisi_clk_register_mux`. -/
def devm_hisi_clk_register_mux := DEFINE_DEVM_HISI_CLK_REGISTER .mux

/-- Function `devm_hisi_clk_register_divider`. -/
def devm_hisi_clk_register_divider := DEFINE_DEVM_HISI_CLK_REGISTER .divider

/-- Function `devm_hisi_clk_register_gate`. -/
def devm_hisi_clk_register_gate := DEFINE_DEVM_HISI_CLK_REGISTER .gate

/-- Modelled from the spec: the release of one device resource at device teardown
(`drivers/base/devres.c`, not under `src/`): "the callback is invoked with the record and
unregisters in bulk".  Records of `clk-devm.c` run `hisi_release_<variant>_clock`; the
device-managed phase and PLL registrations release their group in the same way. -/
def devres_release (node : devres) (w : clk_world) : clk_world :=
  DEFINE_HISI_RELEASE_CLOCK node.release node.res w

/-! ## `crg-hi3798mv200.c`: registration and teardown of the clock groups -/

/-- Structure `struct hisi_crg_dev` (`crg.h`), with the field that the teardown reads. -/
structure hisi_crg_dev where
  clk_data : Nat
  deriving DecidableEq, Repr

/-- Structure `struct platform_device`, with the device-tree node of the device and the
driver data. -/
structure platform_device where
  of_node : Nat
  drvdata : Option hisi_crg_dev
  deriving DecidableEq, Repr

/-- The value of a `struct hisi_clock_data *` that a register function returns: `ERR_PTR`
of an error code, or the clock-data block. -/
inductive hisi_clock_data_ptr where
  | ERR_PTR (error : Int)
  | clk_data (data : Nat)
  deriving DecidableEq, Repr

/-- Label `unregister_fixed_rate` of `hi3798mv200_clk_register`. -/
def hi3798mv200_clk_register_unregister_fixed_rate (ret : Int) (clk_data : Nat)
    (w : clk_world) : hisi_clock_data_ptr × clk_world :=
  let w := hisi_clk_unregister_fixed_rate hi3798mv200_fixed_rate_clks
    hi3798mv200_fixed_rate_clks.length clk_data w
  (.ERR_PTR ret, w)

/-- Label `unregister_mux` of `hi3798mv200_clk_register`, which falls through to
`unregister_fixed_rate`. -/
def hi3798mv200_clk_register_unregister_mux (ret : Int) (clk_data : Nat)
    (w : clk_world) : hisi_clock_data_ptr × clk_world :=
  let w := hisi_clk_unregister_mux hi3798mv200_mux_clks hi3798mv200_mux_clks.length
    clk_data w
  hi3798mv200_clk_register_unregister_fixed_rate ret clk_data w

/-- Label `unregister_gate` of `hi3798mv200_clk_register`, which falls through to
`unregister_mux`. -/
def hi3798mv200_clk_register_unregister_gate (ret : Int) (clk_data : Nat)
    (w : clk_world) : hisi_clock_data_ptr × clk_world :=
  let w := hisi_clk_unregister_gate hi3798mv200_gate_clks hi3798mv200_gate_clks.length
    clk_data w
  hi3798mv200_clk_register_unregister_mux ret clk_data w

/-- Function `hi3798mv200_clk_register`. -/
def hi3798mv200_clk_register (env : clk_env) (pdev : platform_device) (w : clk_world) :
    hisi_clock_data_ptr × clk_world :=
  match hisi_clk_alloc env w with
  | (none, w) => (.ERR_PTR (-ENOMEM), w)
  | (some clk_data, w) =>
    let (ret, w) := hisi_clk_register_phase env hi3798mv200_phase_clks
      hi3798mv200_phase_clks.length clk_data w
    if ret ≠ 0 then (.ERR_PTR ret, w)
    else
      let (ret, w) := hisi_clk_register_pll env hi3798mv200_plls hi3798mv200_plls.length
        clk_data w
      if ret ≠ 0 then (.ERR_PTR ret, w)
      else
        let (ret, w) := hisi_clk_register_fixed_rate env hi3798mv200_fixed_rate_clks
          hi3798mv200_fixed_rate_clks.length clk_data w
        if ret ≠ 0 then (.ERR_PTR ret, w)
        else
          let (ret, w) := hisi_clk_register_mux env hi3798mv200_mux_clks
            hi3798mv200_mux_clks.length clk_data w
          if ret ≠ 0 then hi3798mv200_clk_register_unregister_fixed_rate ret clk_data w
          else
            let (ret, w) := hisi_clk_register_gate env hi3798mv200_gate_clks
              hi3798mv200_gate_clks.length clk_data w
            if ret ≠ 0 then hi3798mv200_clk_register_unregister_mux ret clk_data w
            else
              let (ret, w) := of_clk_add_provider env pdev.of_node w
              if ret ≠ 0 then hi3798mv200_clk_register_unregister_gate ret clk_data w
              else (.clk_data clk_data, w)

/-- Function `hi3798mv200_clk_unregister`. -/
def hi3798mv200_clk_unregister (pdev : platform_device) (w : clk_world) :
    Except Fault Unit × clk_world :=
  let crg := pdev.drvdata
  let w := of_clk_del_provider pdev.of_node w
  match crg with
  | none => (.error .null_deref, w)
  | some crg =>
    let w := hisi_clk_unregister_gate hi3798mv200_gate_clks hi3798mv200_gate_clks.length
      crg.clk_data w
    let w := hisi_clk_unregister_mux hi3798mv200_mux_clks hi3798mv200_mux_clks.length
      crg.clk_data w
    let w := hisi_clk_unregister_fixed_rate hi3798mv200_fixed_rate_clks
      hi3798mv200_fixed_rate_clks.length crg.clk_data w
    (.ok (), w)

/-- Label `unregister_mux` of `hi3798mv200_sysctrl_clk_register`. -/
def hi3798mv200_sysctrl_clk_register_unregister_mux (ret : Int) (clk_data : Nat)
    (w : clk_world) : hisi_clock_data_ptr × clk_world :=
  let w := hisi_clk_unregister_mux hi3798mv200_sysctrl_mux_clks
    hi3798mv200_sysctrl_mux_clks.length clk_data w
  (.ERR_PTR ret, w)

/-- Label `unregister_gate` of `hi3798mv200_sysctrl_clk_register`, which falls through to
`unregister_mux`. -/
def hi3798mv200_sysctrl_clk_register_unregister_gate (ret : Int) (clk_data : Nat)
    (w : clk_world) : hisi_clock_data_ptr × clk_world :=
  let w := hisi_clk_unregister_gate hi3798mv200_sysctrl_gate_clks
    hi3798mv200_sysctrl_gate_clks.length clk_data w
  hi3798mv200_sysctrl_clk_register_unregister_mux ret clk_data w

/-- Function `hi3798mv200_sysctrl_clk_register`. -/
def hi3798mv200_sysctrl_clk_register (env : clk_env) (pdev : platform_device)
    (w : clk_world) : hisi_clock_data_ptr × clk_world :=
  match hisi_clk_alloc env w with
  | (none, w) => (.ERR_PTR (-ENOMEM), w)
  | (some clk_data, w) =>
    let (ret, w) := hisi_clk_register_mux env hi3798mv200_sysctrl_mux_clks
      hi3798mv200_sysctrl_mux_clks.length clk_data w
    if ret ≠ 0 then (.ERR_PTR ret, w)
    else
      let (ret, w) := hisi_clk_register_gate env hi3798mv200_sysctrl_gate_clks
        hi3798mv200_sysctrl_gate_clks.length clk_data w
      if ret ≠ 0 then hi3798mv200_sysctrl_clk_register_unregister_mux ret clk_data w
      else
        let (ret, w) := of_clk_add_provider env pdev.of_node w
        if ret ≠ 0 then hi3798mv200_sysctrl_clk_register_unregister_gate ret clk_data w
        else (.clk_data clk_data, w)

/-- Function `hi3798mv200_sysctrl_clk_unregister`. -/
def hi3798mv200_sysctrl_clk_unregister (pdev : platform_device) (w : clk_world) :
    Except Fault Unit × clk_world :=
  let crg := pdev.drvdata
  let w := of_clk_del_provider pdev.of_node w
  match crg with
  | none => (.error .null_deref, w)
  | some crg =>
    let w := hisi_clk_unregister_gate hi3798mv200_sysctrl_gate_clks
      hi3798mv200_sysctrl_gate_clks.length crg.clk_data w
    let w := hisi_clk_unregister_mux hi3798mv200_sysctrl_mux_clks
      hi3798mv200_sysctrl_mux_clks.length crg.clk_data w
    (.ok (), w)

/-- The clock names that the Hi3798MV200 tables define: the names of the rows of the
fixed-rate, mux, phase, gate and PLL tables of the core CRG and of the mux and gate tables
of sysctrl. -/
def hi3798mv200_clk_names : List String :=
  hi3798mv200_fixed_rate_clks.map (·.name) ++ hi3798mv200_mux_clks.map (·.name) ++
  hi3798mv200_phase_clks.map (·.name) ++ hi3798mv200_gate_clks.map (·.name) ++
  hi3798mv200_plls.map (·.name) ++ hi3798mv200_sysctrl_mux_clks.map (·.name) ++
  hi3798mv200_sysctrl_gate_clks.map (·.name)

/-- The parent names that the rows of the mux, gate, phase and PLL tables of the core CRG
and of sysctrl refer to, in table order; a `NULL` parent contributes nothing. -/
def hi3798mv200_parent_names : List String :=
  ((hi3798mv200_mux_clks ++ hi3798mv200_sysctrl_mux_clks).map (·.parent_names)).flatten ++
  (hi3798mv200_gate_clks ++ hi3798mv200_sysctrl_gate_clks).filterMap (·.parent_name) ++
  hi3798mv200_phase_clks.filterMap (·.parent_names) ++
  hi3798mv200_plls.filterMap (·.parent_name)

/-- The enumerators of `enum hi3798mv2x_ioconfig_pins` after `INVALID = -1`, each with its
name and its value, in source order. -/
def hi3798mv2x_ioconfig_pins_enum : List (String × Nat) :=
  [("Y19", PIN.Y19), ("W19", PIN.W19), ("AA20", PIN.AA20), ("Y20", PIN.Y20), ("V19", PIN.V19),
   ("Y21", PIN.Y21), ("W20", PIN.W20), ("W21", PIN.W21), ("V20", PIN.V20), ("V21", PIN.V21),
   ("U20", PIN.U20), ("U21", PIN.U21), ("T18", PIN.T18), ("T19", PIN.T19), ("T20", PIN.T20),
   ("R20", PIN.R20), ("R21", PIN.R21), ("P20", PIN.P20), ("R19", PIN.R19), ("K18", PIN.K18),
   ("J17", PIN.J17), ("J18", PIN.J18), ("H17", PIN.H17), ("H18", PIN.H18), ("K20", PIN.K20),
   ("K19", PIN.K19), ("J20", PIN.J20), ("J19", PIN.J19), ("H21", PIN.H21), ("H20", PIN.H20),
   ("H19", PIN.H19), ("G20", PIN.G20), ("G19", PIN.G19), ("F21", PIN.F21), ("F20", PIN.F20),
   ("F19", PIN.F19), ("E20", PIN.E20), ("E19", PIN.E19), ("D21", PIN.D21), ("E18", PIN.E18),
   ("C20", PIN.C20), ("D19", PIN.D19), ("B21", PIN.B21), ("B18", PIN.B18), ("C17", PIN.C17),
   ("B17", PIN.B17), ("A17", PIN.A17), ("C16", PIN.C16), ("B16", PIN.B16), ("B4", PIN.B4),
   ("C4", PIN.C4), ("A3", PIN.A3), ("B3", PIN.B3), ("A2", PIN.A2), ("B2", PIN.B2),
   ("A6", PIN.A6), ("C6", PIN.C6), ("C5", PIN.C5), ("C3", PIN.C3), ("D4", PIN.D4),
   ("D3", PIN.D3), ("B1", PIN.B1), ("C2", PIN.C2), ("C1", PIN.C1), ("A5", PIN.A5), ("D5", PIN.D5)]

/-- The pin word does not hold the invalid bias combination: pull-up (bit 12) and pull-down
(bit 13) are not both set. -/
def bias_not_invalid (w : Nat) : Prop := ¬ (w.testBit 12 = true ∧ w.testBit 13 = true)

/-! ## `pinctrl-hi3798mv2x.c`: the per-function pin groups -/

/-- A row of `hi3798mv2x_ioconfig_function_tbl[]`: the designator (the function id that
indexes the row), the pin names of the group (`none` for `NULL`) and the declared count. -/
structure hi3798mv2x_function_desc where
  func : Nat
  pins : Option (List String)
  cnt : Nat
  deriving DecidableEq, Repr

/-- Table `hi3798mv2x_ioconfig_function_tbl[]`, in source order. -/
def hi3798mv2x_ioconfig_function_tbl : List hi3798mv2x_function_desc := [
  ⟨ HI3798MV2X_GPIO, none, 0⟩,
  ⟨ HI3798MV2X_BOOT_SEL, (some ["AA20", "C3", "B1"]), 3⟩,
  ⟨ HI3798MV2X_CLKOUT_25M, (some ["A5"]), 1⟩,
  ⟨ HI3798MV2X_EMMC, (some ["V19", "Y21", "W20", "W21", "V20", "V21", "U20", "U21", "T18", "T20",
    "R20", "R21"]), 12⟩,
  ⟨ HI3798MV2X_FE_LED, (some ["A6", "C6"]), 2⟩,
  ⟨ HI3798MV2X_HDMITX, (some ["B17", "A17", "C16", "B16"]), 4⟩,
  ⟨ HI3798MV2X_I2C_SCL, (some ["R19", "K20", "F19", "E19", "C20", "D19"]), 6⟩,
  ⟨ HI3798MV2X_I2C_SDA, (some ["P20", "H18", "E20", "D19", "B21"]), 5⟩,
  ⟨ HI3798MV2X_I2S_CLK, (some ["J20", "H21", "H20", "G19", "F21", "F20", "F19", "E19", "D21",
    "D19"]), 10⟩,
  ⟨ HI3798MV2X_I2S_DATA, (some ["H21", "H20", "H19", "G20", "F21", "C20", "B21"]), 7⟩,
  ⟨ HI3798MV2X_I2S_WS, (some ["J19", "H19", "G19", "E20", "E18"]), 5⟩,
  ⟨ HI3798MV2X_JTAG, (some ["K20", "K19", "J20", "J19", "H21", "B18"]), 6⟩,
  ⟨ HI3798MV2X_NAND, (some ["Y19", "W19", "AA20", "Y20", "V19", "Y21", "W20", "W21", "V20",
    "V21", "U20", "U21", "T18", "T19", "T20", "R20", "R21"]), 17⟩,
  ⟨ HI3798MV2X_PMC, (some ["P20", "R19", "D5"]), 3⟩,
  ⟨ HI3798MV2X_RGMII, (some ["B4", "C4", "A3", "B3", "A2", "B2", "A6", "C6", "C5", "C3", "D4",
    "D3", "B1", "C2", "C1", "A5", "D5"]), 17⟩,
  ⟨ HI3798MV2X_RMII, (some ["B4", "C4", "A3", "B3", "A2", "B2", "C5", "B1", "C2", "C1"]), 10⟩,
  ⟨ HI3798MV2X_SATA, (some ["K18", "J17"]), 2⟩,
  ⟨ HI3798MV2X_SDIO, (some ["F20", "F19", "E20", "E19", "D21", "E18", "C20", "D19", "B21", "B4",
    "C4", "A3", "B3", "A2", "B2", "C5", "C2", "C1"]), 18⟩,
  ⟨ HI3798MV2X_SIM, (some ["K18", "J17", "J18", "H17", "H18", "K20", "K19", "J20", "J19",
    "H21"]), 10⟩,
  ⟨ HI3798MV2X_SPDIF, (some ["C17"]), 1⟩,
  ⟨ HI3798MV2X_SPI, (some ["K20", "K19", "J20", "J19"]), 4⟩,
  ⟨ HI3798MV2X_SPI_FLASH, (some ["H20", "H19", "G20", "G19", "F21", "F20"]), 6⟩,
  ⟨ HI3798MV2X_TSI0_D0, (some ["E19"]), 1⟩,
  ⟨ HI3798MV2X_TSI0_D1, (some ["E19"]), 1⟩,
  ⟨ HI3798MV2X_TSI0_DATA, (some ["K18", "J17", "J18", "H17", "H18", "F19", "E20", "D21", "D19"]),
    9⟩,
  ⟨ HI3798MV2X_TSI1_DATA, (some ["J17", "J18", "H19", "G20", "E18"]), 5⟩,
  ⟨ HI3798MV2X_TSI2_DATA, (some ["H18"]), 1⟩,
  ⟨ HI3798MV2X_TSI3_DATA, (some ["J18"]), 1⟩,
  ⟨ HI3798MV2X_TSO, (some ["H20", "H19", "G20", "G19"]), 4⟩,
  ⟨ HI3798MV2X_TSI_CLK, (some ["K18", "H17", "G19", "F19", "D21", "E18", "C20", "B21"]), 8⟩,
  ⟨ HI3798MV2X_TSI_SYNC, (some ["J17", "H19", "E19"]), 3⟩,
  ⟨ HI3798MV2X_TSI_VALID, (some ["J17", "H17", "H18", "F21", "D21", "E18", "C20"]), 7⟩,
  ⟨ HI3798MV2X_UART, (some ["K18", "J17", "J18", "H17", "K19", "J20", "J19", "H21", "A6", "C6",
    "D4", "D3"]), 12⟩
]

/-! ## Register bits owned by the clock nodes -/

/-- A run of `width` bits that starts at bit `shift` of the 32-bit register at byte offset
`offset` of a controller. -/
structure clk_field where
  offset : Nat
  shift : Nat
  width : Nat
  deriving DecidableEq, Repr

/-- The field holds the bit `bit` of the register at `offset`. -/
def clk_field.covers (f : clk_field) (offset bit : Nat) : Prop :=
  f.offset = offset ∧ f.shift ≤ bit ∧ bit < f.shift + f.width

/-- The selector field of a mux row. -/
def hisi_mux_clock.fields (clk : hisi_mux_clock) : List clk_field :=
  [⟨clk.offset, clk.shift, clk.width⟩]

/-- The phase field of a phase row. -/
def hisi_phase_clock.fields (clk : hisi_phase_clock) : List clk_field :=
  [⟨clk.offset, clk.shift, clk.width⟩]

/-- The gate bit of a gate row. -/
def hisi_gate_clock.fields (clk : hisi_gate_clock) : List clk_field :=
  [⟨clk.offset, clk.bit_idx, 1⟩]

/-- The two configuration words of a PLL row: the 8 bytes that start at its base. -/
def hisi_pll_clock.fields (clk : hisi_pll_clock) : List clk_field :=
  [⟨clk.offset + HISI_PLL_CFG 0, 0, 32⟩, ⟨clk.offset + HISI_PLL_CFG 1, 0, 32⟩]

/-- The clock nodes of the core CRG that control register bits, each with its name and its
fields: the rows of the mux, phase, gate and PLL tables. -/
def hi3798mv200_clk_fields : List (String × List clk_field) :=
  hi3798mv200_mux_clks.map (fun clk => (clk.name, clk.fields)) ++
  hi3798mv200_phase_clks.map (fun clk => (clk.name, clk.fields)) ++
  hi3798mv200_gate_clks.map (fun clk => (clk.name, clk.fields)) ++
  hi3798mv200_plls.map (fun clk => (clk.name, clk.fields))

/-- The clock nodes of sysctrl that control register bits: the rows of its mux and gate
tables. -/
def hi3798mv200_sysctrl_clk_fields : List (String × List clk_field) :=
  hi3798mv200_sysctrl_mux_clks.map (fun clk => (clk.name, clk.fields)) ++
  hi3798mv200_sysctrl_gate_clks.map (fun clk => (clk.name, clk.fields))

/-! ## `pwn-hisi-pmc.c`: the PWM of the PMC core -/

/-- Conversion to `u16`. -/
def u16 (x : Nat) : Nat := x % 2 ^ 16

/-- Constant `HISI_PWM_PERIOD`. -/
def HISI_PWM_PERIOD : Nat := GENMASK 15 0

/-- Constant `HISI_PWM_DUTY`. -/
def HISI_PWM_DUTY : Nat := GENMASK 31 16

/-- Modelled from the spec: the constant `NSEC_PER_SEC` (`vdso/time64.h`) is not under
`src/`; it is the number of nanoseconds in a second. -/
def NSEC_PER_SEC : Nat := 1000000000

/-- Modelled from the spec: `enum pwm_polarity` (`linux/pwm.h`, not under `src/`). -/
inductive pwm_polarity where
  | PWM_POLARITY_NORMAL
  | PWM_POLARITY_INVERSED
  deriving DecidableEq, Repr

/-- Modelled from the spec: `struct pwm_state` (`linux/pwm.h`, not under `src/`), with the
fields that the driver uses: `period` and `duty_cycle` are `u64` nanoseconds. -/
structure pwm_state where
  period : Nat
  duty_cycle : Nat
  polarity : pwm_polarity
  enabled : Bool
  deriving DecidableEq, Repr

/-- Structure `struct hisi_pmc_pwm`: the address of the PWM register and the clock rate
(`ulong`). -/
structure hisi_pmc_pwm where
  base : Nat
  rate : Nat
  deriving DecidableEq, Repr

/-- Modelled from the spec: `mul_u64_u64_div_u64` (`linux/math64.h`, not under `src/`):
`a * b / c` with the product formed without truncation and the quotient kept to 64 bits; a
zero divisor is undefined. -/
def mul_u64_u64_div_u64 (a b c : Nat) : Except Fault Nat :=
  if u64 c = 0 then .error .div_by_zero
  else .ok (u64 (u64 a * u64 b / u64 c))

/-- Modelled from the spec: the macro `DIV64_U64_ROUND_CLOSEST` (`linux/math64.h`, not
under `src/`): `div64_u64(dividend + divisor / 2, divisor)` on `u64`; a zero divisor is
undefined. -/
def DIV64_U64_ROUND_CLOSEST (dividend divisor : Nat) : Except Fault Nat :=
  let tmp := u64 divisor
  if tmp = 0 then .error .div_by_zero
  else .ok (u64 (u64 dividend + tmp / 2) / tmp)

/-- Function `hisi_pmc_pwm_apply`: returns the C return value (or the fault), together with
the register file reached. -/
def hisi_pmc_pwm_apply (fpwm : hisi_pmc_pwm) (io : Regs) (state : pwm_state) :
    Except Fault Int × Regs :=
  if !state.enabled || state.polarity = .PWM_POLARITY_INVERSED then
    (.ok (-EINVAL), io)
  else
    match mul_u64_u64_div_u64 (ulong fpwm.rate) (u64 state.period) NSEC_PER_SEC with
    | .error e => (.error e, io)
    | .ok period_cycles =>
      let period_cycles := u64 (clamp period_cycles 0 0xFFFF)
      match mul_u64_u64_div_u64 (ulong fpwm.rate) (u64 state.duty_cycle) NSEC_PER_SEC with
      | .error e => (.error e, io)
      | .ok duty_cycles =>
        let duty_cycles := u64 (clamp duty_cycles 0 0xFFFF)
        let reg := u32 (FIELD_PREP HISI_PWM_PERIOD period_cycles |||
          FIELD_PREP HISI_PWM_DUTY duty_cycles)
        (.ok 0, writel reg fpwm.base io)

/-- Function `hisi_pmc_pwm_get_state`: returns the C return value (or the fault), together
with the state filled in. -/
def hisi_pmc_pwm_get_state (fpwm : hisi_pmc_pwm) (io : Regs) (state : pwm_state) :
    Except Fault Int × pwm_state :=
  let reg := readl io fpwm.base
  let period_cycles := u16 (FIELD_GET HISI_PWM_PERIOD reg)
  let duty_cycles := u16 (FIELD_GET HISI_PWM_DUTY reg)
  let state := { state with enabled := true, polarity := .PWM_POLARITY_NORMAL }
  match DIV64_U64_ROUND_CLOSEST (u64 (u64 duty_cycles * NSEC_PER_SEC)) (ulong fpwm.rate) with
  | .error e => (.error e, state)
  | .ok duty_cycle =>
    let state := { state with duty_cycle := u64 duty_cycle }
    match DIV64_U64_ROUND_CLOSEST (u64 (u64 period_cycles * NSEC_PER_SEC))
        (ulong fpwm.rate) with
    | .error e => (.error e, state)
    | .ok period =>
      let state := { state with period := u64 period }
      (.ok 0, state)

/-- The results of the calls of `hisi_pmc_pwm_probe` into the kernel: whether `devm_kzalloc`
returns memory, the mapped base or the error of `devm_platform_ioremap_resource`, the rate of
the clock or the error of `devm_clk_get_enabled`, and the return value of
`devm_pwmchip_add`. -/
structure hisi_pmc_pwm_probe_env where
  devm_kzalloc : Bool
  devm_platform_ioremap_resource : Except Int Nat
  devm_clk_get_enabled : Except Int Nat
  devm_pwmchip_add : Int

/-- Function `hisi_pmc_pwm_probe`: returns the C return value and, when the chip was added,
the `struct hisi_pmc_pwm` that the chip works on. -/
def hisi_pmc_pwm_probe (env : hisi_pmc_pwm_probe_env) : Int × Option hisi_pmc_pwm :=
  if !env.devm_kzalloc then (-ENOMEM, none)
  else
    match env.devm_platform_ioremap_resource with
    | .error e => (e, none)
    | .ok base =>
      match env.devm_clk_get_enabled with
      | .error e => (e, none)
      | .ok clk_rate =>
        let rate := ulong clk_rate
        if rate > NSEC_PER_SEC then (-EINVAL, none)
        else
          let ret := env.devm_pwmchip_add
          if ret < 0 then (ret, none)
          else (0, some { base := base, rate := rate })

/-! ## `clk-pll.c`: registration and the operation table -/

/-- Function `devm_clk_register_hisi_pll`, up to the call of `devm_clk_register`: `ERR_PTR`
of an error code, or the `struct hisi_pll` that is handed to the clock framework, which
`devm_kzalloc` has zeroed and of which only `base` has been set. -/
def devm_clk_register_hisi_pll (devm_kzalloc : Bool) (parent : Option String) (reg : Nat) :
    Except Int hisi_pll :=
  if !devm_kzalloc then .error (-ENOMEM)
  else
    match parent with
    | none => .error (-EINVAL)
    | some _ => .ok { base := reg, postdiv1 := 0, postdiv2 := 0, refdiv := 0, divisor := 0 }

/-- A call of the clock framework through `hisi_pll_ops`. -/
inductive hisi_pll_call where
  | prepare
  | set_rate (rate parent_rate : Nat)
  | determine_rate (rate best_parent_rate : Nat)
  | recalc_rate (parent_rate : Nat)
  deriving DecidableEq, Repr

/-- Table `hisi_pll_ops`: the function that each call runs, acting on the register file and
the `struct hisi_pll`; a fault ends the run. -/
def hisi_pll_ops (call : hisi_pll_call) (s : Regs × hisi_pll) : Except Fault (Regs × hisi_pll) :=
  match call with
  | .prepare =>
    let (_, io, pll) := hisi_pll_prepare s.1 s.2
    .ok (io, pll)
  | .set_rate rate parent_rate =>
    match hisi_pll_set_rate s.1 s.2 rate parent_rate with
    | (.error e, _, _) => .error e
    | (.ok _, io, pll) => .ok (io, pll)
  | .determine_rate rate best_parent_rate =>
    match hisi_pll_determine_rate s.2 ⟨rate, best_parent_rate⟩ with
    | (.error e, _) => .error e
    | (.ok _, _) => .ok s
  | .recalc_rate parent_rate =>
    match hisi_pll_recalc_rate s.1 s.2 parent_rate with
    | .error e => .error e
    | .ok _ => .ok s

/-- A sequence of calls through `hisi_pll_ops`, in order, from a state. -/
def hisi_pll_calls : List hisi_pll_call → Regs × hisi_pll → Except Fault (Regs × hisi_pll)
  | [], s => .ok s
  | call :: calls, s =>
    match hisi_pll_ops call s with
    | .error e => .error e
    | .ok s => hisi_pll_calls calls s

/-- The nanosecond value that `hisi_pmc_pwm_get_state` reports for a count of `cycles` at
`rate` Hz falls short of `cycles` periods of the clock: the division of
`cycles * NSEC_PER_SEC` by `rate` leaves a remainder, and rounding to the closest integer
rounds it down. -/
def hisi_pmc_pwm_reports_short (rate cycles : Nat) : Prop :=
  0 < cycles * NSEC_PER_SEC % rate ∧ cycles * NSEC_PER_SEC % rate + rate / 2 < rate

instance (rate cycles : Nat) : Decidable (hisi_pmc_pwm_reports_short rate cycles) := by
  unfold hisi_pmc_pwm_reports_short
  infer_instance

/-! # Theorems -/

/-! ## Bit-field arithmetic -/

/-- Masking with a run of `m` ones that starts at bit `k` keeps exactly that field. -/
theorem and_shiftLeft_mask (x k m : Nat) :
    x &&& ((2 ^ m - 1) <<< k) = (x / 2 ^ k % 2 ^ m) * 2 ^ k := by
  apply Nat.eq_of_testBit_eq
  intro i
  rw [← Nat.shiftLeft_eq, ← Nat.shiftRight_eq_div_pow]
  simp only [Nat.testBit_and, Nat.testBit_shiftLeft, Nat.testBit_two_pow_sub_one,
    Nat.testBit_mod_two_pow, Nat.testBit_shiftRight]
  by_cases h : k ≤ i
  · simp [h, Nat.add_sub_cancel' h, Bool.and_comm]
  · simp [h]

/-- Extracting the field of `m` bits that starts at bit `k`. -/
theorem field_get_mask (x k m : Nat) :
    (x &&& ((2 ^ m - 1) <<< k)) >>> k = x / 2 ^ k % 2 ^ m := by
  rw [and_shiftLeft_mask, Nat.shiftRight_eq_div_pow, Nat.mul_div_cancel _ (Nat.two_pow_pos k)]

/-- OR-ing a value below `2 ^ k` into a word whose low `k` bits are clear adds it. -/
theorem mul_two_pow_or (a b k : Nat) (h : b < 2 ^ k) : a * 2 ^ k ||| b = a * 2 ^ k + b := by
  rw [Nat.mul_comm a, ← Nat.mul_add_lt_is_or h]

theorem readl_lt (io : Regs) (a : Nat) : readl io a < 2 ^ 32 := by
  unfold readl u32
  exact Nat.mod_lt _ (by decide)

theorem readl_writel_same (v a : Nat) (io : Regs) : readl (writel v a io) a = u32 v := by
  simp [readl, writel, u32]

theorem readl_writel_other (v a b : Nat) (io : Regs) (h : b ≠ a) :
    readl (writel v a io) b = readl io b := by
  simp [readl, writel, h]

theorem writel_other (v a b : Nat) (io : Regs) (h : b ≠ a) : writel v a io b = io b := by
  simp [writel, h]

/-! ## PLL field masks -/

theorem mask_POSTDIV1 : HISI_PLL_POSTDIV1 = (2 ^ 3 - 1) <<< 24 := by decide

theorem shf_POSTDIV1 : __bf_shf HISI_PLL_POSTDIV1 = 24 := by decide

theorem mask_POSTDIV2 : HISI_PLL_POSTDIV2 = (2 ^ 3 - 1) <<< 28 := by decide

theorem shf_POSTDIV2 : __bf_shf HISI_PLL_POSTDIV2 = 28 := by decide

theorem mask_REFDIV : HISI_PLL_REFDIV = (2 ^ 6 - 1) <<< 12 := by decide

theorem shf_REFDIV : __bf_shf HISI_PLL_REFDIV = 12 := by decide

theorem mask_FBDIV : HISI_PLL_FBDIV = (2 ^ 12 - 1) <<< 0 := by decide

theorem shf_FBDIV : __bf_shf HISI_PLL_FBDIV = 0 := by decide

theorem notmask_FRAC : ulong_not HISI_PLL_FRAC = (2 ^ 40 - 1) <<< 24 := by decide

theorem notmask_FBDIV : ulong_not HISI_PLL_FBDIV = (2 ^ 52 - 1) <<< 12 := by decide

theorem FIELD_GET_POSTDIV1 (reg : Nat) :
    FIELD_GET HISI_PLL_POSTDIV1 reg = reg / 2 ^ 24 % 2 ^ 3 := by
  unfold FIELD_GET
  rw [shf_POSTDIV1, mask_POSTDIV1, field_get_mask]

theorem FIELD_GET_POSTDIV2 (reg : Nat) :
    FIELD_GET HISI_PLL_POSTDIV2 reg = reg / 2 ^ 28 % 2 ^ 3 := by
  unfold FIELD_GET
  rw [shf_POSTDIV2, mask_POSTDIV2, field_get_mask]

theorem FIELD_GET_REFDIV (reg : Nat) :
    FIELD_GET HISI_PLL_REFDIV reg = reg / 2 ^ 12 % 2 ^ 6 := by
  unfold FIELD_GET
  rw [shf_REFDIV, mask_REFDIV, field_get_mask]

theorem FIELD_GET_FBDIV (reg : Nat) : FIELD_GET HISI_PLL_FBDIV reg = reg % 2 ^ 12 := by
  unfold FIELD_GET
  rw [shf_FBDIV, mask_FBDIV, field_get_mask]
  simp

theorem FIELD_PREP_FBDIV (val : Nat) : FIELD_PREP HISI_PLL_FBDIV val = val % 2 ^ 12 := by
  unfold FIELD_PREP
  rw [shf_FBDIV, mask_FBDIV]
  simp only [Nat.shiftLeft_zero, Nat.and_pow_two_sub_one_eq_mod, ulong, BITS_PER_LONG]
  omega

theorem clear_FRAC (reg : Nat) (h : reg < 2 ^ 32) :
    u32 (reg &&& ulong_not HISI_PLL_FRAC) = reg / 2 ^ 24 * 2 ^ 24 := by
  rw [notmask_FRAC, and_shiftLeft_mask]
  unfold u32
  omega

theorem clear_FBDIV (reg : Nat) (h : reg < 2 ^ 32) :
    u32 (reg &&& ulong_not HISI_PLL_FBDIV) = reg / 2 ^ 12 * 2 ^ 12 := by
  rw [notmask_FBDIV, and_shiftLeft_mask]
  unfold u32
  omega

/-! ## `hisi_pll_prepare` -/

/-- The result of `hisi_pll_prepare` in arithmetic form. -/
theorem hisi_pll_prepare_eq (io : Regs) (pll : hisi_pll) :
    hisi_pll_prepare io pll =
      (if readl io (pll.base + 4) / 2 ^ 12 % 2 ^ 6 * (readl io pll.base / 2 ^ 24 % 2 ^ 3) *
            (readl io pll.base / 2 ^ 28 % 2 ^ 3) = 0 then -EINVAL else 0,
       writel (readl io pll.base / 2 ^ 24 * 2 ^ 24) pll.base io,
       { pll with
         postdiv1 := readl io pll.base / 2 ^ 24 % 2 ^ 3
         postdiv2 := readl io pll.base / 2 ^ 28 % 2 ^ 3
         refdiv := readl io (pll.base + 4) / 2 ^ 12 % 2 ^ 6
         divisor := readl io (pll.base + 4) / 2 ^ 12 % 2 ^ 6 *
           (readl io pll.base / 2 ^ 24 % 2 ^ 3) * (readl io pll.base / 2 ^ 28 % 2 ^ 3) }) := by
  have h1 : readl (writel (readl io pll.base / 2 ^ 24 * 2 ^ 24) pll.base io) (pll.base + 4)
      = readl io (pll.base + 4) := readl_writel_other _ _ _ _ (by omega)
  have hb1 : ∀ x : Nat, u8 (x % 2 ^ 3) = x % 2 ^ 3 := by intro x; unfold u8; omega
  have hb2 : ∀ x : Nat, u8 (x % 2 ^ 6) = x % 2 ^ 6 := by intro x; unfold u8; omega
  have hb3 : ∀ a b c : Nat, u32 (a % 2 ^ 6 * (b % 2 ^ 3) * (c % 2 ^ 3)) =
      a % 2 ^ 6 * (b % 2 ^ 3) * (c % 2 ^ 3) := by
    intro a b c
    unfold u32
    apply Nat.mod_eq_of_lt
    have ha : a % 2 ^ 6 < 64 := Nat.mod_lt _ (by decide)
    have hb : b % 2 ^ 3 < 8 := Nat.mod_lt _ (by decide)
    have hc : c % 2 ^ 3 < 8 := Nat.mod_lt _ (by decide)
    calc a % 2 ^ 6 * (b % 2 ^ 3) * (c % 2 ^ 3) ≤ 63 * 7 * 7 := by
          apply Nat.mul_le_mul (Nat.mul_le_mul _ _) _ <;> omega
      _ < 2 ^ 32 := by decide
  unfold hisi_pll_prepare
  simp only [HISI_PLL_CFG, Nat.zero_mul, Nat.one_mul, Nat.add_zero, FIELD_GET_POSTDIV1,
    FIELD_GET_POSTDIV2, FIELD_GET_REFDIV, clear_FRAC _ (readl_lt io pll.base), h1, hb1, hb2, hb3]
  split <;> rfl

/-- C5: `hisi_pll_prepare` latches postdiv1 = bits 26:24 and postdiv2 = bits 30:28 of word 0
and refdiv = bits 17:12 of word 1 from the live registers, caches
D = refdiv * postdiv1 * postdiv2, returns either 0 or `-EINVAL`, fails exactly when D = 0,
and whenever it succeeds the cached D is non-zero. -/
theorem hisi_pll_prepare_latches (io : Regs) (pll : hisi_pll) :
    (hisi_pll_prepare io pll).2.2.postdiv1 = readl io (pll.base + HISI_PLL_CFG 0) / 2 ^ 24 % 2 ^ 3 ∧
    (hisi_pll_prepare io pll).2.2.postdiv2 = readl io (pll.base + HISI_PLL_CFG 0) / 2 ^ 28 % 2 ^ 3 ∧
    (hisi_pll_prepare io pll).2.2.refdiv = readl io (pll.base + HISI_PLL_CFG 1) / 2 ^ 12 % 2 ^ 6 ∧
    (hisi_pll_prepare io pll).2.2.divisor =
      (hisi_pll_prepare io pll).2.2.refdiv * (hisi_pll_prepare io pll).2.2.postdiv1 *
        (hisi_pll_prepare io pll).2.2.postdiv2 ∧
    (hisi_pll_prepare io pll).2.2.base = pll.base ∧
    ((hisi_pll_prepare io pll).1 = 0 ∨ (hisi_pll_prepare io pll).1 = -EINVAL) ∧
    ((hisi_pll_prepare io pll).1 ≠ 0 ↔ (hisi_pll_prepare io pll).2.2.divisor = 0) ∧
    ((hisi_pll_prepare io pll).1 = 0 → (hisi_pll_prepare io pll).2.2.divisor ≠ 0) := by
  rw [hisi_pll_prepare_eq]
  simp only [HISI_PLL_CFG, Nat.zero_mul, Nat.one_mul, Nat.add_zero]
  generalize readl io (pll.base + 4) / 2 ^ 12 % 2 ^ 6 = r
  generalize readl io pll.base / 2 ^ 24 % 2 ^ 3 = p1
  generalize readl io pll.base / 2 ^ 28 % 2 ^ 3 = p2
  by_cases h : r * p1 * p2 = 0
  · simp only [h, if_true, EINVAL]
    decide
  · simp only [h, if_false]
    simp
    exact ⟨⟨fun hr => h (by simp [hr]), fun hp => h (by simp [hp])⟩, fun hp => h (by simp [hp])⟩

/-- C6: whether it succeeds or fails, `hisi_pll_prepare` leaves word 0 equal to its
previous value with bits 23:0 cleared and bits 31:24 unchanged, leaves word 1 unchanged,
and touches no other register. -/
theorem hisi_pll_prepare_frame (io : Regs) (pll : hisi_pll) :
    readl (hisi_pll_prepare io pll).2.1 (pll.base + HISI_PLL_CFG 0) % 2 ^ 24 = 0 ∧
    readl (hisi_pll_prepare io pll).2.1 (pll.base + HISI_PLL_CFG 0) / 2 ^ 24 =
      readl io (pll.base + HISI_PLL_CFG 0) / 2 ^ 24 ∧
    readl (hisi_pll_prepare io pll).2.1 (pll.base + HISI_PLL_CFG 1) =
      readl io (pll.base + HISI_PLL_CFG 1) ∧
    ∀ a, a ≠ pll.base + HISI_PLL_CFG 0 → (hisi_pll_prepare io pll).2.1 a = io a := by
  rw [hisi_pll_prepare_eq]
  simp only [HISI_PLL_CFG, Nat.zero_mul, Nat.one_mul, Nat.add_zero]
  have hlt := readl_lt io pll.base
  have hw : readl (writel (readl io pll.base / 2 ^ 24 * 2 ^ 24) pll.base io) pll.base =
      readl io pll.base / 2 ^ 24 * 2 ^ 24 := by
    rw [readl_writel_same]
    unfold u32
    omega
  refine ⟨?_, ?_, ?_, ?_⟩
  · rw [hw]; omega
  · rw [hw]; omega
  · exact readl_writel_other _ _ _ _ (by omega)
  · intro a ha
    exact writel_other _ _ _ _ ha

/-! ## `hisi_pll_recalc_rate` and `hisi_pll_set_rate` -/

theorem ulong_eq_of_lt (x : Nat) (h : x < 2 ^ 64) : ulong x = x := by
  unfold ulong BITS_PER_LONG
  exact Nat.mod_eq_of_lt h

theorem u64_eq_of_lt (x : Nat) (h : x < 2 ^ 64) : u64 x = x := by
  unfold u64
  exact Nat.mod_eq_of_lt h

theorem u32_eq_of_lt (x : Nat) (h : x < 2 ^ 32) : u32 x = x := by
  unfold u32
  exact Nat.mod_eq_of_lt h

/-- A product that fits 64 bits is not changed by converting its left factor. -/
theorem ulong_mul_of_lt (r f : Nat) (h : r * f < 2 ^ 64) : ulong r * f = r * f := by
  rcases Nat.eq_zero_or_pos f with hf | hf
  · simp [hf]
  · rw [ulong_eq_of_lt]
    calc r = r * 1 := (Nat.mul_one r).symm
      _ ≤ r * f := Nat.mul_le_mul_left r hf
      _ < 2 ^ 64 := h

/-- The result of `hisi_pll_recalc_rate` in arithmetic form. -/
theorem hisi_pll_recalc_rate_eq (io : Regs) (pll : hisi_pll) (r : Nat)
    (hD : u32 pll.divisor ≠ 0) :
    hisi_pll_recalc_rate io pll r =
      .ok (ulong (u64 (ulong (ulong r * u32 (readl io (pll.base + 4) % 2 ^ 12))) /
        u32 pll.divisor)) := by
  simp [hisi_pll_recalc_rate, do_div, hD, FIELD_GET_FBDIV, HISI_PLL_CFG, bind, Except.bind,
    pure, Except.pure]

/-- C1 (as amended): for a cached divisor D that is a non-zero `u32` and a parent rate r
whose product with the feedback divider held in bits 11:0 of word 1 fits 64 bits,
`hisi_pll_recalc_rate` returns exactly floor(r * fbdiv / D). -/
theorem hisi_pll_recalc_rate_exact (io : Regs) (pll : hisi_pll) (r : Nat)
    (hD : pll.divisor ≠ 0) (hD32 : pll.divisor < 2 ^ 32)
    (hfit : r * (readl io (pll.base + HISI_PLL_CFG 1) % 2 ^ 12) < 2 ^ 64) :
    hisi_pll_recalc_rate io pll r =
      .ok (r * (readl io (pll.base + HISI_PLL_CFG 1) % 2 ^ 12) / pll.divisor) := by
  have hcfg : pll.base + HISI_PLL_CFG 1 = pll.base + 4 := by simp [HISI_PLL_CFG]
  rw [hcfg] at hfit ⊢
  have hD' : u32 pll.divisor = pll.divisor := u32_eq_of_lt _ hD32
  rw [hisi_pll_recalc_rate_eq io pll r (by rw [hD']; exact hD), hD']
  have hf : u32 (readl io (pll.base + 4) % 2 ^ 12) = readl io (pll.base + 4) % 2 ^ 12 :=
    u32_eq_of_lt _ (by omega)
  rw [hf, ulong_mul_of_lt _ _ hfit, ulong_eq_of_lt _ hfit, u64_eq_of_lt _ hfit]
  rw [ulong_eq_of_lt]
  exact lt_of_le_of_lt (Nat.div_le_self _ _) hfit

/-- Witness for C1 (as amended): the APLL scenario, fbdiv = 100, D = 2, 24 MHz parent. -/
theorem hisi_pll_recalc_rate_exact_witness :
    hisi_pll_recalc_rate (fun _ => 4196)
      { base := 0, postdiv1 := 1, postdiv2 := 2, refdiv := 1, divisor := 2 } 24000000 =
      .ok 1200000000 :=
  hisi_pll_recalc_rate_exact (fun _ => 4196)
    { base := 0, postdiv1 := 1, postdiv2 := 2, refdiv := 1, divisor := 2 } 24000000
    (by decide) (by decide) (by decide)

/-- C1 (counterexample): with D = 1 and fbdiv = 3 in bits 11:0 of word 1, the parent rate
2^63 - 1 makes the product wrap: the code returns 9223372036854775805, not
floor(r * fbdiv / D) = 27670116110564327421. -/
theorem hisi_pll_recalc_rate_overflow :
    FIELD_GET HISI_PLL_FBDIV (readl (fun _ => 4099) (0 + HISI_PLL_CFG 1)) = 3 ∧
    (2 ^ 63 - 1) * 3 / 1 = 27670116110564327421 ∧
    hisi_pll_recalc_rate (fun _ => 4099)
      { base := 0, postdiv1 := 1, postdiv2 := 1, refdiv := 1, divisor := 1 } (2 ^ 63 - 1) =
      .ok 9223372036854775805 ∧
    (9223372036854775805 : Nat) ≠ 27670116110564327421 :=
  ⟨by decide, by decide, rfl, by decide⟩

/-- The result of `hisi_pll_set_rate` in arithmetic form, for a divisor whose low 32 bits
are not all zero. -/
theorem hisi_pll_set_rate_eq (io : Regs) (pll : hisi_pll) (rate parent_rate : Nat)
    (hp : u32 (ulong parent_rate) ≠ 0) :
    hisi_pll_set_rate io pll rate parent_rate =
      (.ok 0, writel (readl io (pll.base + 4) / 2 ^ 12 * 2 ^ 12 +
        u64 (u64 (ulong (ulong rate * pll.divisor))) / u32 (ulong parent_rate) % 2 ^ 12)
        (pll.base + 4) io, pll) := by
  have hor : ∀ a b : Nat, a < 2 ^ 32 → u32 (a / 4096 * 4096 ||| b % 4096) =
      a / 4096 * 4096 + b % 4096 := by
    intro a b ha
    have h := mul_two_pow_or (a / 4096) (b % 4096) 12 (Nat.mod_lt _ (by decide))
    simp only [Nat.reducePow] at h
    rw [h]
    unfold u32
    omega
  simp [hisi_pll_set_rate, do_div, hp, FIELD_PREP_FBDIV, HISI_PLL_CFG,
    clear_FBDIV _ (readl_lt io (pll.base + 4)), hor _ _ (readl_lt io (pll.base + 4))]

/-- When the low 32 bits of the parent rate are all zero, `hisi_pll_set_rate` divides by
zero in `do_div`, before it has touched any register. -/
theorem hisi_pll_set_rate_fault (io : Regs) (pll : hisi_pll) (rate parent_rate : Nat)
    (hp : u32 (ulong parent_rate) = 0) :
    hisi_pll_set_rate io pll rate parent_rate = (.error .div_by_zero, io, pll) := by
  simp [hisi_pll_set_rate, do_div, hp]

/-- C7 (as amended): for a parent rate with 0 < parent_rate < 2^32 and
floor(rate * D / parent_rate) <= 4095, `hisi_pll_set_rate` returns 0 and afterwards
bits 11:0 of word 1 hold exactly floor(rate * D / parent_rate). -/
theorem hisi_pll_set_rate_fbdiv (io : Regs) (pll : hisi_pll) (rate parent_rate : Nat)
    (hp0 : 0 < parent_rate) (hp : parent_rate < 2 ^ 32)
    (hfit : rate * pll.divisor / parent_rate ≤ 4095) :
    ∃ io', hisi_pll_set_rate io pll rate parent_rate = (.ok 0, io', pll) ∧
      readl io' (pll.base + HISI_PLL_CFG 1) % 2 ^ 12 = rate * pll.divisor / parent_rate := by
  have hcfg : pll.base + HISI_PLL_CFG 1 = pll.base + 4 := by simp [HISI_PLL_CFG]
  rw [hcfg]
  have hpu : u32 (ulong parent_rate) = parent_rate := by
    rw [ulong_eq_of_lt _ (by omega), u32_eq_of_lt _ hp]
  have hprod : rate * pll.divisor < 2 ^ 64 := by
    have h1 : rate * pll.divisor / parent_rate < 4096 := by omega
    have h2 := (Nat.div_lt_iff_lt_mul hp0).mp h1
    calc rate * pll.divisor < 4096 * parent_rate := h2
      _ ≤ 4096 * 2 ^ 32 := Nat.mul_le_mul_left _ (le_of_lt hp)
      _ < 2 ^ 64 := by decide
  refine ⟨_, hisi_pll_set_rate_eq io pll rate parent_rate (by rw [hpu]; omega), ?_⟩
  rw [readl_writel_same, hpu, ulong_mul_of_lt _ _ hprod, ulong_eq_of_lt _ hprod,
    u64_eq_of_lt _ hprod, u64_eq_of_lt _ hprod]
  have hlt := readl_lt io (pll.base + 4)
  generalize rate * pll.divisor / parent_rate = q at hfit ⊢
  unfold u32
  omega

/-- Witness for C7 (as amended): the APLL scenario, D = 2, 1.2 GHz from 24 MHz programs
fbdiv = 100. -/
theorem hisi_pll_set_rate_fbdiv_witness :
    ∃ io', hisi_pll_set_rate (fun _ => 4096)
          { base := 0, postdiv1 := 1, postdiv2 := 2, refdiv := 1, divisor := 2 }
          1200000000 24000000 =
        (.ok 0, io', { base := 0, postdiv1 := 1, postdiv2 := 2, refdiv := 1, divisor := 2 }) ∧
      readl io' (0 + HISI_PLL_CFG 1) % 2 ^ 12 = 1200000000 * 2 / 24000000 :=
  hisi_pll_set_rate_fbdiv (fun _ => 4096)
    { base := 0, postdiv1 := 1, postdiv2 := 2, refdiv := 1, divisor := 2 }
    1200000000 24000000 (by decide) (by decide) (by decide)

/-- C7 (counterexample): two inputs inside the stated domain where the call returns 0 but
bits 11:0 of word 1 do not end up holding floor(rate * D / parent_rate).  With
rate = 2^62, D = 4 and parent_rate = 2^62 + 1 the product rate * D wraps to 0 modulo 2^64
and the field receives 0 instead of 3; with rate = parent_rate = 5000000000 and D = 1 the
divisor is cut to 32 bits by `do_div` and the field receives 7 instead of 1. -/
theorem hisi_pll_set_rate_fbdiv_fails :
    (2 ^ 62 * 4 / (2 ^ 62 + 1) = 3 ∧
      (hisi_pll_set_rate (fun _ => 0)
        { base := 0, postdiv1 := 2, postdiv2 := 2, refdiv := 1, divisor := 4 }
        (2 ^ 62) (2 ^ 62 + 1)).1 = .ok 0 ∧
      readl (hisi_pll_set_rate (fun _ => 0)
        { base := 0, postdiv1 := 2, postdiv2 := 2, refdiv := 1, divisor := 4 }
        (2 ^ 62) (2 ^ 62 + 1)).2.1 (0 + HISI_PLL_CFG 1) % 2 ^ 12 = 0) ∧
    (5000000000 * 1 / 5000000000 = 1 ∧
      (hisi_pll_set_rate (fun _ => 0)
        { base := 0, postdiv1 := 1, postdiv2 := 1, refdiv := 1, divisor := 1 }
        5000000000 5000000000).1 = .ok 0 ∧
      readl (hisi_pll_set_rate (fun _ => 0)
        { base := 0, postdiv1 := 1, postdiv2 := 1, refdiv := 1, divisor := 1 }
        5000000000 5000000000).2.1 (0 + HISI_PLL_CFG 1) % 2 ^ 12 = 7) :=
  ⟨⟨by decide, rfl, by decide⟩, ⟨by decide, rfl, by decide⟩⟩

/-- C8: for every rate, every parent rate and every register file, `hisi_pll_set_rate`
leaves the `struct hisi_pll` (postdiv1, postdiv2, refdiv, divisor) as it was, keeps
bits 31:12 of word 1, keeps word 0 and every other register; it returns 0 whenever the
low 32 bits of the parent rate (the divisor that `do_div` uses) are not all zero. -/
theorem hisi_pll_set_rate_frame (io : Regs) (pll : hisi_pll) (rate parent_rate : Nat) :
    (hisi_pll_set_rate io pll rate parent_rate).2.2 = pll ∧
    readl (hisi_pll_set_rate io pll rate parent_rate).2.1 (pll.base + HISI_PLL_CFG 1) / 2 ^ 12 =
      readl io (pll.base + HISI_PLL_CFG 1) / 2 ^ 12 ∧
    readl (hisi_pll_set_rate io pll rate parent_rate).2.1 (pll.base + HISI_PLL_CFG 0) =
      readl io (pll.base + HISI_PLL_CFG 0) ∧
    (∀ a, a ≠ pll.base + HISI_PLL_CFG 1 →
      (hisi_pll_set_rate io pll rate parent_rate).2.1 a = io a) ∧
    (u32 (ulong parent_rate) ≠ 0 → (hisi_pll_set_rate io pll rate parent_rate).1 = .ok 0) := by
  have hcfg1 : pll.base + HISI_PLL_CFG 1 = pll.base + 4 := by simp [HISI_PLL_CFG]
  have hcfg0 : pll.base + HISI_PLL_CFG 0 = pll.base := by simp [HISI_PLL_CFG]
  rw [hcfg1, hcfg0]
  by_cases hp : u32 (ulong parent_rate) = 0
  · rw [hisi_pll_set_rate_fault io pll rate parent_rate hp]
    exact ⟨rfl, rfl, rfl, fun _ _ => rfl, fun h => absurd hp h⟩
  · rw [hisi_pll_set_rate_eq io pll rate parent_rate hp]
    refine ⟨rfl, ?_, ?_, ?_, fun _ => rfl⟩
    · show readl (writel _ (pll.base + 4) io) (pll.base + 4) / 2 ^ 12 = _
      rw [readl_writel_same]
      have hlt := readl_lt io (pll.base + 4)
      unfold u32
      omega
    · exact readl_writel_other _ _ _ _ (by omega)
    · intro a ha
      exact writel_other _ _ _ _ ha

/-- Witness for C8: the APLL scenario, a 24 MHz parent, returns 0. -/
theorem hisi_pll_set_rate_frame_witness :
    (hisi_pll_set_rate (fun _ => 4096)
      { base := 0, postdiv1 := 1, postdiv2 := 2, refdiv := 1, divisor := 2 }
      1200000000 24000000).1 = .ok 0 :=
  (hisi_pll_set_rate_frame (fun _ => 4096)
    { base := 0, postdiv1 := 1, postdiv2 := 2, refdiv := 1, divisor := 2 }
    1200000000 24000000).2.2.2.2 (by decide)

/-! ## `hisi_pll_determine_rate` -/

theorem clamp_bounds (val lo hi : Nat) (h : lo ≤ hi) :
    lo ≤ clamp val lo hi ∧ clamp val lo hi ≤ hi := by
  unfold clamp
  split
  · exact ⟨h, le_refl _⟩
  · split <;> omega

/-- Rounding down to a multiple of a positive step. -/
theorem rounddown_facts (c ref : Nat) (href : 0 < ref) :
    ref ∣ c - c % ref ∧ c - c % ref ≤ c ∧ c < c - c % ref + ref := by
  have h1 := Nat.mod_lt c href
  have h2 := Nat.mod_le c ref
  exact ⟨Nat.dvd_sub_mod c, Nat.sub_le _ _, by omega⟩

/-- A multiple of `ref` below `ref` is zero. -/
theorem rounddown_eq_zero (c ref : Nat) (h : c - c % ref < ref) : c - c % ref = 0 :=
  Nat.eq_zero_of_dvd_of_lt (Nat.dvd_sub_mod c) h

/-- The VCO rate lies in the band and on the reference grid. -/
theorem determine_vco_props (pll : hisi_pll) (rate parent_rate : Nat)
    (href : 0 < parent_rate / pll.refdiv) :
    HISI_PLL_FOUTVCO_MIN_RATE ≤ determine_vco pll rate parent_rate ∧
    (parent_rate / pll.refdiv ≤ HISI_PLL_FOUTVCO_MAX_RATE →
      determine_vco pll rate parent_rate ≤ HISI_PLL_FOUTVCO_MAX_RATE) ∧
    parent_rate / pll.refdiv ∣ determine_vco pll rate parent_rate ∧
    (parent_rate / pll.refdiv < 2 ^ 64 → determine_vco pll rate parent_rate < 2 ^ 64) := by
  unfold determine_vco
  simp only
  generalize parent_rate / pll.refdiv = ref at href ⊢
  have hc := clamp_bounds (ulong (ulong rate * (pll.postdiv1 * pll.postdiv2)))
    HISI_PLL_FOUTVCO_MIN_RATE HISI_PLL_FOUTVCO_MAX_RATE (by decide)
  generalize clamp (ulong (ulong rate * (pll.postdiv1 * pll.postdiv2)))
    HISI_PLL_FOUTVCO_MIN_RATE HISI_PLL_FOUTVCO_MAX_RATE = c at hc ⊢
  obtain ⟨hdvd, hle, hlt⟩ := rounddown_facts c ref href
  have hz := rounddown_eq_zero c ref
  simp only [HISI_PLL_FOUTVCO_MIN_RATE, HISI_PLL_FOUTVCO_MAX_RATE] at hc ⊢
  generalize c - c % ref = rd at hdvd hle hlt hz ⊢
  split
  · refine ⟨by omega, ?_, Dvd.dvd.add hdvd (dvd_refl _), ?_⟩
    · intro hmax
      by_cases hr : rd < ref
      · have := hz hr
        omega
      · omega
    · intro h64
      by_cases hr : rd < ref
      · have := hz hr
        omega
      · omega
  · exact ⟨by omega, fun _ => by omega, hdvd, fun _ => by omega⟩

/-- The result of `hisi_pll_determine_rate` in arithmetic form, for a parent rate that is
at least the reference divider. -/
theorem hisi_pll_determine_rate_eq (pll : hisi_pll) (rate parent_rate : Nat)
    (hwf : pll.wf) (hr0 : 0 < pll.refdiv) (hp1 : 0 < pll.postdiv1) (hp2 : 0 < pll.postdiv2)
    (hpr : parent_rate < 2 ^ 64) (href : pll.refdiv ≤ parent_rate) :
    hisi_pll_determine_rate pll ⟨rate, parent_rate⟩ =
      (.ok 0, ⟨determine_vco pll rate parent_rate / (pll.postdiv1 * pll.postdiv2),
        parent_rate⟩) := by
  obtain ⟨w1, w2, w3, -⟩ := hwf
  have hrefpos : 0 < parent_rate / pll.refdiv := Nat.div_pos href hr0
  have hreflt : parent_rate / pll.refdiv < 2 ^ 64 :=
    lt_of_le_of_lt (Nat.div_le_self _ _) hpr
  obtain ⟨-, -, -, hv64⟩ := determine_vco_props pll rate parent_rate hrefpos
  have hv := hv64 hreflt
  have hpd : 0 < pll.postdiv1 * pll.postdiv2 := Nat.mul_pos hp1 hp2
  have hpd32 : pll.postdiv1 * pll.postdiv2 < 2 ^ 32 :=
    calc pll.postdiv1 * pll.postdiv2 ≤ 255 * 255 :=
          Nat.mul_le_mul (by omega) (by omega)
      _ < 2 ^ 32 := by decide
  have e1 : u64 (ulong parent_rate) = parent_rate := by
    rw [ulong_eq_of_lt _ hpr, u64_eq_of_lt _ hpr]
  have e2 : u32 pll.refdiv = pll.refdiv := u32_eq_of_lt _ (by omega)
  have e3 : u32 (pll.postdiv1 * pll.postdiv2) = pll.postdiv1 * pll.postdiv2 :=
    u32_eq_of_lt _ hpd32
  have hc := clamp_bounds (ulong (ulong rate * (pll.postdiv1 * pll.postdiv2)))
    HISI_PLL_FOUTVCO_MIN_RATE HISI_PLL_FOUTVCO_MAX_RATE (by decide)
  have e4 : u64 (clamp (ulong (ulong rate * (pll.postdiv1 * pll.postdiv2)))
      HISI_PLL_FOUTVCO_MIN_RATE HISI_PLL_FOUTVCO_MAX_RATE) =
      clamp (ulong (ulong rate * (pll.postdiv1 * pll.postdiv2)))
      HISI_PLL_FOUTVCO_MIN_RATE HISI_PLL_FOUTVCO_MAX_RATE :=
    u64_eq_of_lt _ (lt_of_le_of_lt hc.2 (by decide))
  have hp0 : parent_rate ≠ 0 := by omega
  have e5 : u64 parent_rate = parent_rate := u64_eq_of_lt _ hpr
  have hV : (if clamp (ulong (ulong rate * (pll.postdiv1 * pll.postdiv2)))
        HISI_PLL_FOUTVCO_MIN_RATE HISI_PLL_FOUTVCO_MAX_RATE -
        clamp (ulong (ulong rate * (pll.postdiv1 * pll.postdiv2)))
        HISI_PLL_FOUTVCO_MIN_RATE HISI_PLL_FOUTVCO_MAX_RATE % (parent_rate / pll.refdiv) <
        HISI_PLL_FOUTVCO_MIN_RATE
      then u64 (clamp (ulong (ulong rate * (pll.postdiv1 * pll.postdiv2)))
        HISI_PLL_FOUTVCO_MIN_RATE HISI_PLL_FOUTVCO_MAX_RATE -
        clamp (ulong (ulong rate * (pll.postdiv1 * pll.postdiv2)))
        HISI_PLL_FOUTVCO_MIN_RATE HISI_PLL_FOUTVCO_MAX_RATE % (parent_rate / pll.refdiv) +
        parent_rate / pll.refdiv)
      else clamp (ulong (ulong rate * (pll.postdiv1 * pll.postdiv2)))
        HISI_PLL_FOUTVCO_MIN_RATE HISI_PLL_FOUTVCO_MAX_RATE -
        clamp (ulong (ulong rate * (pll.postdiv1 * pll.postdiv2)))
        HISI_PLL_FOUTVCO_MIN_RATE HISI_PLL_FOUTVCO_MAX_RATE % (parent_rate / pll.refdiv)) =
      determine_vco pll rate parent_rate := by
    unfold determine_vco at hv ⊢
    simp only at hv ⊢
    split
    · next h =>
      rw [if_pos h] at hv
      rw [u64_eq_of_lt _ hv]
    · rfl
  have e6 : ulong (determine_vco pll rate parent_rate / (pll.postdiv1 * pll.postdiv2)) =
      determine_vco pll rate parent_rate / (pll.postdiv1 * pll.postdiv2) :=
    ulong_eq_of_lt _ (lt_of_le_of_lt (Nat.div_le_self _ _) hv)
  simp only [hisi_pll_determine_rate, do_div, rounddown, e1, e2, e3, e4, e5, hp0, if_false,
    Nat.ne_of_gt hr0, Nat.ne_of_gt hrefpos, Nat.ne_of_gt hpd, hV, u64_eq_of_lt _ hv, e6]

/-- C2 (as amended): for a `struct hisi_pll` with non-zero fields and a parent rate whose
reference rate ref = floor(parent_rate / refdiv) satisfies 1 <= ref <= 8 GHz,
`hisi_pll_determine_rate` returns 0 with a rate r = floor(v / (postdiv1 * postdiv2)), where
the VCO rate v satisfies 800 MHz <= v <= 8 GHz and is a multiple of ref; when
postdiv1 * postdiv2 divides ref, r * postdiv1 * postdiv2 itself lies in the band and is a
multiple of ref. -/
theorem hisi_pll_determine_rate_in_band (pll : hisi_pll) (t parent_rate : Nat)
    (hwf : pll.wf) (hr0 : 0 < pll.refdiv) (hp1 : 0 < pll.postdiv1) (hp2 : 0 < pll.postdiv2)
    (hpr : parent_rate < 2 ^ 64) (href : pll.refdiv ≤ parent_rate)
    (hmax : parent_rate / pll.refdiv ≤ HISI_PLL_FOUTVCO_MAX_RATE) :
    ∃ r v, hisi_pll_determine_rate pll ⟨t, parent_rate⟩ = (.ok 0, ⟨r, parent_rate⟩) ∧
      r = v / (pll.postdiv1 * pll.postdiv2) ∧
      HISI_PLL_FOUTVCO_MIN_RATE ≤ v ∧ v ≤ HISI_PLL_FOUTVCO_MAX_RATE ∧
      parent_rate / pll.refdiv ∣ v ∧
      (pll.postdiv1 * pll.postdiv2 ∣ parent_rate / pll.refdiv →
        HISI_PLL_FOUTVCO_MIN_RATE ≤ r * pll.postdiv1 * pll.postdiv2 ∧
        r * pll.postdiv1 * pll.postdiv2 ≤ HISI_PLL_FOUTVCO_MAX_RATE ∧
        parent_rate / pll.refdiv ∣ r * pll.postdiv1 * pll.postdiv2) := by
  have hrefpos : 0 < parent_rate / pll.refdiv := Nat.div_pos href hr0
  obtain ⟨hlo, hhi, hdvd, -⟩ := determine_vco_props pll t parent_rate hrefpos
  refine ⟨_, determine_vco pll t parent_rate,
    hisi_pll_determine_rate_eq pll t parent_rate hwf hr0 hp1 hp2 hpr href, rfl, hlo, hhi hmax,
    hdvd, ?_⟩
  intro hpd
  have hcancel : determine_vco pll t parent_rate / (pll.postdiv1 * pll.postdiv2) *
      pll.postdiv1 * pll.postdiv2 = determine_vco pll t parent_rate := by
    rw [Nat.mul_assoc]
    exact Nat.div_mul_cancel (dvd_trans hpd hdvd)
  rw [hcancel]
  exact ⟨hlo, hhi hmax, hdvd⟩

/-- Witness for C2 (as amended): the APLL scenario, P = (1, 1, 2) and a 24 MHz parent,
asked for 1.2 GHz. -/
theorem hisi_pll_determine_rate_in_band_witness :
    ∃ r v, hisi_pll_determine_rate
          { base := 0, postdiv1 := 1, postdiv2 := 2, refdiv := 1, divisor := 2 }
          ⟨1200000000, 24000000⟩ = (.ok 0, ⟨r, 24000000⟩) ∧
      r = v / (1 * 2) ∧
      HISI_PLL_FOUTVCO_MIN_RATE ≤ v ∧ v ≤ HISI_PLL_FOUTVCO_MAX_RATE ∧
      24000000 / 1 ∣ v ∧
      (1 * 2 ∣ 24000000 / 1 →
        HISI_PLL_FOUTVCO_MIN_RATE ≤ r * 1 * 2 ∧
        r * 1 * 2 ≤ HISI_PLL_FOUTVCO_MAX_RATE ∧
        24000000 / 1 ∣ r * 1 * 2) :=
  hisi_pll_determine_rate_in_band
    { base := 0, postdiv1 := 1, postdiv2 := 2, refdiv := 1, divisor := 2 } 1200000000 24000000
    ⟨by decide, by decide, by decide, by decide⟩ (by decide) (by decide) (by decide)
    (by decide) (by decide) (by decide)

/-- C2 (counterexample): three inputs with non-zero P, parent_rate > 0 and t > 0 where the
returned rate r breaks the stated property.  With P = (refdiv 1, postdiv 7, 1), a 24 MHz
parent and t = 200 MHz, r = 198857142 and r * 7 = 1391999994 is not a multiple of
24000000; with P = (1, 3, 1), a 100 MHz parent and t = 1, r = 266666666 and
r * 3 = 799999998 is below 800 MHz; with P = (1, 1, 1), a 10 GHz parent and t = 1 GHz,
r = 10000000000 is above 8 GHz. -/
theorem hisi_pll_determine_rate_in_band_fails :
    (hisi_pll_determine_rate
        { base := 0, postdiv1 := 7, postdiv2 := 1, refdiv := 1, divisor := 7 }
        ⟨200000000, 24000000⟩ = (.ok 0, ⟨198857142, 24000000⟩) ∧
      ¬ (24000000 / 1 ∣ 198857142 * 7 * 1)) ∧
    (hisi_pll_determine_rate
        { base := 0, postdiv1 := 3, postdiv2 := 1, refdiv := 1, divisor := 3 }
        ⟨1, 100000000⟩ = (.ok 0, ⟨266666666, 100000000⟩) ∧
      ¬ (800000000 ≤ 266666666 * 3 * 1)) ∧
    (hisi_pll_determine_rate
        { base := 0, postdiv1 := 1, postdiv2 := 1, refdiv := 1, divisor := 1 }
        ⟨1000000000, 10000000000⟩ = (.ok 0, ⟨10000000000, 10000000000⟩) ∧
      ¬ (10000000000 * 1 * 1 ≤ 8000000000)) :=
  ⟨⟨rfl, by decide⟩, ⟨rfl, by decide⟩, ⟨rfl, by decide⟩⟩

/-- With a parent rate of 0, `hisi_pll_determine_rate` returns `-EINVAL` and leaves the
request alone. -/
theorem hisi_pll_determine_rate_einval (pll : hisi_pll) (t : Nat) :
    hisi_pll_determine_rate pll ⟨t, 0⟩ = (.ok (-EINVAL), ⟨t, 0⟩) := by
  simp [hisi_pll_determine_rate, u64, ulong]

/-- With P = (refdiv 3, postdiv 1, 1) and a parent rate of 2 Hz the reference rate is 0; for
the in-band requests 800 MHz <= 900 MHz the call divides by zero and returns no rate for
either, so there are no two rates to compare. -/
theorem hisi_pll_determine_rate_mono_div_by_zero :
    (800000000 ≤ 900000000 ∧ 800000000 ≤ 800000000 * 1 * 1 ∧
      900000000 * 1 * 1 ≤ 8000000000) ∧
    hisi_pll_determine_rate
        { base := 0, postdiv1 := 1, postdiv2 := 1, refdiv := 3, divisor := 3 }
        ⟨800000000, 2⟩ = (.error .div_by_zero, ⟨800000000, 2⟩) ∧
    hisi_pll_determine_rate
        { base := 0, postdiv1 := 1, postdiv2 := 1, refdiv := 3, divisor := 3 }
        ⟨900000000, 2⟩ = (.error .div_by_zero, ⟨900000000, 2⟩) :=
  ⟨by decide, rfl, rfl⟩

/-- C4 (counterexample): with P = (refdiv 2, postdiv 1, 1) and the non-zero parent rate
1 Hz, the zero check passes, the division by refdiv leaves ref = 0, and the round-down step
divides by it: the call neither succeeds nor returns `-EINVAL`. -/
theorem hisi_pll_determine_rate_div_by_zero :
    (1 : Nat) ≠ 0 ∧ (1 : Nat) / 2 = 0 ∧
    hisi_pll_determine_rate
        { base := 0, postdiv1 := 1, postdiv2 := 1, refdiv := 2, divisor := 2 }
        ⟨1000000000, 1⟩ = (.error .div_by_zero, ⟨1000000000, 1⟩) :=
  ⟨by decide, by decide, rfl⟩

/-- C4 (as amended): for every latched P with non-zero fields and every request,
`hisi_pll_determine_rate` returns `-EINVAL` when parent_rate = 0, and for every parent rate
with refdiv <= parent_rate it returns 0 with a rate; on these parent rates it fails with
`-EINVAL` iff parent_rate = 0, and for refdiv <= parent_rate none of its divisions has a
zero divisor: the division by refdiv yields ref = floor(parent_rate / refdiv) >= 1, the
round-down step divides by ref, and the last division is by postdiv1 * postdiv2 >= 1. -/
theorem hisi_pll_determine_rate_status (pll : hisi_pll) (t parent_rate : Nat)
    (hwf : pll.wf) (hr0 : 0 < pll.refdiv) (hp1 : 0 < pll.postdiv1) (hp2 : 0 < pll.postdiv2)
    (hpr : parent_rate < 2 ^ 64) (hdom : parent_rate = 0 ∨ pll.refdiv ≤ parent_rate) :
    ((hisi_pll_determine_rate pll ⟨t, parent_rate⟩).1 = .ok (-EINVAL) ↔ parent_rate = 0) ∧
    (parent_rate = 0 →
      hisi_pll_determine_rate pll ⟨t, parent_rate⟩ = (.ok (-EINVAL), ⟨t, parent_rate⟩)) ∧
    (pll.refdiv ≤ parent_rate →
      (∃ r, hisi_pll_determine_rate pll ⟨t, parent_rate⟩ = (.ok 0, ⟨r, parent_rate⟩)) ∧
      do_div (u64 (ulong parent_rate)) pll.refdiv =
        .ok (parent_rate / pll.refdiv, parent_rate % pll.refdiv) ∧
      1 ≤ parent_rate / pll.refdiv ∧
      (∀ vco, rounddown vco (parent_rate / pll.refdiv) =
        .ok (vco - vco % (parent_rate / pll.refdiv))) ∧
      1 ≤ pll.postdiv1 * pll.postdiv2 ∧
      (∀ vco, do_div vco (pll.postdiv1 * pll.postdiv2) =
        .ok (u64 vco / (pll.postdiv1 * pll.postdiv2),
          u64 vco % (pll.postdiv1 * pll.postdiv2)))) := by
  have hzero : parent_rate = 0 →
      hisi_pll_determine_rate pll ⟨t, parent_rate⟩ = (.ok (-EINVAL), ⟨t, parent_rate⟩) := by
    intro h
    rw [h]
    exact hisi_pll_determine_rate_einval pll t
  have hok : pll.refdiv ≤ parent_rate →
      hisi_pll_determine_rate pll ⟨t, parent_rate⟩ =
        (.ok 0, ⟨determine_vco pll t parent_rate / (pll.postdiv1 * pll.postdiv2),
          parent_rate⟩) :=
    hisi_pll_determine_rate_eq pll t parent_rate hwf hr0 hp1 hp2 hpr
  refine ⟨⟨?_, fun h => by rw [hzero h]⟩, hzero, ?_⟩
  · intro h
    rcases hdom with h0 | href
    · exact h0
    · rw [hok href] at h
      have h1 : (0 : Int) = -EINVAL := by
        simpa using h
      exact absurd h1 (by decide)
  · intro href
    obtain ⟨w1, w2, w3, -⟩ := hwf
    have hrefpos : 0 < parent_rate / pll.refdiv := Nat.div_pos href hr0
    have hpd : 0 < pll.postdiv1 * pll.postdiv2 := Nat.mul_pos hp1 hp2
    have hpd32 : pll.postdiv1 * pll.postdiv2 < 2 ^ 32 :=
      calc pll.postdiv1 * pll.postdiv2 ≤ 255 * 255 :=
            Nat.mul_le_mul (by omega) (by omega)
        _ < 2 ^ 32 := by decide
    have e1 : u64 (ulong parent_rate) = parent_rate := by
      rw [ulong_eq_of_lt _ hpr, u64_eq_of_lt _ hpr]
    have e2 : u32 pll.refdiv = pll.refdiv := u32_eq_of_lt _ (by omega)
    have e3 : u32 (pll.postdiv1 * pll.postdiv2) = pll.postdiv1 * pll.postdiv2 :=
      u32_eq_of_lt _ hpd32
    have e5 : u64 parent_rate = parent_rate := u64_eq_of_lt _ hpr
    refine ⟨⟨_, hok href⟩, ?_, hrefpos, ?_, hpd, ?_⟩
    · simp only [do_div, e1, e2, e5, Nat.ne_of_gt hr0, if_false]
    · intro vco
      simp only [rounddown, Nat.ne_of_gt hrefpos, if_false]
    · intro vco
      simp only [do_div, e3, Nat.ne_of_gt hpd, if_false]

/-- Witness for C4 (as amended): the APLL scenario, P = (1, 1, 2), a 24 MHz parent and a
request of 1.2 GHz. -/
theorem hisi_pll_determine_rate_status_witness :
    ((hisi_pll_determine_rate ⟨0, 1, 2, 1, 2⟩ ⟨1200000000, 24000000⟩).1 = .ok (-EINVAL) ↔
      24000000 = 0) ∧
    (24000000 = 0 →
      hisi_pll_determine_rate ⟨0, 1, 2, 1, 2⟩ ⟨1200000000, 24000000⟩ =
        (.ok (-EINVAL), ⟨1200000000, 24000000⟩)) ∧
    (1 ≤ 24000000 →
      (∃ r, hisi_pll_determine_rate ⟨0, 1, 2, 1, 2⟩ ⟨1200000000, 24000000⟩ =
        (.ok 0, ⟨r, 24000000⟩)) ∧
      do_div (u64 (ulong 24000000)) 1 = .ok (24000000 / 1, 24000000 % 1) ∧
      1 ≤ 24000000 / 1 ∧
      (∀ vco, rounddown vco (24000000 / 1) = .ok (vco - vco % (24000000 / 1))) ∧
      1 ≤ 1 * 2 ∧
      (∀ vco, do_div vco (1 * 2) = .ok (u64 vco / (1 * 2), u64 vco % (1 * 2)))) :=
  hisi_pll_determine_rate_status ⟨0, 1, 2, 1, 2⟩ 1200000000 24000000
    ⟨by decide, by decide, by decide, by decide⟩ (by decide) (by decide) (by decide)
    (by decide) (Or.inr (by decide))

/-! ## `histb_pinctrl_pinmux_set` -/

theorem notmask_FUNC : ulong_not HISTB_PIN_FUNC_MASK = (2 ^ 61 - 1) <<< 3 := by decide

theorem clear_FUNC (reg : Nat) (h : reg < 2 ^ 32) :
    u32 (reg &&& ulong_not HISTB_PIN_FUNC_MASK) = reg / 8 * 8 := by
  rw [notmask_FUNC, and_shiftLeft_mask]
  unfold u32
  omega

/-- The scan of `histb_pinctrl_pinmux_set` over a table that carries its end marker: the
first entry before the marker that matches decides the outcome. -/
theorem histb_pinctrl_pinmux_set_loop_eq (io : Regs) (reg sel : Nat)
    (tbl : List histb_pin_mux_desc) (hterm : func_tbl_terminated tbl) :
    histb_pinctrl_pinmux_set_loop io reg sel tbl =
      match (func_tbl_entries tbl).find? (fun m => m.func = sel) with
      | some m => (.ok true, writel (u32 (readl io reg / 8 * 8 ||| m.bits)) reg io)
      | none => (.ok false, io) := by
  induction tbl with
  | nil =>
    obtain ⟨m, hm, -⟩ := hterm
    cases hm
  | cons mux rest ih =>
    unfold histb_pinctrl_pinmux_set_loop
    by_cases heof : mux.func = HISTB_PIN_FUNCTION_EOF
    · simp [func_tbl_entries, heof]
    · by_cases hsel : mux.func = sel
      · have hne : ¬ sel = HISTB_PIN_FUNCTION_EOF := hsel ▸ heof
        simp [func_tbl_entries, List.takeWhile_cons, heof, hsel, hne,
          clear_FUNC _ (readl_lt io reg)]
      · have hrest : func_tbl_terminated rest := by
          obtain ⟨m, hm, hme⟩ := hterm
          rcases List.mem_cons.mp hm with h | h
          · exact absurd (h ▸ hme) heof
          · exact ⟨m, h, hme⟩
        have := ih hrest
        simp only [func_tbl_entries] at this
        simp [func_tbl_entries, heof, hsel, this]

/-- The result of `histb_pinctrl_pinmux_set` for a registered pin whose function table
carries its end marker. -/
theorem histb_pinctrl_pinmux_set_eq (pctldev : pinctrl_dev) (io : Regs)
    (func_selector group_selector : Nat) (pin : pinctrl_pin_desc)
    (hpin : pin_desc_get pctldev group_selector = some pin)
    (hterm : func_tbl_terminated pin.drv_data.func_tbl) (hsel : func_selector < 2 ^ 32) :
    histb_pinctrl_pinmux_set pctldev io func_selector group_selector =
      match (func_tbl_entries pin.drv_data.func_tbl).find? (fun m => m.func = func_selector) with
      | some m => (.ok 0, writel (u32 (readl io (pin_reg pctldev group_selector) / 8 * 8 |||
          m.bits)) (pin_reg pctldev group_selector) io)
      | none => (.ok (-ENOENT), io) := by
  unfold histb_pinctrl_pinmux_set
  rw [hpin]
  simp only [u32_eq_of_lt _ hsel, histb_pinctrl_pinmux_set_loop_eq io _ func_selector _ hterm]
  cases List.find? (fun m => decide (m.func = func_selector))
    (func_tbl_entries pin.drv_data.func_tbl) <;> rfl

/-- C9: for a registered pin whose function list carries its end marker, a function id
(an `unsigned int`) and any initial pin word w: if the list, scanned up to the end marker,
has an entry for the function, `histb_pinctrl_pinmux_set` returns 0 and the pin word
becomes (w with bits 2:0 cleared) OR the raw value of the first matching entry, no other
register changing; otherwise it returns `-ENOENT` and no register changes.  For pin K18
of the Hi3798MV2x table and function TSI_CLK the call returns 0, bits 2:0 become 0b100
and the other bits of the word stay. -/
theorem histb_pinctrl_pinmux_set_spec :
    (∀ (pctldev : pinctrl_dev) (io : Regs) (func_selector group_selector : Nat)
        (pin : pinctrl_pin_desc),
        pin_desc_get pctldev group_selector = some pin →
        func_tbl_terminated pin.drv_data.func_tbl →
        func_selector < 2 ^ 32 →
        ((∃ m ∈ func_tbl_entries pin.drv_data.func_tbl, m.func = func_selector) →
          ∃ m, (func_tbl_entries pin.drv_data.func_tbl).find?
              (fun m => m.func = func_selector) = some m ∧
            histb_pinctrl_pinmux_set pctldev io func_selector group_selector =
              (.ok 0, writel (u32 (readl io (pin_reg pctldev group_selector) / 8 * 8 |||
                m.bits)) (pin_reg pctldev group_selector) io)) ∧
        ((¬ ∃ m ∈ func_tbl_entries pin.drv_data.func_tbl, m.func = func_selector) →
          histb_pinctrl_pinmux_set pctldev io func_selector group_selector =
            (.ok (-ENOENT), io))) ∧
    (∀ (base : Nat) (io : Regs),
        ∃ io', histb_pinctrl_pinmux_set (hi3798mv2x_ioconfig base) io HI3798MV2X_TSI_CLK
            PIN.K18 = (.ok 0, io') ∧
          readl io' (base + 4 * PIN.K18) % 8 = 4 ∧
          readl io' (base + 4 * PIN.K18) / 8 = readl io (base + 4 * PIN.K18) / 8 ∧
          ∀ a, a ≠ base + 4 * PIN.K18 → io' a = io a) := by
  constructor
  · intro pctldev io func_selector group_selector pin hpin hterm hsel
    have heq := histb_pinctrl_pinmux_set_eq pctldev io func_selector group_selector pin hpin
      hterm hsel
    constructor
    · rintro ⟨m, hm, hf⟩
      cases hfind : (func_tbl_entries pin.drv_data.func_tbl).find?
          (fun m => decide (m.func = func_selector)) with
      | none =>
        have := List.find?_eq_none.mp hfind m hm
        simp [hf] at this
      | some m' =>
        rw [hfind] at heq
        exact ⟨m', rfl, heq⟩
    · intro hno
      have hfind : (func_tbl_entries pin.drv_data.func_tbl).find?
          (fun m => decide (m.func = func_selector)) = none := by
        apply List.find?_eq_none.mpr
        intro m hm
        simp only [decide_eq_true_eq]
        exact fun hf => hno ⟨m, hm, hf⟩
      rw [hfind] at heq
      exact heq
  · intro base io
    have hpin : pin_desc_get (hi3798mv2x_ioconfig base) PIN.K18 =
        some (HISTB_PIN PIN.K18 "K18" (some DRIVE_STRENGTH_TABLE_SAMPLE_A)
          [⟨ HI3798MV2X_GPIO, 0x0⟩, ⟨HI3798MV2X_SATA, 0x1⟩, ⟨HI3798MV2X_UART, 0x2⟩,
           ⟨HI3798MV2X_TSI0_DATA, 0x3⟩, ⟨HI3798MV2X_TSI_CLK, 0x4⟩, ⟨HI3798MV2X_SIM, 0x5⟩,
           ⟨HISTB_PIN_FUNCTION_EOF, 0⟩] 0) := by rfl
    have heq := histb_pinctrl_pinmux_set_eq (hi3798mv2x_ioconfig base) io HI3798MV2X_TSI_CLK
      PIN.K18 _ hpin ⟨⟨HISTB_PIN_FUNCTION_EOF, 0⟩, by decide, rfl⟩ (by decide)
    have hfind : (func_tbl_entries (HISTB_PIN PIN.K18 "K18" (some DRIVE_STRENGTH_TABLE_SAMPLE_A)
          [⟨ HI3798MV2X_GPIO, 0x0⟩, ⟨HI3798MV2X_SATA, 0x1⟩, ⟨HI3798MV2X_UART, 0x2⟩,
           ⟨HI3798MV2X_TSI0_DATA, 0x3⟩, ⟨HI3798MV2X_TSI_CLK, 0x4⟩, ⟨HI3798MV2X_SIM, 0x5⟩,
           ⟨HISTB_PIN_FUNCTION_EOF, 0⟩] 0).drv_data.func_tbl).find?
        (fun m => decide (m.func = HI3798MV2X_TSI_CLK)) = some ⟨HI3798MV2X_TSI_CLK, 0x4⟩ := by
      decide
    rw [hfind] at heq
    have hreg : pin_reg (hi3798mv2x_ioconfig base) PIN.K18 = base + 4 * PIN.K18 := rfl
    rw [hreg] at heq
    refine ⟨_, heq, ?_, ?_, ?_⟩
    · rw [readl_writel_same]
      have hlt := readl_lt io (base + 4 * PIN.K18)
      generalize readl io (base + 4 * PIN.K18) = w at hlt ⊢
      have h := mul_two_pow_or (w / 8) 4 3 (by decide)
      simp only [Nat.reducePow] at h
      rw [h]
      unfold u32
      omega
    · rw [readl_writel_same]
      have hlt := readl_lt io (base + 4 * PIN.K18)
      generalize readl io (base + 4 * PIN.K18) = w at hlt ⊢
      have h := mul_two_pow_or (w / 8) 4 3 (by decide)
      simp only [Nat.reducePow] at h
      rw [h]
      unfold u32
      omega
    · intro a ha
      exact writel_other _ _ _ _ ha

/-- Witness for C9: pin K18 of the Hi3798MV2x table, function SATA, on an all-ones
register file. -/
theorem histb_pinctrl_pinmux_set_spec_witness :
    ∃ m, (func_tbl_entries
          [⟨ HI3798MV2X_GPIO, 0x0⟩, ⟨HI3798MV2X_SATA, 0x1⟩, ⟨HI3798MV2X_UART, 0x2⟩,
           ⟨HI3798MV2X_TSI0_DATA, 0x3⟩, ⟨HI3798MV2X_TSI_CLK, 0x4⟩, ⟨HI3798MV2X_SIM, 0x5⟩,
           ⟨HISTB_PIN_FUNCTION_EOF, 0⟩]).find?
          (fun m => m.func = HI3798MV2X_SATA) = some m ∧
      histb_pinctrl_pinmux_set (hi3798mv2x_ioconfig 0) (fun _ => 0xFFFFFFFF) HI3798MV2X_SATA
          PIN.K18 =
        (.ok 0, writel (u32 (readl (fun _ => 0xFFFFFFFF)
            (pin_reg (hi3798mv2x_ioconfig 0) PIN.K18) / 8 * 8 ||| m.bits))
          (pin_reg (hi3798mv2x_ioconfig 0) PIN.K18) (fun _ => 0xFFFFFFFF)) :=
  (histb_pinctrl_pinmux_set_spec.1 (hi3798mv2x_ioconfig 0) (fun _ => 0xFFFFFFFF)
    HI3798MV2X_SATA PIN.K18
    (HISTB_PIN PIN.K18 "K18" (some DRIVE_STRENGTH_TABLE_SAMPLE_A)
      [⟨ HI3798MV2X_GPIO, 0x0⟩, ⟨HI3798MV2X_SATA, 0x1⟩, ⟨HI3798MV2X_UART, 0x2⟩,
       ⟨HI3798MV2X_TSI0_DATA, 0x3⟩, ⟨HI3798MV2X_TSI_CLK, 0x4⟩, ⟨HI3798MV2X_SIM, 0x5⟩,
       ⟨HISTB_PIN_FUNCTION_EOF, 0⟩] 0)
    rfl ⟨⟨HISTB_PIN_FUNCTION_EOF, 0⟩, by decide, rfl⟩ (by decide)).1
    ⟨⟨HI3798MV2X_SATA, 0x1⟩, by decide, rfl⟩

/-! ## The Hi3798MV2x function tables -/

/-- Functions are listed at most once in a table whose function ids are pairwise
distinct. -/
theorem func_match_count_le_one_of_nodup (pin : pinctrl_pin_desc)
    (h : ((func_tbl_entries pin.drv_data.func_tbl).map (fun m => m.func)).Nodup) (func : Nat) :
    func_match_count pin func ≤ 1 := by
  unfold func_match_count
  have hc := List.nodup_iff_count_le_one.mp h func
  rw [List.count_eq_countP, List.countP_map, List.countP_eq_length_filter] at hc
  have heq : (List.filter ((fun x => x == func) ∘ fun m => m.func)
      (func_tbl_entries pin.drv_data.func_tbl)) =
      List.filter (fun m => decide (m.func = func)) (func_tbl_entries pin.drv_data.func_tbl) := by
    congr 1
  rw [heq] at hc
  exact hc

/-- Every pin of the Hi3798MV2x table other than C20 lists each function at most once. -/
theorem hi3798mv2x_func_unique_except_C20 :
    ∀ pin ∈ hi3798mv2x_ioconfig_pins, pin.number ≠ PIN.C20 →
      ∀ func, func_match_count pin func ≤ 1 := by
  have h : ∀ pin ∈ hi3798mv2x_ioconfig_pins, pin.number ≠ PIN.C20 →
      ((func_tbl_entries pin.drv_data.func_tbl).map (fun m => m.func)).Nodup := by
    decide
  intro pin hp hn func
  exact func_match_count_le_one_of_nodup pin (h pin hp hn) func

/-- C10 (failing input): the function list of pin C20 holds two entries for
`HI3798MV2X_TSI_VALID`, with raw values 0x3 and 0x6; set-function takes the first, so the
pin word receives 0x3 and the entry with 0x6 can never be selected. -/
theorem hi3798mv2x_C20_lists_TSI_VALID_twice :
    ∃ pin, pin_desc_get (hi3798mv2x_ioconfig 0) PIN.C20 = some pin ∧
      (func_tbl_entries pin.drv_data.func_tbl).filter
        (fun m => m.func = HI3798MV2X_TSI_VALID) =
        [⟨HI3798MV2X_TSI_VALID, 0x3⟩, ⟨HI3798MV2X_TSI_VALID, 0x6⟩] ∧
      func_match_count pin HI3798MV2X_TSI_VALID = 2 ∧
      (histb_pinctrl_pinmux_set (hi3798mv2x_ioconfig 0) (fun _ => 0) HI3798MV2X_TSI_VALID
        PIN.C20).1 = .ok 0 ∧
      readl (histb_pinctrl_pinmux_set (hi3798mv2x_ioconfig 0) (fun _ => 0)
        HI3798MV2X_TSI_VALID PIN.C20).2 (pin_reg (hi3798mv2x_ioconfig 0) PIN.C20) = 0x3 :=
  ⟨_, rfl, by decide, by decide, rfl, by decide⟩

/-! ## Bit-level view of register words -/

theorem testBit_u32 (x i : Nat) : (u32 x).testBit i = (decide (i < 32) && x.testBit i) := by
  unfold u32
  exact Nat.testBit_mod_two_pow x 32 i

theorem testBit_ulong_not (x i : Nat) :
    (ulong_not x).testBit i = (decide (i < 64) && !x.testBit i) := by
  unfold ulong_not ulong BITS_PER_LONG
  rw [Nat.testBit_xor, Nat.testBit_two_pow_sub_one, Nat.testBit_mod_two_pow]
  by_cases h : i < 64 <;> simp [h]

theorem BIT_eq (n : Nat) (h : n < 64) : BIT n = 2 ^ n := by
  unfold BIT ulong BITS_PER_LONG
  rw [Nat.shiftLeft_eq, Nat.one_mul]
  exact Nat.mod_eq_of_lt (Nat.pow_lt_pow_right (by decide) h)

theorem testBit_BIT (n i : Nat) (h : n < 64) : (BIT n).testBit i = decide (n = i) := by
  rw [BIT_eq n h, Nat.testBit_two_pow]

/-- A 32-bit register word has no bit at position 32 or above. -/
theorem testBit_readl_ge (io : Regs) (a i : Nat) (h : 32 ≤ i) :
    (readl io a).testBit i = false :=
  Nat.testBit_lt_two_pow (lt_of_lt_of_le (readl_lt io a) (Nat.pow_le_pow_right (by decide) h))

/-- Testing a flag bit with `flags & BIT(n)`. -/
theorem to_bool_and_BIT (x n : Nat) (h : n < 64) : to_bool (x &&& BIT n) = x.testBit n := by
  unfold to_bool
  rw [BIT_eq n h, Nat.and_two_pow]
  cases hb : x.testBit n <;> simp [Nat.pos_iff_ne_zero.mp (Nat.two_pow_pos n)]

/-- A word below `2 ^ 32` has no bit at position 32 or above. -/
theorem testBit_of_lt_u32 (w i : Nat) (hw : w < 2 ^ 32) (h : ¬ i < 32) : w.testBit i = false :=
  Nat.testBit_lt_two_pow (lt_of_lt_of_le hw (Nat.pow_le_pow_right (by decide) (by omega)))

/-- The statement `reg &= ~M` on a 32-bit word clears the bits of `M`. -/
theorem testBit_clear (w M i : Nat) (hw : w < 2 ^ 32) :
    (u32 (w &&& ulong_not M)).testBit i = (w.testBit i && !M.testBit i) := by
  rw [testBit_u32, Nat.testBit_and, testBit_ulong_not]
  by_cases h : i < 32
  · have h64 : i < 64 := by omega
    simp [h, h64]
  · simp [h, testBit_of_lt_u32 w i hw h]

/-- The statement `reg |= V` on a 32-bit word sets the bits of a 32-bit `V`. -/
theorem testBit_set (w V i : Nat) (hw : w < 2 ^ 32) (hV : V < 2 ^ 32) :
    (u32 (w ||| V)).testBit i = (w.testBit i || V.testBit i) := by
  rw [testBit_u32, Nat.testBit_or]
  by_cases h : i < 32
  · simp [h]
  · simp [h, testBit_of_lt_u32 w i hw h, testBit_of_lt_u32 V i hV h]

theorem u32_lt (x : Nat) : u32 x < 2 ^ 32 := by
  unfold u32
  exact Nat.mod_lt _ (by decide)

/-- The statements `reg &= ~M; reg |= V` on a 32-bit word. -/
theorem testBit_clear_set (w M V i : Nat) (hw : w < 2 ^ 32) (hV : V < 2 ^ 32) :
    (u32 (u32 (w &&& ulong_not M) ||| V)).testBit i =
      ((w.testBit i && !M.testBit i) || V.testBit i) := by
  rw [testBit_set _ _ _ (u32_lt _) hV, testBit_clear _ _ _ hw]

theorem testBit_PULLUP (i : Nat) : HISTB_PIN_PULLUP.testBit i = decide (12 = i) :=
  testBit_BIT 12 i (by decide)

theorem testBit_PULLDOWN (i : Nat) : HISTB_PIN_PULLDOWN.testBit i = decide (13 = i) :=
  testBit_BIT 13 i (by decide)

theorem testBit_SLEWRATE (i : Nat) : HISTB_PIN_SLEWRATE.testBit i = decide (8 = i) :=
  testBit_BIT 8 i (by decide)

theorem testBit_SCHMITT (i : Nat) : HISTB_PIN_SCHMITT.testBit i = decide (14 = i) :=
  testBit_BIT 14 i (by decide)

/-! ## `histb_pinctrl_set_bias` -/

/-- The result of `histb_pinctrl_set_bias` for a registered pin. -/
theorem histb_pinctrl_set_bias_eq (pctldev : pinctrl_dev) (io : Regs) (selector : Nat)
    (status : histb_pinctrl_bias_status) (pin : pinctrl_pin_desc)
    (hpin : pin_desc_get pctldev selector = some pin) :
    histb_pinctrl_set_bias pctldev io selector status =
      match status with
      | .BIAS_DISABLE =>
        (.ok 0, writel (u32 (readl io (pin_reg pctldev selector) &&&
          ulong_not (HISTB_PIN_PULLDOWN ||| HISTB_PIN_PULLUP))) (pin_reg pctldev selector) io)
      | .BIAS_PULL_DOWN =>
        if pin.drv_data.flags.testBit 1 then (.ok (-ENOTSUPP), io)
        else (.ok 0, writel (u32 (u32 (readl io (pin_reg pctldev selector) &&&
          ulong_not (HISTB_PIN_PULLDOWN ||| HISTB_PIN_PULLUP)) ||| HISTB_PIN_PULLDOWN))
          (pin_reg pctldev selector) io)
      | .BIAS_PULL_UP =>
        if pin.drv_data.flags.testBit 0 then (.ok (-ENOTSUPP), io)
        else (.ok 0, writel (u32 (u32 (readl io (pin_reg pctldev selector) &&&
          ulong_not (HISTB_PIN_PULLDOWN ||| HISTB_PIN_PULLUP)) ||| HISTB_PIN_PULLUP))
          (pin_reg pctldev selector) io)
      | .BIAS_INVALID => (.ok (-ENOTSUPP), io) := by
  unfold histb_pinctrl_set_bias
  rw [hpin]
  cases status <;>
    simp [HISTB_PIN_FLAG_NOPD, HISTB_PIN_FLAG_NOPU, to_bool_and_BIT]

theorem flag_ne_zero_iff (x n : Nat) (h : n < 64) : x &&& BIT n ≠ 0 ↔ x.testBit n = true := by
  rw [← to_bool_and_BIT x n h]
  simp [to_bool]

theorem flag_eq_zero_iff (x n : Nat) (h : n < 64) : x &&& BIT n = 0 ↔ x.testBit n = false := by
  rw [← to_bool_and_BIT x n h]
  simp [to_bool]

/-- C12: for every registered pin, whatever its flag word and its pin word w,
pin-config-set of a bias parameter behaves as follows.  Bias-disable returns 0 and clears
bits 12 and 13.  Bias-pull-up returns `-ENOTSUPP` with every register unchanged when NOPU
is set, and otherwise returns 0, sets bit 12 and clears bit 13.  Bias-pull-down returns
`-ENOTSUPP` with every register unchanged when NOPD is set, and otherwise returns 0, sets
bit 13 and clears bit 12.  In every successful case the bits of the pin word other than 12
and 13, and every other register, are unchanged. -/
theorem histb_pinctrl_set_bias_spec (pctldev : pinctrl_dev) (io : Regs)
    (selector argument : Nat) (pin : pinctrl_pin_desc)
    (hpin : pin_desc_get pctldev selector = some pin) :
    (∃ io', histb_pinctrl_pinconf_set_single pctldev io selector
        .PIN_CONFIG_BIAS_DISABLE argument = (.ok 0, io') ∧
      (readl io' (pin_reg pctldev selector)).testBit 12 = false ∧
      (readl io' (pin_reg pctldev selector)).testBit 13 = false ∧
      (∀ i, i ≠ 12 → i ≠ 13 → (readl io' (pin_reg pctldev selector)).testBit i =
        (readl io (pin_reg pctldev selector)).testBit i) ∧
      ∀ b, b ≠ pin_reg pctldev selector → io' b = io b) ∧
    (pin.drv_data.flags &&& HISTB_PIN_FLAG_NOPU ≠ 0 →
      histb_pinctrl_pinconf_set_single pctldev io selector
        .PIN_CONFIG_BIAS_PULL_UP argument = (.ok (-ENOTSUPP), io)) ∧
    (pin.drv_data.flags &&& HISTB_PIN_FLAG_NOPU = 0 →
      ∃ io', histb_pinctrl_pinconf_set_single pctldev io selector
          .PIN_CONFIG_BIAS_PULL_UP argument = (.ok 0, io') ∧
        (readl io' (pin_reg pctldev selector)).testBit 12 = true ∧
        (readl io' (pin_reg pctldev selector)).testBit 13 = false ∧
        (∀ i, i ≠ 12 → i ≠ 13 → (readl io' (pin_reg pctldev selector)).testBit i =
          (readl io (pin_reg pctldev selector)).testBit i) ∧
        ∀ b, b ≠ pin_reg pctldev selector → io' b = io b) ∧
    (pin.drv_data.flags &&& HISTB_PIN_FLAG_NOPD ≠ 0 →
      histb_pinctrl_pinconf_set_single pctldev io selector
        .PIN_CONFIG_BIAS_PULL_DOWN argument = (.ok (-ENOTSUPP), io)) ∧
    (pin.drv_data.flags &&& HISTB_PIN_FLAG_NOPD = 0 →
      ∃ io', histb_pinctrl_pinconf_set_single pctldev io selector
          .PIN_CONFIG_BIAS_PULL_DOWN argument = (.ok 0, io') ∧
        (readl io' (pin_reg pctldev selector)).testBit 12 = false ∧
        (readl io' (pin_reg pctldev selector)).testBit 13 = true ∧
        (∀ i, i ≠ 12 → i ≠ 13 → (readl io' (pin_reg pctldev selector)).testBit i =
          (readl io (pin_reg pctldev selector)).testBit i) ∧
        ∀ b, b ≠ pin_reg pctldev selector → io' b = io b) := by
  have hw := readl_lt io (pin_reg pctldev selector)
  have hup : HISTB_PIN_PULLUP < 2 ^ 32 := by decide
  have hdn : HISTB_PIN_PULLDOWN < 2 ^ 32 := by decide
  refine ⟨?_, ?_, ?_, ?_, ?_⟩
  · refine ⟨_, histb_pinctrl_set_bias_eq pctldev io selector .BIAS_DISABLE pin hpin, ?_, ?_,
      ?_, fun b hb => writel_other _ _ _ _ hb⟩
    · simp [readl_writel_same, testBit_u32, testBit_clear _ _ _ hw, testBit_PULLUP,
        testBit_PULLDOWN]
    · simp [readl_writel_same, testBit_u32, testBit_clear _ _ _ hw, testBit_PULLUP,
        testBit_PULLDOWN]
    · intro i h12 h13
      have h12' : ¬ 12 = i := fun h => h12 h.symm
      have h13' : ¬ 13 = i := fun h => h13 h.symm
      by_cases h : i < 32
      · simp [readl_writel_same, testBit_u32, testBit_clear _ _ _ hw, testBit_PULLUP,
          testBit_PULLDOWN, h12', h13', h]
      · simp [readl_writel_same, testBit_u32, h, testBit_of_lt_u32 _ i hw h]
  · intro hf
    have hb := (flag_ne_zero_iff _ 0 (by decide)).mp hf
    show histb_pinctrl_set_bias pctldev io selector .BIAS_PULL_UP = _
    rw [histb_pinctrl_set_bias_eq pctldev io selector .BIAS_PULL_UP pin hpin]
    simp [hb]
  · intro hf
    have hb := (flag_eq_zero_iff _ 0 (by decide)).mp hf
    have heq := histb_pinctrl_set_bias_eq pctldev io selector .BIAS_PULL_UP pin hpin
    simp only [hb] at heq
    refine ⟨_, heq, ?_, ?_, ?_, fun b hb => writel_other _ _ _ _ hb⟩
    · simp [readl_writel_same, testBit_u32, testBit_clear_set _ _ _ _ hw hup, testBit_PULLUP,
        testBit_PULLDOWN]
    · simp [readl_writel_same, testBit_u32, testBit_clear_set _ _ _ _ hw hup, testBit_PULLUP,
        testBit_PULLDOWN]
    · intro i h12 h13
      have h12' : ¬ 12 = i := fun h => h12 h.symm
      have h13' : ¬ 13 = i := fun h => h13 h.symm
      by_cases h : i < 32
      · simp [readl_writel_same, testBit_u32, testBit_clear_set _ _ _ _ hw hup, testBit_PULLUP,
          testBit_PULLDOWN, h12', h13', h]
      · simp [readl_writel_same, testBit_u32, h, testBit_of_lt_u32 _ i hw h]
  · intro hf
    have hb := (flag_ne_zero_iff _ 1 (by decide)).mp hf
    show histb_pinctrl_set_bias pctldev io selector .BIAS_PULL_DOWN = _
    rw [histb_pinctrl_set_bias_eq pctldev io selector .BIAS_PULL_DOWN pin hpin]
    simp [hb]
  · intro hf
    have hb := (flag_eq_zero_iff _ 1 (by decide)).mp hf
    have heq := histb_pinctrl_set_bias_eq pctldev io selector .BIAS_PULL_DOWN pin hpin
    simp only [hb] at heq
    refine ⟨_, heq, ?_, ?_, ?_, fun b hb => writel_other _ _ _ _ hb⟩
    · simp [readl_writel_same, testBit_u32, testBit_clear_set _ _ _ _ hw hdn, testBit_PULLUP,
        testBit_PULLDOWN]
    · simp [readl_writel_same, testBit_u32, testBit_clear_set _ _ _ _ hw hdn, testBit_PULLUP,
        testBit_PULLDOWN]
    · intro i h12 h13
      have h12' : ¬ 12 = i := fun h => h12 h.symm
      have h13' : ¬ 13 = i := fun h => h13 h.symm
      by_cases h : i < 32
      · simp [readl_writel_same, testBit_u32, testBit_clear_set _ _ _ _ hw hdn, testBit_PULLUP,
          testBit_PULLDOWN, h12', h13', h]
      · simp [readl_writel_same, testBit_u32, h, testBit_of_lt_u32 _ i hw h]

/-- Witness for C12: pin Y19 of the Hi3798MV2x table carries NOPD, so bias-pull-down is
refused. -/
theorem histb_pinctrl_set_bias_spec_witness :
    histb_pinctrl_pinconf_set_single (hi3798mv2x_ioconfig 0) (fun _ => 0) PIN.Y19
      .PIN_CONFIG_BIAS_PULL_DOWN 0 = (.ok (-ENOTSUPP), fun _ => 0) :=
  (histb_pinctrl_set_bias_spec (hi3798mv2x_ioconfig 0) (fun _ => 0) PIN.Y19 0
    (HISTB_PIN PIN.Y19 "Y19" (some DRIVE_STRENGTH_TABLE_SAMPLE_A)
      [⟨ HI3798MV2X_GPIO, 0x0⟩, ⟨HI3798MV2X_NAND, 0x1⟩, ⟨HISTB_PIN_FUNCTION_EOF, 0⟩]
      HISTB_PIN_FLAG_NOPD) rfl).2.2.2.1 (by decide)

/-! ## `histb_pinctrl_set_slew_rate` and `histb_pinctrl_endisable_schmitt` -/

/-- The result of `histb_pinctrl_set_slew_rate` for a registered pin and an
`unsigned long` argument. -/
theorem histb_pinctrl_set_slew_rate_eq (pctldev : pinctrl_dev) (io : Regs)
    (selector argument : Nat) (pin : pinctrl_pin_desc)
    (hpin : pin_desc_get pctldev selector = some pin) (harg : argument < 2 ^ 64) :
    histb_pinctrl_set_slew_rate pctldev io selector argument =
      if pin.drv_data.flags.testBit 2 = true ∨ 1 < argument then (.ok (-ENOTSUPP), io)
      else (.ok 0, writel
        (if argument = 0 then
          u32 (readl io (pin_reg pctldev selector) &&& ulong_not HISTB_PIN_SLEWRATE)
        else u32 (readl io (pin_reg pctldev selector) ||| HISTB_PIN_SLEWRATE))
        (pin_reg pctldev selector) io) := by
  unfold histb_pinctrl_set_slew_rate
  rw [hpin]
  simp only [HISTB_PIN_FLAG_NOSR, to_bool_and_BIT _ 2 (by decide), ulong_eq_of_lt _ harg]
  simp only [to_bool]
  by_cases hf : pin.drv_data.flags.testBit 2 = true
  · simp [hf]
  · by_cases ha : 1 < argument
    · simp [hf, ha]
    · by_cases h0 : argument = 0
      · simp [hf, h0]
      · simp [hf, ha, h0]

/-- The result of `histb_pinctrl_endisable_schmitt` for a registered pin. -/
theorem histb_pinctrl_endisable_schmitt_eq (pctldev : pinctrl_dev) (io : Regs)
    (selector : Nat) (enable : Bool) (pin : pinctrl_pin_desc)
    (hpin : pin_desc_get pctldev selector = some pin) :
    histb_pinctrl_endisable_schmitt pctldev io selector enable =
      if pin.drv_data.flags.testBit 3 = true then (.ok (-ENOTSUPP), io)
      else (.ok 0, writel
        (if enable then u32 (readl io (pin_reg pctldev selector) ||| HISTB_PIN_SCHMITT)
        else u32 (readl io (pin_reg pctldev selector) &&& ulong_not HISTB_PIN_SCHMITT))
        (pin_reg pctldev selector) io) := by
  unfold histb_pinctrl_endisable_schmitt
  rw [hpin]
  simp only [HISTB_PIN_FLAG_SCHMITT, to_bool_and_BIT _ 3 (by decide)]

/-- C14: for every registered pin and every `unsigned int` argument,
pin-config-set(slew-rate, arg) returns `-ENOTSUPP` with every register unchanged when NOSR
is set or arg > 1; otherwise it returns 0, makes bit 8 of the pin word equal to arg and
leaves the other bits of the word and every other register unchanged. -/
theorem histb_pinctrl_set_slew_rate_spec (pctldev : pinctrl_dev) (io : Regs)
    (selector argument : Nat) (pin : pinctrl_pin_desc)
    (hpin : pin_desc_get pctldev selector = some pin) (harg : argument < 2 ^ 32) :
    (pin.drv_data.flags &&& HISTB_PIN_FLAG_NOSR ≠ 0 ∨ 1 < argument →
      histb_pinctrl_pinconf_set_single pctldev io selector .PIN_CONFIG_SLEW_RATE argument =
        (.ok (-ENOTSUPP), io)) ∧
    (¬ (pin.drv_data.flags &&& HISTB_PIN_FLAG_NOSR ≠ 0 ∨ 1 < argument) →
      ∃ io', histb_pinctrl_pinconf_set_single pctldev io selector .PIN_CONFIG_SLEW_RATE
          argument = (.ok 0, io') ∧
        (readl io' (pin_reg pctldev selector)).testBit 8 = decide (argument = 1) ∧
        (∀ i, i ≠ 8 → (readl io' (pin_reg pctldev selector)).testBit i =
          (readl io (pin_reg pctldev selector)).testBit i) ∧
        ∀ b, b ≠ pin_reg pctldev selector → io' b = io b) := by
  have hw := readl_lt io (pin_reg pctldev selector)
  have hs : HISTB_PIN_SLEWRATE < 2 ^ 32 := by decide
  have heq : histb_pinctrl_pinconf_set_single pctldev io selector .PIN_CONFIG_SLEW_RATE
      argument = histb_pinctrl_set_slew_rate pctldev io selector argument := by
    show histb_pinctrl_set_slew_rate pctldev io selector (u32 argument) = _
    rw [u32_eq_of_lt _ harg]
  rw [heq, histb_pinctrl_set_slew_rate_eq pctldev io selector argument pin hpin (by omega)]
  simp only [HISTB_PIN_FLAG_NOSR, flag_ne_zero_iff _ 2 (by decide)]
  constructor
  · intro h
    rw [if_pos h]
  · intro h
    rw [if_neg h]
    have ha : argument = 0 ∨ argument = 1 := by omega
    refine ⟨_, rfl, ?_, ?_, fun b hb => writel_other _ _ _ _ hb⟩
    · rcases ha with h0 | h1
      · simp [h0, readl_writel_same, testBit_u32, testBit_clear _ _ _ hw, testBit_SLEWRATE]
      · simp [h1, readl_writel_same, testBit_u32, testBit_set _ _ _ hw hs, testBit_SLEWRATE]
    · intro i h8
      have h8' : ¬ 8 = i := fun h => h8 h.symm
      by_cases h32 : i < 32
      · rcases ha with h0 | h1
        · simp [h0, readl_writel_same, testBit_u32, testBit_clear _ _ _ hw, testBit_SLEWRATE,
            h8', h32]
        · simp [h1, readl_writel_same, testBit_u32, testBit_set _ _ _ hw hs, testBit_SLEWRATE,
            h8', h32]
      · simp [readl_writel_same, testBit_u32, h32, testBit_of_lt_u32 _ i hw h32]

/-- Witness for C14: pin Y19 of the Hi3798MV2x table (no NOSR flag), argument 1. -/
theorem histb_pinctrl_set_slew_rate_spec_witness :
    ∃ io', histb_pinctrl_pinconf_set_single (hi3798mv2x_ioconfig 0) (fun _ => 0) PIN.Y19
        .PIN_CONFIG_SLEW_RATE 1 = (.ok 0, io') ∧
      (readl io' (pin_reg (hi3798mv2x_ioconfig 0) PIN.Y19)).testBit 8 = decide (1 = 1) ∧
      (∀ i, i ≠ 8 → (readl io' (pin_reg (hi3798mv2x_ioconfig 0) PIN.Y19)).testBit i =
        (readl (fun _ => 0) (pin_reg (hi3798mv2x_ioconfig 0) PIN.Y19)).testBit i) ∧
      ∀ b, b ≠ pin_reg (hi3798mv2x_ioconfig 0) PIN.Y19 → io' b = (fun _ => 0) b :=
  (histb_pinctrl_set_slew_rate_spec (hi3798mv2x_ioconfig 0) (fun _ => 0) PIN.Y19 1
    (HISTB_PIN PIN.Y19 "Y19" (some DRIVE_STRENGTH_TABLE_SAMPLE_A)
      [⟨ HI3798MV2X_GPIO, 0x0⟩, ⟨HI3798MV2X_NAND, 0x1⟩, ⟨HISTB_PIN_FUNCTION_EOF, 0⟩]
      HISTB_PIN_FLAG_NOPD) rfl (by decide)).2 (by decide)

/-- The behaviour of `histb_pinctrl_endisable_schmitt` on a registered pin: the call is
refused exactly when the SCHMITT flag is present; when the flag is absent it returns 0,
makes bit 14 equal to `enable` and leaves the other bits of the pin word and every other
register unchanged. -/
theorem histb_pinctrl_endisable_schmitt_spec (pctldev : pinctrl_dev) (io : Regs)
    (selector : Nat) (enable : Bool) (pin : pinctrl_pin_desc)
    (hpin : pin_desc_get pctldev selector = some pin) :
    (pin.drv_data.flags &&& HISTB_PIN_FLAG_SCHMITT ≠ 0 →
      histb_pinctrl_endisable_schmitt pctldev io selector enable = (.ok (-ENOTSUPP), io)) ∧
    (pin.drv_data.flags &&& HISTB_PIN_FLAG_SCHMITT = 0 →
      ∃ io', histb_pinctrl_endisable_schmitt pctldev io selector enable = (.ok 0, io') ∧
        (readl io' (pin_reg pctldev selector)).testBit 14 = enable ∧
        (∀ i, i ≠ 14 → (readl io' (pin_reg pctldev selector)).testBit i =
          (readl io (pin_reg pctldev selector)).testBit i) ∧
        ∀ b, b ≠ pin_reg pctldev selector → io' b = io b) := by
  have hw := readl_lt io (pin_reg pctldev selector)
  have hs : HISTB_PIN_SCHMITT < 2 ^ 32 := by decide
  rw [histb_pinctrl_endisable_schmitt_eq pctldev io selector enable pin hpin]
  simp only [HISTB_PIN_FLAG_SCHMITT, flag_ne_zero_iff _ 3 (by decide),
    flag_eq_zero_iff _ 3 (by decide)]
  constructor
  · intro h
    rw [if_pos h]
  · intro h
    rw [if_neg (by simp [h])]
    refine ⟨_, rfl, ?_, ?_, fun b hb => writel_other _ _ _ _ hb⟩
    · cases enable
      · simp [readl_writel_same, testBit_u32, testBit_clear _ _ _ hw, testBit_SCHMITT]
      · simp [readl_writel_same, testBit_u32, testBit_set _ _ _ hw hs, testBit_SCHMITT]
    · intro i h14
      have h14' : ¬ 14 = i := fun h => h14 h.symm
      by_cases h32 : i < 32
      · cases enable
        · simp [readl_writel_same, testBit_u32, testBit_clear _ _ _ hw, testBit_SCHMITT,
            h14', h32]
        · simp [readl_writel_same, testBit_u32, testBit_set _ _ _ hw hs, testBit_SCHMITT,
            h14', h32]
      · simp [readl_writel_same, testBit_u32, h32, testBit_of_lt_u32 _ i hw h32]

/-- C13 (failing input): pin B4 of the Hi3798MV2x table carries the SCHMITT flag, yet
pin-config-set(input-schmitt-enable, 1) returns `-ENOTSUPP` and changes nothing; pin Y19
does not carry the flag, yet the same call returns 0 and sets bit 14. -/
theorem histb_pinctrl_endisable_schmitt_inverted :
    (∃ pin, pin_desc_get (hi3798mv2x_ioconfig 0) PIN.B4 = some pin ∧
      pin.drv_data.flags &&& HISTB_PIN_FLAG_SCHMITT ≠ 0) ∧
    histb_pinctrl_pinconf_set_single (hi3798mv2x_ioconfig 0) (fun _ => 0) PIN.B4
      .PIN_CONFIG_INPUT_SCHMITT_ENABLE 1 = (.ok (-ENOTSUPP), fun _ => 0) ∧
    (∃ pin, pin_desc_get (hi3798mv2x_ioconfig 0) PIN.Y19 = some pin ∧
      pin.drv_data.flags &&& HISTB_PIN_FLAG_SCHMITT = 0) ∧
    (histb_pinctrl_pinconf_set_single (hi3798mv2x_ioconfig 0) (fun _ => 0) PIN.Y19
      .PIN_CONFIG_INPUT_SCHMITT_ENABLE 1).1 = .ok 0 ∧
    readl (histb_pinctrl_pinconf_set_single (hi3798mv2x_ioconfig 0) (fun _ => 0) PIN.Y19
      .PIN_CONFIG_INPUT_SCHMITT_ENABLE 1).2 (pin_reg (hi3798mv2x_ioconfig 0) PIN.Y19) =
      2 ^ 14 :=
  ⟨⟨_, rfl, by decide⟩, rfl, ⟨_, rfl, by decide⟩, rfl, by decide⟩

/-! ## Drive strength -/

theorem mask_DRV : HISTB_PIN_DRV_MASK = (2 ^ 4 - 1) <<< 4 := by decide

theorem shf_DRV : __bf_shf HISTB_PIN_DRV_MASK = 4 := by decide

theorem FIELD_GET_DRV (reg : Nat) : FIELD_GET HISTB_PIN_DRV_MASK reg = reg / 2 ^ 4 % 2 ^ 4 := by
  unfold FIELD_GET
  rw [shf_DRV, mask_DRV, field_get_mask]

theorem testBit_DRV_MASK (i : Nat) :
    HISTB_PIN_DRV_MASK.testBit i = decide (4 ≤ i ∧ i < 8) := by
  rw [mask_DRV, Nat.testBit_shiftLeft, Nat.testBit_two_pow_sub_one]
  by_cases h : 4 ≤ i
  · by_cases h8 : i < 8
    · have : i - 4 < 4 := by omega
      simp [h, h8, this]
    · have : ¬ i - 4 < 4 := by omega
      simp [h, h8, this]
  · simp [h]

theorem FIELD_PREP_DRV (v : Nat) : FIELD_PREP HISTB_PIN_DRV_MASK v = v % 2 ^ 4 * 2 ^ 4 := by
  unfold FIELD_PREP
  rw [shf_DRV, mask_DRV, and_shiftLeft_mask, Nat.shiftLeft_eq]
  unfold ulong BITS_PER_LONG
  omega

theorem testBit_FIELD_PREP_DRV (v i : Nat) :
    (FIELD_PREP HISTB_PIN_DRV_MASK v).testBit i =
      (decide (4 ≤ i ∧ i < 8) && v.testBit (i - 4)) := by
  rw [FIELD_PREP_DRV, Nat.mul_comm, Nat.testBit_mul_pow_two, Nat.testBit_mod_two_pow]
  by_cases h : 4 ≤ i
  · by_cases h8 : i < 8
    · have : i - 4 < 4 := by omega
      simp [h, h8, this]
    · have : ¬ i - 4 < 4 := by omega
      simp [h, h8, this]
  · simp [h]

theorem FIELD_PREP_DRV_lt (v : Nat) : FIELD_PREP HISTB_PIN_DRV_MASK v < 2 ^ 32 := by
  rw [FIELD_PREP_DRV]
  omega

/-- The pin word after `reg &= ~HISTB_PIN_DRV_MASK; reg |= FIELD_PREP(HISTB_PIN_DRV_MASK, v)`:
bits outside 7:4 are those of the old word and the field holds the low four bits of `v`. -/
theorem drv_word (w v : Nat) (hw : w < 2 ^ 32) :
    (∀ i, ¬ (4 ≤ i ∧ i < 8) →
      (u32 (u32 (w &&& ulong_not HISTB_PIN_DRV_MASK) |||
        FIELD_PREP HISTB_PIN_DRV_MASK v)).testBit i = w.testBit i) ∧
    u32 (u32 (w &&& ulong_not HISTB_PIN_DRV_MASK) ||| FIELD_PREP HISTB_PIN_DRV_MASK v) /
      2 ^ 4 % 2 ^ 4 = v % 2 ^ 4 := by
  constructor
  · intro i hi
    rw [testBit_clear_set _ _ _ _ hw (FIELD_PREP_DRV_lt v), testBit_DRV_MASK,
      testBit_FIELD_PREP_DRV]
    simp [hi]
  · apply Nat.eq_of_testBit_eq
    intro j
    rw [← Nat.shiftRight_eq_div_pow, Nat.testBit_mod_two_pow, Nat.testBit_shiftRight,
      testBit_clear_set _ _ _ _ hw (FIELD_PREP_DRV_lt v), testBit_DRV_MASK,
      testBit_FIELD_PREP_DRV, Nat.testBit_mod_two_pow]
    by_cases hj : j < 4
    · have h1 : 4 ≤ 4 + j ∧ 4 + j < 8 := by omega
      have h2 : 4 + j - 4 = j := by omega
      simp [hj, h1, h2]
    · simp [hj]

theorem ulong_of_int_natCast (n : Nat) (h : n < 2 ^ 64) : ulong_of_int (n : Int) = n := by
  unfold ulong_of_int BITS_PER_LONG
  have : ((n : Int) % 2 ^ 64) = ((n % 2 ^ 64 : Nat) : Int) := by norm_cast
  rw [this, Int.toNat_ofNat, Nat.mod_eq_of_lt h]

/-- The result of `histb_pinctrl_set_drive_strength` for a registered pin that has a
table, once the search loop has stopped at index `i` on entry `t`. -/
theorem histb_pinctrl_set_drive_strength_eq (pctldev : pinctrl_dev) (io : Regs)
    (selector argument : Nat) (pin : pinctrl_pin_desc) (tbl : List Nat) (i t : Nat)
    (hpin : pin_desc_get pctldev selector = some pin)
    (htbl : pin.drv_data.drv_tbl = some tbl) (harg0 : u32 argument ≠ 0)
    (hloop : histb_pinctrl_set_drive_strength_loop (u32 argument) tbl 0 = .ok (i, t)) :
    histb_pinctrl_set_drive_strength pctldev io selector argument =
      (.ok 0, writel (u32 (u32 (readl io (pin_reg pctldev selector) &&&
          ulong_not HISTB_PIN_DRV_MASK) |||
        FIELD_PREP HISTB_PIN_DRV_MASK
          (ulong_of_int (if t = 0 then (i : Int) - 1 else (i : Int)))))
        (pin_reg pctldev selector) io) := by
  unfold histb_pinctrl_set_drive_strength
  rw [hpin]
  simp only [htbl, harg0, if_false, hloop]

/-- The call `histb_pinctrl_set_drive_strength` is refused, with every register unchanged,
for a pin without a table and for argument 0. -/
theorem histb_pinctrl_set_drive_strength_refused (pctldev : pinctrl_dev) (io : Regs)
    (selector argument : Nat) (pin : pinctrl_pin_desc)
    (hpin : pin_desc_get pctldev selector = some pin)
    (h : pin.drv_data.drv_tbl = none ∨ u32 argument = 0) :
    histb_pinctrl_set_drive_strength pctldev io selector argument =
      (.ok (-ENOTSUPP), io) := by
  unfold histb_pinctrl_set_drive_strength
  rw [hpin]
  rcases h with h | h
  · simp only [h]
  · cases htbl : pin.drv_data.drv_tbl with
    | none => simp only [htbl]
    | some tbl => simp only [htbl, h, if_true]

/-- The search loop stops inside every table that holds a 0 entry. -/
theorem histb_pinctrl_set_drive_strength_loop_ok (argument : Nat) (tbl : List Nat)
    (h0 : 0 ∈ tbl) (i0 : Nat) :
    ∃ i t, histb_pinctrl_set_drive_strength_loop argument tbl i0 = .ok (i, t) := by
  induction tbl generalizing i0 with
  | nil => cases h0
  | cons a rest ih =>
    unfold histb_pinctrl_set_drive_strength_loop
    by_cases ha : a > argument
    · rw [if_pos ha]
      rcases List.mem_cons.mp h0 with h | h
      · omega
      · exact ih h (i0 + 1)
    · rw [if_neg ha]
      exact ⟨_, _, rfl⟩

/-- C17: for a registered pin, pin-config-set(drive-strength, arg) with an `unsigned int`
argument returns `-ENOTSUPP`, with every register unchanged, when arg = 0 or the pin has
no drive-strength table; in every other case, the table ending with its 0 entry, it
returns 0. -/
theorem histb_pinctrl_set_drive_strength_status (pctldev : pinctrl_dev) (io : Regs)
    (selector argument : Nat) (pin : pinctrl_pin_desc)
    (hpin : pin_desc_get pctldev selector = some pin) (harg : argument < 2 ^ 32) :
    (argument = 0 ∨ pin.drv_data.drv_tbl = none →
      histb_pinctrl_pinconf_set_single pctldev io selector .PIN_CONFIG_DRIVE_STRENGTH
        argument = (.ok (-ENOTSUPP), io)) ∧
    (∀ tbl, argument ≠ 0 → pin.drv_data.drv_tbl = some tbl → 0 ∈ tbl →
      ∃ io', histb_pinctrl_pinconf_set_single pctldev io selector
        .PIN_CONFIG_DRIVE_STRENGTH argument = (.ok 0, io')) := by
  have hu : u32 argument = argument := u32_eq_of_lt _ harg
  have heq : histb_pinctrl_pinconf_set_single pctldev io selector
      .PIN_CONFIG_DRIVE_STRENGTH argument =
      histb_pinctrl_set_drive_strength pctldev io selector argument := by
    show histb_pinctrl_set_drive_strength pctldev io selector (u32 argument) = _
    rw [hu]
  rw [heq]
  constructor
  · intro h
    apply histb_pinctrl_set_drive_strength_refused pctldev io selector argument pin hpin
    rcases h with h | h
    · exact Or.inr (by rw [hu]; exact h)
    · exact Or.inl h
  · intro tbl ha htbl h0
    obtain ⟨i, t, hloop⟩ := histb_pinctrl_set_drive_strength_loop_ok (u32 argument) tbl h0 0
    exact ⟨_, histb_pinctrl_set_drive_strength_eq pctldev io selector argument pin tbl i t
      hpin htbl (by rw [hu]; exact ha) hloop⟩

/-- Witness for C17: pin B4 of the Hi3798MV2x table, argument 11. -/
theorem histb_pinctrl_set_drive_strength_status_witness :
    ∃ io', histb_pinctrl_pinconf_set_single (hi3798mv2x_ioconfig 0) (fun _ => 0) PIN.B4
      .PIN_CONFIG_DRIVE_STRENGTH 11 = (.ok 0, io') :=
  (histb_pinctrl_set_drive_strength_status (hi3798mv2x_ioconfig 0) (fun _ => 0) PIN.B4 11
    (HISTB_PIN PIN.B4 "B4" (some [18, 16, 14, 12, 10, 8, 6, 4, 0])
      [⟨ HI3798MV2X_GPIO, 0x0⟩, ⟨HI3798MV2X_RGMII, 0x1⟩, ⟨HI3798MV2X_RMII, 0x2⟩,
       ⟨ HI3798MV2X_SDIO, 0x3⟩, ⟨HISTB_PIN_FUNCTION_EOF, 0⟩] HISTB_PIN_FLAG_SCHMITT)
    rfl (by decide)).2 [18, 16, 14, 12, 10, 8, 6, 4, 0] (by decide) rfl (by decide)

/-- The result of `histb_pinctrl_get_drive_strength` for a registered pin that has a
table. -/
theorem histb_pinctrl_get_drive_strength_eq (pctldev : pinctrl_dev) (io : Regs)
    (selector : Nat) (pin : pinctrl_pin_desc) (tbl : List Nat)
    (hpin : pin_desc_get pctldev selector = some pin)
    (htbl : pin.drv_data.drv_tbl = some tbl) :
    histb_pinctrl_get_drive_strength pctldev io selector =
      match tbl.get? (readl io (pin_reg pctldev selector) / 2 ^ 4 % 2 ^ 4) with
      | none => .error .out_of_bounds
      | some t => .ok t := by
  unfold histb_pinctrl_get_drive_strength
  rw [hpin]
  simp only [htbl, FIELD_GET_DRV]

/-- Writing a drive-strength index and reading the strength back: when the search loop
has stopped at index `i` on entry `t`, the selected index `f` fits the field and the table
holds the non-zero entry `v` there, the call returns 0, bits 7:4 hold `f`, and a following
pin-config-get(drive-strength) returns `v`. -/
theorem drive_strength_roundtrip (pctldev : pinctrl_dev) (io : Regs)
    (selector argument : Nat) (pin : pinctrl_pin_desc) (tbl : List Nat) (i t f v : Nat)
    (hpin : pin_desc_get pctldev selector = some pin)
    (htbl : pin.drv_data.drv_tbl = some tbl) (harg0 : u32 argument ≠ 0)
    (hloop : histb_pinctrl_set_drive_strength_loop (u32 argument) tbl 0 = .ok (i, t))
    (hf : (if t = 0 then (i : Int) - 1 else (i : Int)) = (f : Int)) (hf16 : f < 16)
    (hget : tbl.get? f = some v) (hv : v ≠ 0) :
    ∃ io', histb_pinctrl_set_drive_strength pctldev io selector argument = (.ok 0, io') ∧
      readl io' (pin_reg pctldev selector) / 2 ^ 4 % 2 ^ 4 = f ∧
      ∀ c, histb_pinctrl_pinconf_get pctldev io' selector ⟨.PIN_CONFIG_DRIVE_STRENGTH, c⟩ =
        (.ok 0, ⟨.PIN_CONFIG_DRIVE_STRENGTH, v⟩, io') := by
  have hw := readl_lt io (pin_reg pctldev selector)
  have heq := histb_pinctrl_set_drive_strength_eq pctldev io selector argument pin tbl i t
    hpin htbl harg0 hloop
  rw [hf, ulong_of_int_natCast f (by omega)] at heq
  have hfield : readl (writel (u32 (u32 (readl io (pin_reg pctldev selector) &&&
      ulong_not HISTB_PIN_DRV_MASK) ||| FIELD_PREP HISTB_PIN_DRV_MASK f))
      (pin_reg pctldev selector) io) (pin_reg pctldev selector) / 2 ^ 4 % 2 ^ 4 = f := by
    rw [readl_writel_same, u32_eq_of_lt _ (u32_lt _), (drv_word _ f hw).2]
    exact Nat.mod_eq_of_lt (by omega)
  refine ⟨_, heq, hfield, ?_⟩
  intro c
  unfold histb_pinctrl_pinconf_get
  simp only [pinconf_to_config_param]
  rw [histb_pinctrl_get_drive_strength_eq pctldev _ selector pin tbl hpin htbl, hfield, hget]
  simp only [hv, if_false, pinconf_to_config_packed]

/-- Entries before the final 0 of a strictly descending table are positive. -/
theorem drv_tbl_pos (nz : List Nat) (h : (nz ++ [0]).Pairwise (· > ·)) :
    ∀ u ∈ nz, 0 < u := by
  intro u hu
  have := (List.pairwise_append.mp h).2.2 u hu 0 (by simp)
  exact this

/-- The last entry of a non-empty strictly descending list is its smallest. -/
theorem drv_tbl_last_min (nz : List Nat) (h : nz.Pairwise (· > ·)) (hne : 1 ≤ nz.length) :
    ∃ v, nz.get? (nz.length - 1) = some v ∧ ∀ u ∈ nz, v ≤ u := by
  induction nz with
  | nil => simp at hne
  | cons a rest ih =>
    cases rest with
    | nil => exact ⟨a, rfl, by simp⟩
    | cons b rest2 =>
      obtain ⟨hab, hrest⟩ := List.pairwise_cons.mp h
      obtain ⟨v, hv, hmin⟩ := ih hrest (by simp)
      refine ⟨v, ?_, ?_⟩
      · simpa using hv
      · intro u hu
        rcases List.mem_cons.mp hu with hua | hur
        · have h1 := hab b (by simp)
          have h2 := hmin b (by simp)
          omega
        · exact hmin u hur

/-- The search loop on a strictly descending table that ends with 0: it stops either on
the largest entry not above the argument, or on the final 0 when every entry before it
exceeds the argument. -/
theorem histb_pinctrl_set_drive_strength_loop_spec (x : Nat) (nz : List Nat)
    (hdesc : (nz ++ [0]).Pairwise (· > ·)) (i0 : Nat) :
    ∃ i t, histb_pinctrl_set_drive_strength_loop x (nz ++ [0]) i0 = .ok (i0 + i, t) ∧
      ((t ≠ 0 ∧ nz.get? i = some t ∧ t ≤ x ∧ ∀ u ∈ nz, u ≤ x → u ≤ t) ∨
        (t = 0 ∧ i = nz.length ∧ ∀ u ∈ nz, x < u)) := by
  induction nz generalizing i0 with
  | nil =>
    refine ⟨0, 0, ?_, Or.inr ⟨rfl, rfl, by simp⟩⟩
    simp [histb_pinctrl_set_drive_strength_loop]
  | cons a rest ih =>
    have hpos := drv_tbl_pos (a :: rest) hdesc
    rw [List.cons_append] at hdesc
    obtain ⟨ha, hrest⟩ := List.pairwise_cons.mp hdesc
    rw [List.cons_append]
    unfold histb_pinctrl_set_drive_strength_loop
    by_cases hax : a > x
    · rw [if_pos hax]
      obtain ⟨i, t, hloop, hspec⟩ := ih hrest (i0 + 1)
      refine ⟨i + 1, t, ?_, ?_⟩
      · rw [hloop]
        congr 2
        omega
      · rcases hspec with ⟨ht, hget, htx, hmax⟩ | ⟨ht, hi, hall⟩
        · refine Or.inl ⟨ht, by simpa using hget, htx, ?_⟩
          intro u hu hux
          rcases List.mem_cons.mp hu with h | h
          · omega
          · exact hmax u h hux
        · refine Or.inr ⟨ht, by simp [hi], ?_⟩
          intro u hu
          rcases List.mem_cons.mp hu with h | h
          · omega
          · exact hall u h
    · rw [if_neg hax]
      refine ⟨0, a, rfl, Or.inl ⟨?_, rfl, by omega, ?_⟩⟩
      · have := hpos a (by simp)
        omega
      · intro u hu _
        rcases List.mem_cons.mp hu with h | h
        · omega
        · have := ha u (by simp [h])
          omega

/-- C15: for a registered pin whose drive-strength table T is strictly descending, ends
with 0 and has between 1 and 16 non-zero entries, and every `unsigned int` argument
x >= 1, pin-config-set(drive-strength, x) returns 0 and writes into bits 7:4 the index i of
the largest entry T[i] <= x, or, when every non-zero entry exceeds x, the index of the
smallest non-zero entry; a following pin-config-get(drive-strength) returns 0 and reports
exactly T[i]. -/
theorem histb_pinctrl_drive_strength_spec (pctldev : pinctrl_dev) (io : Regs)
    (selector x : Nat) (pin : pinctrl_pin_desc) (nz : List Nat)
    (hpin : pin_desc_get pctldev selector = some pin)
    (htbl : pin.drv_data.drv_tbl = some (nz ++ [0]))
    (hdesc : (nz ++ [0]).Pairwise (· > ·))
    (h1 : 1 ≤ nz.length) (h16 : nz.length ≤ 16) (hx1 : 1 ≤ x) (hx : x < 2 ^ 32) :
    ∃ i v io', nz.get? i = some v ∧
      ((v ≤ x ∧ ∀ u ∈ nz, u ≤ x → u ≤ v) ∨ ((∀ u ∈ nz, x < u) ∧ ∀ u ∈ nz, v ≤ u)) ∧
      histb_pinctrl_pinconf_set_single pctldev io selector .PIN_CONFIG_DRIVE_STRENGTH x =
        (.ok 0, io') ∧
      readl io' (pin_reg pctldev selector) / 2 ^ 4 % 2 ^ 4 = i ∧
      ∀ c, histb_pinctrl_pinconf_get pctldev io' selector ⟨.PIN_CONFIG_DRIVE_STRENGTH, c⟩ =
        (.ok 0, ⟨.PIN_CONFIG_DRIVE_STRENGTH, v⟩, io') := by
  have hu : u32 x = x := u32_eq_of_lt _ hx
  have hu0 : u32 x ≠ 0 := by omega
  have hset : histb_pinctrl_pinconf_set_single pctldev io selector
      .PIN_CONFIG_DRIVE_STRENGTH x =
      histb_pinctrl_set_drive_strength pctldev io selector x := by
    show histb_pinctrl_set_drive_strength pctldev io selector (u32 x) = _
    rw [hu]
  have hpos := drv_tbl_pos nz hdesc
  obtain ⟨i, t, hloop, hspec⟩ := histb_pinctrl_set_drive_strength_loop_spec (u32 x) nz hdesc 0
  rw [Nat.zero_add] at hloop
  rw [hset]
  rcases hspec with ⟨ht, hget, htx, hmax⟩ | ⟨ht, hi, hall⟩
  · have hil : i < nz.length := by
      by_contra hc
      rw [List.get?_eq_none.mpr (by omega)] at hget
      cases hget
    have hgetT : (nz ++ [0]).get? i = some t := by
      rw [List.get?_eq_getElem?, List.getElem?_append_left hil, ← List.get?_eq_getElem?]
      exact hget
    obtain ⟨io', hs, hfld, hg⟩ := drive_strength_roundtrip pctldev io selector x pin
      (nz ++ [0]) i t i t hpin htbl hu0 hloop (by rw [if_neg ht]) (by omega) hgetT ht
    rw [hu] at htx hmax
    exact ⟨i, t, io', hget, Or.inl ⟨htx, hmax⟩, hs, hfld, hg⟩
  · obtain ⟨v, hv, hmin⟩ := drv_tbl_last_min nz (List.pairwise_append.mp hdesc).1 h1
    have hvne : v ≠ 0 := by
      have := hpos v (List.get?_mem hv)
      omega
    have hgetT : (nz ++ [0]).get? (nz.length - 1) = some v := by
      rw [List.get?_eq_getElem?, List.getElem?_append_left (by omega),
        ← List.get?_eq_getElem?]
      exact hv
    have hfi : (if t = 0 then (i : Int) - 1 else (i : Int)) = ((nz.length - 1 : Nat) : Int) := by
      rw [if_pos ht, hi]
      omega
    obtain ⟨io', hs, hfld, hg⟩ := drive_strength_roundtrip pctldev io selector x pin
      (nz ++ [0]) i t (nz.length - 1) v hpin htbl hu0 hloop hfi (by omega) hgetT hvne
    rw [hu] at hall
    exact ⟨nz.length - 1, v, io', hv, Or.inr ⟨hall, hmin⟩, hs, hfld, hg⟩

/-- Witness for C15: pin B4 of the Hi3798MV2x table, argument 11. -/
theorem histb_pinctrl_drive_strength_spec_witness :
    ∃ i v io', [18, 16, 14, 12, 10, 8, 6, 4].get? i = some v ∧
      ((v ≤ 11 ∧ ∀ u ∈ [18, 16, 14, 12, 10, 8, 6, 4], u ≤ 11 → u ≤ v) ∨
        ((∀ u ∈ [18, 16, 14, 12, 10, 8, 6, 4], 11 < u) ∧
          ∀ u ∈ [18, 16, 14, 12, 10, 8, 6, 4], v ≤ u)) ∧
      histb_pinctrl_pinconf_set_single (hi3798mv2x_ioconfig 0) (fun _ => 0) PIN.B4
        .PIN_CONFIG_DRIVE_STRENGTH 11 = (.ok 0, io') ∧
      readl io' (pin_reg (hi3798mv2x_ioconfig 0) PIN.B4) / 2 ^ 4 % 2 ^ 4 = i ∧
      ∀ c, histb_pinctrl_pinconf_get (hi3798mv2x_ioconfig 0) io' PIN.B4
          ⟨.PIN_CONFIG_DRIVE_STRENGTH, c⟩ =
        (.ok 0, ⟨.PIN_CONFIG_DRIVE_STRENGTH, v⟩, io') :=
  histb_pinctrl_drive_strength_spec (hi3798mv2x_ioconfig 0) (fun _ => 0) PIN.B4 11
    (HISTB_PIN PIN.B4 "B4" (some [18, 16, 14, 12, 10, 8, 6, 4, 0])
      [⟨ HI3798MV2X_GPIO, 0x0⟩, ⟨HI3798MV2X_RGMII, 0x1⟩, ⟨HI3798MV2X_RMII, 0x2⟩,
       ⟨ HI3798MV2X_SDIO, 0x3⟩, ⟨HISTB_PIN_FUNCTION_EOF, 0⟩] HISTB_PIN_FLAG_SCHMITT)
    [18, 16, 14, 12, 10, 8, 6, 4] rfl rfl (by decide) (by decide) (by decide) (by decide)
    (by decide)

/-- C16 (as amended): for pin B4 of the Hi3798MV2x table, whose drive-strength table is
{18,16,14,12,10,8,6,4,0}, on any register file: set-drive-strength(11) returns 0, writes
the value 4 (the index of the entry 10) into bits 7:4 and a following get returns 10;
set-drive-strength(3) returns 0, writes the value 7 into the field and a following get
returns 4, the smallest non-zero entry. -/
theorem hi3798mv2x_B4_drive_strength (base : Nat) (io : Regs) :
    (∃ io', histb_pinctrl_pinconf_set_single (hi3798mv2x_ioconfig base) io PIN.B4
        .PIN_CONFIG_DRIVE_STRENGTH 11 = (.ok 0, io') ∧
      readl io' (pin_reg (hi3798mv2x_ioconfig base) PIN.B4) / 2 ^ 4 % 2 ^ 4 = 4 ∧
      ∀ c, histb_pinctrl_pinconf_get (hi3798mv2x_ioconfig base) io' PIN.B4
          ⟨.PIN_CONFIG_DRIVE_STRENGTH, c⟩ = (.ok 0, ⟨.PIN_CONFIG_DRIVE_STRENGTH, 10⟩, io')) ∧
    (∃ io', histb_pinctrl_pinconf_set_single (hi3798mv2x_ioconfig base) io PIN.B4
        .PIN_CONFIG_DRIVE_STRENGTH 3 = (.ok 0, io') ∧
      readl io' (pin_reg (hi3798mv2x_ioconfig base) PIN.B4) / 2 ^ 4 % 2 ^ 4 = 7 ∧
      ∀ c, histb_pinctrl_pinconf_get (hi3798mv2x_ioconfig base) io' PIN.B4
          ⟨.PIN_CONFIG_DRIVE_STRENGTH, c⟩ = (.ok 0, ⟨.PIN_CONFIG_DRIVE_STRENGTH, 4⟩, io')) := by
  have hpin : pin_desc_get (hi3798mv2x_ioconfig base) PIN.B4 =
      some (HISTB_PIN PIN.B4 "B4" (some [18, 16, 14, 12, 10, 8, 6, 4, 0])
        [⟨ HI3798MV2X_GPIO, 0x0⟩, ⟨HI3798MV2X_RGMII, 0x1⟩, ⟨HI3798MV2X_RMII, 0x2⟩,
         ⟨ HI3798MV2X_SDIO, 0x3⟩, ⟨HISTB_PIN_FUNCTION_EOF, 0⟩] HISTB_PIN_FLAG_SCHMITT) := rfl
  exact ⟨drive_strength_roundtrip (hi3798mv2x_ioconfig base) io PIN.B4 11 _
      [18, 16, 14, 12, 10, 8, 6, 4, 0] 4 10 4 10 hpin rfl (by decide) rfl (by decide)
      (by decide) rfl (by decide),
    drive_strength_roundtrip (hi3798mv2x_ioconfig base) io PIN.B4 3 _
      [18, 16, 14, 12, 10, 8, 6, 4, 0] 8 0 7 4 hpin rfl (by decide) rfl (by decide)
      (by decide) rfl (by decide)⟩

/-- C16 (counterexample): on pin B4, set-drive-strength(11) leaves 4 in bits 7:4 of the
pin word, not 6: the entry 10 sits at index 4 of {18,16,14,12,10,8,6,4,0}. -/
theorem hi3798mv2x_B4_drive_strength_11_writes_4 :
    (histb_pinctrl_pinconf_set_single (hi3798mv2x_ioconfig 0) (fun _ => 0) PIN.B4
      .PIN_CONFIG_DRIVE_STRENGTH 11).1 = .ok 0 ∧
    readl (histb_pinctrl_pinconf_set_single (hi3798mv2x_ioconfig 0) (fun _ => 0) PIN.B4
      .PIN_CONFIG_DRIVE_STRENGTH 11).2 (pin_reg (hi3798mv2x_ioconfig 0) PIN.B4) /
        2 ^ 4 % 2 ^ 4 = 4 ∧
    (4 : Nat) ≠ 6 ∧
    [18, 16, 14, 12, 10, 8, 6, 4, 0].get? 4 = some 10 ∧
    [18, 16, 14, 12, 10, 8, 6, 4, 0].get? 6 = some 6 :=
  ⟨rfl, by decide, by decide, rfl, rfl⟩

/-- C18 (as amended): for a registered pin, pin-config-get(drive-strength) returns
`-ENOTSUPP` when the pin has no drive-strength table; when it has a table and bits 7:4 of
the pin word index an entry of it, the call returns 0 and reports that entry if the entry
is non-zero, and returns `-ENOTSUPP` if the entry is 0.  No register changes. -/
theorem histb_pinctrl_pinconf_get_drive_strength (pctldev : pinctrl_dev) (io : Regs)
    (selector c : Nat) (pin : pinctrl_pin_desc)
    (hpin : pin_desc_get pctldev selector = some pin) :
    (pin.drv_data.drv_tbl = none →
      histb_pinctrl_pinconf_get pctldev io selector ⟨.PIN_CONFIG_DRIVE_STRENGTH, c⟩ =
        (.ok (-ENOTSUPP), ⟨.PIN_CONFIG_DRIVE_STRENGTH, c⟩, io)) ∧
    (∀ tbl v, pin.drv_data.drv_tbl = some tbl →
      tbl.get? (readl io (pin_reg pctldev selector) / 2 ^ 4 % 2 ^ 4) = some v →
      (v ≠ 0 →
        histb_pinctrl_pinconf_get pctldev io selector ⟨.PIN_CONFIG_DRIVE_STRENGTH, c⟩ =
          (.ok 0, ⟨.PIN_CONFIG_DRIVE_STRENGTH, v⟩, io)) ∧
      (v = 0 →
        histb_pinctrl_pinconf_get pctldev io selector ⟨.PIN_CONFIG_DRIVE_STRENGTH, c⟩ =
          (.ok (-ENOTSUPP), ⟨.PIN_CONFIG_DRIVE_STRENGTH, c⟩, io))) := by
  constructor
  · intro hnone
    unfold histb_pinctrl_pinconf_get histb_pinctrl_get_drive_strength
    simp only [pinconf_to_config_param]
    rw [hpin]
    simp only [hnone, if_true]
  · intro tbl v htbl hget
    unfold histb_pinctrl_pinconf_get
    simp only [pinconf_to_config_param]
    rw [histb_pinctrl_get_drive_strength_eq pctldev io selector pin tbl hpin htbl, hget]
    constructor
    · intro hv
      simp only [hv, if_false, pinconf_to_config_packed]
    · intro hv
      simp only [hv, if_true]

/-- Witness for C18 (as amended): pin B4 with 4 in bits 7:4 of its word reports 10. -/
theorem histb_pinctrl_pinconf_get_drive_strength_witness :
    histb_pinctrl_pinconf_get (hi3798mv2x_ioconfig 0) (fun _ => 0x40) PIN.B4
        ⟨.PIN_CONFIG_DRIVE_STRENGTH, 0⟩ =
      (.ok 0, ⟨.PIN_CONFIG_DRIVE_STRENGTH, 10⟩, fun _ => 0x40) :=
  ((histb_pinctrl_pinconf_get_drive_strength (hi3798mv2x_ioconfig 0) (fun _ => 0x40) PIN.B4 0
    (HISTB_PIN PIN.B4 "B4" (some [18, 16, 14, 12, 10, 8, 6, 4, 0])
      [⟨ HI3798MV2X_GPIO, 0x0⟩, ⟨HI3798MV2X_RGMII, 0x1⟩, ⟨HI3798MV2X_RMII, 0x2⟩,
       ⟨ HI3798MV2X_SDIO, 0x3⟩, ⟨HISTB_PIN_FUNCTION_EOF, 0⟩] HISTB_PIN_FLAG_SCHMITT)
    rfl).2 [18, 16, 14, 12, 10, 8, 6, 4, 0] 10 rfl (by decide)).1 (by decide)

/-- C18 (counterexample): pin B4 has a drive-strength table, yet with 8 in bits 7:4 of its
pin word (the index of the final 0 of {18,16,14,12,10,8,6,4,0}) pin-config-get(drive-strength)
returns `-ENOTSUPP`. -/
theorem histb_pinctrl_pinconf_get_drive_strength_sentinel :
    (∃ pin, pin_desc_get (hi3798mv2x_ioconfig 0) PIN.B4 = some pin ∧
      pin.drv_data.drv_tbl = some [18, 16, 14, 12, 10, 8, 6, 4, 0]) ∧
    readl (fun _ => 0x80) (pin_reg (hi3798mv2x_ioconfig 0) PIN.B4) / 2 ^ 4 % 2 ^ 4 = 8 ∧
    (histb_pinctrl_pinconf_get (hi3798mv2x_ioconfig 0) (fun _ => 0x80) PIN.B4
      ⟨.PIN_CONFIG_DRIVE_STRENGTH, 0⟩).1 = .ok (-ENOTSUPP) :=
  ⟨⟨_, rfl, rfl⟩, by decide, rfl⟩

/-! ## `histb_pinctrl_pinconf_get` -/

/-- C19: for every register file and every pin selector, with w the 32-bit pin word,
`histb_pinctrl_pinconf_get` returns 0 and reports bias-disable = 1 exactly when bits 12
and 13 of w are both clear, bias-pull-up = bit 12, bias-pull-down = bit 13, slew-rate =
bit 8 and input-schmitt-enable = bit 14; each reported argument is the 0 or 1 of a
boolean, and the register file is returned as it was. -/
theorem histb_pinctrl_pinconf_get_spec (pctldev : pinctrl_dev) (io : Regs) (pin c : Nat) :
    histb_pinctrl_pinconf_get pctldev io pin ⟨.PIN_CONFIG_BIAS_DISABLE, c⟩ =
      (.ok 0, ⟨.PIN_CONFIG_BIAS_DISABLE,
        (!(readl io (pin_reg pctldev pin)).testBit 12 &&
          !(readl io (pin_reg pctldev pin)).testBit 13).toNat⟩, io) ∧
    histb_pinctrl_pinconf_get pctldev io pin ⟨.PIN_CONFIG_BIAS_PULL_UP, c⟩ =
      (.ok 0, ⟨.PIN_CONFIG_BIAS_PULL_UP,
        ((readl io (pin_reg pctldev pin)).testBit 12).toNat⟩, io) ∧
    histb_pinctrl_pinconf_get pctldev io pin ⟨.PIN_CONFIG_BIAS_PULL_DOWN, c⟩ =
      (.ok 0, ⟨.PIN_CONFIG_BIAS_PULL_DOWN,
        ((readl io (pin_reg pctldev pin)).testBit 13).toNat⟩, io) ∧
    histb_pinctrl_pinconf_get pctldev io pin ⟨.PIN_CONFIG_SLEW_RATE, c⟩ =
      (.ok 0, ⟨.PIN_CONFIG_SLEW_RATE,
        ((readl io (pin_reg pctldev pin)).testBit 8).toNat⟩, io) ∧
    histb_pinctrl_pinconf_get pctldev io pin ⟨.PIN_CONFIG_INPUT_SCHMITT_ENABLE, c⟩ =
      (.ok 0, ⟨.PIN_CONFIG_INPUT_SCHMITT_ENABLE,
        ((readl io (pin_reg pctldev pin)).testBit 14).toNat⟩, io) := by
  unfold histb_pinctrl_pinconf_get histb_pinctrl_get_bias_status histb_pinctrl_get_slew_rate
    histb_pinctrl_get_schmitt
  simp only [pinconf_to_config_param, pinconf_to_config_packed, HISTB_PIN_PULLUP,
    HISTB_PIN_PULLDOWN, HISTB_PIN_SLEWRATE, HISTB_PIN_SCHMITT, to_bool_and_BIT _ 12 (by decide),
    to_bool_and_BIT _ 13 (by decide), to_bool_and_BIT _ 8 (by decide),
    to_bool_and_BIT _ 14 (by decide)]
  generalize (readl io (pin_reg pctldev pin)).testBit 12 = b12
  generalize (readl io (pin_reg pctldev pin)).testBit 13 = b13
  generalize (readl io (pin_reg pctldev pin)).testBit 8 = b8
  generalize (readl io (pin_reg pctldev pin)).testBit 14 = b14
  refine ⟨?_, ?_, ?_, ?_, ?_⟩
  · cases b12 <;> cases b13 <;> rfl
  · cases b12 <;> cases b13 <;> rfl
  · cases b12 <;> cases b13 <;> rfl
  · cases b8 <;> rfl
  · cases b14 <;> rfl

/-! ## The Hi3798MV2x pin table and the engine -/

/-- Every index below 66 is a registered pin of the Hi3798MV2x controller, and its
descriptor is a row of `hi3798mv2x_ioconfig_pins`. -/
theorem hi3798mv2x_pin_desc_get (base i : Nat) (hi : i < 66) :
    ∃ pin, pin_desc_get (hi3798mv2x_ioconfig base) i = some pin ∧
      pin ∈ hi3798mv2x_ioconfig_pins ∧ pin.number = i := by
  have hsome : ∀ i < 66,
      (hi3798mv2x_ioconfig_pins.find? (fun d => d.number = i)).isSome = true := by decide
  have h := hsome i hi
  cases hf : hi3798mv2x_ioconfig_pins.find? (fun d => d.number = i) with
  | none => rw [hf] at h; cases h
  | some pin =>
    refine ⟨pin, hf, List.mem_of_find?_eq_some hf, ?_⟩
    have := List.find?_some hf
    simpa using this

/-- Rows of the Hi3798MV2x table: every function list carries its end marker, every raw
mux value fits bits 2:0, and every drive-strength table holds the final 0. -/
theorem hi3798mv2x_rows_wf :
    ∀ pin ∈ hi3798mv2x_ioconfig_pins,
      (∃ m ∈ pin.drv_data.func_tbl, m.func = HISTB_PIN_FUNCTION_EOF) ∧
      (∀ m ∈ pin.drv_data.func_tbl, m.bits < 8) ∧
      (∀ tbl ∈ pin.drv_data.drv_tbl, 0 ∈ tbl) := by
  decide

/-- Every row of the Hi3798MV2x table other than Y20 lists the GPIO function. -/
theorem hi3798mv2x_rows_gpio :
    ∀ pin ∈ hi3798mv2x_ioconfig_pins, pin.number ≠ PIN.Y20 →
      ((func_tbl_entries pin.drv_data.func_tbl).find?
        (fun m => m.func = HISTB_PIN_FUNCTION_GPIO)).isSome = true := by
  decide

/-- GPIO request succeeds on each of the 65 pins of the Hi3798MV2x table other than
Y20. -/
theorem hi3798mv2x_gpio_request_except_Y20 (base : Nat) (io : Regs) (i : Nat) (hi : i < 66)
    (hne : i ≠ PIN.Y20) :
    (histb_pinctrl_gpio_request (hi3798mv2x_ioconfig base) io i).1 = .ok 0 := by
  obtain ⟨pin, hpin, hmem, hnum⟩ := hi3798mv2x_pin_desc_get base i hi
  have hg := hi3798mv2x_rows_gpio pin hmem (by rw [hnum]; exact hne)
  unfold histb_pinctrl_gpio_request
  rw [histb_pinctrl_pinmux_set_eq _ io _ i pin hpin (hi3798mv2x_rows_wf pin hmem).1
    (by decide)]
  cases hf : (func_tbl_entries pin.drv_data.func_tbl).find?
      (fun m => m.func = HISTB_PIN_FUNCTION_GPIO) with
  | none => rw [hf] at hg; cases hg
  | some m => rfl

/-- C11 (failing input): `histb_pinctrl_gpio_request` is `histb_pinctrl_pinmux_set` with
function id `HISTB_PIN_FUNCTION_GPIO` = 0, but on pin Y20 of the Hi3798MV2x table, whose
function list is { NAND, end marker }, it returns `-ENOENT` and changes no register. -/
theorem hi3798mv2x_Y20_gpio_request (base : Nat) (io : Regs) :
    (∀ pctldev pin, histb_pinctrl_gpio_request pctldev io pin =
      histb_pinctrl_pinmux_set pctldev io HISTB_PIN_FUNCTION_GPIO pin) ∧
    HISTB_PIN_FUNCTION_GPIO = 0 ∧
    (∃ pin, pin_desc_get (hi3798mv2x_ioconfig base) PIN.Y20 = some pin ∧
      pin.drv_data.func_tbl = [⟨HI3798MV2X_NAND, 0x1⟩, ⟨HISTB_PIN_FUNCTION_EOF, 0⟩]) ∧
    histb_pinctrl_gpio_request (hi3798mv2x_ioconfig base) io PIN.Y20 = (.ok (-ENOENT), io) :=
  ⟨fun _ _ => rfl, rfl, ⟨_, rfl, rfl⟩, rfl⟩

/-! ## Frame of the engine operations -/

/-- An operation that returns the register file as it was has every frame. -/
theorem op_frame_const (a : Nat) (F : Nat → Prop) (st : Except Fault Int)
    (op : Regs → Except Fault Int × Regs) (h : ∀ io, op io = (st, io)) : op_frame a F op := by
  intro io
  refine ⟨fun b _ => by rw [h], fun j _ => by rw [h], fun io2 h2 => ?_⟩
  rw [h, h]
  exact ⟨rfl, h2⟩

/-- An operation that rewrites the word at `a` from its old value, touching only the bits
of `F`, has the frame `F` at `a`. -/
theorem op_frame_write (a : Nat) (F : Nat → Prop) (st : Except Fault Int) (g : Nat → Nat)
    (op : Regs → Except Fault Int × Regs)
    (h : ∀ io, op io = (st, writel (g (readl io a)) a io))
    (hg : ∀ w, w < 2 ^ 32 → ∀ j, ¬ F j → (u32 (g w)).testBit j = w.testBit j) :
    op_frame a F op := by
  intro io
  refine ⟨fun b hb => ?_, fun j hj => ?_, fun io2 h2 => ?_⟩
  · rw [h]
    exact writel_other _ _ _ _ hb
  · rw [h]
    show (readl (writel (g (readl io a)) a io) a).testBit j = _
    rw [readl_writel_same]
    exact hg _ (readl_lt io a) j hj
  · rw [h, h]
    refine ⟨rfl, ?_⟩
    show readl (writel (g (readl io2 a)) a io2) a = readl (writel (g (readl io a)) a io) a
    rw [readl_writel_same, readl_writel_same, h2]

theorem HISTB_PIN_PULLDOWN_lt : HISTB_PIN_PULLDOWN < 2 ^ 32 := by decide

theorem HISTB_PIN_PULLUP_lt : HISTB_PIN_PULLUP < 2 ^ 32 := by decide

theorem HISTB_PIN_SLEWRATE_lt : HISTB_PIN_SLEWRATE < 2 ^ 32 := by decide

theorem HISTB_PIN_SCHMITT_lt : HISTB_PIN_SCHMITT < 2 ^ 32 := by decide

/-- The statement `reg &= ~M` leaves the bits outside `M`. -/
theorem frame_clear (w M j : Nat) (hw : w < 2 ^ 32) (hM : M.testBit j = false) :
    (u32 (u32 (w &&& ulong_not M))).testBit j = w.testBit j := by
  rw [u32_eq_of_lt _ (u32_lt _), testBit_clear _ _ _ hw, hM]
  simp

/-- The statement `reg |= V` leaves the bits outside `V`. -/
theorem frame_set (w V j : Nat) (hw : w < 2 ^ 32) (hV : V < 2 ^ 32)
    (hVj : V.testBit j = false) : (u32 (u32 (w ||| V))).testBit j = w.testBit j := by
  rw [u32_eq_of_lt _ (u32_lt _), testBit_set _ _ _ hw hV, hVj]
  simp

/-- The statements `reg &= ~M; reg |= V` leave the bits outside `M` and `V`. -/
theorem frame_clear_set (w M V j : Nat) (hw : w < 2 ^ 32) (hV : V < 2 ^ 32)
    (hM : M.testBit j = false) (hVj : V.testBit j = false) :
    (u32 (u32 (u32 (w &&& ulong_not M) ||| V))).testBit j = w.testBit j := by
  rw [u32_eq_of_lt _ (u32_lt _), testBit_clear_set _ _ _ _ hw hV, hM, hVj]
  simp

theorem testBit_bias_mask (j : Nat) (hj : ¬ (j = 12 ∨ j = 13)) :
    (HISTB_PIN_PULLDOWN ||| HISTB_PIN_PULLUP).testBit j = false := by
  rw [Nat.testBit_or, testBit_PULLDOWN, testBit_PULLUP]
  have h12 : ¬ 12 = j := fun h => hj (Or.inl h.symm)
  have h13 : ¬ 13 = j := fun h => hj (Or.inr h.symm)
  simp [h12, h13]

/-- Frame of `histb_pinctrl_set_bias` on a registered pin: bits 12 and 13 of its word. -/
theorem histb_pinctrl_set_bias_frame (pctldev : pinctrl_dev) (selector : Nat)
    (status : histb_pinctrl_bias_status) (pin : pinctrl_pin_desc)
    (hpin : pin_desc_get pctldev selector = some pin) :
    op_frame (pin_reg pctldev selector) (fun j => j = 12 ∨ j = 13)
      (fun io => histb_pinctrl_set_bias pctldev io selector status) := by
  have hPD : ∀ j, ¬ (j = 12 ∨ j = 13) → HISTB_PIN_PULLDOWN.testBit j = false := by
    intro j hj
    rw [testBit_PULLDOWN]
    exact decide_eq_false (fun h => hj (Or.inr h.symm))
  have hPU : ∀ j, ¬ (j = 12 ∨ j = 13) → HISTB_PIN_PULLUP.testBit j = false := by
    intro j hj
    rw [testBit_PULLUP]
    exact decide_eq_false (fun h => hj (Or.inl h.symm))
  cases status with
  | BIAS_DISABLE =>
    exact op_frame_write _ _ (.ok 0)
      (fun w => u32 (w &&& ulong_not (HISTB_PIN_PULLDOWN ||| HISTB_PIN_PULLUP))) _
      (fun io => histb_pinctrl_set_bias_eq pctldev io selector _ pin hpin)
      (fun w hw j hj => frame_clear w _ j hw (testBit_bias_mask j hj))
  | BIAS_PULL_DOWN =>
    by_cases hf : pin.drv_data.flags.testBit 1 = true
    · refine op_frame_const _ _ (.ok (-ENOTSUPP)) _ (fun io => ?_)
      show histb_pinctrl_set_bias pctldev io selector .BIAS_PULL_DOWN = _
      rw [histb_pinctrl_set_bias_eq pctldev io selector _ pin hpin]
      simp only [hf, if_true]
    · refine op_frame_write _ _ (.ok 0)
        (fun w => u32 (u32 (w &&& ulong_not (HISTB_PIN_PULLDOWN ||| HISTB_PIN_PULLUP)) |||
          HISTB_PIN_PULLDOWN)) _ (fun io => ?_)
        (fun w hw j hj => frame_clear_set w _ _ j hw HISTB_PIN_PULLDOWN_lt
          (testBit_bias_mask j hj) (hPD j hj))
      show histb_pinctrl_set_bias pctldev io selector .BIAS_PULL_DOWN = _
      rw [histb_pinctrl_set_bias_eq pctldev io selector _ pin hpin]
      simp only [hf]
      rfl
  | BIAS_PULL_UP =>
    by_cases hf : pin.drv_data.flags.testBit 0 = true
    · refine op_frame_const _ _ (.ok (-ENOTSUPP)) _ (fun io => ?_)
      show histb_pinctrl_set_bias pctldev io selector .BIAS_PULL_UP = _
      rw [histb_pinctrl_set_bias_eq pctldev io selector _ pin hpin]
      simp only [hf, if_true]
    · refine op_frame_write _ _ (.ok 0)
        (fun w => u32 (u32 (w &&& ulong_not (HISTB_PIN_PULLDOWN ||| HISTB_PIN_PULLUP)) |||
          HISTB_PIN_PULLUP)) _ (fun io => ?_)
        (fun w hw j hj => frame_clear_set w _ _ j hw HISTB_PIN_PULLUP_lt
          (testBit_bias_mask j hj) (hPU j hj))
      show histb_pinctrl_set_bias pctldev io selector .BIAS_PULL_UP = _
      rw [histb_pinctrl_set_bias_eq pctldev io selector _ pin hpin]
      simp only [hf]
      rfl
  | BIAS_INVALID =>
    refine op_frame_const _ _ (.ok (-ENOTSUPP)) _ (fun io => ?_)
    show histb_pinctrl_set_bias pctldev io selector .BIAS_INVALID = _
    rw [histb_pinctrl_set_bias_eq pctldev io selector _ pin hpin]

/-- Frame of `histb_pinctrl_set_slew_rate` on a registered pin: bit 8 of its word. -/
theorem histb_pinctrl_set_slew_rate_frame (pctldev : pinctrl_dev) (selector argument : Nat)
    (pin : pinctrl_pin_desc) (hpin : pin_desc_get pctldev selector = some pin)
    (harg : argument < 2 ^ 64) :
    op_frame (pin_reg pctldev selector) (fun j => j = 8)
      (fun io => histb_pinctrl_set_slew_rate pctldev io selector argument) := by
  have hSR : ∀ j, ¬ j = 8 → HISTB_PIN_SLEWRATE.testBit j = false := by
    intro j hj
    rw [testBit_SLEWRATE]
    exact decide_eq_false (fun h => hj h.symm)
  by_cases hc : pin.drv_data.flags.testBit 2 = true ∨ 1 < argument
  · refine op_frame_const _ _ (.ok (-ENOTSUPP)) _ (fun io => ?_)
    show histb_pinctrl_set_slew_rate pctldev io selector argument = _
    rw [histb_pinctrl_set_slew_rate_eq pctldev io selector argument pin hpin harg, if_pos hc]
  · refine op_frame_write _ _ (.ok 0)
      (fun w => if argument = 0 then u32 (w &&& ulong_not HISTB_PIN_SLEWRATE)
        else u32 (w ||| HISTB_PIN_SLEWRATE)) _ (fun io => ?_) (fun w hw j hj => ?_)
    · show histb_pinctrl_set_slew_rate pctldev io selector argument = _
      rw [histb_pinctrl_set_slew_rate_eq pctldev io selector argument pin hpin harg, if_neg hc]
    · by_cases h0 : argument = 0
      · simp only [h0, if_true]
        exact frame_clear w _ j hw (hSR j hj)
      · simp only [h0, if_false]
        exact frame_set w _ j hw HISTB_PIN_SLEWRATE_lt (hSR j hj)

/-- Frame of `histb_pinctrl_endisable_schmitt` on a registered pin: bit 14 of its word. -/
theorem histb_pinctrl_endisable_schmitt_frame (pctldev : pinctrl_dev) (selector : Nat)
    (enable : Bool) (pin : pinctrl_pin_desc)
    (hpin : pin_desc_get pctldev selector = some pin) :
    op_frame (pin_reg pctldev selector) (fun j => j = 14)
      (fun io => histb_pinctrl_endisable_schmitt pctldev io selector enable) := by
  have hS : ∀ j, ¬ j = 14 → HISTB_PIN_SCHMITT.testBit j = false := by
    intro j hj
    rw [testBit_SCHMITT]
    exact decide_eq_false (fun h => hj h.symm)
  by_cases hc : pin.drv_data.flags.testBit 3 = true
  · refine op_frame_const _ _ (.ok (-ENOTSUPP)) _ (fun io => ?_)
    show histb_pinctrl_endisable_schmitt pctldev io selector enable = _
    rw [histb_pinctrl_endisable_schmitt_eq pctldev io selector enable pin hpin, if_pos hc]
  · refine op_frame_write _ _ (.ok 0)
      (fun w => if enable then u32 (w ||| HISTB_PIN_SCHMITT)
        else u32 (w &&& ulong_not HISTB_PIN_SCHMITT)) _ (fun io => ?_) (fun w hw j hj => ?_)
    · show histb_pinctrl_endisable_schmitt pctldev io selector enable = _
      rw [histb_pinctrl_endisable_schmitt_eq pctldev io selector enable pin hpin, if_neg hc]
    · cases enable
      · exact frame_clear w _ j hw (hS j hj)
      · exact frame_set w _ j hw HISTB_PIN_SCHMITT_lt (hS j hj)

/-- Frame of `histb_pinctrl_set_drive_strength` on a registered pin whose table, if it has
one, holds the final 0: bits 7:4 of its word. -/
theorem histb_pinctrl_set_drive_strength_frame (pctldev : pinctrl_dev)
    (selector argument : Nat) (pin : pinctrl_pin_desc)
    (hpin : pin_desc_get pctldev selector = some pin)
    (h0 : ∀ tbl ∈ pin.drv_data.drv_tbl, 0 ∈ tbl) :
    op_frame (pin_reg pctldev selector) (fun j => 4 ≤ j ∧ j < 8)
      (fun io => histb_pinctrl_set_drive_strength pctldev io selector argument) := by
  cases htbl : pin.drv_data.drv_tbl with
  | none =>
    exact op_frame_const _ _ (.ok (-ENOTSUPP)) _ (fun io =>
      histb_pinctrl_set_drive_strength_refused pctldev io selector argument pin hpin
        (Or.inl htbl))
  | some tbl =>
    by_cases harg : u32 argument = 0
    · exact op_frame_const _ _ (.ok (-ENOTSUPP)) _ (fun io =>
        histb_pinctrl_set_drive_strength_refused pctldev io selector argument pin hpin
          (Or.inr harg))
    · obtain ⟨i, t, hloop⟩ := histb_pinctrl_set_drive_strength_loop_ok (u32 argument) tbl
        (h0 tbl htbl) 0
      exact op_frame_write _ _ (.ok 0)
        (fun w => u32 (u32 (w &&& ulong_not HISTB_PIN_DRV_MASK) |||
          FIELD_PREP HISTB_PIN_DRV_MASK
            (ulong_of_int (if t = 0 then (i : Int) - 1 else (i : Int))))) _
        (fun io => histb_pinctrl_set_drive_strength_eq pctldev io selector argument pin tbl
          i t hpin htbl harg hloop)
        (fun w hw j hj => by
          rw [u32_eq_of_lt _ (u32_lt _)]
          exact (drv_word w _ hw).1 j hj)

theorem histb_pinctrl_pinmux_set_u32 (pctldev : pinctrl_dev) (io : Regs)
    (func_selector group_selector : Nat) :
    histb_pinctrl_pinmux_set pctldev io func_selector group_selector =
      histb_pinctrl_pinmux_set pctldev io (u32 func_selector) group_selector := by
  unfold histb_pinctrl_pinmux_set
  rw [u32_eq_of_lt (u32 func_selector) (u32_lt _)]

/-- The statements `reg &= ~HISTB_PIN_FUNC_MASK; reg |= bits`, with a raw mux value that
fits bits 2:0, leave the bits from 3 up. -/
theorem func_word (w bits j : Nat) (hw : w < 2 ^ 32) (hb : bits < 8) (hj : ¬ j < 3) :
    (u32 (u32 (w / 8 * 8 ||| bits))).testBit j = w.testBit j := by
  have hlt : w / 8 * 8 ||| bits < 2 ^ 32 := by
    rw [show w / 8 * 8 = w / 8 * 2 ^ 3 from rfl, mul_two_pow_or _ _ _ hb]
    omega
  rw [u32_eq_of_lt _ (u32_lt _), u32_eq_of_lt _ hlt, Nat.testBit_or]
  have hbits : bits.testBit j = false :=
    Nat.testBit_lt_two_pow (lt_of_lt_of_le hb (show 8 ≤ 2 ^ j from
      le_trans (show 8 ≤ 2 ^ 3 by decide) (Nat.pow_le_pow_right (by decide) (by omega))))
  rw [hbits, Bool.or_false, show w / 8 * 8 = 2 ^ 3 * (w / 2 ^ 3) by
    rw [Nat.mul_comm]; rfl, Nat.testBit_mul_pow_two, ← Nat.shiftRight_eq_div_pow,
    Nat.testBit_shiftRight]
  have h3 : 3 ≤ j := by omega
  have h33 : 3 + (j - 3) = j := by omega
  simp [h3, h33]

/-- Frame of `histb_pinctrl_pinmux_set` on a registered pin whose function list carries its
end marker and holds raw values that fit bits 2:0: bits 2:0 of its word. -/
theorem histb_pinctrl_pinmux_set_frame (pctldev : pinctrl_dev)
    (func_selector group_selector : Nat) (pin : pinctrl_pin_desc)
    (hpin : pin_desc_get pctldev group_selector = some pin)
    (hterm : func_tbl_terminated pin.drv_data.func_tbl)
    (hbits : ∀ m ∈ pin.drv_data.func_tbl, m.bits < 8) :
    op_frame (pin_reg pctldev group_selector) (fun j => j < 3)
      (fun io => histb_pinctrl_pinmux_set pctldev io func_selector group_selector) := by
  cases hf : (func_tbl_entries pin.drv_data.func_tbl).find?
      (fun m => m.func = u32 func_selector) with
  | none =>
    refine op_frame_const _ _ (.ok (-ENOENT)) _ (fun io => ?_)
    show histb_pinctrl_pinmux_set pctldev io func_selector group_selector = _
    rw [histb_pinctrl_pinmux_set_u32, histb_pinctrl_pinmux_set_eq pctldev io _ group_selector
      pin hpin hterm (u32_lt _), hf]
  | some m =>
    have hm : m ∈ pin.drv_data.func_tbl :=
      (List.takeWhile_sublist _).subset (List.mem_of_find?_eq_some hf)
    refine op_frame_write _ _ (.ok 0) (fun w => u32 (w / 8 * 8 ||| m.bits)) _
      (fun io => ?_) (fun w hw j hj => func_word w m.bits j hw (hbits m hm) hj)
    show histb_pinctrl_pinmux_set pctldev io func_selector group_selector = _
    rw [histb_pinctrl_pinmux_set_u32, histb_pinctrl_pinmux_set_eq pctldev io _ group_selector
      pin hpin hterm (u32_lt _), hf]

/-- C20: for every pin i of the Hi3798MV2x table (i < 66), every engine operation on it has
its frame at the word at base + 4*i: each of set-function (any function id), gpio-request
and pin-config-set (each parameter, any argument) leaves every other register as it was,
decides its return value and the new pin word from the old pin word alone, and changes no
bit of the pin word outside its own field: bits 2:0 for set-function and gpio-request,
bits 12 and 13 for the three bias parameters, bit 8 for slew rate, bit 14 for the Schmitt
trigger, bits 7:4 for drive strength, and no bit at all for any other parameter. -/
theorem hi3798mv2x_engine_frame (base i : Nat) (hi : i < 66) :
    (∀ func_selector, op_frame (base + 4 * i) (fun j => j < 3)
      (fun io => histb_pinctrl_pinmux_set (hi3798mv2x_ioconfig base) io func_selector i)) ∧
    op_frame (base + 4 * i) (fun j => j < 3)
      (fun io => histb_pinctrl_gpio_request (hi3798mv2x_ioconfig base) io i) ∧
    (∀ argument, op_frame (base + 4 * i) (fun j => j = 12 ∨ j = 13)
      (fun io => histb_pinctrl_pinconf_set_single (hi3798mv2x_ioconfig base) io i
        .PIN_CONFIG_BIAS_DISABLE argument)) ∧
    (∀ argument, op_frame (base + 4 * i) (fun j => j = 12 ∨ j = 13)
      (fun io => histb_pinctrl_pinconf_set_single (hi3798mv2x_ioconfig base) io i
        .PIN_CONFIG_BIAS_PULL_UP argument)) ∧
    (∀ argument, op_frame (base + 4 * i) (fun j => j = 12 ∨ j = 13)
      (fun io => histb_pinctrl_pinconf_set_single (hi3798mv2x_ioconfig base) io i
        .PIN_CONFIG_BIAS_PULL_DOWN argument)) ∧
    (∀ argument, op_frame (base + 4 * i) (fun j => j = 8)
      (fun io => histb_pinctrl_pinconf_set_single (hi3798mv2x_ioconfig base) io i
        .PIN_CONFIG_SLEW_RATE argument)) ∧
    (∀ argument, op_frame (base + 4 * i) (fun j => j = 14)
      (fun io => histb_pinctrl_pinconf_set_single (hi3798mv2x_ioconfig base) io i
        .PIN_CONFIG_INPUT_SCHMITT_ENABLE argument)) ∧
    (∀ argument, op_frame (base + 4 * i) (fun j => 4 ≤ j ∧ j < 8)
      (fun io => histb_pinctrl_pinconf_set_single (hi3798mv2x_ioconfig base) io i
        .PIN_CONFIG_DRIVE_STRENGTH argument)) ∧
    (∀ code argument, op_frame (base + 4 * i) (fun _ => False)
      (fun io => histb_pinctrl_pinconf_set_single (hi3798mv2x_ioconfig base) io i
        (.other code) argument)) := by
  obtain ⟨pin, hpin, hmem, -⟩ := hi3798mv2x_pin_desc_get base i hi
  obtain ⟨hterm, hbits, h0⟩ := hi3798mv2x_rows_wf pin hmem
  refine ⟨fun f => ?_, ?_, fun _ => ?_, fun _ => ?_, fun _ => ?_, fun argument => ?_,
    fun argument => ?_, fun argument => ?_, fun _ _ => ?_⟩
  · exact histb_pinctrl_pinmux_set_frame (hi3798mv2x_ioconfig base) f i pin hpin hterm hbits
  · exact histb_pinctrl_pinmux_set_frame (hi3798mv2x_ioconfig base) HISTB_PIN_FUNCTION_GPIO i
      pin hpin hterm hbits
  · exact histb_pinctrl_set_bias_frame (hi3798mv2x_ioconfig base) i .BIAS_DISABLE pin hpin
  · exact histb_pinctrl_set_bias_frame (hi3798mv2x_ioconfig base) i .BIAS_PULL_UP pin hpin
  · exact histb_pinctrl_set_bias_frame (hi3798mv2x_ioconfig base) i .BIAS_PULL_DOWN pin hpin
  · exact histb_pinctrl_set_slew_rate_frame (hi3798mv2x_ioconfig base) i (u32 argument) pin
      hpin (lt_trans (u32_lt _) (by decide))
  · exact histb_pinctrl_endisable_schmitt_frame (hi3798mv2x_ioconfig base) i
      (to_bool (u32 argument)) pin hpin
  · exact histb_pinctrl_set_drive_strength_frame (hi3798mv2x_ioconfig base) i (u32 argument)
      pin hpin h0
  · exact op_frame_const _ _ (.ok (-EINVAL)) _ (fun _ => rfl)

/-- Witness for C20: pin B4 (index 49) under pin-config-set(drive-strength, 11) with the
register window at 0. -/
theorem hi3798mv2x_engine_frame_witness :
    PIN.B4 < 66 ∧
    op_frame (0 + 4 * PIN.B4) (fun j => 4 ≤ j ∧ j < 8)
      (fun io => histb_pinctrl_pinconf_set_single (hi3798mv2x_ioconfig 0) io PIN.B4
        .PIN_CONFIG_DRIVE_STRENGTH 11) :=
  ⟨by decide, (hi3798mv2x_engine_frame 0 PIN.B4 (by decide)).2.2.2.2.2.2.2.1 11⟩

/-! ## The invalid bias combination -/

/-- The read-back of `histb_pinctrl_get_bias_status` is `BIAS_INVALID` exactly when the pin
word has both pull bits set. -/
theorem bias_not_invalid_iff (pctldev : pinctrl_dev) (io : Regs) (selector : Nat) :
    bias_not_invalid (readl io (pin_reg pctldev selector)) ↔
      histb_pinctrl_get_bias_status pctldev io selector ≠
        histb_pinctrl_bias_status.BIAS_INVALID.val := by
  unfold bias_not_invalid histb_pinctrl_get_bias_status
  simp only [HISTB_PIN_PULLUP, HISTB_PIN_PULLDOWN, to_bool_and_BIT _ 12 (by decide),
    to_bool_and_BIT _ 13 (by decide)]
  generalize (readl io (pin_reg pctldev selector)).testBit 12 = b12
  generalize (readl io (pin_reg pctldev selector)).testBit 13 = b13
  cases b12 <;> cases b13 <;> decide

/-- A successful `histb_pinctrl_set_bias` never leaves both pull bits set. -/
theorem histb_pinctrl_set_bias_not_invalid (pctldev : pinctrl_dev) (io io' : Regs)
    (selector : Nat) (status : histb_pinctrl_bias_status) (pin : pinctrl_pin_desc)
    (hpin : pin_desc_get pctldev selector = some pin)
    (h : histb_pinctrl_set_bias pctldev io selector status = (.ok 0, io')) :
    bias_not_invalid (readl io' (pin_reg pctldev selector)) := by
  have hw := readl_lt io (pin_reg pctldev selector)
  rw [histb_pinctrl_set_bias_eq pctldev io selector status pin hpin] at h
  unfold bias_not_invalid
  cases status with
  | BIAS_DISABLE =>
    simp only [Prod.mk.injEq] at h
    rw [← h.2]
    simp [readl_writel_same, testBit_u32, testBit_clear _ _ _ hw, testBit_PULLUP,
      testBit_PULLDOWN]
  | BIAS_PULL_DOWN =>
    by_cases hf : pin.drv_data.flags.testBit 1 = true
    · simp [hf, ENOTSUPP] at h
    · simp only [hf, Bool.false_eq_true, if_false, Prod.mk.injEq] at h
      rw [← h.2]
      simp [readl_writel_same, testBit_u32,
        testBit_clear_set _ _ _ _ hw HISTB_PIN_PULLDOWN_lt, testBit_PULLUP, testBit_PULLDOWN]
  | BIAS_PULL_UP =>
    by_cases hf : pin.drv_data.flags.testBit 0 = true
    · simp [hf, ENOTSUPP] at h
    · simp only [hf, Bool.false_eq_true, if_false, Prod.mk.injEq] at h
      rw [← h.2]
      simp [readl_writel_same, testBit_u32,
        testBit_clear_set _ _ _ _ hw HISTB_PIN_PULLUP_lt, testBit_PULLUP, testBit_PULLDOWN]
  | BIAS_INVALID =>
    simp [ENOTSUPP] at h

/-- An operation whose frame leaves bits 12 and 13 alone keeps the pull bits as they
are. -/
theorem op_frame_bias (a : Nat) (F : Nat → Prop) (op : Regs → Except Fault Int × Regs)
    (hop : op_frame a F op) (h12 : ¬ F 12) (h13 : ¬ F 13) (io : Regs)
    (h : bias_not_invalid (readl io a)) : bias_not_invalid (readl (op io).2 a) := by
  unfold bias_not_invalid at h ⊢
  rw [(hop io).2.1 12 h12, (hop io).2.1 13 h13]
  exact h

/-- C21: for a registered pin whose function list carries its end marker with raw values
that fit bits 2:0 and whose drive-strength table, if any, ends with 0: after any successful
bias pin-config-set (bias-disable, bias-pull-up, bias-pull-down), whatever the pin word
held before, bits 12 and 13 of the pin word are not both set, so that the bias read-back is
not `BIAS_INVALID`; and set-function, gpio-request and pin-config-set of slew rate, input
Schmitt and drive strength, with any argument, keep "bits 12 and 13 are not both set". -/
theorem histb_pinctrl_bias_never_invalid (pctldev : pinctrl_dev) (io : Regs)
    (selector : Nat) (pin : pinctrl_pin_desc)
    (hpin : pin_desc_get pctldev selector = some pin)
    (hterm : func_tbl_terminated pin.drv_data.func_tbl)
    (hbits : ∀ m ∈ pin.drv_data.func_tbl, m.bits < 8)
    (h0 : ∀ tbl ∈ pin.drv_data.drv_tbl, 0 ∈ tbl) :
    (∀ param ∈ [pin_config_param.PIN_CONFIG_BIAS_DISABLE, .PIN_CONFIG_BIAS_PULL_UP,
        .PIN_CONFIG_BIAS_PULL_DOWN], ∀ (argument : Nat) (io' : Regs),
      histb_pinctrl_pinconf_set_single pctldev io selector param argument = (.ok 0, io') →
      bias_not_invalid (readl io' (pin_reg pctldev selector)) ∧
      histb_pinctrl_get_bias_status pctldev io' selector ≠
        histb_pinctrl_bias_status.BIAS_INVALID.val) ∧
    (bias_not_invalid (readl io (pin_reg pctldev selector)) →
      (∀ func_selector, bias_not_invalid (readl
        (histb_pinctrl_pinmux_set pctldev io func_selector selector).2
        (pin_reg pctldev selector))) ∧
      bias_not_invalid (readl (histb_pinctrl_gpio_request pctldev io selector).2
        (pin_reg pctldev selector)) ∧
      ∀ param ∈ [pin_config_param.PIN_CONFIG_SLEW_RATE, .PIN_CONFIG_INPUT_SCHMITT_ENABLE,
          .PIN_CONFIG_DRIVE_STRENGTH], ∀ argument : Nat,
        bias_not_invalid (readl
          (histb_pinctrl_pinconf_set_single pctldev io selector param argument).2
          (pin_reg pctldev selector))) := by
  constructor
  · intro param hparam argument io' hset
    have hb : ∃ status, histb_pinctrl_set_bias pctldev io selector status = (.ok 0, io') := by
      simp only [List.mem_cons, List.mem_singleton, List.not_mem_nil, or_false] at hparam
      rcases hparam with h | h | h <;> subst h
      · exact ⟨.BIAS_DISABLE, hset⟩
      · exact ⟨.BIAS_PULL_UP, hset⟩
      · exact ⟨.BIAS_PULL_DOWN, hset⟩
    obtain ⟨status, hs⟩ := hb
    have hv := histb_pinctrl_set_bias_not_invalid pctldev io io' selector status pin hpin hs
    exact ⟨hv, (bias_not_invalid_iff pctldev io' selector).mp hv⟩
  · intro hv
    refine ⟨fun f => ?_, ?_, ?_⟩
    · exact op_frame_bias _ _ _
        (histb_pinctrl_pinmux_set_frame pctldev f selector pin hpin hterm hbits)
        (by decide) (by decide) io hv
    · exact op_frame_bias _ _ _
        (histb_pinctrl_pinmux_set_frame pctldev HISTB_PIN_FUNCTION_GPIO selector pin hpin
          hterm hbits) (by decide) (by decide) io hv
    · intro param hparam argument
      simp only [List.mem_cons, List.mem_singleton, List.not_mem_nil, or_false] at hparam
      rcases hparam with h | h | h <;> subst h
      · exact op_frame_bias _ _ _
          (histb_pinctrl_set_slew_rate_frame pctldev selector (u32 argument) pin hpin
            (lt_trans (u32_lt _) (by decide))) (by decide) (by decide) io hv
      · exact op_frame_bias _ _ _
          (histb_pinctrl_endisable_schmitt_frame pctldev selector (to_bool (u32 argument))
            pin hpin) (by decide) (by decide) io hv
      · exact op_frame_bias _ _ _
          (histb_pinctrl_set_drive_strength_frame pctldev selector (u32 argument) pin hpin
            h0) (by decide) (by decide) io hv

/-- Witness for C21: pin Y19 of the Hi3798MV2x table with both pull bits set beforehand;
bias-pull-up returns 0 and leaves only bit 12 of the two set. -/
theorem histb_pinctrl_bias_never_invalid_witness :
    bias_not_invalid (readl
      (histb_pinctrl_pinconf_set_single (hi3798mv2x_ioconfig 0) (fun _ => 0x3000) PIN.Y19
        .PIN_CONFIG_BIAS_PULL_UP 0).2 (pin_reg (hi3798mv2x_ioconfig 0) PIN.Y19)) ∧
    histb_pinctrl_get_bias_status (hi3798mv2x_ioconfig 0)
      (histb_pinctrl_pinconf_set_single (hi3798mv2x_ioconfig 0) (fun _ => 0x3000) PIN.Y19
        .PIN_CONFIG_BIAS_PULL_UP 0).2 PIN.Y19 ≠ histb_pinctrl_bias_status.BIAS_INVALID.val :=
  (histb_pinctrl_bias_never_invalid (hi3798mv2x_ioconfig 0) (fun _ => 0x3000) PIN.Y19
    (HISTB_PIN PIN.Y19 "Y19" (some DRIVE_STRENGTH_TABLE_SAMPLE_A)
      [⟨ HI3798MV2X_GPIO, 0x0⟩, ⟨HI3798MV2X_NAND, 0x1⟩, ⟨HISTB_PIN_FUNCTION_EOF, 0⟩]
      HISTB_PIN_FLAG_NOPD) rfl ⟨⟨HISTB_PIN_FUNCTION_EOF, 0⟩, by decide, rfl⟩ (by decide)
    (by decide)).1
    .PIN_CONFIG_BIAS_PULL_UP (by decide) 0 _ rfl

/-! ## Registration, rollback and teardown of the Hi3798MV200 clock groups -/

/-- C22: in `hi3798mv200_clk_register`, once the clock-data block, the phase clocks and the
PLLs are there, a failure of the fixed-rate, mux or gate registration or of the provider
publication returns `ERR_PTR` of the error of the failing step; the calls made are the
registrations up to the failing step followed by the unregistration of the gate, mux and
fixed-rate groups that this call had registered, in this order; on return the framework
holds what it held before the call plus the phase and PLL groups, which are never
unregistered here and stay attached to the device.  In `hi3798mv200_sysctrl_clk_register`
the same holds with the mux and gate groups.  In particular, when the gate registration
fails after the mux registration succeeded, no mux and no fixed-rate group of this call
remains registered. -/
theorem hi3798mv200_clk_register_rollback (env : clk_env) (pdev : platform_device)
    (w : clk_world) (clk_data : Nat) (halloc : env.hisi_clk_alloc = some clk_data) :
    (env.hisi_clk_register .phase = 0 → env.hisi_clk_register .pll = 0 →
      ∀ kept : clk_world,
      kept = { w with
        registered :=
          ⟨.pll, hi3798mv200_plls.map (·.name), hi3798mv200_plls.length, clk_data⟩ ::
          ⟨.phase, hi3798mv200_phase_clks.map (·.name), hi3798mv200_phase_clks.length,
            clk_data⟩ :: w.registered,
        devres_head :=
          ⟨.pll, ⟨hi3798mv200_plls.map (·.name), hi3798mv200_plls.length, clk_data⟩⟩ ::
          ⟨.phase, ⟨hi3798mv200_phase_clks.map (·.name), hi3798mv200_phase_clks.length,
            clk_data⟩⟩ :: w.devres_head } →
      (env.hisi_clk_register .fixed_rate ≠ 0 →
        hi3798mv200_clk_register env pdev w =
          (.ERR_PTR (env.hisi_clk_register .fixed_rate),
            { kept with calls := w.calls ++ [.hisi_clk_alloc, .hisi_clk_register .phase,
                .hisi_clk_register .pll, .hisi_clk_register .fixed_rate] })) ∧
      (env.hisi_clk_register .fixed_rate = 0 → env.hisi_clk_register .mux ≠ 0 →
        hi3798mv200_clk_register env pdev w =
          (.ERR_PTR (env.hisi_clk_register .mux),
            { kept with calls := w.calls ++ [.hisi_clk_alloc, .hisi_clk_register .phase,
                .hisi_clk_register .pll, .hisi_clk_register .fixed_rate,
                .hisi_clk_register .mux, .hisi_clk_unregister .fixed_rate] })) ∧
      (env.hisi_clk_register .fixed_rate = 0 → env.hisi_clk_register .mux = 0 →
        env.hisi_clk_register .gate ≠ 0 →
        hi3798mv200_clk_register env pdev w =
          (.ERR_PTR (env.hisi_clk_register .gate),
            { kept with calls := w.calls ++ [.hisi_clk_alloc, .hisi_clk_register .phase,
                .hisi_clk_register .pll, .hisi_clk_register .fixed_rate,
                .hisi_clk_register .mux, .hisi_clk_register .gate,
                .hisi_clk_unregister .mux, .hisi_clk_unregister .fixed_rate] })) ∧
      (env.hisi_clk_register .fixed_rate = 0 → env.hisi_clk_register .mux = 0 →
        env.hisi_clk_register .gate = 0 → env.of_clk_add_provider ≠ 0 →
        hi3798mv200_clk_register env pdev w =
          (.ERR_PTR env.of_clk_add_provider,
            { kept with calls := w.calls ++ [.hisi_clk_alloc, .hisi_clk_register .phase,
                .hisi_clk_register .pll, .hisi_clk_register .fixed_rate,
                .hisi_clk_register .mux, .hisi_clk_register .gate, .of_clk_add_provider,
                .hisi_clk_unregister .gate, .hisi_clk_unregister .mux,
                .hisi_clk_unregister .fixed_rate] }))) ∧
    (env.hisi_clk_register .mux ≠ 0 →
      hi3798mv200_sysctrl_clk_register env pdev w =
        (.ERR_PTR (env.hisi_clk_register .mux),
          { w with calls := w.calls ++ [.hisi_clk_alloc, .hisi_clk_register .mux] })) ∧
    (env.hisi_clk_register .mux = 0 → env.hisi_clk_register .gate ≠ 0 →
      hi3798mv200_sysctrl_clk_register env pdev w =
        (.ERR_PTR (env.hisi_clk_register .gate),
          { w with calls := w.calls ++ [.hisi_clk_alloc, .hisi_clk_register .mux,
              .hisi_clk_register .gate, .hisi_clk_unregister .mux] })) ∧
    (env.hisi_clk_register .mux = 0 → env.hisi_clk_register .gate = 0 →
      env.of_clk_add_provider ≠ 0 →
      hi3798mv200_sysctrl_clk_register env pdev w =
        (.ERR_PTR env.of_clk_add_provider,
          { w with calls := w.calls ++ [.hisi_clk_alloc, .hisi_clk_register .mux,
              .hisi_clk_register .gate, .of_clk_add_provider, .hisi_clk_unregister .gate,
              .hisi_clk_unregister .mux] })) := by
  refine ⟨?_, ?_, ?_, ?_⟩
  · intro hphase hpll kept hkept
    subst hkept
    refine ⟨?_, ?_, ?_, ?_⟩
    · intro hf
      simp [hi3798mv200_clk_register, hisi_clk_alloc, hisi_clk_register_scoped,
        hisi_clk_register, hisi_clk_register_phase, hisi_clk_register_pll,
        hisi_clk_register_fixed_rate, hisi_clk_register_mux, hisi_clk_register_gate,
        hisi_clk_unregister_fixed_rate, hisi_clk_unregister_mux, hisi_clk_unregister_gate, halloc, hphase, hpll, hf]
    · intro hf hm
      simp [hi3798mv200_clk_register, hisi_clk_alloc, hisi_clk_register_scoped,
        hisi_clk_register, hisi_clk_register_phase, hisi_clk_register_pll,
        hisi_clk_register_fixed_rate, hisi_clk_register_mux, hisi_clk_register_gate,
        hisi_clk_unregister_fixed_rate, hisi_clk_unregister_mux, hisi_clk_unregister_gate, hi3798mv200_clk_register_unregister_fixed_rate,
        hisi_clk_unregister, halloc, hphase, hpll, hf, hm]
    · intro hf hm hg
      simp [hi3798mv200_clk_register, hisi_clk_alloc, hisi_clk_register_scoped,
        hisi_clk_register, hisi_clk_register_phase, hisi_clk_register_pll,
        hisi_clk_register_fixed_rate, hisi_clk_register_mux, hisi_clk_register_gate,
        hisi_clk_unregister_fixed_rate, hisi_clk_unregister_mux, hisi_clk_unregister_gate, hi3798mv200_clk_register_unregister_fixed_rate,
        hi3798mv200_clk_register_unregister_mux, hisi_clk_unregister, halloc, hphase, hpll,
        hf, hm, hg]
    · intro hf hm hg hp
      simp [hi3798mv200_clk_register, hisi_clk_alloc, hisi_clk_register_scoped,
        hisi_clk_register, hisi_clk_register_phase, hisi_clk_register_pll,
        hisi_clk_register_fixed_rate, hisi_clk_register_mux, hisi_clk_register_gate,
        hisi_clk_unregister_fixed_rate, hisi_clk_unregister_mux, hisi_clk_unregister_gate, of_clk_add_provider,
        hi3798mv200_clk_register_unregister_fixed_rate,
        hi3798mv200_clk_register_unregister_mux, hi3798mv200_clk_register_unregister_gate,
        hisi_clk_unregister, halloc, hphase, hpll, hf, hm, hg, hp]
  · intro hm
    simp [hi3798mv200_sysctrl_clk_register, hisi_clk_alloc, hisi_clk_register,
      hisi_clk_register_mux, hisi_clk_register_gate, hisi_clk_unregister_mux,
      hisi_clk_unregister_gate, halloc, hm]
  · intro hm hg
    simp [hi3798mv200_sysctrl_clk_register, hisi_clk_alloc, hisi_clk_register,
      hisi_clk_register_mux, hisi_clk_register_gate, hisi_clk_unregister_mux,
      hisi_clk_unregister_gate,
      hi3798mv200_sysctrl_clk_register_unregister_mux, hisi_clk_unregister, halloc, hm, hg]
  · intro hm hg hp
    simp [hi3798mv200_sysctrl_clk_register, hisi_clk_alloc, hisi_clk_register,
      hisi_clk_register_mux, hisi_clk_register_gate, hisi_clk_unregister_mux,
      hisi_clk_unregister_gate,
      of_clk_add_provider, hi3798mv200_sysctrl_clk_register_unregister_mux,
      hi3798mv200_sysctrl_clk_register_unregister_gate, hisi_clk_unregister, halloc, hm, hg,
      hp]

/-- Witness for C22: the gate registration fails with `-ENOMEM` on an empty framework; the
mux and the fixed-rate group are taken out again and only the PLL and phase groups are
left. -/
theorem hi3798mv200_clk_register_rollback_witness :
    hi3798mv200_clk_register ⟨some 1, fun v => if v = .gate then -ENOMEM else 0, 0, true⟩
        ⟨0, none⟩ ⟨[], [], [], 0, []⟩ =
      (.ERR_PTR (-ENOMEM),
        { registered :=
            [⟨.pll, hi3798mv200_plls.map (·.name), hi3798mv200_plls.length, 1⟩,
             ⟨.phase, hi3798mv200_phase_clks.map (·.name), hi3798mv200_phase_clks.length, 1⟩],
          providers := [],
          devres_head :=
            [⟨.pll, ⟨hi3798mv200_plls.map (·.name), hi3798mv200_plls.length, 1⟩⟩,
             ⟨.phase, ⟨hi3798mv200_phase_clks.map (·.name), hi3798mv200_phase_clks.length,
               1⟩⟩],
          unattached := 0,
          calls := [.hisi_clk_alloc, .hisi_clk_register .phase, .hisi_clk_register .pll,
            .hisi_clk_register .fixed_rate, .hisi_clk_register .mux, .hisi_clk_register .gate,
            .hisi_clk_unregister .mux, .hisi_clk_unregister .fixed_rate] }) :=
  ((hi3798mv200_clk_register_rollback
    ⟨some 1, fun v => if v = .gate then -ENOMEM else 0, 0, true⟩ ⟨0, none⟩
    ⟨[], [], [], 0, []⟩ 1 rfl).1 rfl rfl _ rfl).2.2.1 rfl rfl (by decide)

/-- C23: when every step succeeds, `hi3798mv200_clk_register` makes its calls in the order
allocation, phase, PLL, fixed-rate, mux, gate, provider publication, and
`hi3798mv200_clk_unregister` makes the calls provider removal, gate, mux, fixed-rate, so
that after both the framework holds what it held before plus the phase and PLL groups;
`hi3798mv200_sysctrl_clk_register` makes the calls allocation, mux, gate, provider
publication and `hi3798mv200_sysctrl_clk_unregister` the calls provider removal, gate, mux,
after which the framework holds what it held before. -/
theorem hi3798mv200_clk_register_order (env : clk_env) (pdev : platform_device)
    (w : clk_world) (clk_data : Nat) (halloc : env.hisi_clk_alloc = some clk_data)
    (hreg : ∀ variant, env.hisi_clk_register variant = 0)
    (hprov : env.of_clk_add_provider = 0) :
    ((hi3798mv200_clk_register env pdev w).1 = .clk_data clk_data ∧
      (hi3798mv200_clk_register env pdev w).2.calls = w.calls ++
        [.hisi_clk_alloc, .hisi_clk_register .phase, .hisi_clk_register .pll,
         .hisi_clk_register .fixed_rate, .hisi_clk_register .mux, .hisi_clk_register .gate,
         .of_clk_add_provider] ∧
      (hi3798mv200_clk_register env pdev w).2.registered =
        ⟨.gate, hi3798mv200_gate_clks.map (·.name), hi3798mv200_gate_clks.length, clk_data⟩ ::
        ⟨.mux, hi3798mv200_mux_clks.map (·.name), hi3798mv200_mux_clks.length, clk_data⟩ ::
        ⟨.fixed_rate, hi3798mv200_fixed_rate_clks.map (·.name),
          hi3798mv200_fixed_rate_clks.length, clk_data⟩ ::
        ⟨.pll, hi3798mv200_plls.map (·.name), hi3798mv200_plls.length, clk_data⟩ ::
        ⟨.phase, hi3798mv200_phase_clks.map (·.name), hi3798mv200_phase_clks.length,
          clk_data⟩ :: w.registered ∧
      (hi3798mv200_clk_register env pdev w).2.providers = pdev.of_node :: w.providers) ∧
    (∀ w1 : clk_world,
      (hi3798mv200_clk_unregister { pdev with drvdata := some ⟨clk_data⟩ } w1).1 = .ok () ∧
      (hi3798mv200_clk_unregister { pdev with drvdata := some ⟨clk_data⟩ } w1).2.calls =
        w1.calls ++ [.of_clk_del_provider, .hisi_clk_unregister .gate,
          .hisi_clk_unregister .mux, .hisi_clk_unregister .fixed_rate]) ∧
    ((hi3798mv200_clk_unregister { pdev with drvdata := some ⟨clk_data⟩ }
        (hi3798mv200_clk_register env pdev w).2).2.registered =
        ⟨.pll, hi3798mv200_plls.map (·.name), hi3798mv200_plls.length, clk_data⟩ ::
        ⟨.phase, hi3798mv200_phase_clks.map (·.name), hi3798mv200_phase_clks.length,
          clk_data⟩ :: w.registered ∧
      (hi3798mv200_clk_unregister { pdev with drvdata := some ⟨clk_data⟩ }
        (hi3798mv200_clk_register env pdev w).2).2.providers = w.providers) ∧
    ((hi3798mv200_sysctrl_clk_register env pdev w).1 = .clk_data clk_data ∧
      (hi3798mv200_sysctrl_clk_register env pdev w).2.calls = w.calls ++
        [.hisi_clk_alloc, .hisi_clk_register .mux, .hisi_clk_register .gate,
         .of_clk_add_provider]) ∧
    (∀ w1 : clk_world,
      (hi3798mv200_sysctrl_clk_unregister { pdev with drvdata := some ⟨clk_data⟩ } w1).1 =
        .ok () ∧
      (hi3798mv200_sysctrl_clk_unregister { pdev with drvdata := some ⟨clk_data⟩ }
        w1).2.calls =
        w1.calls ++ [.of_clk_del_provider, .hisi_clk_unregister .gate,
          .hisi_clk_unregister .mux]) ∧
    ((hi3798mv200_sysctrl_clk_unregister { pdev with drvdata := some ⟨clk_data⟩ }
        (hi3798mv200_sysctrl_clk_register env pdev w).2).2.registered = w.registered ∧
      (hi3798mv200_sysctrl_clk_unregister { pdev with drvdata := some ⟨clk_data⟩ }
        (hi3798mv200_sysctrl_clk_register env pdev w).2).2.providers = w.providers) := by
  have hcore : hi3798mv200_clk_register env pdev w = (.clk_data clk_data,
      { w with
        registered :=
          ⟨.gate, hi3798mv200_gate_clks.map (·.name), hi3798mv200_gate_clks.length,
            clk_data⟩ ::
          ⟨.mux, hi3798mv200_mux_clks.map (·.name), hi3798mv200_mux_clks.length, clk_data⟩ ::
          ⟨.fixed_rate, hi3798mv200_fixed_rate_clks.map (·.name),
            hi3798mv200_fixed_rate_clks.length, clk_data⟩ ::
          ⟨.pll, hi3798mv200_plls.map (·.name), hi3798mv200_plls.length, clk_data⟩ ::
          ⟨.phase, hi3798mv200_phase_clks.map (·.name), hi3798mv200_phase_clks.length,
            clk_data⟩ :: w.registered,
        providers := pdev.of_node :: w.providers,
        devres_head :=
          ⟨.pll, ⟨hi3798mv200_plls.map (·.name), hi3798mv200_plls.length, clk_data⟩⟩ ::
          ⟨.phase, ⟨hi3798mv200_phase_clks.map (·.name), hi3798mv200_phase_clks.length,
            clk_data⟩⟩ :: w.devres_head,
        calls := w.calls ++
          [.hisi_clk_alloc, .hisi_clk_register .phase, .hisi_clk_register .pll,
           .hisi_clk_register .fixed_rate, .hisi_clk_register .mux,
           .hisi_clk_register .gate, .of_clk_add_provider] }) := by
    simp [hi3798mv200_clk_register, hisi_clk_alloc, hisi_clk_register_scoped,
      hisi_clk_register, hisi_clk_register_phase, hisi_clk_register_pll,
      hisi_clk_register_fixed_rate, hisi_clk_register_mux, hisi_clk_register_gate,
      hisi_clk_unregister_fixed_rate, hisi_clk_unregister_mux, hisi_clk_unregister_gate, of_clk_add_provider, halloc, hreg, hprov]
  have hsys : hi3798mv200_sysctrl_clk_register env pdev w = (.clk_data clk_data,
      { w with
        registered :=
          ⟨.gate, hi3798mv200_sysctrl_gate_clks.map (·.name),
            hi3798mv200_sysctrl_gate_clks.length, clk_data⟩ ::
          ⟨.mux, hi3798mv200_sysctrl_mux_clks.map (·.name),
            hi3798mv200_sysctrl_mux_clks.length, clk_data⟩ :: w.registered,
        providers := pdev.of_node :: w.providers,
        calls := w.calls ++
          [.hisi_clk_alloc, .hisi_clk_register .mux, .hisi_clk_register .gate,
           .of_clk_add_provider] }) := by
    simp [hi3798mv200_sysctrl_clk_register, hisi_clk_alloc, hisi_clk_register,
      hisi_clk_register_mux, hisi_clk_register_gate, hisi_clk_unregister_mux,
      hisi_clk_unregister_gate,
      of_clk_add_provider, halloc, hreg, hprov]
  refine ⟨?_, ?_, ?_, ?_, ?_, ?_⟩
  · rw [hcore]
    exact ⟨rfl, rfl, rfl, rfl⟩
  · intro w1
    simp [hi3798mv200_clk_unregister, of_clk_del_provider, hisi_clk_unregister,
      hisi_clk_unregister_fixed_rate, hisi_clk_unregister_mux, hisi_clk_unregister_gate]
  · rw [hcore]
    simp [hi3798mv200_clk_unregister, of_clk_del_provider, hisi_clk_unregister,
      hisi_clk_unregister_fixed_rate, hisi_clk_unregister_mux, hisi_clk_unregister_gate]
  · rw [hsys]
    exact ⟨rfl, rfl⟩
  · intro w1
    simp [hi3798mv200_sysctrl_clk_unregister, of_clk_del_provider, hisi_clk_unregister,
      hisi_clk_unregister_mux, hisi_clk_unregister_gate]
  · rw [hsys]
    simp [hi3798mv200_sysctrl_clk_unregister, of_clk_del_provider, hisi_clk_unregister,
      hisi_clk_unregister_mux, hisi_clk_unregister_gate]

/-- Witness for C23: every step succeeds on an empty framework, for the device node 7. -/
theorem hi3798mv200_clk_register_order_witness :
    (hi3798mv200_clk_register ⟨some 1, fun _ => 0, 0, true⟩ ⟨7, none⟩
      ⟨[], [], [], 0, []⟩).2.calls =
      [.hisi_clk_alloc, .hisi_clk_register .phase, .hisi_clk_register .pll,
       .hisi_clk_register .fixed_rate, .hisi_clk_register .mux, .hisi_clk_register .gate,
       .of_clk_add_provider] :=
  (hi3798mv200_clk_register_order ⟨some 1, fun _ => 0, 0, true⟩ ⟨7, none⟩
    ⟨[], [], [], 0, []⟩ 1 rfl (fun _ => rfl) rfl).1.2.1

/-! ## Device-managed registration (`clk-devm.c`) -/

/-- The three outcomes of the body of `devm_hisi_clk_register_<variant>`. -/
theorem DEFINE_DEVM_HISI_CLK_REGISTER_eq (variant : hisi_clk_variant) (env : clk_env)
    (clks : List String) (nums data : Nat) (w : clk_world) :
    (env.devres_alloc = false →
      DEFINE_DEVM_HISI_CLK_REGISTER variant env clks nums data w =
        (-ENOMEM, { w with calls := w.calls ++ [.devres_alloc] })) ∧
    (env.devres_alloc = true → env.hisi_clk_register variant ≠ 0 →
      DEFINE_DEVM_HISI_CLK_REGISTER variant env clks nums data w =
        (env.hisi_clk_register variant,
          { w with calls := w.calls ++
              [.devres_alloc, .hisi_clk_register variant, .devres_free] })) ∧
    (env.devres_alloc = true → env.hisi_clk_register variant = 0 →
      DEFINE_DEVM_HISI_CLK_REGISTER variant env clks nums data w =
        (0, { w with
          registered := ⟨variant, clks, nums, data⟩ :: w.registered,
          devres_head := ⟨variant, ⟨clks, nums, data⟩⟩ :: w.devres_head,
          calls := w.calls ++ [.devres_alloc, .hisi_clk_register variant, .devres_add] })) := by
  refine ⟨?_, ?_, ?_⟩
  · intro ha
    simp [DEFINE_DEVM_HISI_CLK_REGISTER, devres_alloc, ha]
  · intro ha hr
    simp [DEFINE_DEVM_HISI_CLK_REGISTER, devres_alloc, hisi_clk_register, devres_free, ha, hr]
  · intro ha hr
    simp [DEFINE_DEVM_HISI_CLK_REGISTER, devres_alloc, hisi_clk_register, devres_add, ha, hr]

/-- C24: for each of the five functions `devm_hisi_clk_register_<variant>` (fixed_rate,
fixed_factor, mux, divider, gate): when the record allocation fails, the function returns
`-ENOMEM` and only the allocation was attempted (no registration call, nothing registered,
nothing attached); when the registration fails, it returns that error, the record is
freed, and the registered groups and the records attached to the device are as before;
when the registration succeeds, it returns 0, the group is registered, exactly one record
is attached in front of the earlier ones, and it holds the same table, count and clock-data
block, so that its release callback takes exactly this group out again. -/
theorem devm_hisi_clk_register_spec (env : clk_env) (clks : List String) (nums data : Nat)
    (w : clk_world) :
    ∀ p ∈ [(hisi_clk_variant.fixed_rate, devm_hisi_clk_register_fixed_rate),
        (.fixed_factor, devm_hisi_clk_register_fixed_factor),
        (.mux, devm_hisi_clk_register_mux),
        (.divider, devm_hisi_clk_register_divider),
        (.gate, devm_hisi_clk_register_gate)],
      (env.devres_alloc = false →
        p.2 env clks nums data w =
          (-ENOMEM, { w with calls := w.calls ++ [.devres_alloc] })) ∧
      (env.devres_alloc = true → env.hisi_clk_register p.1 ≠ 0 →
        p.2 env clks nums data w =
          (env.hisi_clk_register p.1,
            { w with calls := w.calls ++
                [.devres_alloc, .hisi_clk_register p.1, .devres_free] })) ∧
      (env.devres_alloc = true → env.hisi_clk_register p.1 = 0 →
        p.2 env clks nums data w =
          (0, { w with
            registered := ⟨p.1, clks, nums, data⟩ :: w.registered,
            devres_head := ⟨p.1, ⟨clks, nums, data⟩⟩ :: w.devres_head,
            calls := w.calls ++ [.devres_alloc, .hisi_clk_register p.1, .devres_add] }) ∧
        (devres_release ⟨p.1, ⟨clks, nums, data⟩⟩ (p.2 env clks nums data w).2).registered =
          w.registered ∧
        (devres_release ⟨p.1, ⟨clks, nums, data⟩⟩ (p.2 env clks nums data w).2).calls =
          w.calls ++ [.devres_alloc, .hisi_clk_register p.1, .devres_add,
            .hisi_clk_unregister p.1]) := by
  have key : ∀ variant,
      (env.devres_alloc = false →
        DEFINE_DEVM_HISI_CLK_REGISTER variant env clks nums data w =
          (-ENOMEM, { w with calls := w.calls ++ [.devres_alloc] })) ∧
      (env.devres_alloc = true → env.hisi_clk_register variant ≠ 0 →
        DEFINE_DEVM_HISI_CLK_REGISTER variant env clks nums data w =
          (env.hisi_clk_register variant,
            { w with calls := w.calls ++
                [.devres_alloc, .hisi_clk_register variant, .devres_free] })) ∧
      (env.devres_alloc = true → env.hisi_clk_register variant = 0 →
        DEFINE_DEVM_HISI_CLK_REGISTER variant env clks nums data w =
          (0, { w with
            registered := ⟨variant, clks, nums, data⟩ :: w.registered,
            devres_head := ⟨variant, ⟨clks, nums, data⟩⟩ :: w.devres_head,
            calls := w.calls ++
              [.devres_alloc, .hisi_clk_register variant, .devres_add] }) ∧
        (devres_release ⟨variant, ⟨clks, nums, data⟩⟩
          (DEFINE_DEVM_HISI_CLK_REGISTER variant env clks nums data w).2).registered =
          w.registered ∧
        (devres_release ⟨variant, ⟨clks, nums, data⟩⟩
          (DEFINE_DEVM_HISI_CLK_REGISTER variant env clks nums data w).2).calls =
          w.calls ++ [.devres_alloc, .hisi_clk_register variant, .devres_add,
            .hisi_clk_unregister variant]) := by
    intro variant
    obtain ⟨h1, h2, h3⟩ := DEFINE_DEVM_HISI_CLK_REGISTER_eq variant env clks nums data w
    refine ⟨h1, h2, fun ha hr => ⟨h3 ha hr, ?_, ?_⟩⟩
    · rw [h3 ha hr]
      simp [devres_release, DEFINE_HISI_RELEASE_CLOCK, hisi_clk_unregister]
    · rw [h3 ha hr]
      simp [devres_release, DEFINE_HISI_RELEASE_CLOCK, hisi_clk_unregister]
  intro p hp
  simp only [List.mem_cons, List.mem_singleton, List.not_mem_nil, or_false] at hp
  rcases hp with h | h | h | h | h <;> subst h
  · exact key .fixed_rate
  · exact key .fixed_factor
  · exact key .mux
  · exact key .divider
  · exact key .gate

/-- Witness for C24: `devm_hisi_clk_register_mux` with a failing registration leaves the
device as it was. -/
theorem devm_hisi_clk_register_spec_witness :
    devm_hisi_clk_register_mux ⟨none, fun _ => -EINVAL, 0, true⟩ ["mmc_mux"] 1 0
        ⟨[], [], [], 0, []⟩ =
      (-EINVAL,
        { registered := [], providers := [], devres_head := [], unattached := 0,
          calls := [.devres_alloc, .hisi_clk_register .mux, .devres_free] }) :=
  ((devm_hisi_clk_register_spec ⟨none, fun _ => -EINVAL, 0, true⟩ ["mmc_mux"] 1 0
    ⟨[], [], [], 0, []⟩ (.mux, devm_hisi_clk_register_mux) (by simp)).2.1 rfl (by decide))

/-! ## The Hi3798MV200 clock map -/

/-- C25 (as amended): the core CRG tables hold seven PLLs, every one with the flag word
`CLK_IS_CRITICAL`, twenty-two fixed-rate sources, the first being the 24 MHz oscillator
`clk_osc`, thirteen muxes and six phase taps, each with the eight positions 0, 45, ..., 315
degrees; the sysctrl tables hold two muxes and four gates. -/
theorem hi3798mv200_clock_map_sizes :
    hi3798mv200_plls.length = 7 ∧
    hi3798mv200_plls.map (·.flags) = List.replicate 7 CLK_IS_CRITICAL ∧
    hi3798mv200_fixed_rate_clks.length = 22 ∧
    hi3798mv200_fixed_rate_clks.head? =
      some ⟨"HI3798MV200_OSC_CLK", "clk_osc", none, 0, 24000000⟩ ∧
    hi3798mv200_mux_clks.length = 13 ∧
    hi3798mv200_phase_clks.length = 6 ∧
    hi3798mv200_phase_clks.map (·.phase_num) = List.replicate 6 8 ∧
    hi3798mv200_phase_clks.map (·.phase_degrees) =
      List.replicate 6 [0, 45, 90, 135, 180, 225, 270, 315] ∧
    hi3798mv200_sysctrl_mux_clks.length = 2 ∧
    hi3798mv200_sysctrl_gate_clks.length = 4 := by
  decide

/-- C25 (counterexample): `hi3798mv200_fixed_rate_clks` has 22 rows, not 23. -/
theorem hi3798mv200_fixed_rate_clks_length :
    hi3798mv200_fixed_rate_clks.length = 22 ∧ hi3798mv200_fixed_rate_clks.length ≠ 23 := by
  decide

/-- Every parent name of the Hi3798MV200 tables other than "250m", "300m", "450m" and "6m"
is the name of a clock that the tables define. -/
theorem hi3798mv200_parent_names_resolved :
    ∀ p ∈ hi3798mv200_parent_names, p ∉ ["250m", "300m", "450m", "6m"] →
      p ∈ hi3798mv200_clk_names := by
  decide

/-- C28 (failing input): the parent names "250m" (third parent of `clk_core_bus`), "300m"
(second parent of `clk_mde0_bus`), "450m" (third parent of `clk_mde2_bus`) and "6m" (third
parent of `mcu_bus_mux`) are the names of no clock that the Hi3798MV200 tables define. -/
theorem hi3798mv200_parent_names_unresolved :
    hi3798mv200_parent_names.filter (fun p => p ∉ hi3798mv200_clk_names) =
      ["250m", "300m", "450m", "6m"] ∧
    core_bus_mux_p.get? 2 = some "250m" ∧
    mde0_bus_mux_p.get? 1 = some "300m" ∧
    mde2_bus_mux_p.get? 2 = some "450m" ∧
    mcu_bus_mux_p.get? 2 = some "6m" ∧
    (hi3798mv200_mux_clks.map (fun clk => (clk.name, clk.parent_names))).take 4 =
      [("clk_core_bus", core_bus_mux_p), ("clk_mde0_bus", mde0_bus_mux_p),
       ("clk_mde1_bus", mde1_bus_mux_p), ("clk_mde2_bus", mde2_bus_mux_p)] ∧
    hi3798mv200_sysctrl_mux_clks.map (fun clk => (clk.name, clk.parent_names)) =
      [("uart0_mux", uart0_mux_p), ("mcu_bus_mux", mcu_bus_mux_p)] := by
  decide

/-! ## Selector fields of mux and phase nodes -/

theorem testBit_u32_not (x i : Nat) :
    (u32_not x).testBit i = (decide (i < 32) && !(u32 x).testBit i) := by
  unfold u32_not
  rw [Nat.testBit_xor, Nat.testBit_two_pow_sub_one]
  by_cases h : i < 32 <;> simp [h, testBit_u32]

theorem BIT_sub_one (width : Nat) (h : width ≤ 32) : u32 (BIT width - 1) = 2 ^ width - 1 := by
  rw [BIT_eq width (by omega)]
  apply u32_eq_of_lt
  have : 2 ^ width ≤ 2 ^ 32 := Nat.pow_le_pow_right (by decide) h
  have : 0 < 2 ^ width := Nat.two_pow_pos width
  omega

/-- A value written into the field (`shift`, `width`) of a 32-bit word by
`reg &= ~(mask << shift); reg |= val << shift` is what `(reg >> shift) & mask` reads back. -/
theorem field_write_read (w v shift width : Nat) (hv : v < 2 ^ width)
    (hsw : shift + width ≤ 32) :
    (u32 (w &&& u32_not (u32 ((2 ^ width - 1) <<< shift)) ||| u32 (v <<< shift)) >>> shift) &&&
      (2 ^ width - 1) = v := by
  apply Nat.eq_of_testBit_eq
  intro j
  simp only [Nat.testBit_and, Nat.testBit_shiftRight, testBit_u32, Nat.testBit_or,
    testBit_u32_not, Nat.testBit_shiftLeft, Nat.testBit_two_pow_sub_one]
  by_cases hj : j < width
  · have h1 : shift + j < 32 := by omega
    have h2 : shift + j ≥ shift := by omega
    have h3 : shift + j - shift = j := by omega
    simp [hj, h1, h2, h3]
  · have hvj : v.testBit j = false :=
      Nat.testBit_lt_two_pow (lt_of_lt_of_le hv (Nat.pow_le_pow_right (by decide) (by omega)))
    simp [hj, hvj]

/-- The same field read as `(reg & (mask << shift)) >> shift`. -/
theorem field_write_read_masked (w v shift width : Nat) (hv : v < 2 ^ width)
    (hsw : shift + width ≤ 32) :
    (u32 (w &&& u32_not (u32 ((2 ^ width - 1) <<< shift)) ||| u32 (v <<< shift)) &&&
      u32 ((2 ^ width - 1) <<< shift)) >>> shift = v := by
  apply Nat.eq_of_testBit_eq
  intro j
  simp only [Nat.testBit_and, Nat.testBit_shiftRight, testBit_u32, Nat.testBit_or,
    testBit_u32_not, Nat.testBit_shiftLeft, Nat.testBit_two_pow_sub_one]
  by_cases hj : j < width
  · have h1 : shift + j < 32 := by omega
    have h2 : shift + j ≥ shift := by omega
    have h3 : shift + j - shift = j := by omega
    simp [hj, h1, h2, h3]
  · have hvj : v.testBit j = false :=
      Nat.testBit_lt_two_pow (lt_of_lt_of_le hv (Nat.pow_le_pow_right (by decide) (by omega)))
    have h2 : shift + j ≥ shift := by omega
    have h3 : shift + j - shift = j := by omega
    simp [hj, hvj, h2, h3]

/-- The search of `clk_mux_val_to_index` stops at index `i` when the table holds the value
there and at no earlier index. -/
theorem clk_mux_val_to_index_loop_spec (table : List Nat) (v i : Nat)
    (hget : table.get? i = some v) (hv : u32 v = v)
    (hfirst : ∀ k t, k < i → table.get? k = some t → u32 t ≠ v) :
    ∀ n i0, i0 ≤ i → i < i0 + n → clk_mux_val_to_index_loop table v n i0 = .ok (i : Int) := by
  intro n
  induction n with
  | zero =>
    intro i0 h1 h2
    omega
  | succ n ih =>
    intro i0 h1 h2
    unfold clk_mux_val_to_index_loop
    by_cases hi : i0 = i
    · subst hi
      simp only [hget, hv, if_true]
    · have hlt : i0 < i := by omega
      have hlen : i < table.length := by
        by_contra hc
        rw [List.get?_eq_none.mpr (by omega)] at hget
        cases hget
      cases hk : table.get? i0 with
      | none =>
        rw [List.get?_eq_none] at hk
        omega
      | some t =>
        simp only [hfirst i0 t hlt hk, if_false]
        exact ih (i0 + 1) (by omega) (by omega)

/-- Round trip through a mux node built from a table row: for a row whose raw values are
pairwise distinct and fit the field, selecting parent `i` writes the raw value of `i` into
the field and the field decodes back to `i`. -/
theorem clk_mux_roundtrip (base : Nat) (clk : hisi_mux_clock) (io : Regs) (i v : Nat)
    (hget : clk.table.get? i = some v) (hi : i < clk.num_parents)
    (hnp : clk.num_parents < 2 ^ 8) (hnodup : clk.table.Nodup)
    (hlt : ∀ t ∈ clk.table, t < 2 ^ clk.width) (hsw : clk.shift + clk.width ≤ 32) :
    ∃ io', clk_mux_set_parent (hisi_clk_register_mux_node base clk) io i = (.ok 0, io') ∧
      readl io' (base + clk.offset) / 2 ^ clk.shift % 2 ^ clk.width = v ∧
      clk_mux_get_parent (hisi_clk_register_mux_node base clk) io' = .ok i ∧
      ∀ b, b ≠ base + clk.offset → io' b = io b := by
  have hw32 : 2 ^ clk.width ≤ 2 ^ 32 := Nat.pow_le_pow_right (by decide) (by omega)
  have hv : v < 2 ^ clk.width := hlt v (List.get?_mem hget)
  have hu : ∀ t ∈ clk.table, u32 t = t := fun t ht =>
    u32_eq_of_lt t (lt_of_lt_of_le (hlt t ht) hw32)
  have hi8 : u8 i = i := Nat.mod_eq_of_lt (by omega)
  have hn8 : u8 clk.num_parents = clk.num_parents := Nat.mod_eq_of_lt hnp
  have hs8 : u8 clk.shift = clk.shift := Nat.mod_eq_of_lt (by omega)
  have hmask : u32 (BIT clk.width - 1) = 2 ^ clk.width - 1 := BIT_sub_one clk.width (by omega)
  have hfirst : ∀ k t, k < i → clk.table.get? k = some t → u32 t ≠ v := by
    intro k t hk hkt
    rw [hu t (List.get?_mem hkt)]
    intro heq
    have hne := List.nodup_iff_get?_ne_get?.mp hnodup k i hk (by
      by_contra hc
      rw [List.get?_eq_none.mpr (by omega)] at hget
      cases hget)
    rw [hkt, hget, heq] at hne
    exact hne rfl
  have hidx := clk_mux_val_to_index_loop_spec clk.table v i hget (hu v (List.get?_mem hget))
    hfirst clk.num_parents 0 (Nat.zero_le _) (by omega)
  refine ⟨writel (readl io (base + clk.offset) &&&
      u32_not (u32 ((2 ^ clk.width - 1) <<< clk.shift)) ||| u32 (v <<< clk.shift))
      (base + clk.offset) io, ?_, ?_, ?_, fun b hb => writel_other _ _ _ _ hb⟩
  · simp only [clk_mux_set_parent, hisi_clk_register_mux_node, clk_mux_index_to_val, hi8, hget,
      hu v (List.get?_mem hget), hmask, hs8]
  · rw [readl_writel_same, ← Nat.shiftRight_eq_div_pow, ← Nat.and_pow_two_sub_one_eq_mod]
    exact field_write_read _ v clk.shift clk.width hv hsw
  · simp only [clk_mux_get_parent, hisi_clk_register_mux_node, hmask, hs8, hn8,
      readl_writel_same, clk_mux_val_to_index,
      field_write_read _ v clk.shift clk.width hv hsw, hidx]
    congr 1

/-- Rows of the Hi3798MV200 mux tables: the raw-value table is as long as the parent list,
its values are pairwise distinct and fit the selector field, and the field lies inside the
32-bit register. -/
theorem hi3798mv200_mux_rows_wf :
    ∀ clk ∈ hi3798mv200_mux_clks ++ hi3798mv200_sysctrl_mux_clks,
      clk.table.length = clk.parent_names.length ∧
      clk.num_parents = clk.parent_names.length ∧
      clk.num_parents < 2 ^ 8 ∧
      clk.table.Nodup ∧
      (∀ t ∈ clk.table, t < 2 ^ clk.width) ∧
      clk.shift + clk.width ≤ 32 := by
  decide

/-- C26: for every mux row of `hi3798mv200_mux_clks` and `hi3798mv200_sysctrl_mux_clks` the
raw-value table is as long as the parent-name list, its values are pairwise distinct and
each is below 2^width; and for every parent index i, on any register file, set-parent(i)
on the node built from the row returns 0, leaves the raw value table[i] in the selector
field (shift, width) of the register at base + offset, changes no other register, and
get-parent then decodes the field back to i.  For `mmc_mux`, set-parent(4) leaves 0b110 in
bits 10:8 of the register at offset 0xa0 and get-parent returns 4. -/
theorem hi3798mv200_mux_roundtrip :
    (∀ clk ∈ hi3798mv200_mux_clks ++ hi3798mv200_sysctrl_mux_clks,
      clk.table.length = clk.parent_names.length ∧
      clk.table.Nodup ∧
      (∀ t ∈ clk.table, t < 2 ^ clk.width) ∧
      ∀ (base : Nat) (io : Regs) (i : Nat), i < clk.parent_names.length →
        ∃ v io', clk.table.get? i = some v ∧
          clk_mux_set_parent (hisi_clk_register_mux_node base clk) io i = (.ok 0, io') ∧
          readl io' (base + clk.offset) / 2 ^ clk.shift % 2 ^ clk.width = v ∧
          clk_mux_get_parent (hisi_clk_register_mux_node base clk) io' = .ok i ∧
          ∀ b, b ≠ base + clk.offset → io' b = io b) ∧
    ((⟨"HI3798MV200_MMC_MUX", "mmc_mux", mmc_mux_p, mmc_mux_p.length, 0, 0xa0, 8, 3,
        CLK_MUX_ROUND_CLOSEST, mmc_mux_table⟩ : hisi_mux_clock) ∈ hi3798mv200_mux_clks ∧
      ∀ (base : Nat) (io : Regs), ∃ io',
        clk_mux_set_parent (hisi_clk_register_mux_node base
          ⟨"HI3798MV200_MMC_MUX", "mmc_mux", mmc_mux_p, mmc_mux_p.length, 0, 0xa0, 8, 3,
            CLK_MUX_ROUND_CLOSEST, mmc_mux_table⟩) io 4 = (.ok 0, io') ∧
        readl io' (base + 0xa0) / 2 ^ 8 % 2 ^ 3 = 0b110 ∧
        clk_mux_get_parent (hisi_clk_register_mux_node base
          ⟨"HI3798MV200_MMC_MUX", "mmc_mux", mmc_mux_p, mmc_mux_p.length, 0, 0xa0, 8, 3,
            CLK_MUX_ROUND_CLOSEST, mmc_mux_table⟩) io' = .ok 4) := by
  constructor
  · intro clk hclk
    obtain ⟨hlen, hnum, hnp, hnodup, hlt, hsw⟩ := hi3798mv200_mux_rows_wf clk hclk
    refine ⟨hlen, hnodup, hlt, ?_⟩
    intro base io i hi
    have hil : i < clk.table.length := by omega
    obtain ⟨io', h1, h2, h3, h4⟩ := clk_mux_roundtrip base clk io i (clk.table.get ⟨i, hil⟩)
      (List.get?_eq_get hil) (by omega) hnp hnodup hlt hsw
    exact ⟨_, io', List.get?_eq_get hil, h1, h2, h3, h4⟩
  · refine ⟨by decide, ?_⟩
    intro base io
    obtain ⟨io', h1, h2, h3, -⟩ := clk_mux_roundtrip base
      ⟨"HI3798MV200_MMC_MUX", "mmc_mux", mmc_mux_p, mmc_mux_p.length, 0, 0xa0, 8, 3,
        CLK_MUX_ROUND_CLOSEST, mmc_mux_table⟩ io 4 6 rfl (by decide) (by decide) (by decide)
      (by decide) (by decide)
    exact ⟨io', h1, h2, h3⟩

/-- Witness for C26: the row `sdio0_mux` of the core table, parent 2, on the zero register
file with the register window at 0. -/
theorem hi3798mv200_mux_roundtrip_witness :
    ∃ v io', sdio_mux_table.get? 2 = some v ∧
      clk_mux_set_parent (hisi_clk_register_mux_node 0
        ⟨"HI3798MV200_SDIO0_MUX", "sdio0_mux", sdio_mux_p, sdio_mux_p.length, 0, 0x9c, 8, 2,
          CLK_MUX_ROUND_CLOSEST, sdio_mux_table⟩) (fun _ => 0) 2 = (.ok 0, io') ∧
      readl io' (0 + 0x9c) / 2 ^ 8 % 2 ^ 2 = v ∧
      clk_mux_get_parent (hisi_clk_register_mux_node 0
        ⟨"HI3798MV200_SDIO0_MUX", "sdio0_mux", sdio_mux_p, sdio_mux_p.length, 0, 0x9c, 8, 2,
          CLK_MUX_ROUND_CLOSEST, sdio_mux_table⟩) io' = .ok 2 ∧
      ∀ b, b ≠ 0 + 0x9c → io' b = (fun _ => 0) b :=
  (hi3798mv200_mux_roundtrip.1
    ⟨"HI3798MV200_SDIO0_MUX", "sdio0_mux", sdio_mux_p, sdio_mux_p.length, 0, 0x9c, 8, 2,
      CLK_MUX_ROUND_CLOSEST, sdio_mux_table⟩ (by decide)).2.2.2 0 (fun _ => 0) 2 (by decide)

/-! ## Phase nodes -/

theorem u32_of_int_natCast (n : Nat) (h : n < 2 ^ 32) : u32_of_int (n : Int) = n := by
  unfold u32_of_int
  have : ((n : Int) % 2 ^ 32) = ((n % 2 ^ 32 : Nat) : Int) := by norm_cast
  rw [this, Int.toNat_ofNat, Nat.mod_eq_of_lt h]

/-- The search of `hisi_phase_degrees_to_regval` stops at row `i` when the degrees table
holds the value there and at no earlier row. -/
theorem hisi_phase_degrees_to_regval_loop_spec (phase : clk_hisi_phase) (deg : Int)
    (i d r : Nat) (hd : phase.phase_degrees.get? i = some d)
    (hr : phase.phase_regvals.get? i = some r) (hdeg : u32 d = u32_of_int deg)
    (hlen : phase.phase_degrees.length = phase.phase_regvals.length)
    (hfirst : ∀ k t, k < i → phase.phase_degrees.get? k = some t → u32 t ≠ u32_of_int deg) :
    ∀ n i0, i0 ≤ i → i < i0 + n →
      hisi_phase_degrees_to_regval_loop phase deg n i0 = .ok (u32 r : Int) := by
  intro n
  induction n with
  | zero =>
    intro i0 h1 h2
    omega
  | succ n ih =>
    intro i0 h1 h2
    unfold hisi_phase_degrees_to_regval_loop
    by_cases hi : i0 = i
    · subst hi
      simp only [hd, hr, hdeg, if_true]
    · have hlt : i0 < i := by omega
      have hil : i < phase.phase_degrees.length := by
        by_contra hc
        rw [List.get?_eq_none.mpr (by omega)] at hd
        cases hd
      have h1 : phase.phase_degrees.get? i0 = some (phase.phase_degrees.get ⟨i0, by omega⟩) :=
        List.get?_eq_get _
      have h2 : phase.phase_regvals.get? i0 = some (phase.phase_regvals.get ⟨i0, by omega⟩) :=
        List.get?_eq_get _
      simp only [h1, h2, hfirst i0 _ hlt h1, if_false]
      exact ih (i0 + 1) (by omega) (by omega)

/-- The search of `hisi_phase_degrees_to_regval` ends with `-EINVAL` when no row has the
degrees. -/
theorem hisi_phase_degrees_to_regval_loop_none (phase : clk_hisi_phase) (deg : Int)
    (hlen : phase.phase_degrees.length = phase.phase_regvals.length)
    (hno : ∀ t ∈ phase.phase_degrees, u32 t ≠ u32_of_int deg) :
    ∀ n i0, i0 + n ≤ phase.phase_degrees.length →
      hisi_phase_degrees_to_regval_loop phase deg n i0 = .ok (-EINVAL) := by
  intro n
  induction n with
  | zero =>
    intro i0 _
    rfl
  | succ n ih =>
    intro i0 h
    unfold hisi_phase_degrees_to_regval_loop
    have h1 : phase.phase_degrees.get? i0 = some (phase.phase_degrees.get ⟨i0, by omega⟩) :=
      List.get?_eq_get _
    have h2 : phase.phase_regvals.get? i0 = some (phase.phase_regvals.get ⟨i0, by omega⟩) :=
      List.get?_eq_get _
    simp only [h1, h2, hno _ (List.get?_mem h1), if_false]
    exact ih (i0 + 1) (by omega)

/-- The search of `hisi_phase_regval_to_degrees` stops at row `i` when the raw-value table
holds the value there and at no earlier row. -/
theorem hisi_phase_regval_to_degrees_loop_spec (phase : clk_hisi_phase) (regval : Nat)
    (i d r : Nat) (hd : phase.phase_degrees.get? i = some d)
    (hr : phase.phase_regvals.get? i = some r) (hreg : u32 r = regval)
    (hlen : phase.phase_degrees.length = phase.phase_regvals.length)
    (hfirst : ∀ k t, k < i → phase.phase_regvals.get? k = some t → u32 t ≠ regval) :
    ∀ n i0, i0 ≤ i → i < i0 + n →
      hisi_phase_regval_to_degrees_loop phase regval n i0 = .ok (d : Int) := by
  intro n
  induction n with
  | zero =>
    intro i0 h1 h2
    omega
  | succ n ih =>
    intro i0 h1 h2
    unfold hisi_phase_regval_to_degrees_loop
    by_cases hi : i0 = i
    · subst hi
      simp only [hd, hr, hreg, if_true]
    · have hlt : i0 < i := by omega
      have hil : i < phase.phase_degrees.length := by
        by_contra hc
        rw [List.get?_eq_none.mpr (by omega)] at hd
        cases hd
      have h1 : phase.phase_degrees.get? i0 = some (phase.phase_degrees.get ⟨i0, by omega⟩) :=
        List.get?_eq_get _
      have h2 : phase.phase_regvals.get? i0 = some (phase.phase_regvals.get ⟨i0, by omega⟩) :=
        List.get?_eq_get _
      simp only [h1, h2, hfirst i0 _ hlt h2, if_false]
      exact ih (i0 + 1) (by omega) (by omega)

/-- In a list without repetition the value at an index occurs at no earlier index. -/
theorem nodup_first (l : List Nat) (hn : l.Nodup) (hu : ∀ t ∈ l, u32 t = t) (i v : Nat)
    (hget : l.get? i = some v) : ∀ k t, k < i → l.get? k = some t → u32 t ≠ v := by
  intro k t hk hkt
  rw [hu t (List.get?_mem hkt)]
  intro heq
  have hne := List.nodup_iff_get?_ne_get?.mp hn k i hk (by
    by_contra hc
    rw [List.get?_eq_none.mpr (by omega)] at hget
    cases hget)
  rw [hkt, hget, heq] at hne
  exact hne rfl

/-- Round trip through a phase node built from a table row: for a row whose two tables
have the same length, no repeated degrees and no repeated raw values, with raw values that
fit the field, setting the degrees of row `i` writes the raw value of row `i` into the
field and the field decodes back to the same degrees. -/
theorem hisi_clk_phase_roundtrip (base : Nat) (clks : hisi_phase_clock) (io : Regs)
    (i d r : Nat) (hd : clks.phase_degrees.get? i = some d)
    (hr : clks.phase_regvals.get? i = some r) (hi : i < clks.phase_num)
    (hnum : clks.phase_num < 2 ^ 8)
    (hlen : clks.phase_degrees.length = clks.phase_regvals.length)
    (hdn : clks.phase_degrees.Nodup) (hrn : clks.phase_regvals.Nodup)
    (hdl : ∀ t ∈ clks.phase_degrees, t < 2 ^ 31)
    (hrl : ∀ t ∈ clks.phase_regvals, t < 2 ^ clks.width)
    (hsw : clks.shift + clks.width ≤ 32) :
    ∃ io', hisi_clk_set_phase (clk_register_hisi_phase_node base clks) io (d : Int) =
        (.ok 0, io') ∧
      readl io' (base + clks.offset) / 2 ^ clks.shift % 2 ^ clks.width = r ∧
      hisi_clk_get_phase (clk_register_hisi_phase_node base clks) io' = .ok (d : Int) ∧
      ∀ b, b ≠ base + clks.offset → io' b = io b := by
  have hw32 : 2 ^ clks.width ≤ 2 ^ 32 := Nat.pow_le_pow_right (by decide) (by omega)
  have hrv : r < 2 ^ clks.width := hrl r (List.get?_mem hr)
  have hud : ∀ t ∈ clks.phase_degrees, u32 t = t := fun t ht =>
    u32_eq_of_lt t (lt_trans (hdl t ht) (by decide))
  have hur : ∀ t ∈ clks.phase_regvals, u32 t = t := fun t ht =>
    u32_eq_of_lt t (lt_of_lt_of_le (hrl t ht) hw32)
  have hd32 : d < 2 ^ 32 := lt_trans (hdl d (List.get?_mem hd)) (by decide)
  have hn8 : u8 clks.phase_num = clks.phase_num := Nat.mod_eq_of_lt hnum
  have hs8 : u8 clks.shift = clks.shift := Nat.mod_eq_of_lt (by omega)
  have hbit : BIT clks.width - 1 = 2 ^ clks.width - 1 := by rw [BIT_eq clks.width (by omega)]
  have hdeg : u32 d = u32_of_int (d : Int) := by
    rw [u32_of_int_natCast d hd32, hud d (List.get?_mem hd)]
  have hto := hisi_phase_degrees_to_regval_loop_spec (clk_register_hisi_phase_node base clks)
    (d : Int) i d r hd hr hdeg hlen
    (by
      intro k t hk hkt
      rw [u32_of_int_natCast d hd32]
      exact nodup_first clks.phase_degrees hdn hud i d hd k t hk hkt)
    clks.phase_num 0 (Nat.zero_le _) (by omega)
  have hfrom := hisi_phase_regval_to_degrees_loop_spec
    (clk_register_hisi_phase_node base clks) r i d r hd hr (hur r (List.get?_mem hr)) hlen
    (nodup_first clks.phase_regvals hrn hur i r hr) clks.phase_num 0 (Nat.zero_le _)
    (by omega)
  refine ⟨writel (readl io (base + clks.offset) &&&
      u32_not (u32 ((2 ^ clks.width - 1) <<< clks.shift)) ||| u32 (r <<< clks.shift))
      (base + clks.offset) io, ?_, ?_, ?_, fun b hb => writel_other _ _ _ _ hb⟩
  · have hsel : hisi_phase_degrees_to_regval (clk_register_hisi_phase_node base clks)
        (d : Int) = .ok (u32 r : Int) := by
      unfold hisi_phase_degrees_to_regval
      simp only [clk_register_hisi_phase_node, hn8] at hto ⊢
      exact hto
    unfold hisi_clk_set_phase
    rw [hsel]
    have hneg2 : ¬ ((r : Nat) : Int) < 0 := by omega
    simp only [clk_register_hisi_phase_node, hbit, hs8, Int.toNat_ofNat,
      hur r (List.get?_mem hr), hneg2, if_false]
  · rw [readl_writel_same, ← Nat.shiftRight_eq_div_pow, ← Nat.and_pow_two_sub_one_eq_mod]
    exact field_write_read _ r clks.shift clks.width hrv hsw
  · unfold hisi_clk_get_phase hisi_phase_regval_to_degrees
    simp only [clk_register_hisi_phase_node, hn8, hbit, hs8, readl_writel_same,
      field_write_read_masked _ r clks.shift clks.width hrv hsw] at hfrom ⊢
    exact hfrom

/-- Setting degrees that no row of the table has is refused with `-EINVAL` and writes
nothing. -/
theorem hisi_clk_set_phase_unknown (base : Nat) (clks : hisi_phase_clock) (io : Regs)
    (deg : Int) (hnum : clks.phase_num ≤ clks.phase_degrees.length)
    (hnum8 : clks.phase_num < 2 ^ 8)
    (hlen : clks.phase_degrees.length = clks.phase_regvals.length)
    (hno : ∀ t ∈ clks.phase_degrees, u32 t ≠ u32_of_int deg) :
    hisi_clk_set_phase (clk_register_hisi_phase_node base clks) io deg =
      (.ok (-EINVAL), io) := by
  have hn8 : u8 clks.phase_num = clks.phase_num := Nat.mod_eq_of_lt hnum8
  have h := hisi_phase_degrees_to_regval_loop_none (clk_register_hisi_phase_node base clks)
    deg hlen hno clks.phase_num 0 (by
      show 0 + clks.phase_num ≤ clks.phase_degrees.length
      omega)
  unfold hisi_clk_set_phase hisi_phase_degrees_to_regval
  simp only [clk_register_hisi_phase_node, hn8] at h ⊢
  rw [h]
  have : (-EINVAL : Int) < 0 := by decide
  simp only [this, if_true]

/-- Rows of `hi3798mv200_phase_clks`: both tables have the eight rows that `phase_num`
announces, no degrees and no raw value is repeated, the raw values fit the three-bit field
and the field lies inside the 32-bit register. -/
theorem hi3798mv200_phase_rows_wf :
    ∀ clks ∈ hi3798mv200_phase_clks,
      clks.phase_degrees.length = 8 ∧
      clks.phase_regvals.length = 8 ∧
      clks.phase_num = 8 ∧
      clks.width = 3 ∧
      clks.phase_degrees.Nodup ∧
      clks.phase_regvals.Nodup ∧
      (∀ t ∈ clks.phase_degrees, t < 2 ^ 31) ∧
      (∀ t ∈ clks.phase_regvals, t < 2 ^ clks.width) ∧
      clks.shift + clks.width ≤ 32 := by
  decide

theorem u32_ne_u32_of_int (t : Nat) (deg : Int) (ht : t < 2 ^ 31) (hlo : -2 ^ 31 ≤ deg)
    (hhi : deg < 2 ^ 31) (hne : (t : Int) ≠ deg) : u32 t ≠ u32_of_int deg := by
  rw [u32_eq_of_lt t (lt_trans ht (by decide))]
  unfold u32_of_int
  omega

/-- C27: for every row of `hi3798mv200_phase_clks` the degrees table and the raw-value
table both have 8 entries, the degrees are pairwise distinct, the raw values are pairwise
distinct and each is below 2^width with width 3; for every row index i, on any register
file, set-phase(degrees[i]) on the node built from the row returns 0, leaves rawvalue[i] in
the field (shift, width) of the register at base + offset, changes no other register, and
get-phase then returns degrees[i]; and set-phase of an `int` that is no entry of the degrees
table returns `-EINVAL` and writes nothing.  For `sdio0_sample`, set-phase(180) leaves 0b100
in bits 14:12 of the register at offset 0x9c and get-phase returns 180. -/
theorem hi3798mv200_phase_roundtrip :
    (∀ clks ∈ hi3798mv200_phase_clks,
      clks.phase_degrees.length = 8 ∧
      clks.phase_regvals.length = 8 ∧
      clks.width = 3 ∧
      clks.phase_degrees.Nodup ∧
      clks.phase_regvals.Nodup ∧
      (∀ t ∈ clks.phase_regvals, t < 2 ^ clks.width) ∧
      (∀ (base : Nat) (io : Regs) (i : Nat), i < 8 →
        ∃ d r io', clks.phase_degrees.get? i = some d ∧
          clks.phase_regvals.get? i = some r ∧
          hisi_clk_set_phase (clk_register_hisi_phase_node base clks) io (d : Int) =
            (.ok 0, io') ∧
          readl io' (base + clks.offset) / 2 ^ clks.shift % 2 ^ clks.width = r ∧
          hisi_clk_get_phase (clk_register_hisi_phase_node base clks) io' = .ok (d : Int) ∧
          ∀ b, b ≠ base + clks.offset → io' b = io b) ∧
      (∀ (base : Nat) (io : Regs) (deg : Int), -2 ^ 31 ≤ deg → deg < 2 ^ 31 →
        (∀ t ∈ clks.phase_degrees, (t : Int) ≠ deg) →
        hisi_clk_set_phase (clk_register_hisi_phase_node base clks) io deg =
          (.ok (-EINVAL), io))) ∧
    ((⟨"HI3798MV200_SDIO0_SAMPLE_CLK", "sdio0_sample", some "clk_sdio0_ciu", 0, 0x9c, 12, 3,
        mmc_phase_degrees, mmc_phase_regvals, mmc_phase_regvals.length⟩ : hisi_phase_clock) ∈
        hi3798mv200_phase_clks ∧
      ∀ (base : Nat) (io : Regs), ∃ io',
        hisi_clk_set_phase (clk_register_hisi_phase_node base
          ⟨"HI3798MV200_SDIO0_SAMPLE_CLK", "sdio0_sample", some "clk_sdio0_ciu", 0, 0x9c, 12,
            3, mmc_phase_degrees, mmc_phase_regvals, mmc_phase_regvals.length⟩) io 180 =
          (.ok 0, io') ∧
        readl io' (base + 0x9c) / 2 ^ 12 % 2 ^ 3 = 0b100 ∧
        hisi_clk_get_phase (clk_register_hisi_phase_node base
          ⟨"HI3798MV200_SDIO0_SAMPLE_CLK", "sdio0_sample", some "clk_sdio0_ciu", 0, 0x9c, 12,
            3, mmc_phase_degrees, mmc_phase_regvals, mmc_phase_regvals.length⟩) io' =
          .ok 180) := by
  constructor
  · intro clks hclks
    obtain ⟨hdl8, hrl8, hnum, hwidth, hdn, hrn, hdl, hrl, hsw⟩ :=
      hi3798mv200_phase_rows_wf clks hclks
    refine ⟨hdl8, hrl8, hwidth, hdn, hrn, hrl, ?_, ?_⟩
    · intro base io i hi
      have hid : i < clks.phase_degrees.length := by omega
      have hir : i < clks.phase_regvals.length := by omega
      obtain ⟨io', h1, h2, h3, h4⟩ := hisi_clk_phase_roundtrip base clks io i
        (clks.phase_degrees.get ⟨i, hid⟩) (clks.phase_regvals.get ⟨i, hir⟩)
        (List.get?_eq_get hid) (List.get?_eq_get hir) (by omega) (by omega) (by omega) hdn hrn
        hdl hrl hsw
      exact ⟨_, _, io', List.get?_eq_get hid, List.get?_eq_get hir, h1, h2, h3, h4⟩
    · intro base io deg hlo hhi hne
      exact hisi_clk_set_phase_unknown base clks io deg (by omega) (by omega) (by omega)
        (fun t ht => u32_ne_u32_of_int t deg (hdl t ht) hlo hhi (hne t ht))
  · refine ⟨by decide, ?_⟩
    intro base io
    obtain ⟨io', h1, h2, h3, -⟩ := hisi_clk_phase_roundtrip base
      ⟨"HI3798MV200_SDIO0_SAMPLE_CLK", "sdio0_sample", some "clk_sdio0_ciu", 0, 0x9c, 12, 3,
        mmc_phase_degrees, mmc_phase_regvals, mmc_phase_regvals.length⟩ io 4 180 4 rfl rfl
      (by decide) (by decide) (by decide) (by decide) (by decide) (by decide) (by decide)
      (by decide)
    exact ⟨io', h1, h2, h3⟩

/-- Witness for C27: the row `mmc_drive`, row index 7 (315 degrees, raw value 7), on the
zero register file with the register window at 0. -/
theorem hi3798mv200_phase_roundtrip_witness :
    ∃ d r io', mmc_phase_degrees.get? 7 = some d ∧ mmc_phase_regvals.get? 7 = some r ∧
      hisi_clk_set_phase (clk_register_hisi_phase_node 0
        ⟨"HI3798MV200_MMC_DRV_CLK", "mmc_drive", some "clk_mmc_ciu", 0, 0xa0, 16, 3,
          mmc_phase_degrees, mmc_phase_regvals, mmc_phase_regvals.length⟩) (fun _ => 0)
        (d : Int) = (.ok 0, io') ∧
      readl io' (0 + 0xa0) / 2 ^ 16 % 2 ^ 3 = r ∧
      hisi_clk_get_phase (clk_register_hisi_phase_node 0
        ⟨"HI3798MV200_MMC_DRV_CLK", "mmc_drive", some "clk_mmc_ciu", 0, 0xa0, 16, 3,
          mmc_phase_degrees, mmc_phase_regvals, mmc_phase_regvals.length⟩) io' =
        .ok (d : Int) ∧
      ∀ b, b ≠ 0 + 0xa0 → io' b = (fun _ => 0) b :=
  (hi3798mv200_phase_roundtrip.1
    ⟨"HI3798MV200_MMC_DRV_CLK", "mmc_drive", some "clk_mmc_ciu", 0, 0xa0, 16, 3,
      mmc_phase_degrees, mmc_phase_regvals, mmc_phase_regvals.length⟩
    (by decide)).2.2.2.2.2.2.1 0 (fun _ => 0) 7 (by decide)

/-! ## The Hi3798MV2x pin table: positions and drive-strength tables -/

/-- The rows of `hi3798mv2x_ioconfig_pins` carry, in order, the names and values of the
enumerators, the values are 0, 1, ..., 65, and the lookup by pin number finds the row at
that position. -/
theorem hi3798mv2x_ioconfig_pins_rows :
    hi3798mv2x_ioconfig_pins.map (fun p => (p.name, p.number)) =
      hi3798mv2x_ioconfig_pins_enum ∧
    hi3798mv2x_ioconfig_pins_enum.map (·.2) = List.range 66 ∧
    ∀ i < 66, hi3798mv2x_ioconfig_pins.find? (fun d => d.number = i) =
      hi3798mv2x_ioconfig_pins.get? i := by
  decide

/-- C29: the Hi3798MV2x pin table has 66 descriptors, as many as the enumeration has pin
names, and for every position i below 66 the i-th descriptor has pin number i and the name
of the i-th enumerator, whose value is i; the descriptor registered under pin id i is that
i-th descriptor, and its register slot is base + 4*i. -/
theorem hi3798mv2x_ioconfig_pins_positions (base i : Nat) (hi : i < 66) :
    hi3798mv2x_ioconfig_pins.length = 66 ∧
    hi3798mv2x_ioconfig_pins_enum.length = 66 ∧
    ∃ pin name, hi3798mv2x_ioconfig_pins.get? i = some pin ∧
      hi3798mv2x_ioconfig_pins_enum.get? i = some (name, i) ∧
      pin.number = i ∧ pin.name = name ∧
      pin_desc_get (hi3798mv2x_ioconfig base) i = some pin ∧
      pin_reg (hi3798mv2x_ioconfig base) pin.number = base + 4 * i := by
  obtain ⟨hmap, hval, hfind⟩ := hi3798mv2x_ioconfig_pins_rows
  have hlen : hi3798mv2x_ioconfig_pins.length = 66 := by decide
  have hlen2 : hi3798mv2x_ioconfig_pins_enum.length = 66 := by decide
  have hil : i < hi3798mv2x_ioconfig_pins.length := by omega
  have hget : hi3798mv2x_ioconfig_pins.get? i =
      some (hi3798mv2x_ioconfig_pins.get ⟨i, hil⟩) := List.get?_eq_get hil
  have henum : hi3798mv2x_ioconfig_pins_enum.get? i =
      some ((hi3798mv2x_ioconfig_pins.get ⟨i, hil⟩).name,
        (hi3798mv2x_ioconfig_pins.get ⟨i, hil⟩).number) := by
    rw [← hmap, List.get?_eq_getElem?, List.getElem?_map, ← List.get?_eq_getElem?, hget]
    rfl
  have hnum : (hi3798mv2x_ioconfig_pins.get ⟨i, hil⟩).number = i := by
    have h := congrArg (fun l => l.get? i) hval
    simp only [List.get?_eq_getElem?, List.getElem?_map, List.getElem?_range hi] at h
    rw [← List.get?_eq_getElem?, henum] at h
    simpa using h
  refine ⟨hlen, hlen2, _, _, hget, ?_, hnum, rfl, ?_, ?_⟩
  · rw [henum, hnum]
  · show hi3798mv2x_ioconfig_pins.find? (fun d => d.number = i) = _
    rw [hfind i hi, hget]
  · show base + 4 * (hi3798mv2x_ioconfig_pins.get ⟨i, hil⟩).number = base + 4 * i
    rw [hnum]

/-- Witness for C29: position 49 holds pin B4. -/
theorem hi3798mv2x_ioconfig_pins_positions_witness :
    ∃ pin name, hi3798mv2x_ioconfig_pins.get? 49 = some pin ∧
      hi3798mv2x_ioconfig_pins_enum.get? 49 = some (name, 49) ∧
      pin.number = 49 ∧ pin.name = name ∧
      pin_desc_get (hi3798mv2x_ioconfig 0) 49 = some pin ∧
      pin_reg (hi3798mv2x_ioconfig 0) pin.number = 0 + 4 * 49 :=
  (hi3798mv2x_ioconfig_pins_positions 0 49 (by decide)).2.2

/-- C30: every drive-strength table that a pin of the Hi3798MV2x table uses is strictly
descending, ends with 0, holds 0 only once and has between 1 and 16 non-zero entries;
`DRIVE_STRENGTH_TABLE_SAMPLE_A` is 4, 3, 2, 1, 0 and `DRIVE_STRENGTH_TABLE_SAMPLE_B` has
seventeen values, from 18 down to 0. -/
theorem hi3798mv2x_drive_strength_tables :
    (∀ pin ∈ hi3798mv2x_ioconfig_pins, ∀ tbl ∈ pin.drv_data.drv_tbl,
      tbl.Pairwise (· > ·) ∧ tbl.getLast? = some 0 ∧ tbl.count 0 = 1 ∧
      1 ≤ (tbl.filter (· ≠ 0)).length ∧ (tbl.filter (· ≠ 0)).length ≤ 16) ∧
    DRIVE_STRENGTH_TABLE_SAMPLE_A = [4, 3, 2, 1, 0] ∧
    DRIVE_STRENGTH_TABLE_SAMPLE_B.length = 17 ∧
    DRIVE_STRENGTH_TABLE_SAMPLE_B.head? = some 18 ∧
    DRIVE_STRENGTH_TABLE_SAMPLE_B.getLast? = some 0 := by
  decide

/-- Witness for C30: the table of pin B4. -/
theorem hi3798mv2x_drive_strength_tables_witness :
    [18, 16, 14, 12, 10, 8, 6, 4, 0].Pairwise (· > ·) ∧
    [18, 16, 14, 12, 10, 8, 6, 4, 0].getLast? = some 0 ∧
    [18, 16, 14, 12, 10, 8, 6, 4, 0].count 0 = 1 ∧
    1 ≤ ([18, 16, 14, 12, 10, 8, 6, 4, 0].filter (· ≠ 0)).length ∧
    ([18, 16, 14, 12, 10, 8, 6, 4, 0].filter (· ≠ 0)).length ≤ 16 :=
  hi3798mv2x_drive_strength_tables.1
    (HISTB_PIN PIN.B4 "B4" (some [18, 16, 14, 12, 10, 8, 6, 4, 0])
      [⟨ HI3798MV2X_GPIO, 0x0⟩, ⟨HI3798MV2X_RGMII, 0x1⟩, ⟨HI3798MV2X_RMII, 0x2⟩,
       ⟨ HI3798MV2X_SDIO, 0x3⟩, ⟨HISTB_PIN_FUNCTION_EOF, 0⟩] HISTB_PIN_FLAG_SCHMITT)
    (by decide) [18, 16, 14, 12, 10, 8, 6, 4, 0] rfl

/-! ## Names and register bits of the Hi3798MV200 clock nodes -/

/-- C39: the clock names defined by the rows of the fixed-rate, mux, phase, gate and PLL
tables of the core CRG and of the mux and gate tables of sysctrl, 91 in all, are pairwise
distinct. -/
theorem hi3798mv200_clk_names_nodup :
    hi3798mv200_clk_names.Nodup ∧ hi3798mv200_clk_names.length = 91 := by
  decide

/-- Two fields that lie in different registers, or one of which ends before the other
starts, share no bit. -/
theorem clk_field_disjoint (f g : clk_field)
    (h : f.offset ≠ g.offset ∨ f.shift + f.width ≤ g.shift ∨ g.shift + g.width ≤ f.shift)
    (offset bit : Nat) : ¬ (f.covers offset bit ∧ g.covers offset bit) := by
  unfold clk_field.covers
  rintro ⟨⟨h1, h2, h3⟩, ⟨h4, h5, h6⟩⟩
  rcases h with h | h | h
  · exact h (h1.trans h4.symm)
  · omega
  · omega

/-- The fields of distinct clock nodes of the core CRG lie in different registers or in
separate bit ranges, and so do those of sysctrl. -/
theorem hi3798mv200_clk_fields_separate :
    hi3798mv200_clk_fields.Pairwise (fun a b => ∀ f ∈ a.2, ∀ g ∈ b.2,
      f.offset ≠ g.offset ∨ f.shift + f.width ≤ g.shift ∨ g.shift + g.width ≤ f.shift) ∧
    hi3798mv200_sysctrl_clk_fields.Pairwise (fun a b => ∀ f ∈ a.2, ∀ g ∈ b.2,
      f.offset ≠ g.offset ∨ f.shift + f.width ≤ g.shift ∨ g.shift + g.width ≤ f.shift) := by
  decide

/-- C31: within the core CRG, and within sysctrl, no two distinct clock nodes among the
rows of the mux, phase, gate and PLL tables control a common (register offset, bit position)
pair, where a mux or phase row controls its selector field, a gate row its gate bit and a
PLL row the two 32-bit words at its base. -/
theorem hi3798mv200_clk_fields_disjoint :
    hi3798mv200_clk_fields.Pairwise (fun a b => ∀ f ∈ a.2, ∀ g ∈ b.2, ∀ offset bit,
      ¬ (f.covers offset bit ∧ g.covers offset bit)) ∧
    hi3798mv200_sysctrl_clk_fields.Pairwise (fun a b => ∀ f ∈ a.2, ∀ g ∈ b.2, ∀ offset bit,
      ¬ (f.covers offset bit ∧ g.covers offset bit)) ∧
    hi3798mv200_clk_fields.length = 63 ∧ hi3798mv200_sysctrl_clk_fields.length = 6 :=
  ⟨hi3798mv200_clk_fields_separate.1.imp (fun h f hf g hg offset bit =>
      clk_field_disjoint f g (h f hf g hg) offset bit),
    hi3798mv200_clk_fields_separate.2.imp (fun h f hf g hg offset bit =>
      clk_field_disjoint f g (h f hf g hg) offset bit),
    by decide, by decide⟩

/-! ## Bounds of the drive-strength lookup -/

/-- The 4-bit index read from bits 7:4 always lies within a table of at least sixteen
entries, so the lookup of `histb_pinctrl_get_drive_strength` yields an entry of the
table. -/
theorem histb_pinctrl_get_drive_strength_in_bounds (pctldev : pinctrl_dev) (io : Regs)
    (selector : Nat) (pin : pinctrl_pin_desc) (tbl : List Nat)
    (hpin : pin_desc_get pctldev selector = some pin)
    (htbl : pin.drv_data.drv_tbl = some tbl) (hlen : 16 ≤ tbl.length) :
    ∃ t ∈ tbl, histb_pinctrl_get_drive_strength pctldev io selector = .ok t := by
  have hidx : FIELD_GET HISTB_PIN_DRV_MASK (readl io (pin_reg pctldev selector)) < tbl.length := by
    rw [FIELD_GET_DRV]
    have : readl io (pin_reg pctldev selector) / 2 ^ 4 % 2 ^ 4 < 16 := Nat.mod_lt _ (by decide)
    omega
  refine ⟨tbl.get ⟨_, hidx⟩, List.get_mem _ _ _, ?_⟩
  unfold histb_pinctrl_get_drive_strength
  rw [hpin]
  simp only [htbl, List.get?_eq_get hidx]

/-- Of the 64 pins of the Hi3798MV2x table that have a drive-strength table, 18 use the
seventeen-entry table, which every 4-bit index stays within; the tables of the other 46
have five or nine entries. -/
theorem hi3798mv2x_drive_strength_table_lengths :
    (hi3798mv2x_ioconfig_pins.filter (fun p => p.drv_data.drv_tbl.isSome)).length = 64 ∧
    (hi3798mv2x_ioconfig_pins.filter
      (fun p => p.drv_data.drv_tbl = some DRIVE_STRENGTH_TABLE_SAMPLE_B)).length = 18 ∧
    (hi3798mv2x_ioconfig_pins.filter
      (fun p => p.drv_data.drv_tbl.any (fun t => t.length = 5 ∨ t.length = 9))).length = 46 := by
  decide

/-- C35: pin Y19 of the Hi3798MV2x table has the five-entry table 4, 3, 2, 1, 0, whose
terminator is at index 4; with the pin word 0x50 the index formed by bits 7:4 is 5, past
the terminator, and the lookup of `histb_pinctrl_get_drive_strength` reads past the end of
the table. -/
theorem hi3798mv2x_Y19_get_drive_strength_out_of_bounds :
    (pin_desc_get (hi3798mv2x_ioconfig 0) PIN.Y19).map (fun pin => pin.drv_data.drv_tbl) =
      some (some [4, 3, 2, 1, 0]) ∧
    FIELD_GET HISTB_PIN_DRV_MASK
      (readl (fun _ => 0x50) (pin_reg (hi3798mv2x_ioconfig 0) PIN.Y19)) = 5 ∧
    histb_pinctrl_get_drive_strength (hi3798mv2x_ioconfig 0) (fun _ => 0x50) PIN.Y19 =
      .error .out_of_bounds ∧
    (histb_pinctrl_pinconf_get (hi3798mv2x_ioconfig 0) (fun _ => 0x50) PIN.Y19
      ⟨.PIN_CONFIG_DRIVE_STRENGTH, 0⟩).1 = .error .out_of_bounds :=
  ⟨rfl, by decide, rfl, rfl⟩

/-! ## The per-function pin groups against the per-pin function lists -/

/-- In `hi3798mv2x_ioconfig_function_tbl` the row of every function sits at the position of
its id, the declared count of every group equals the number of names listed, every name is
the name of a pin of the table, and for every function and every pin that its group lists,
but for pins A5 and D5 in the group of RGMII, the function list of the pin has an entry for
the function. -/
theorem hi3798mv2x_function_groups_facts :
    hi3798mv2x_ioconfig_function_tbl.map (·.func) = List.range HI3798MV2X_FUNCTION_COUNT ∧
    (∀ row ∈ hi3798mv2x_ioconfig_function_tbl, ∀ pins ∈ row.pins, row.cnt = pins.length) ∧
    (∀ row ∈ hi3798mv2x_ioconfig_function_tbl, ∀ pins ∈ row.pins, ∀ name ∈ pins,
      ∃ pin ∈ hi3798mv2x_ioconfig_pins, pin.name = name ∧
        (((row.func, name) ≠ (HI3798MV2X_RGMII, "A5") ∧
          (row.func, name) ≠ (HI3798MV2X_RGMII, "D5")) →
        ∃ m ∈ func_tbl_entries pin.drv_data.func_tbl, m.func = row.func)) := by
  decide

/-- C36: the group of function RGMII in `hi3798mv2x_ioconfig_function_tbl` lists the pin
names "A5" and "D5" (17 names, declared count 17), the function lists of pins A5 and D5 have
no entry for RGMII, and set-function of RGMII on either pin returns `-ENOENT` with every
register unchanged. -/
theorem hi3798mv2x_RGMII_group_lists_A5_D5 (base : Nat) (io : Regs) :
    (∃ row ∈ hi3798mv2x_ioconfig_function_tbl, row.func = HI3798MV2X_RGMII ∧
      row.cnt = 17 ∧ ∃ pins ∈ row.pins, pins.length = 17 ∧ "A5" ∈ pins ∧ "D5" ∈ pins) ∧
    (pin_desc_get (hi3798mv2x_ioconfig base) PIN.A5).map (fun pin => pin.name) = some "A5" ∧
    (pin_desc_get (hi3798mv2x_ioconfig base) PIN.D5).map (fun pin => pin.name) = some "D5" ∧
    histb_pinctrl_pinmux_set (hi3798mv2x_ioconfig base) io HI3798MV2X_RGMII PIN.A5 =
      (.ok (-ENOENT), io) ∧
    histb_pinctrl_pinmux_set (hi3798mv2x_ioconfig base) io HI3798MV2X_RGMII PIN.D5 =
      (.ok (-ENOENT), io) :=
  ⟨by decide, rfl, rfl, rfl, rfl⟩

/-! ## The search of `histb_pinctrl_set_drive_strength` -/

/-- The search loop on a table whose entries before the final 0 are all non-zero: it stops
at an index not beyond that of the final 0, having passed only entries above the argument,
and it stops on a 0 entry only at the final one. -/
theorem histb_pinctrl_set_drive_strength_loop_sentinel (argument : Nat) (nz : List Nat)
    (hnz : ∀ t ∈ nz, t ≠ 0) (i0 : Nat) :
    ∃ k t, histb_pinctrl_set_drive_strength_loop argument (nz ++ [0]) i0 = .ok (i0 + k, t) ∧
      k ≤ nz.length ∧ (nz ++ [0]).get? k = some t ∧ t ≤ argument ∧
      (t = 0 → k = nz.length) ∧
      ∀ j < k, ∃ u, (nz ++ [0]).get? j = some u ∧ argument < u := by
  induction nz generalizing i0 with
  | nil =>
    refine ⟨0, 0, ?_, le_refl _, rfl, Nat.zero_le _, fun _ => rfl, ?_⟩
    · simp [histb_pinctrl_set_drive_strength_loop]
    · intro j hj
      omega
  | cons a rest ih =>
    rw [List.cons_append]
    unfold histb_pinctrl_set_drive_strength_loop
    by_cases ha : a > argument
    · rw [if_pos ha]
      obtain ⟨k, t, hloop, hk, hget, hle, ht, hpass⟩ :=
        ih (fun t ht => hnz t (List.mem_cons_of_mem _ ht)) (i0 + 1)
      refine ⟨k + 1, t, ?_, ?_, ?_, hle, ?_, ?_⟩
      · rw [hloop]
        congr 2
        omega
      · simp only [List.length_cons]
        omega
      · simpa using hget
      · intro h
        simp only [List.length_cons]
        rw [ht h]
      · intro j hj
        cases j with
        | zero => exact ⟨a, rfl, ha⟩
        | succ j =>
          obtain ⟨u, hu, hau⟩ := hpass j (by omega)
          exact ⟨u, by simpa using hu, hau⟩
    · rw [if_neg ha]
      refine ⟨0, a, rfl, Nat.zero_le _, rfl, by omega, ?_, ?_⟩
      · intro h
        exact absurd h (hnz a (List.mem_cons_self _ _))
      · intro j hj
        omega

/-- The drive-strength field takes the low four bits of an index, so the conversion of a
non-negative `int` index to `unsigned long` does not change what is written. -/
theorem FIELD_PREP_DRV_ulong_of_int (n : Nat) :
    FIELD_PREP HISTB_PIN_DRV_MASK (ulong_of_int (n : Int)) =
      FIELD_PREP HISTB_PIN_DRV_MASK n := by
  have h : ulong_of_int (n : Int) = n % 2 ^ 64 := by
    unfold ulong_of_int BITS_PER_LONG
    have : ((n : Int) % 2 ^ 64) = ((n % 2 ^ 64 : Nat) : Int) := by norm_cast
    rw [this, Int.toNat_ofNat]
  rw [FIELD_PREP_DRV, FIELD_PREP_DRV, h]
  omega

/-- C38: for a registered pin whose drive-strength table ends with a 0 entry after at least
one entry, all entries before that 0 being non-zero, and every `unsigned int` argument
>= 1: the linear search of `histb_pinctrl_set_drive_strength` stops at an index k that is
at most the index of the final 0, having read only the entries at indices 0..k, the index
it then selects (k, or k - 1 when it stopped on the final 0) is at least 0 and below the
index of the final 0, and the call returns 0. -/
theorem histb_pinctrl_set_drive_strength_search (pctldev : pinctrl_dev) (io : Regs)
    (selector argument : Nat) (pin : pinctrl_pin_desc) (nz : List Nat)
    (hpin : pin_desc_get pctldev selector = some pin)
    (htbl : pin.drv_data.drv_tbl = some (nz ++ [0]))
    (hne : nz ≠ []) (hnz : ∀ t ∈ nz, t ≠ 0)
    (harg1 : 1 ≤ argument) (harg : argument < 2 ^ 32) :
    ∃ k t sel : Nat,
      histb_pinctrl_set_drive_strength_loop argument (nz ++ [0]) 0 = .ok (k, t) ∧
      k ≤ nz.length ∧ (nz ++ [0]).get? k = some t ∧
      (∀ j < k, ∃ u, (nz ++ [0]).get? j = some u ∧ argument < u) ∧
      (if t = 0 then (k : Int) - 1 else (k : Int)) = (sel : Int) ∧ sel < nz.length ∧
      histb_pinctrl_set_drive_strength pctldev io selector argument =
        (.ok 0, writel (u32 (u32 (readl io (pin_reg pctldev selector) &&&
            ulong_not HISTB_PIN_DRV_MASK) |||
          FIELD_PREP HISTB_PIN_DRV_MASK sel)) (pin_reg pctldev selector) io) := by
  have hu : u32 argument = argument := u32_eq_of_lt _ harg
  have hlen : 0 < nz.length := List.length_pos.mpr hne
  obtain ⟨k, t, hloop, hk, hget, -, ht, hpass⟩ :=
    histb_pinctrl_set_drive_strength_loop_sentinel argument nz hnz 0
  rw [Nat.zero_add] at hloop
  have hfun := histb_pinctrl_set_drive_strength_eq pctldev io selector argument pin
    (nz ++ [0]) k t hpin htbl (by rw [hu]; omega) (by rw [hu]; exact hloop)
  by_cases h0 : t = 0
  · have hkl := ht h0
    refine ⟨k, t, k - 1, hloop, hk, hget, hpass, ?_, by omega, ?_⟩
    · rw [if_pos h0]
      omega
    · rw [hfun, if_pos h0]
      have : (k : Int) - 1 = ((k - 1 : Nat) : Int) := by omega
      rw [this, FIELD_PREP_DRV_ulong_of_int]
  · have hkl : k < nz.length := by
      rcases Nat.lt_or_ge k nz.length with h | h
      · exact h
      · exfalso
        have hk' : k = nz.length := by omega
        rw [hk'] at hget
        simp at hget
        exact h0 hget.symm
    refine ⟨k, t, k, hloop, hk, hget, hpass, by rw [if_neg h0], hkl, ?_⟩
    rw [hfun, if_neg h0, FIELD_PREP_DRV_ulong_of_int]

/-- Witness for C38: pin B4 of the Hi3798MV2x table, argument 1, below every non-zero entry
of its table: the search stops on the final 0, at index 8, and index 7 is selected. -/
theorem histb_pinctrl_set_drive_strength_search_witness :
    ∃ k t sel : Nat,
      histb_pinctrl_set_drive_strength_loop 1 ([18, 16, 14, 12, 10, 8, 6, 4] ++ [0]) 0 =
        .ok (k, t) ∧
      k ≤ [18, 16, 14, 12, 10, 8, 6, 4].length ∧
      ([18, 16, 14, 12, 10, 8, 6, 4] ++ [0]).get? k = some t ∧
      (∀ j < k, ∃ u, ([18, 16, 14, 12, 10, 8, 6, 4] ++ [0]).get? j = some u ∧ 1 < u) ∧
      (if t = 0 then (k : Int) - 1 else (k : Int)) = (sel : Int) ∧
      sel < [18, 16, 14, 12, 10, 8, 6, 4].length ∧
      histb_pinctrl_set_drive_strength (hi3798mv2x_ioconfig 0) (fun _ => 0) PIN.B4 1 =
        (.ok 0, writel (u32 (u32 (readl (fun _ => 0) (pin_reg (hi3798mv2x_ioconfig 0) PIN.B4) &&&
            ulong_not HISTB_PIN_DRV_MASK) |||
          FIELD_PREP HISTB_PIN_DRV_MASK sel)) (pin_reg (hi3798mv2x_ioconfig 0) PIN.B4)
          (fun _ => 0)) :=
  histb_pinctrl_set_drive_strength_search (hi3798mv2x_ioconfig 0) (fun _ => 0) PIN.B4 1
    (HISTB_PIN PIN.B4 "B4" (some [18, 16, 14, 12, 10, 8, 6, 4, 0])
      [⟨ HI3798MV2X_GPIO, 0x0⟩, ⟨HI3798MV2X_RGMII, 0x1⟩, ⟨HI3798MV2X_RMII, 0x2⟩,
       ⟨ HI3798MV2X_SDIO, 0x3⟩, ⟨HISTB_PIN_FUNCTION_EOF, 0⟩] HISTB_PIN_FLAG_SCHMITT)
    [18, 16, 14, 12, 10, 8, 6, 4] rfl rfl (by decide) (by decide) (by decide) (by decide)

/-! ## `histb_pinctrl_pinconf_set`: a list of configurations -/

/-- A call of `histb_pinctrl_set_bias` that does not return 0 has written nothing. -/
theorem histb_pinctrl_set_bias_failed (pctldev : pinctrl_dev) (io : Regs) (selector : Nat)
    (status : histb_pinctrl_bias_status) :
    (histb_pinctrl_set_bias pctldev io selector status).1 ≠ .ok 0 →
    (histb_pinctrl_set_bias pctldev io selector status).2 = io := by
  unfold histb_pinctrl_set_bias
  cases pin_desc_get pctldev selector with
  | none => intro _; rfl
  | some pin =>
    simp only
    split
    · intro _; rfl
    · intro h; exact absurd rfl h

/-- A call of `histb_pinctrl_set_slew_rate` that does not return 0 has written nothing. -/
theorem histb_pinctrl_set_slew_rate_failed (pctldev : pinctrl_dev) (io : Regs)
    (selector argument : Nat) :
    (histb_pinctrl_set_slew_rate pctldev io selector argument).1 ≠ .ok 0 →
    (histb_pinctrl_set_slew_rate pctldev io selector argument).2 = io := by
  unfold histb_pinctrl_set_slew_rate
  cases pin_desc_get pctldev selector with
  | none => intro _; rfl
  | some pin =>
    simp only
    split
    · intro _; rfl
    · intro h; exact absurd rfl h

/-- A call of `histb_pinctrl_endisable_schmitt` that does not return 0 has written
nothing. -/
theorem histb_pinctrl_endisable_schmitt_failed (pctldev : pinctrl_dev) (io : Regs)
    (selector : Nat) (enable : Bool) :
    (histb_pinctrl_endisable_schmitt pctldev io selector enable).1 ≠ .ok 0 →
    (histb_pinctrl_endisable_schmitt pctldev io selector enable).2 = io := by
  unfold histb_pinctrl_endisable_schmitt
  cases pin_desc_get pctldev selector with
  | none => intro _; rfl
  | some pin =>
    simp only
    split
    · intro _; rfl
    · intro h; exact absurd rfl h

/-- A call of `histb_pinctrl_set_drive_strength` that does not return 0 has written
nothing. -/
theorem histb_pinctrl_set_drive_strength_failed (pctldev : pinctrl_dev) (io : Regs)
    (selector argument : Nat) :
    (histb_pinctrl_set_drive_strength pctldev io selector argument).1 ≠ .ok 0 →
    (histb_pinctrl_set_drive_strength pctldev io selector argument).2 = io := by
  unfold histb_pinctrl_set_drive_strength
  cases pin_desc_get pctldev selector with
  | none => intro _; rfl
  | some pin =>
    simp only
    cases pin.drv_data.drv_tbl with
    | none => intro _; rfl
    | some tbl =>
      simp only
      split
      · intro _; rfl
      · cases histb_pinctrl_set_drive_strength_loop (u32 argument) tbl 0 with
        | error e => intro _; rfl
        | ok r => intro h; exact absurd rfl h

/-- A call of `histb_pinctrl_pinconf_set_single` that does not return 0 has written
nothing. -/
theorem histb_pinctrl_pinconf_set_single_failed (pctldev : pinctrl_dev) (io : Regs)
    (pin : Nat) (param : pin_config_param) (argument : Nat) :
    (histb_pinctrl_pinconf_set_single pctldev io pin param argument).1 ≠ .ok 0 →
    (histb_pinctrl_pinconf_set_single pctldev io pin param argument).2 = io := by
  cases param with
  | PIN_CONFIG_BIAS_DISABLE => exact histb_pinctrl_set_bias_failed _ _ _ _
  | PIN_CONFIG_BIAS_PULL_UP => exact histb_pinctrl_set_bias_failed _ _ _ _
  | PIN_CONFIG_BIAS_PULL_DOWN => exact histb_pinctrl_set_bias_failed _ _ _ _
  | PIN_CONFIG_SLEW_RATE => exact histb_pinctrl_set_slew_rate_failed _ _ _ _
  | PIN_CONFIG_INPUT_SCHMITT_ENABLE => exact histb_pinctrl_endisable_schmitt_failed _ _ _ _
  | PIN_CONFIG_DRIVE_STRENGTH => exact histb_pinctrl_set_drive_strength_failed _ _ _ _
  | other code => intro _; rfl

/-- The loop of `histb_pinctrl_pinconf_set` after a first configuration that returns 0:
it goes on with the rest of the list, from the register file that the first one left. -/
theorem histb_pinctrl_pinconf_set_cons_ok (pctldev : pinctrl_dev) (io : Regs) (pin : Nat)
    (c : pin_config) (cs : List pin_config)
    (h : (histb_pinctrl_pinconf_set_single pctldev io pin (pinconf_to_config_param c)
      (pinconf_to_config_argument c)).1 = .ok 0) :
    histb_pinctrl_pinconf_set pctldev io pin (c :: cs) =
      histb_pinctrl_pinconf_set pctldev
        (histb_pinctrl_pinconf_set_single pctldev io pin (pinconf_to_config_param c)
          (pinconf_to_config_argument c)).2 pin cs := by
  rw [histb_pinctrl_pinconf_set]
  rcases hs : histb_pinctrl_pinconf_set_single pctldev io pin (pinconf_to_config_param c)
    (pinconf_to_config_argument c) with ⟨st, io1⟩
  rw [hs] at h
  simp only at h
  subst h
  simp

/-- The loop of `histb_pinctrl_pinconf_set` at a first configuration that does not return
0: it ends there, with what that configuration returned. -/
theorem histb_pinctrl_pinconf_set_cons_failed (pctldev : pinctrl_dev) (io : Regs) (pin : Nat)
    (c : pin_config) (cs : List pin_config)
    (h : (histb_pinctrl_pinconf_set_single pctldev io pin (pinconf_to_config_param c)
      (pinconf_to_config_argument c)).1 ≠ .ok 0) :
    histb_pinctrl_pinconf_set pctldev io pin (c :: cs) =
      histb_pinctrl_pinconf_set_single pctldev io pin (pinconf_to_config_param c)
        (pinconf_to_config_argument c) := by
  rw [histb_pinctrl_pinconf_set]
  rcases hs : histb_pinctrl_pinconf_set_single pctldev io pin (pinconf_to_config_param c)
    (pinconf_to_config_argument c) with ⟨st, io1⟩
  rw [hs] at h
  simp only at h
  cases st with
  | error e => rfl
  | ok ret =>
    have hret : ret ≠ 0 := fun h0 => h (by rw [h0])
    simp [hret]

/-- A list of configurations run after a prefix that returned 0 goes on from the register
file that the prefix left. -/
theorem histb_pinctrl_pinconf_set_append_ok (pctldev : pinctrl_dev) (pin : Nat)
    (pre post : List pin_config) (io : Regs)
    (h : (histb_pinctrl_pinconf_set pctldev io pin pre).1 = .ok 0) :
    histb_pinctrl_pinconf_set pctldev io pin (pre ++ post) =
      histb_pinctrl_pinconf_set pctldev (histb_pinctrl_pinconf_set pctldev io pin pre).2
        pin post := by
  induction pre generalizing io with
  | nil => rfl
  | cons c cs ih =>
    by_cases hc : (histb_pinctrl_pinconf_set_single pctldev io pin (pinconf_to_config_param c)
        (pinconf_to_config_argument c)).1 = .ok 0
    · rw [List.cons_append, histb_pinctrl_pinconf_set_cons_ok _ _ _ _ _ hc,
        histb_pinctrl_pinconf_set_cons_ok _ _ _ _ _ hc]
      rw [histb_pinctrl_pinconf_set_cons_ok _ _ _ _ _ hc] at h
      exact ih _ h
    · rw [histb_pinctrl_pinconf_set_cons_failed _ _ _ _ _ hc] at h
      exact absurd h hc

/-- A list of configurations whose prefix did not return 0 ends where the prefix ended. -/
theorem histb_pinctrl_pinconf_set_append_failed (pctldev : pinctrl_dev) (pin : Nat)
    (pre post : List pin_config) (io : Regs)
    (h : (histb_pinctrl_pinconf_set pctldev io pin pre).1 ≠ .ok 0) :
    histb_pinctrl_pinconf_set pctldev io pin (pre ++ post) =
      histb_pinctrl_pinconf_set pctldev io pin pre := by
  induction pre generalizing io with
  | nil => exact absurd rfl h
  | cons c cs ih =>
    by_cases hc : (histb_pinctrl_pinconf_set_single pctldev io pin (pinconf_to_config_param c)
        (pinconf_to_config_argument c)).1 = .ok 0
    · rw [List.cons_append, histb_pinctrl_pinconf_set_cons_ok _ _ _ _ _ hc,
        histb_pinctrl_pinconf_set_cons_ok _ _ _ _ _ hc]
      rw [histb_pinctrl_pinconf_set_cons_ok _ _ _ _ _ hc] at h
      exact ih _ h
    · rw [List.cons_append, histb_pinctrl_pinconf_set_cons_failed _ _ _ _ _ hc,
        histb_pinctrl_pinconf_set_cons_failed _ _ _ _ _ hc]

/-- A list that does not return 0 has a first configuration that does not return 0, after
a prefix that returned 0. -/
theorem histb_pinctrl_pinconf_set_first_failure (pctldev : pinctrl_dev) (pin : Nat)
    (configs : List pin_config) (io : Regs)
    (h : (histb_pinctrl_pinconf_set pctldev io pin configs).1 ≠ .ok 0) :
    ∃ pre c post, configs = pre ++ c :: post ∧
      (histb_pinctrl_pinconf_set pctldev io pin pre).1 = .ok 0 ∧
      (histb_pinctrl_pinconf_set_single pctldev
        (histb_pinctrl_pinconf_set pctldev io pin pre).2 pin (pinconf_to_config_param c)
        (pinconf_to_config_argument c)).1 ≠ .ok 0 := by
  induction configs generalizing io with
  | nil => exact absurd rfl h
  | cons c cs ih =>
    by_cases hc : (histb_pinctrl_pinconf_set_single pctldev io pin (pinconf_to_config_param c)
        (pinconf_to_config_argument c)).1 = .ok 0
    · rw [histb_pinctrl_pinconf_set_cons_ok _ _ _ _ _ hc] at h
      obtain ⟨pre, c1, post, heq, hpre, hfail⟩ := ih _ h
      refine ⟨c :: pre, c1, post, by rw [heq]; rfl, ?_, ?_⟩
      · rw [histb_pinctrl_pinconf_set_cons_ok _ _ _ _ _ hc]
        exact hpre
      · rw [histb_pinctrl_pinconf_set_cons_ok _ _ _ _ _ hc]
        exact hfail
    · exact ⟨[], c, cs, rfl, rfl, hc⟩

/-- C37: `histb_pinctrl_pinconf_set` applies the configurations of the list in list order
to the same pin: the empty list returns 0 and changes nothing, and after a prefix that
returned 0 the next configuration is applied to the register file that the prefix left.  The
call returns 0 iff every configuration, applied in its turn, returns 0.  At the first
configuration that does not return 0 the call ends with what that configuration returned,
whatever follows it in the list, and the register file is the one left by the
configurations before it.  The call is not atomic: on pin B4 of the Hi3798MV2x table the
list (bias pull-up; drive strength 0) returns `-ENOTSUPP` and leaves the pull-up bit
set. -/
theorem histb_pinctrl_pinconf_set_spec :
    (∀ (pctldev : pinctrl_dev) (io : Regs) (pin : Nat) (configs : List pin_config),
      histb_pinctrl_pinconf_set pctldev io pin [] = (.ok 0, io) ∧
      (∀ pre c, (histb_pinctrl_pinconf_set pctldev io pin pre).1 = .ok 0 →
        histb_pinctrl_pinconf_set pctldev io pin (pre ++ [c]) =
          histb_pinctrl_pinconf_set_single pctldev
            (histb_pinctrl_pinconf_set pctldev io pin pre).2 pin
            (pinconf_to_config_param c) (pinconf_to_config_argument c)) ∧
      ((histb_pinctrl_pinconf_set pctldev io pin configs).1 = .ok 0 ↔
        ∀ pre c post, configs = pre ++ c :: post →
          (histb_pinctrl_pinconf_set pctldev io pin pre).1 = .ok 0 ∧
          (histb_pinctrl_pinconf_set_single pctldev
            (histb_pinctrl_pinconf_set pctldev io pin pre).2 pin
            (pinconf_to_config_param c) (pinconf_to_config_argument c)).1 = .ok 0) ∧
      ((histb_pinctrl_pinconf_set pctldev io pin configs).1 ≠ .ok 0 →
        ∃ pre c post, configs = pre ++ c :: post ∧
          (histb_pinctrl_pinconf_set pctldev io pin pre).1 = .ok 0 ∧
          (histb_pinctrl_pinconf_set_single pctldev
            (histb_pinctrl_pinconf_set pctldev io pin pre).2 pin
            (pinconf_to_config_param c) (pinconf_to_config_argument c)).1 ≠ .ok 0) ∧
      (∀ pre c post, (histb_pinctrl_pinconf_set pctldev io pin pre).1 = .ok 0 →
        (histb_pinctrl_pinconf_set_single pctldev
          (histb_pinctrl_pinconf_set pctldev io pin pre).2 pin
          (pinconf_to_config_param c) (pinconf_to_config_argument c)).1 ≠ .ok 0 →
        histb_pinctrl_pinconf_set pctldev io pin (pre ++ c :: post) =
          ((histb_pinctrl_pinconf_set_single pctldev
            (histb_pinctrl_pinconf_set pctldev io pin pre).2 pin
            (pinconf_to_config_param c) (pinconf_to_config_argument c)).1,
           (histb_pinctrl_pinconf_set pctldev io pin pre).2))) ∧
    (histb_pinctrl_pinconf_set (hi3798mv2x_ioconfig 0) (fun _ => 0) PIN.B4
        [⟨.PIN_CONFIG_BIAS_PULL_UP, 1⟩, ⟨.PIN_CONFIG_DRIVE_STRENGTH, 0⟩]).1 =
        .ok (-ENOTSUPP) ∧
      readl (histb_pinctrl_pinconf_set (hi3798mv2x_ioconfig 0) (fun _ => 0) PIN.B4
        [⟨.PIN_CONFIG_BIAS_PULL_UP, 1⟩, ⟨.PIN_CONFIG_DRIVE_STRENGTH, 0⟩]).2
        (pin_reg (hi3798mv2x_ioconfig 0) PIN.B4) = HISTB_PIN_PULLUP ∧
      readl (fun _ => 0) (pin_reg (hi3798mv2x_ioconfig 0) PIN.B4) = 0 := by
  refine ⟨fun pctldev io pin configs => ⟨rfl, ?_, ?_, ?_, ?_⟩, rfl, by decide, by decide⟩
  · intro pre c h
    rw [histb_pinctrl_pinconf_set_append_ok _ _ _ _ _ h]
    by_cases hc : (histb_pinctrl_pinconf_set_single pctldev
        (histb_pinctrl_pinconf_set pctldev io pin pre).2 pin (pinconf_to_config_param c)
        (pinconf_to_config_argument c)).1 = .ok 0
    · rw [histb_pinctrl_pinconf_set_cons_ok _ _ _ _ _ hc]
      exact Prod.ext hc.symm rfl
    · exact histb_pinctrl_pinconf_set_cons_failed _ _ _ _ _ hc
  · constructor
    · intro h pre c post heq
      have hpre : (histb_pinctrl_pinconf_set pctldev io pin pre).1 = .ok 0 := by
        by_contra hp
        rw [heq, histb_pinctrl_pinconf_set_append_failed _ _ _ _ _ hp] at h
        exact hp h
      refine ⟨hpre, ?_⟩
      by_contra hc
      rw [heq, histb_pinctrl_pinconf_set_append_ok _ _ _ _ _ hpre,
        histb_pinctrl_pinconf_set_cons_failed _ _ _ _ _ hc] at h
      exact hc h
    · intro h
      by_contra hne
      obtain ⟨pre, c, post, heq, -, hfail⟩ :=
        histb_pinctrl_pinconf_set_first_failure pctldev pin configs io hne
      exact hfail (h pre c post heq).2
  · exact histb_pinctrl_pinconf_set_first_failure pctldev pin configs io
  · intro pre c post hpre hc
    rw [histb_pinctrl_pinconf_set_append_ok _ _ _ _ _ hpre,
      histb_pinctrl_pinconf_set_cons_failed _ _ _ _ _ hc]
    exact Prod.ext rfl (histb_pinctrl_pinconf_set_single_failed _ _ _ _ _ hc)

/-! ## The PWM of the PMC core -/

theorem mask_PWM_PERIOD : HISI_PWM_PERIOD = (2 ^ 16 - 1) <<< 0 := by decide

theorem shf_PWM_PERIOD : __bf_shf HISI_PWM_PERIOD = 0 := by decide

theorem mask_PWM_DUTY : HISI_PWM_DUTY = (2 ^ 16 - 1) <<< 16 := by decide

theorem shf_PWM_DUTY : __bf_shf HISI_PWM_DUTY = 16 := by decide

theorem FIELD_GET_PWM_PERIOD (reg : Nat) : FIELD_GET HISI_PWM_PERIOD reg = reg % 2 ^ 16 := by
  unfold FIELD_GET
  rw [shf_PWM_PERIOD, mask_PWM_PERIOD, field_get_mask]
  simp

theorem FIELD_GET_PWM_DUTY (reg : Nat) :
    FIELD_GET HISI_PWM_DUTY reg = reg / 2 ^ 16 % 2 ^ 16 := by
  unfold FIELD_GET
  rw [shf_PWM_DUTY, mask_PWM_DUTY, field_get_mask]

theorem FIELD_PREP_PWM_PERIOD (val : Nat) :
    FIELD_PREP HISI_PWM_PERIOD val = val % 2 ^ 16 := by
  unfold FIELD_PREP
  rw [shf_PWM_PERIOD, mask_PWM_PERIOD]
  simp only [Nat.shiftLeft_zero, Nat.and_pow_two_sub_one_eq_mod, ulong, BITS_PER_LONG]
  omega

theorem FIELD_PREP_PWM_DUTY (val : Nat) :
    FIELD_PREP HISI_PWM_DUTY val = val % 2 ^ 16 * 2 ^ 16 := by
  unfold FIELD_PREP
  rw [shf_PWM_DUTY, mask_PWM_DUTY, and_shiftLeft_mask, Nat.shiftLeft_eq]
  unfold ulong BITS_PER_LONG
  omega

/-- The register word that `hisi_pmc_pwm_apply` builds from two counts of at most 16
bits. -/
theorem hisi_pmc_pwm_word (period_cycles duty_cycles : Nat) (hp : period_cycles < 2 ^ 16)
    (hd : duty_cycles < 2 ^ 16) :
    u32 (FIELD_PREP HISI_PWM_PERIOD period_cycles ||| FIELD_PREP HISI_PWM_DUTY duty_cycles) =
      duty_cycles * 2 ^ 16 + period_cycles := by
  rw [FIELD_PREP_PWM_PERIOD, FIELD_PREP_PWM_DUTY, Nat.mod_eq_of_lt hp, Nat.mod_eq_of_lt hd,
    Nat.lor_comm, mul_two_pow_or _ _ _ hp]
  unfold u32
  omega

/-- The macro `clamp` to the range 0..0xFFFF is the minimum with 65535. -/
theorem clamp_u16 (x : Nat) : clamp x 0 0xFFFF = min x 65535 := by
  unfold clamp
  by_cases h : x ≥ 0xFFFF
  · rw [if_pos h, Nat.min_eq_right h]
  · rw [if_neg h, Nat.min_eq_left (by omega)]
    split
    · omega
    · rfl

/-- At a rate of at most 10^9 Hz the count of cycles of a 64-bit time in nanoseconds does not
exceed the time, and `mul_u64_u64_div_u64` yields it without truncation. -/
theorem hisi_pmc_pwm_cycles (rate ns : Nat) (hrate : rate ≤ 1000000000) (hns : ns < 2 ^ 64) :
    rate * ns / 1000000000 ≤ ns ∧
    mul_u64_u64_div_u64 (ulong rate) (u64 ns) NSEC_PER_SEC =
      .ok (rate * ns / 1000000000) := by
  have hle : rate * ns / 1000000000 ≤ ns := by
    apply Nat.div_le_of_le_mul
    exact Nat.mul_le_mul_right _ hrate
  refine ⟨hle, ?_⟩
  have h1 : ulong rate = rate := ulong_eq_of_lt _ (by omega)
  have h2 : u64 ns = ns := u64_eq_of_lt _ hns
  have h3 : u64 rate = rate := u64_eq_of_lt _ (by omega)
  have h4 : u64 NSEC_PER_SEC = 1000000000 := by decide
  have h5 : u64 (rate * ns / 1000000000) = rate * ns / 1000000000 :=
    u64_eq_of_lt _ (by omega)
  unfold mul_u64_u64_div_u64
  rw [h1, h2, h2, h3, h4, h5]
  rfl

/-- The result of `hisi_pmc_pwm_apply` for an enabled state of normal polarity, at a rate
of at most 10^9 Hz. -/
theorem hisi_pmc_pwm_apply_eq (fpwm : hisi_pmc_pwm) (io : Regs) (state : pwm_state)
    (hrate : fpwm.rate ≤ 1000000000)
    (hperiod : state.period < 2 ^ 64) (hduty : state.duty_cycle < 2 ^ 64)
    (hen : state.enabled = true) (hpol : state.polarity = .PWM_POLARITY_NORMAL) :
    hisi_pmc_pwm_apply fpwm io state =
      (.ok 0, writel (min (fpwm.rate * state.duty_cycle / 1000000000) 65535 * 2 ^ 16 +
        min (fpwm.rate * state.period / 1000000000) 65535) fpwm.base io) := by
  have hp := (hisi_pmc_pwm_cycles fpwm.rate state.period hrate hperiod).2
  have hd := (hisi_pmc_pwm_cycles fpwm.rate state.duty_cycle hrate hduty).2
  have hmp : min (fpwm.rate * state.period / 1000000000) 65535 < 2 ^ 16 := by
    have := Nat.min_le_right (fpwm.rate * state.period / 1000000000) 65535
    omega
  have hmd : min (fpwm.rate * state.duty_cycle / 1000000000) 65535 < 2 ^ 16 := by
    have := Nat.min_le_right (fpwm.rate * state.duty_cycle / 1000000000) 65535
    omega
  unfold hisi_pmc_pwm_apply
  simp only [hen, hpol, hp, hd, clamp_u16, u64_eq_of_lt _ (lt_trans hmp (by decide)),
    u64_eq_of_lt _ (lt_trans hmd (by decide)), hisi_pmc_pwm_word _ _ hmp hmd]
  simp

/-- A successful `hisi_pmc_pwm_probe` leaves a rate of at most `NSEC_PER_SEC` in the
`struct hisi_pmc_pwm` that the operations of the chip work on. -/
theorem hisi_pmc_pwm_probe_rate (env : hisi_pmc_pwm_probe_env) (fpwm : hisi_pmc_pwm)
    (h : hisi_pmc_pwm_probe env = (0, some fpwm)) : fpwm.rate ≤ NSEC_PER_SEC := by
  unfold hisi_pmc_pwm_probe at h
  split at h
  · simp at h
  · split at h
    · simp at h
    · split at h
      · simp at h
      · simp only at h
        split at h
        · simp at h
        · split at h
          · simp at h
          · simp only [Prod.mk.injEq, Option.some.injEq, true_and] at h
            rw [← h]
            simp only
            omega

/-- C32: for every PWM clock rate of at most 1000000000 Hz and every 64-bit period and
duty_cycle in nanoseconds, the cycle counts of `hisi_pmc_pwm_apply` do not overflow:
floor(rate * ns / 10^9) <= ns, `mul_u64_u64_div_u64` yields exactly that count, and an
enabled, normal-polarity apply returns 0 and writes, to the PWM register only, the 32-bit
word whose bits 15:0 are min(floor(rate * period / 10^9), 65535) and whose bits 31:16 are
min(floor(rate * duty_cycle / 10^9), 65535). -/
theorem hisi_pmc_pwm_apply_spec (fpwm : hisi_pmc_pwm) (io : Regs) (state : pwm_state)
    (hrate : fpwm.rate ≤ 1000000000)
    (hperiod : state.period < 2 ^ 64) (hduty : state.duty_cycle < 2 ^ 64)
    (hen : state.enabled = true) (hpol : state.polarity = .PWM_POLARITY_NORMAL) :
    fpwm.rate * state.period / 1000000000 ≤ state.period ∧
    fpwm.rate * state.duty_cycle / 1000000000 ≤ state.duty_cycle ∧
    mul_u64_u64_div_u64 (ulong fpwm.rate) (u64 state.period) NSEC_PER_SEC =
      .ok (fpwm.rate * state.period / 1000000000) ∧
    mul_u64_u64_div_u64 (ulong fpwm.rate) (u64 state.duty_cycle) NSEC_PER_SEC =
      .ok (fpwm.rate * state.duty_cycle / 1000000000) ∧
    ∃ w, hisi_pmc_pwm_apply fpwm io state = (.ok 0, writel w fpwm.base io) ∧
      w < 2 ^ 32 ∧
      w % 2 ^ 16 = min (fpwm.rate * state.period / 1000000000) 65535 ∧
      w / 2 ^ 16 = min (fpwm.rate * state.duty_cycle / 1000000000) 65535 := by
  obtain ⟨h1, h2⟩ := hisi_pmc_pwm_cycles fpwm.rate state.period hrate hperiod
  obtain ⟨h3, h4⟩ := hisi_pmc_pwm_cycles fpwm.rate state.duty_cycle hrate hduty
  refine ⟨h1, h3, h2, h4, _,
    hisi_pmc_pwm_apply_eq fpwm io state hrate hperiod hduty hen hpol, ?_, ?_, ?_⟩
  all_goals
    have hp := Nat.min_le_right (fpwm.rate * state.period / 1000000000) 65535
    have hd := Nat.min_le_right (fpwm.rate * state.duty_cycle / 1000000000) 65535
    omega

/-- Witness for C32: a 24 MHz clock, period 1 ms and duty cycle 0.25 ms: 24000 and 6000
cycles. -/
theorem hisi_pmc_pwm_apply_spec_witness :
    24000000 * 1000000 / 1000000000 ≤ 1000000 ∧
    24000000 * 250000 / 1000000000 ≤ 250000 ∧
    mul_u64_u64_div_u64 (ulong 24000000) (u64 1000000) NSEC_PER_SEC =
      .ok (24000000 * 1000000 / 1000000000) ∧
    mul_u64_u64_div_u64 (ulong 24000000) (u64 250000) NSEC_PER_SEC =
      .ok (24000000 * 250000 / 1000000000) ∧
    ∃ w, hisi_pmc_pwm_apply ⟨0, 24000000⟩ (fun _ => 0)
        ⟨1000000, 250000, .PWM_POLARITY_NORMAL, true⟩ = (.ok 0, writel w 0 (fun _ => 0)) ∧
      w < 2 ^ 32 ∧
      w % 2 ^ 16 = min (24000000 * 1000000 / 1000000000) 65535 ∧
      w / 2 ^ 16 = min (24000000 * 250000 / 1000000000) 65535 :=
  hisi_pmc_pwm_apply_spec ⟨0, 24000000⟩ (fun _ => 0)
    ⟨1000000, 250000, .PWM_POLARITY_NORMAL, true⟩ (by decide) (by decide) (by decide) rfl rfl

/-! ## Read-back of the PWM state and its re-apply -/

/-- The macro `DIV64_U64_ROUND_CLOSEST` on the nanoseconds of a 16-bit count of cycles at a
rate between 1 and 10^9 Hz: nothing is truncated. -/
theorem DIV64_U64_ROUND_CLOSEST_cycles (cycles rate : Nat) (hc : cycles < 2 ^ 16)
    (hr1 : 1 ≤ rate) (hr : rate ≤ 1000000000) :
    DIV64_U64_ROUND_CLOSEST (u64 (u64 cycles * NSEC_PER_SEC)) (ulong rate) =
      .ok ((cycles * 1000000000 + rate / 2) / rate) := by
  have h1 : ulong rate = rate := ulong_eq_of_lt _ (by omega)
  have h2 : u64 rate = rate := u64_eq_of_lt _ (by omega)
  have h3 : u64 cycles = cycles := u64_eq_of_lt _ (by omega)
  have h4 : u64 (cycles * 1000000000) = cycles * 1000000000 := u64_eq_of_lt _ (by omega)
  have h5 : u64 (cycles * 1000000000 + rate / 2) = cycles * 1000000000 + rate / 2 :=
    u64_eq_of_lt _ (by omega)
  have hne : rate ≠ 0 := by omega
  unfold DIV64_U64_ROUND_CLOSEST NSEC_PER_SEC
  simp only [h1, h2, h3, h4, h5, hne, if_false]

/-- The value reported for a 16-bit count of cycles is below 2^64. -/
theorem hisi_pmc_pwm_reported_lt (cycles rate : Nat) (hc : cycles < 2 ^ 16)
    (hr : rate ≤ 1000000000) : (cycles * 1000000000 + rate / 2) / rate < 2 ^ 64 :=
  lt_of_le_of_lt (Nat.div_le_self _ _) (by omega)

/-- The result of `hisi_pmc_pwm_get_state` at a rate between 1 and 10^9 Hz. -/
theorem hisi_pmc_pwm_get_state_eq (fpwm : hisi_pmc_pwm) (io : Regs) (state : pwm_state)
    (hr1 : 1 ≤ fpwm.rate) (hr : fpwm.rate ≤ 1000000000) :
    hisi_pmc_pwm_get_state fpwm io state =
      (.ok 0,
       { period := (readl io fpwm.base % 2 ^ 16 * 1000000000 + fpwm.rate / 2) / fpwm.rate,
         duty_cycle := (readl io fpwm.base / 2 ^ 16 * 1000000000 + fpwm.rate / 2) / fpwm.rate,
         polarity := .PWM_POLARITY_NORMAL,
         enabled := true }) := by
  have hv := readl_lt io fpwm.base
  have hlo : readl io fpwm.base % 2 ^ 16 < 2 ^ 16 := Nat.mod_lt _ (by decide)
  have hhi : readl io fpwm.base / 2 ^ 16 < 2 ^ 16 := by omega
  have e1 : u16 (FIELD_GET HISI_PWM_PERIOD (readl io fpwm.base)) =
      readl io fpwm.base % 2 ^ 16 := by
    rw [FIELD_GET_PWM_PERIOD]
    unfold u16
    omega
  have e2 : u16 (FIELD_GET HISI_PWM_DUTY (readl io fpwm.base)) =
      readl io fpwm.base / 2 ^ 16 := by
    rw [FIELD_GET_PWM_DUTY]
    unfold u16
    omega
  unfold hisi_pmc_pwm_get_state
  simp only [e1, e2, DIV64_U64_ROUND_CLOSEST_cycles _ _ hlo hr1 hr,
    DIV64_U64_ROUND_CLOSEST_cycles _ _ hhi hr1 hr,
    u64_eq_of_lt _ (hisi_pmc_pwm_reported_lt _ _ hlo hr),
    u64_eq_of_lt _ (hisi_pmc_pwm_reported_lt _ _ hhi hr)]

/-- Arithmetic of the round trip of a count of cycles, with the quotient `q` and the
remainder `r` of `cycles * 10^9` by the rate. -/
theorem hisi_pmc_pwm_cycles_roundtrip_aux (rate cycles q r : Nat) (hc : cycles < 2 ^ 16)
    (hr1 : 1 ≤ rate) (hr : rate ≤ 1000000000) (hdm : rate * q + r = cycles * 1000000000)
    (hmod : r < rate) :
    min (rate * ((cycles * 1000000000 + rate / 2) / rate) / 1000000000) 65535 =
      if 0 < r ∧ r + rate / 2 < rate then cycles - 1 else cycles := by
  have hsplit : (cycles * 1000000000 + rate / 2) / rate = q + (r + rate / 2) / rate := by
    rw [← hdm, Nat.add_assoc, Nat.mul_add_div (by omega)]
  rw [hsplit]
  by_cases hdown : r + rate / 2 < rate
  · rw [Nat.div_eq_of_lt hdown, Nat.add_zero]
    generalize rate * q = X at hdm
    by_cases hr0 : 0 < r
    · rw [if_pos ⟨hr0, hdown⟩, Nat.min_def]
      split <;> omega
    · rw [if_neg (fun h => hr0 h.1), Nat.min_def]
      split <;> omega
  · have hone : (r + rate / 2) / rate = 1 :=
      Nat.div_eq_of_lt_le (by omega) (by omega)
    rw [hone, Nat.mul_add, Nat.mul_one, if_neg (fun h => hdown h.2)]
    generalize rate * q = X at hdm
    rw [Nat.min_def]
    split <;> omega

/-- The count of cycles that `hisi_pmc_pwm_apply` computes from the nanoseconds that
`hisi_pmc_pwm_get_state` reported for a 16-bit count: the count itself, or one less when the
report fell short. -/
theorem hisi_pmc_pwm_cycles_roundtrip (rate cycles : Nat) (hc : cycles < 2 ^ 16)
    (hr1 : 1 ≤ rate) (hr : rate ≤ 1000000000) :
    min (rate * ((cycles * 1000000000 + rate / 2) / rate) / 1000000000) 65535 =
      if hisi_pmc_pwm_reports_short rate cycles then cycles - 1 else cycles :=
  hisi_pmc_pwm_cycles_roundtrip_aux rate cycles (cycles * 1000000000 / rate)
    (cycles * 1000000000 % rate) hc hr1 hr (Nat.div_add_mod _ _) (Nat.mod_lt _ (by omega))

/-- C40 (as amended): for every clock rate in [1, 1000000000] Hz and every 32-bit register
value v, `hisi_pmc_pwm_get_state` evaluated while the register holds v returns 0 with an
enabled state of normal polarity, and `hisi_pmc_pwm_apply` of that state returns 0 and
writes a 32-bit word to the PWM register only; each 16-bit field of that word holds the
count c of the same field of v, or c - 1 when the nanoseconds reported for c fell short of
c clock periods (c * 10^9 mod rate is non-zero and was rounded down); so v itself is
written back exactly when neither field was reported short. -/
theorem hisi_pmc_pwm_get_state_apply (fpwm : hisi_pmc_pwm) (io : Regs) (state : pwm_state)
    (hr1 : 1 ≤ fpwm.rate) (hr : fpwm.rate ≤ 1000000000) :
    ∃ st w, hisi_pmc_pwm_get_state fpwm io state = (.ok 0, st) ∧
      st.enabled = true ∧ st.polarity = .PWM_POLARITY_NORMAL ∧
      hisi_pmc_pwm_apply fpwm io st = (.ok 0, writel w fpwm.base io) ∧
      w < 2 ^ 32 ∧
      w % 2 ^ 16 =
        (if hisi_pmc_pwm_reports_short fpwm.rate (readl io fpwm.base % 2 ^ 16)
          then readl io fpwm.base % 2 ^ 16 - 1 else readl io fpwm.base % 2 ^ 16) ∧
      w / 2 ^ 16 =
        (if hisi_pmc_pwm_reports_short fpwm.rate (readl io fpwm.base / 2 ^ 16)
          then readl io fpwm.base / 2 ^ 16 - 1 else readl io fpwm.base / 2 ^ 16) ∧
      (w = readl io fpwm.base ↔
        ¬ hisi_pmc_pwm_reports_short fpwm.rate (readl io fpwm.base % 2 ^ 16) ∧
        ¬ hisi_pmc_pwm_reports_short fpwm.rate (readl io fpwm.base / 2 ^ 16)) := by
  have hv := readl_lt io fpwm.base
  have hlo : readl io fpwm.base % 2 ^ 16 < 2 ^ 16 := Nat.mod_lt _ (by decide)
  have hhi : readl io fpwm.base / 2 ^ 16 < 2 ^ 16 := by omega
  have happly := hisi_pmc_pwm_apply_eq fpwm io
    { period := (readl io fpwm.base % 2 ^ 16 * 1000000000 + fpwm.rate / 2) / fpwm.rate,
      duty_cycle := (readl io fpwm.base / 2 ^ 16 * 1000000000 + fpwm.rate / 2) / fpwm.rate,
      polarity := .PWM_POLARITY_NORMAL,
      enabled := true } hr (hisi_pmc_pwm_reported_lt _ _ hlo hr)
    (hisi_pmc_pwm_reported_lt _ _ hhi hr) rfl rfl
  simp only [hisi_pmc_pwm_cycles_roundtrip _ _ hlo hr1 hr,
    hisi_pmc_pwm_cycles_roundtrip _ _ hhi hr1 hr] at happly
  have hshort : ∀ c, hisi_pmc_pwm_reports_short fpwm.rate c → 0 < c := by
    intro c hs
    rcases Nat.eq_zero_or_pos c with h | h
    · rw [h] at hs
      simp [hisi_pmc_pwm_reports_short] at hs
    · exact h
  refine ⟨_, _, hisi_pmc_pwm_get_state_eq fpwm io state hr1 hr, rfl, rfl, happly, ?_, ?_, ?_, ?_⟩
  · split <;> split <;> omega
  · split <;> split <;> omega
  · split <;> split <;> omega
  · by_cases h1 : hisi_pmc_pwm_reports_short fpwm.rate (readl io fpwm.base % 2 ^ 16) <;>
      by_cases h2 : hisi_pmc_pwm_reports_short fpwm.rate (readl io fpwm.base / 2 ^ 16)
    · have := hshort _ h1
      have := hshort _ h2
      simp only [h1, h2, if_true, not_true, and_self, iff_false]
      omega
    · have := hshort _ h1
      simp only [h1, h2, if_true, if_false, not_true, false_and, iff_false]
      omega
    · have := hshort _ h2
      simp only [h1, h2, if_true, if_false, not_true, and_false, iff_false]
      omega
    · simp only [h1, h2, if_false, not_false_eq_true, and_self, iff_true]
      omega

/-- Witness for C40 (as amended): a 24 MHz clock and the register value 3: three cycles are
exactly 125 ns, and 3 is written back. -/
theorem hisi_pmc_pwm_get_state_apply_witness :
    ∃ st w, hisi_pmc_pwm_get_state ⟨0, 24000000⟩ (fun _ => 3)
        ⟨0, 0, .PWM_POLARITY_NORMAL, false⟩ = (.ok 0, st) ∧
      st.enabled = true ∧ st.polarity = .PWM_POLARITY_NORMAL ∧
      hisi_pmc_pwm_apply ⟨0, 24000000⟩ (fun _ => 3) st = (.ok 0, writel w 0 (fun _ => 3)) ∧
      w < 2 ^ 32 ∧
      w % 2 ^ 16 =
        (if hisi_pmc_pwm_reports_short 24000000 (readl (fun _ => 3) 0 % 2 ^ 16)
          then readl (fun _ => 3) 0 % 2 ^ 16 - 1 else readl (fun _ => 3) 0 % 2 ^ 16) ∧
      w / 2 ^ 16 =
        (if hisi_pmc_pwm_reports_short 24000000 (readl (fun _ => 3) 0 / 2 ^ 16)
          then readl (fun _ => 3) 0 / 2 ^ 16 - 1 else readl (fun _ => 3) 0 / 2 ^ 16) ∧
      (w = readl (fun _ => 3) 0 ↔
        ¬ hisi_pmc_pwm_reports_short 24000000 (readl (fun _ => 3) 0 % 2 ^ 16) ∧
        ¬ hisi_pmc_pwm_reports_short 24000000 (readl (fun _ => 3) 0 / 2 ^ 16)) :=
  hisi_pmc_pwm_get_state_apply ⟨0, 24000000⟩ (fun _ => 3)
    ⟨0, 0, .PWM_POLARITY_NORMAL, false⟩ (by decide) (by decide)

/-- C40 (counterexample): with a 24 MHz clock and the register value 2, `get_state` reports
a period of 83 ns (two cycles are 83.33 ns, rounded to the closest) and `apply` of that
state returns 0 and writes 1 (83 ns are 1.99 cycles, rounded down), not 2. -/
theorem hisi_pmc_pwm_get_state_apply_fails :
    hisi_pmc_pwm_get_state ⟨0, 24000000⟩ (fun _ => 2) ⟨0, 0, .PWM_POLARITY_NORMAL, false⟩ =
      (.ok 0, ⟨83, 0, .PWM_POLARITY_NORMAL, true⟩) ∧
    hisi_pmc_pwm_apply ⟨0, 24000000⟩ (fun _ => 2) ⟨83, 0, .PWM_POLARITY_NORMAL, true⟩ =
      (.ok 0, writel 1 0 (fun _ => 2)) ∧
    readl (fun _ => 2) 0 = 2 ∧
    readl (writel 1 0 (fun _ => 2)) 0 = 1 :=
  ⟨rfl, rfl, by decide, by decide⟩

/-! ## The PLL before and after `hisi_pll_prepare` -/

/-- After a `hisi_pll_prepare` that returned 0 the cached refdiv, postdiv1 * postdiv2 and
divisor are non-zero, and `hisi_pll_recalc_rate` divides by a non-zero divisor whatever the
registers hold. -/
theorem hisi_pll_recalc_rate_after_prepare (io : Regs) (pll : hisi_pll)
    (h : (hisi_pll_prepare io pll).1 = 0) (io1 : Regs) (parent_rate : Nat) :
    (hisi_pll_prepare io pll).2.2.refdiv ≠ 0 ∧
    (hisi_pll_prepare io pll).2.2.postdiv1 * (hisi_pll_prepare io pll).2.2.postdiv2 ≠ 0 ∧
    (hisi_pll_prepare io pll).2.2.divisor ≠ 0 ∧
    ∃ v, hisi_pll_recalc_rate io1 (hisi_pll_prepare io pll).2.2 parent_rate = .ok v := by
  rw [hisi_pll_prepare_eq] at h ⊢
  simp only at h ⊢
  have hr : readl io (pll.base + 4) / 2 ^ 12 % 2 ^ 6 < 64 := Nat.mod_lt _ (by decide)
  generalize readl io (pll.base + 4) / 2 ^ 12 % 2 ^ 6 = r at h hr ⊢
  have hp1 : readl io pll.base / 2 ^ 24 % 2 ^ 3 < 8 := Nat.mod_lt _ (by decide)
  have hp2 : readl io pll.base / 2 ^ 28 % 2 ^ 3 < 8 := Nat.mod_lt _ (by decide)
  generalize readl io pll.base / 2 ^ 24 % 2 ^ 3 = p1 at h hp1 ⊢
  generalize readl io pll.base / 2 ^ 28 % 2 ^ 3 = p2 at h hp2 ⊢
  by_cases hz : r * p1 * p2 = 0
  · rw [if_pos hz] at h
    exact absurd h (by decide)
  · have hr0 : r ≠ 0 := fun h0 => hz (by simp [h0])
    have hp10 : p1 ≠ 0 := fun h0 => hz (by simp [h0])
    have hp20 : p2 ≠ 0 := fun h0 => hz (by simp [h0])
    refine ⟨hr0, Nat.mul_ne_zero hp10 hp20, hz, ?_⟩
    have hlt : r * p1 * p2 < 2 ^ 32 :=
      calc r * p1 * p2 ≤ 63 * 7 * 7 := by
            apply Nat.mul_le_mul (Nat.mul_le_mul _ _) _ <;> omega
        _ < 2 ^ 32 := by decide
    exact ⟨_, hisi_pll_recalc_rate_eq io1 _ parent_rate (by
      show u32 (r * p1 * p2) ≠ 0
      rw [u32_eq_of_lt _ hlt]
      exact hz)⟩

/-- C33: the `struct hisi_pll` that `devm_clk_register_hisi_pll` hands to the clock framework
is zeroed but for `base`, so its cached divisor and refdiv are 0; on it, with the registers
of a PLL that the boot loader has set up (postdiv1 = 1, postdiv2 = 2, refdiv = 1,
fbdiv = 100) and a 24 MHz parent, `hisi_pll_recalc_rate` and `hisi_pll_determine_rate`
called before `hisi_pll_prepare` divide by zero, and so does `hisi_pll_recalc_rate` after a
`hisi_pll_prepare` that failed on cleared registers; called after the prepare that
succeeds, the same operations run through. -/
theorem hisi_pll_ops_before_prepare :
    devm_clk_register_hisi_pll true (some "clk_osc") 0 = .ok ⟨0, 0, 0, 0, 0⟩ ∧
    hisi_pll_recalc_rate (fun a => if a = 0 then 0x21000000 else 0x1064) ⟨0, 0, 0, 0, 0⟩
      24000000 = .error .div_by_zero ∧
    ((hisi_pll_calls [.recalc_rate 24000000]
      (fun a => if a = 0 then 0x21000000 else 0x1064, ⟨0, 0, 0, 0, 0⟩)).toOption.map
        (fun s => s.2)) = none ∧
    (hisi_pll_determine_rate ⟨0, 0, 0, 0, 0⟩ ⟨1200000000, 24000000⟩).1 =
      .error .div_by_zero ∧
    ((hisi_pll_calls [.determine_rate 1200000000 24000000]
      (fun a => if a = 0 then 0x21000000 else 0x1064, ⟨0, 0, 0, 0, 0⟩)).toOption.map
        (fun s => s.2)) = none ∧
    (hisi_pll_prepare (fun _ => 0) ⟨0, 0, 0, 0, 0⟩).1 = -EINVAL ∧
    ((hisi_pll_calls [.prepare, .recalc_rate 24000000]
      (fun _ => 0, ⟨0, 0, 0, 0, 0⟩)).toOption.map (fun s => s.2)) = none ∧
    ((hisi_pll_calls [.prepare, .recalc_rate 24000000, .determine_rate 1200000000 24000000,
        .set_rate 1200000000 24000000]
      (fun a => if a = 0 then 0x21000000 else 0x1064, ⟨0, 0, 0, 0, 0⟩)).toOption.map
        (fun s => s.2)) = some ⟨0, 1, 2, 1, 2⟩ := by
  refine ⟨rfl, rfl, ?_, rfl, ?_, ?_, ?_, ?_⟩ <;> decide

/-! ## From `hisi_pll_determine_rate` through `hisi_pll_set_rate` to `hisi_pll_recalc_rate` -/

/-- C34 (as amended): for a latched P with non-zero fields (divisor = refdiv * postdiv1 *
postdiv2), a parent rate with 0 < parent_rate < 2^32 that refdiv divides, a reference rate
parent_rate / refdiv that postdiv1 * postdiv2 divides and that exceeds 8 GHz / 4096, and
every requested rate t: `hisi_pll_determine_rate` returns 0 with a rate r,
`hisi_pll_set_rate` of r returns 0 and programs into bits 11:0 of word 1 the feedback
divider floor(r * divisor / parent_rate), which is at most 4095, and a following
`hisi_pll_recalc_rate` returns exactly r. -/
theorem hisi_pll_determine_set_recalc (io : Regs) (pll : hisi_pll) (t parent_rate : Nat)
    (hwf : pll.wf) (hr0 : 0 < pll.refdiv) (hp1 : 0 < pll.postdiv1) (hp2 : 0 < pll.postdiv2)
    (hD : pll.divisor = pll.refdiv * pll.postdiv1 * pll.postdiv2)
    (hp0 : 0 < parent_rate) (hpr : parent_rate < 2 ^ 32)
    (href : pll.refdiv ∣ parent_rate)
    (hpd : pll.postdiv1 * pll.postdiv2 ∣ parent_rate / pll.refdiv)
    (hgrid : HISI_PLL_FOUTVCO_MAX_RATE < 4096 * (parent_rate / pll.refdiv)) :
    ∃ r io', hisi_pll_determine_rate pll ⟨t, parent_rate⟩ = (.ok 0, ⟨r, parent_rate⟩) ∧
      hisi_pll_set_rate io pll r parent_rate = (.ok 0, io', pll) ∧
      r * pll.divisor / parent_rate ≤ 4095 ∧
      readl io' (pll.base + HISI_PLL_CFG 1) % 2 ^ 12 = r * pll.divisor / parent_rate ∧
      hisi_pll_recalc_rate io' pll parent_rate = .ok r := by
  have hcfg : pll.base + HISI_PLL_CFG 1 = pll.base + 4 := by simp [HISI_PLL_CFG]
  rw [hcfg]
  have hle : pll.refdiv ≤ parent_rate := Nat.le_of_dvd hp0 href
  have hrefpos : 0 < parent_rate / pll.refdiv := Nat.div_pos hle hr0
  have hdet := hisi_pll_determine_rate_eq pll t parent_rate hwf hr0 hp1 hp2
    (lt_trans hpr (by decide)) hle
  obtain ⟨hlo, hhi, hdvd, -⟩ := determine_vco_props pll t parent_rate hrefpos
  have hrefle : parent_rate / pll.refdiv ≤ HISI_PLL_FOUTVCO_MAX_RATE :=
    le_trans (Nat.div_le_self _ _) (le_of_lt (lt_trans hpr (by decide)))
  have hhi := hhi hrefle
  have hE1 : pll.refdiv * (parent_rate / pll.refdiv) = parent_rate :=
    Nat.mul_div_cancel' href
  have hpdpos : 0 < pll.postdiv1 * pll.postdiv2 := Nat.mul_pos hp1 hp2
  generalize determine_vco pll t parent_rate = vco at hdet hlo hhi hdvd
  generalize parent_rate / pll.refdiv = ref at hrefpos hdvd hpd hgrid hE1 hrefle
  obtain ⟨m, hm⟩ := hpd
  obtain ⟨k, hk⟩ := hdvd
  have hk4096 : k < 4096 := by
    have h1 : ref * k < ref * 4096 := by
      rw [← hk, Nat.mul_comm ref 4096]
      exact lt_of_le_of_lt hhi hgrid
    exact Nat.lt_of_mul_lt_mul_left h1
  have hr : vco / (pll.postdiv1 * pll.postdiv2) = m * k := by
    rw [hk, hm, Nat.mul_assoc]
    exact Nat.mul_div_cancel_left _ hpdpos
  have hD' : pll.divisor = pll.refdiv * (pll.postdiv1 * pll.postdiv2) := by
    rw [hD, Nat.mul_assoc]
  have hrD : m * k * pll.divisor = k * parent_rate := by
    rw [hD', ← hE1, hm]
    ring
  have hkp : k * parent_rate < 2 ^ 64 :=
    calc k * parent_rate < 4096 * 2 ^ 32 := Nat.mul_lt_mul'' hk4096 hpr
      _ < 2 ^ 64 := by decide
  have hfb : m * k * pll.divisor / parent_rate = k := by
    rw [hrD]
    exact Nat.mul_div_cancel _ hp0
  have hpu : u32 (ulong parent_rate) = parent_rate := by
    rw [ulong_eq_of_lt _ (by omega), u32_eq_of_lt _ hpr]
  have hDpos : 0 < pll.divisor := by
    rw [hD']
    exact Nat.mul_pos hr0 hpdpos
  have hD32 : u32 pll.divisor = pll.divisor := u32_eq_of_lt _ hwf.2.2.2
  have hmk : m * k < 2 ^ 64 := by
    have h1 : m * k * 1 ≤ m * k * pll.divisor := Nat.mul_le_mul_left _ hDpos
    rw [hrD] at h1
    omega
  rw [hr] at hdet
  have hset := hisi_pll_set_rate_eq io pll (m * k) parent_rate (by rw [hpu]; omega)
  rw [hpu, ulong_eq_of_lt _ hmk, hrD, ulong_eq_of_lt _ hkp, u64_eq_of_lt _ hkp,
    u64_eq_of_lt _ hkp, Nat.mul_div_cancel _ hp0] at hset
  have hlt := readl_lt io (pll.base + 4)
  have hread : readl (writel (readl io (pll.base + 4) / 2 ^ 12 * 2 ^ 12 + k % 2 ^ 12)
      (pll.base + 4) io) (pll.base + 4) % 2 ^ 12 = k := by
    rw [readl_writel_same]
    unfold u32
    omega
  refine ⟨m * k, _, hdet, hset, by rw [hfb]; omega, by rw [hfb]; exact hread, ?_⟩
  rw [hisi_pll_recalc_rate_eq _ pll parent_rate (by rw [hD32]; omega), hread, hD32,
    u32_eq_of_lt _ (by omega), ulong_eq_of_lt parent_rate (by omega),
    Nat.mul_comm parent_rate k, ulong_eq_of_lt _ hkp, u64_eq_of_lt _ hkp, ← hrD,
    Nat.mul_div_cancel _ hDpos, ulong_eq_of_lt _ hmk]

/-- Witness for C34 (as amended): the APLL scenario, P = (1, 1, 2) with divisor 2, a 24 MHz
parent and a request of 1.2 GHz: the feedback divider is 100. -/
theorem hisi_pll_determine_set_recalc_witness :
    ∃ r io', hisi_pll_determine_rate
          { base := 0, postdiv1 := 1, postdiv2 := 2, refdiv := 1, divisor := 2 }
          ⟨1200000000, 24000000⟩ = (.ok 0, ⟨r, 24000000⟩) ∧
      hisi_pll_set_rate (fun _ => 4096)
          { base := 0, postdiv1 := 1, postdiv2 := 2, refdiv := 1, divisor := 2 }
          r 24000000 =
        (.ok 0, io', { base := 0, postdiv1 := 1, postdiv2 := 2, refdiv := 1, divisor := 2 }) ∧
      r * 2 / 24000000 ≤ 4095 ∧
      readl io' (0 + HISI_PLL_CFG 1) % 2 ^ 12 = r * 2 / 24000000 ∧
      hisi_pll_recalc_rate io'
        { base := 0, postdiv1 := 1, postdiv2 := 2, refdiv := 1, divisor := 2 } 24000000 =
        .ok r :=
  hisi_pll_determine_set_recalc (fun _ => 4096)
    { base := 0, postdiv1 := 1, postdiv2 := 2, refdiv := 1, divisor := 2 } 1200000000 24000000
    ⟨by decide, by decide, by decide, by decide⟩ (by decide) (by decide) (by decide) rfl
    (by decide) (by decide) (by decide) (by decide) (by decide)

/-- C34 (counterexample): three inputs with a latched P of non-zero fields,
parent_rate > 0 and t > 0 where the rate that determine-rate returns is not the rate
obtained.  With P = (refdiv 1, postdiv 7, 1), a 24 MHz parent and t = 200 MHz,
determine-rate returns 198857142, set-rate programs fbdiv = 57 and recalc-rate returns
195428571.  With P = (1, 1, 1), a 1 MHz parent and t = 8 GHz, determine-rate returns
8000000000, the feedback divider 8000 does not fit bits 11:0, which receive 3904, and
recalc-rate returns 3904000000.  With P = (refdiv 7, 1, 1), a 24 MHz parent and
t = 1.2 GHz, determine-rate returns 1199999850, set-rate programs fbdiv = 349 and
recalc-rate returns 1196571428. -/
theorem hisi_pll_determine_set_recalc_fails :
    (hisi_pll_determine_rate ⟨0, 7, 1, 1, 7⟩ ⟨200000000, 24000000⟩ =
        (.ok 0, ⟨198857142, 24000000⟩) ∧
      (hisi_pll_set_rate (fun _ => 0) ⟨0, 7, 1, 1, 7⟩ 198857142 24000000).1 = .ok 0 ∧
      readl (hisi_pll_set_rate (fun _ => 0) ⟨0, 7, 1, 1, 7⟩ 198857142 24000000).2.1
        (0 + HISI_PLL_CFG 1) % 2 ^ 12 = 57 ∧
      hisi_pll_recalc_rate (hisi_pll_set_rate (fun _ => 0) ⟨0, 7, 1, 1, 7⟩ 198857142
        24000000).2.1 ⟨0, 7, 1, 1, 7⟩ 24000000 = .ok 195428571) ∧
    (hisi_pll_determine_rate ⟨0, 1, 1, 1, 1⟩ ⟨8000000000, 1000000⟩ =
        (.ok 0, ⟨8000000000, 1000000⟩) ∧
      8000000000 * 1 / 1000000 = 8000 ∧
      (hisi_pll_set_rate (fun _ => 0) ⟨0, 1, 1, 1, 1⟩ 8000000000 1000000).1 = .ok 0 ∧
      readl (hisi_pll_set_rate (fun _ => 0) ⟨0, 1, 1, 1, 1⟩ 8000000000 1000000).2.1
        (0 + HISI_PLL_CFG 1) % 2 ^ 12 = 3904 ∧
      hisi_pll_recalc_rate (hisi_pll_set_rate (fun _ => 0) ⟨0, 1, 1, 1, 1⟩ 8000000000
        1000000).2.1 ⟨0, 1, 1, 1, 1⟩ 1000000 = .ok 3904000000) ∧
    (hisi_pll_determine_rate ⟨0, 1, 1, 7, 7⟩ ⟨1200000000, 24000000⟩ =
        (.ok 0, ⟨1199999850, 24000000⟩) ∧
      (hisi_pll_set_rate (fun _ => 0) ⟨0, 1, 1, 7, 7⟩ 1199999850 24000000).1 = .ok 0 ∧
      readl (hisi_pll_set_rate (fun _ => 0) ⟨0, 1, 1, 7, 7⟩ 1199999850 24000000).2.1
        (0 + HISI_PLL_CFG 1) % 2 ^ 12 = 349 ∧
      hisi_pll_recalc_rate (hisi_pll_set_rate (fun _ => 0) ⟨0, 1, 1, 7, 7⟩ 1199999850
        24000000).2.1 ⟨0, 1, 1, 7, 7⟩ 24000000 = .ok 1196571428) :=
  ⟨⟨rfl, rfl, by decide, rfl⟩, ⟨rfl, by decide, rfl, by decide, rfl⟩,
    ⟨rfl, rfl, by decide, rfl⟩⟩

end HiSTB
